import Mathlib

/-! # Switch-state reconciliation (`fboss/agent/ApplyThriftConfig.cpp`)

A shallow embedding of `ThriftConfigApplier` and of the state nodes it
reconciles, followed by theorems about it.

Conventions of the embedding:

* code that can `throw FbossError`, abort on a failed `CHECK` or run into
  undefined behaviour returns `Result α := Except Failure α`;
* `std::shared_ptr<T>` that may be null is `Option T`;
* machine integers are `Nat`/`Int`; a narrowing conversion is written with an
  explicit `% 2 ^ w`;
* `flat_map`/`std::map` containers are association lists kept sorted by key
  where the source iterates them, looked up by key.
-/

namespace Fboss

/-! ## Failure channel -/

/-- The ways a reconciliation step can end without a value. -/
inductive Failure where
  /-- `throw FbossError(...)` -/
  | fbossError (msg : String)
  /-- a failed `CHECK`, `CHECK_EQ`, `CHECK_GE`, ... (the process aborts) -/
  | checkFailed (msg : String)
  /-- undefined behaviour in the source (null dereference, out-of-bounds read,
  `folly::assume_unreachable`) -/
  | undefinedBehaviour (msg : String)
  /-- an exception of the standard library (`std::bad_optional_access`) -/
  | stdException (msg : String)
  deriving DecidableEq, Repr

abbrev Result (α : Type) := Except Failure α

deriving instance DecidableEq for Except

/-- True when the step produced a value. -/
def Result.isOk {α : Type} : Result α → Bool
  | .ok _ => true
  | .error _ => false

/-- `CHECK(cond)`. -/
def check (cond : Bool) (msg : String) : Result Unit :=
  if cond then .ok () else .error (.checkFailed msg)

/-- `if (cond) throw FbossError(msg)`. -/
def throwIf (cond : Bool) (msg : String) : Result Unit :=
  if cond then .error (.fbossError msg) else .ok ()

/-! ## IEEE-754 doubles, as far as `computeMinimumLinkCount` uses them -/

/-- A `double`: a finite value `± mant / 2 ^ scale`, an infinity or a NaN.
Every finite double has this form with `mant < 2 ^ 53` and `scale ≤ 1074`. -/
inductive Double where
  | finite (neg : Bool) (mant : Nat) (scale : Nat)
  | inf (neg : Bool)
  | nan
  deriving DecidableEq, Repr

/-- Round a natural number to 53 significant bits, ties to even
(the rounding of every double operation in the default rounding mode). -/
def round53 (a : Nat) : Nat :=
  if a < 2 ^ 53 then a
  else
    let s := Nat.log2 a - 52
    let q := a / 2 ^ s
    let r := a % 2 ^ s
    let half := 2 ^ (s - 1)
    let q' := if half < r ∨ (r = half ∧ q % 2 = 1) then q + 1 else q
    q' * 2 ^ s

/-- `x > 0` on doubles. -/
def Double.isPos : Double → Bool
  | .finite neg mant _ => !neg && decide (0 < mant)
  | .inf neg => !neg
  | .nan => false

/-- `x <= 1` on doubles. -/
def Double.leOne : Double → Bool
  | .finite neg mant scale => neg || decide (mant ≤ 2 ^ scale)
  | .inf neg => neg
  | .nan => false

/-- `std::ceil(p * n)` for a double `p` with `0 < p <= 1` and a `ptrdiff_t`
`n >= 0`: `n` is converted to double (rounded to 53 bits), the product is
rounded to 53 bits, and the ceiling is taken. The result is a natural number.
For other `p` the function is not used and returns 0. -/
def ceilMul (p : Double) (n : Nat) : Nat :=
  match p with
  | .finite false mant scale =>
      (round53 (mant * round53 n) + 2 ^ scale - 1) / 2 ^ scale
  | _ => 0

/-! ## Aggregate ports: minimum link count -/

/-- The thrift union `cfg::MinimumCapacity`. `linkCount` is a thrift `byte`
(`int8_t`), `linkPercentage` a `double`. -/
inductive MinimumCapacity where
  | linkCount (c : Int) (lo : -128 ≤ c) (hi : c ≤ 127)
  | linkPercentage (p : Double)
  | empty
  deriving DecidableEq

/-- `ThriftConfigApplier::computeMinimumLinkCount`, as a function of the
minimum capacity and of `std::distance(memberPorts.begin(), memberPorts.end())`.
The result is a `uint8_t`; the conversion of a value outside `[0, 256)` is
taken modulo 256. -/
def computeMinimumLinkCountOf (minCapacity : MinimumCapacity) (numMembers : Nat) :
    Result Nat :=
  match minCapacity with
  | .linkCount c _ _ => do
      check (decide (1 ≤ c)) "CHECK_GE(minCapacity.get_linkCount(), 1)"
      pure (c % 256).toNat
  | .linkPercentage p => do
      check p.isPos "CHECK_GT(minCapacity.get_linkPercentage(), 0)"
      check p.leOne "CHECK_LE(minCapacity.get_linkPercentage(), 1)"
      let minLinkCount := ceilMul p numMembers % 256
      if numMembers ≠ 0 then
        check (decide (1 ≤ minLinkCount)) "CHECK_GE(minLinkCount, 1)"
      pure minLinkCount
  | .empty => .error (.undefinedBehaviour "folly::assume_unreachable()")

/-! ## Node base and identifiers -/

abbrev PortID := Nat
abbrev VlanID := Nat
abbrev InterfaceID := Nat
abbrev RouterID := Nat
abbrev AggregatePortID := Nat
/-- A 48-bit MAC address. -/
abbrev MacAddress := Nat

/-- What `NodeBase` keeps for every state node: the generation counter and the
published flag. A node made by `make_shared` starts at generation 0; `clone()`
gives generation + 1; both are unpublished. Two nodes of the embedding are the
same node when they agree in every field, these two included. -/
structure NodeBase where
  generation : Nat := 0
  published : Bool := false
  deriving DecidableEq, Repr

/-- `NodeBase` of the node returned by `clone()`. -/
def NodeBase.clone (b : NodeBase) : NodeBase :=
  { generation := b.generation + 1, published := false }

/-! ## Aggregate ports -/

inductive LacpPortRate where
  | slow | fast
  deriving DecidableEq, Repr

inductive LacpPortActivity where
  | passive | active
  deriving DecidableEq, Repr

/-- The thrift struct `cfg::AggregatePortMember`; `priority` is an `i32`. -/
structure AggregatePortMember where
  memberPortID : PortID
  priority : Int
  rate : LacpPortRate := .fast
  activity : LacpPortActivity := .active
  deriving DecidableEq, Repr

/-- The thrift struct `cfg::AggregatePort`. -/
structure AggregatePortCfg where
  key : AggregatePortID
  name : String
  description : String
  memberPorts : List AggregatePortMember
  minimumCapacity : MinimumCapacity
  deriving DecidableEq

/-- `AggregatePort::Subport`; `priority` is a `uint16_t`. -/
structure Subport where
  portID : PortID
  priority : Nat
  rate : LacpPortRate
  activity : LacpPortActivity
  deriving DecidableEq, Repr

/-- Modelled from the spec: `AggregatePort::Subport::operator<`, declared in
`AggregatePort.h`; the member list is "sorted-by-(id,priority)". -/
def Subport.lt (a b : Subport) : Bool :=
  decide (a.portID < b.portID) || (decide (a.portID = b.portID) && decide (a.priority < b.priority))

/-- Insert into a list sorted by `Subport.lt`, after the elements that are not greater. -/
def insertSubport (x : Subport) : List Subport → List Subport
  | [] => [x]
  | y :: ys => if x.lt y then x :: y :: ys else y :: insertSubport x ys

/-- `std::sort(subports.begin(), subports.end())`. -/
def sortSubports : List Subport → List Subport
  | [] => []
  | x :: xs => insertSubport x (sortSubports xs)

/-- The state node `AggregatePort`. The per-subport forwarding state, which no
code of `ThriftConfigApplier` reads or writes, is left out. -/
structure AggregatePort extends NodeBase where
  id : AggregatePortID
  name : String
  description : String
  systemPriority : Nat
  systemID : MacAddress
  minimumLinkCount : Nat
  subports : List Subport
  deriving DecidableEq, Repr

/-- `cfg::Lacp` -/
structure LacpCfg where
  systemID : MacAddress
  systemPriority : Nat
  deriving DecidableEq, Repr

/-- The loop of `getSubportsSorted` over `cfg.memberPorts`, from index `i`. -/
def convertMembers : Nat → List AggregatePortMember → Result (List Subport)
  | _, [] => pure []
  | i, m :: ms => do
      throwIf (decide (m.priority < 0) || decide (m.priority ≥ 2 ^ 16))
        ("Member port " ++ toString i ++ " has priority outside of [0, 2^16)")
      let rest ← convertMembers (i + 1) ms
      pure ({ portID := m.memberPortID, priority := m.priority.toNat % 2 ^ 16,
              rate := m.rate, activity := m.activity } :: rest)

/-- `ThriftConfigApplier::getSubportsSorted`. -/
def getSubportsSorted (cfg : AggregatePortCfg) : Result (List Subport) := do
  let subports ← convertMembers 0 cfg.memberPorts
  pure (sortSubports subports)

/-- `ThriftConfigApplier::getSystemLacpConfig`: the configured LACP system id
and priority, else the platform's local MAC and `kDefaultSystemPriority`. -/
def getSystemLacpConfig (lacp : Option LacpCfg) (localMac : MacAddress)
    (kDefaultSystemPriority : Nat) : MacAddress × Nat :=
  match lacp with
  | some l => (l.systemID, l.systemPriority % 2 ^ 16)
  | none => (localMac, kDefaultSystemPriority)

/-- `ThriftConfigApplier::computeMinimumLinkCount`. -/
def computeMinimumLinkCount (cfg : AggregatePortCfg) : Result Nat :=
  computeMinimumLinkCountOf cfg.minimumCapacity cfg.memberPorts.length

/-- `std::equal(first1, last1, first2)`: compares the whole first range with
as many elements of the second; reading past the end of the second range is
undefined behaviour. -/
def stdEqual3 {α : Type} [DecidableEq α] : List α → List α → Result Bool
  | [], _ => pure true
  | _ :: _, [] => .error (.undefinedBehaviour "std::equal reads past the end of the second range")
  | a :: as, b :: bs => if a = b then stdEqual3 as bs else pure false

/-- The condition under which `updateAggPort` returns null: the `&&` chain of
field comparisons, ending in `std::equal` over the sorted subports (evaluated
only when the comparisons before it hold). -/
def aggPortUnchanged (origAggPort : AggregatePort) (cfg : AggregatePortCfg)
    (cfgSystemID : MacAddress) (cfgSystemPriority cfgMinLinkCount : Nat)
    (cfgSubports : List Subport) : Result Bool :=
  if origAggPort.name = cfg.name ∧ origAggPort.description = cfg.description ∧
      origAggPort.systemPriority = cfgSystemPriority ∧ origAggPort.systemID = cfgSystemID ∧
      origAggPort.minimumLinkCount = cfgMinLinkCount then
    stdEqual3 origAggPort.subports cfgSubports
  else pure false

/-- `ThriftConfigApplier::updateAggPort`: `none` is the null pointer (no change). -/
def updateAggPort (lacp : Option LacpCfg) (localMac : MacAddress) (kDefaultSystemPriority : Nat)
    (origAggPort : AggregatePort) (cfg : AggregatePortCfg) : Result (Option AggregatePort) := do
  check (decide (origAggPort.id = cfg.key)) "CHECK_EQ(origAggPort->getID(), cfg.key)"
  let cfgSubports ← getSubportsSorted cfg
  let (cfgSystemID, cfgSystemPriority) := getSystemLacpConfig lacp localMac kDefaultSystemPriority
  let cfgMinLinkCount ← computeMinimumLinkCount cfg
  let same ← aggPortUnchanged origAggPort cfg cfgSystemID cfgSystemPriority cfgMinLinkCount
    cfgSubports
  if same then pure none
  else
    pure (some { origAggPort with
      toNodeBase := origAggPort.toNodeBase.clone
      name := cfg.name
      description := cfg.description
      systemPriority := cfgSystemPriority
      systemID := cfgSystemID
      minimumLinkCount := cfgMinLinkCount
      subports := cfgSubports })

/-- `ThriftConfigApplier::createAggPort`. -/
def createAggPort (lacp : Option LacpCfg) (localMac : MacAddress) (kDefaultSystemPriority : Nat)
    (cfg : AggregatePortCfg) : Result AggregatePort := do
  let subports ← getSubportsSorted cfg
  let (cfgSystemID, cfgSystemPriority) := getSystemLacpConfig lacp localMac kDefaultSystemPriority
  let cfgMinLinkCount ← computeMinimumLinkCount cfg
  pure { id := cfg.key, name := cfg.name, description := cfg.description,
         systemPriority := cfgSystemPriority, systemID := cfgSystemID,
         minimumLinkCount := cfgMinLinkCount, subports := subports }

/-! ## Containers -/

/-- The strict order by which a sorted container (`flat_map`, `std::map`,
`std::set`) keeps its keys. -/
class KeyOrder (K : Type) where
  lt : K → K → Bool

instance : KeyOrder Nat := ⟨fun a b => decide (a < b)⟩

instance : KeyOrder Int := ⟨fun a b => decide (a < b)⟩

/-- Lexicographic comparison of character lists (`std::string::operator<`). -/
def ltChars : List Char → List Char → Bool
  | [], [] => false
  | [], _ :: _ => true
  | _ :: _, [] => false
  | a :: as, b :: bs =>
      if a.toNat < b.toNat then true
      else if b.toNat < a.toNat then false
      else ltChars as bs

instance : KeyOrder String := ⟨fun a b => ltChars a.data b.data⟩

instance {A B : Type} [KeyOrder A] [KeyOrder B] [DecidableEq A] : KeyOrder (A × B) :=
  ⟨fun a b => KeyOrder.lt a.1 b.1 || (decide (a.1 = b.1) && KeyOrder.lt a.2 b.2)⟩

/-- The key order is a strict total order. -/
class LawfulKeyOrder (K : Type) [KeyOrder K] : Prop where
  irrefl : ∀ a : K, KeyOrder.lt a a = false
  trans : ∀ a b c : K, KeyOrder.lt a b = true → KeyOrder.lt b c = true → KeyOrder.lt a c = true
  total : ∀ a b : K, KeyOrder.lt a b = false → a ≠ b → KeyOrder.lt b a = true

instance : LawfulKeyOrder Nat where
  irrefl a := by simp [KeyOrder.lt]
  trans a b c := by
    simp only [KeyOrder.lt, decide_eq_true_eq]
    omega
  total a b := by
    simp only [KeyOrder.lt, decide_eq_false_iff_not, decide_eq_true_eq]
    omega

/-- `flat_map::find`: the value stored under `k`. -/
def FlatMap.find? {K V : Type} [DecidableEq K] : List (K × V) → K → Option V
  | [], _ => none
  | (k', v) :: rest, k => if k' = k then some v else FlatMap.find? rest k

/-- `flat_map::emplace` / `insert`: adds `(k, v)` at its place in key order
unless the key is present; the flag tells whether the pair was inserted. -/
def FlatMap.emplace {K V : Type} [DecidableEq K] [KeyOrder K] :
    List (K × V) → K → V → List (K × V) × Bool
  | [], k, v => ([(k, v)], true)
  | (k', v') :: rest, k, v =>
      if k = k' then ((k', v') :: rest, false)
      else if KeyOrder.lt k k' then ((k, v) :: (k', v') :: rest, true)
      else
        let r := FlatMap.emplace rest k v
        ((k', v') :: r.1, r.2)

/-- `map[k] = v`: insert or overwrite. -/
def FlatMap.assign {K V : Type} [DecidableEq K] [KeyOrder K] :
    List (K × V) → K → V → List (K × V)
  | [], k, v => [(k, v)]
  | (k', v') :: rest, k, v =>
      if k = k' then (k', v) :: rest
      else if KeyOrder.lt k k' then (k, v) :: (k', v') :: rest
      else (k', v') :: FlatMap.assign rest k v

/-- `flat_map::erase(key)`. -/
def FlatMap.erase {K V : Type} [DecidableEq K] : List (K × V) → K → List (K × V)
  | [], _ => []
  | (k', v) :: rest, k => if k' = k then rest else (k', v) :: FlatMap.erase rest k

/-- A state node with an identifier (`getID()`), the key of its node map. -/
class HasID (Node : Type) (K : outParam Type) where
  getID : Node → K

/-- `NodeMapT::getNodeIf`: the node stored under `k`, or null. -/
def findNode {Node K : Type} [HasID Node K] [DecidableEq K] : List Node → K → Option Node
  | [], _ => none
  | n :: rest, k => if HasID.getID n = k then some n else findNode rest k

/-- `NodeContainer::emplace(node->getID(), node)`: `none` when the key is
already present. -/
def emplaceNode {Node K : Type} [HasID Node K] [DecidableEq K] [KeyOrder K] : List Node → Node → Option (List Node)
  | [], n => some [n]
  | m :: rest, n =>
      if HasID.getID n = HasID.getID m then none
      else if KeyOrder.lt (HasID.getID n) (HasID.getID m) then some (n :: m :: rest)
      else (emplaceNode rest n).map (m :: ·)

/-- The nodes of a container are in strictly increasing key order. -/
def SortedNodes {Node K : Type} [HasID Node K] [KeyOrder K] (l : List Node) : Prop :=
  l.Pairwise fun a b => KeyOrder.lt (HasID.getID a) (HasID.getID b) = true

/-- A node map (`NodeMapT`): the map node itself and its nodes in key order. -/
structure NodeMap (Node : Type) extends NodeBase where
  nodes : List Node := []
  deriving DecidableEq, Repr

/-- `NodeMapT::clone(NodeContainer)`: a new map node holding the given nodes. -/
def NodeMap.cloneWith {Node : Type} (m : NodeMap Node) (nodes : List Node) : NodeMap Node :=
  { toNodeBase := m.toNodeBase.clone, nodes := nodes }

/-- `ThriftConfigApplier::updateMap`: puts the new node, or the original one
when there is no new node, into the container under its id; the flag tells
whether a new node was used. Both pointers null is a null dereference. -/
def updateMap {Node K : Type} [HasID Node K] [DecidableEq K] [KeyOrder K]
    (map : List Node) (origNode newNode : Option Node) : Result (List Node × Bool) :=
  match newNode with
  | some n =>
      match emplaceNode map n with
      | some m => pure (m, true)
      | none => .error (.fbossError "duplicate entry")
  | none =>
      match origNode with
      | some o =>
          match emplaceNode map o with
          | some m => pure (m, false)
          | none => .error (.fbossError "duplicate entry")
      | none => .error (.undefinedBehaviour "origNode->getID() on a null pointer")

instance : HasID AggregatePort AggregatePortID := ⟨fun n => n.id⟩

/-- `ThriftConfigApplier::updateAggregatePorts`, the loop over
`cfg_->aggregatePorts`: the container built so far, the changed flag and
`numExistingProcessed`. -/
def updateAggregatePortsLoop (lacp : Option LacpCfg) (localMac : MacAddress)
    (kDefaultSystemPriority : Nat) (origAggPorts : List AggregatePort) :
    List AggregatePortCfg → List AggregatePort × Bool × Nat →
      Result (List AggregatePort × Bool × Nat)
  | [], acc => pure acc
  | portCfg :: rest, (newAggPorts, changed, numExistingProcessed) => do
      let origAggPort := findNode origAggPorts portCfg.key
      let (newAggPort, n) ← (match origAggPort with
        | some o => do
            let r ← updateAggPort lacp localMac kDefaultSystemPriority o portCfg
            pure (r, numExistingProcessed + 1)
        | none => do
            let r ← createAggPort lacp localMac kDefaultSystemPriority portCfg
            pure (some r, numExistingProcessed))
      let (m, c) ← updateMap newAggPorts origAggPort newAggPort
      updateAggregatePortsLoop lacp localMac kDefaultSystemPriority origAggPorts rest
        (m, changed || c, n)

/-- `ThriftConfigApplier::updateAggregatePorts`. -/
def updateAggregatePorts (lacp : Option LacpCfg) (localMac : MacAddress)
    (kDefaultSystemPriority : Nat) (origAggPorts : NodeMap AggregatePort)
    (aggregatePorts : List AggregatePortCfg) : Result (Option (NodeMap AggregatePort)) := do
  let (newAggPorts, changed, numExistingProcessed) ←
    updateAggregatePortsLoop lacp localMac kDefaultSystemPriority origAggPorts.nodes
      aggregatePorts ([], false, 0)
  let changed ← (if numExistingProcessed ≠ origAggPorts.nodes.length then do
      check (decide (numExistingProcessed ≤ origAggPorts.nodes.length))
        "CHECK_LE(numExistingProcessed, origAggPorts->size())"
      pure true
    else pure changed)
  if !changed then pure none
  else pure (some (origAggPorts.cloneWith newAggPorts))

/-! ## Port queues -/

inductive StreamType where
  | unicast | multicast | all
  deriving DecidableEq, Repr

inductive QueueScheduling where
  | weightedRoundRobin | strictPriority
  deriving DecidableEq, Repr

inductive QueueCongestionBehavior where
  | earlyDrop | ecn
  deriving DecidableEq, Repr

/-- The enum's numeric order, by which `std::set` and `flat_map` order behaviors. -/
def QueueCongestionBehavior.toNat : QueueCongestionBehavior → Nat
  | .earlyDrop => 0
  | .ecn => 1

instance : KeyOrder QueueCongestionBehavior := ⟨fun a b => decide (a.toNat < b.toNat)⟩

/-- The thrift union `cfg::QueueCongestionDetection`. -/
inductive QueueCongestionDetection where
  | linear (minimumLength maximumLength : Int)
  | empty
  deriving DecidableEq, Repr

/-- `cfg::ActiveQueueManagement` -/
structure ActiveQueueManagement where
  detection : QueueCongestionDetection := .empty
  behavior : QueueCongestionBehavior := .earlyDrop
  deriving DecidableEq, Repr

/-- The thrift union `cfg::PortQueueRate`. -/
inductive PortQueueRate where
  | pktsPerSec (minimum maximum : Int)
  | kbitsPerSec (minimum maximum : Int)
  | empty
  deriving DecidableEq, Repr

/-- An optional thrift field read through `__isset` and `value_unchecked()`:
the stored value can be read, and can differ from the default, while the field
is not set. -/
structure Unchecked (α : Type) where
  isset : Bool := false
  value : α
  deriving DecidableEq, Repr

/-- `cfg::PortQueue`. `scalingFactor` is the numeric value of the
`MMUScalingFactor` enum. -/
structure PortQueueCfg where
  id : Int
  streamType : StreamType := .unicast
  weight : Unchecked Int := { value := 0 }
  reservedBytes : Unchecked Int := { value := 0 }
  scalingFactor : Unchecked Nat := { value := 0 }
  scheduling : QueueScheduling := .weightedRoundRobin
  name : Unchecked String := { value := "" }
  sharedBytes : Unchecked Int := { value := 0 }
  aqms : Unchecked (List ActiveQueueManagement) := { value := [] }
  portQueueRate : Unchecked PortQueueRate := { value := .empty }
  bandwidthBurstMinKbits : Unchecked Int := { value := 0 }
  bandwidthBurstMaxKbits : Unchecked Int := { value := 0 }
  deriving DecidableEq, Repr

/-- The fields of the state node `PortQueue` (`PortQueueFields`). A queue made
by `make_shared<PortQueue>(id)` is a unicast, weighted-round-robin queue of
weight 1 with nothing else set. Queues are compared by their fields only, so
the node base is left out. -/
structure PortQueue where
  id : Nat
  streamType : StreamType := .unicast
  scheduling : QueueScheduling := .weightedRoundRobin
  weight : Int := 1
  reservedBytes : Option Int := none
  scalingFactor : Option Nat := none
  name : Option String := none
  sharedBytes : Option Int := none
  aqms : List (QueueCongestionBehavior × ActiveQueueManagement) := []
  portQueueRate : Option PortQueueRate := none
  bandwidthBurstMinKbits : Option Int := none
  bandwidthBurstMaxKbits : Option Int := none
  trafficClass : Option Nat := none
  deriving DecidableEq, Repr

/-- `cfg::QosMap`, as far as the reconciler reads it: the three maps, each in key order.
`dscpMaps` and `expMaps` are kept as the lists the config gives. -/
structure QosMapCfg where
  dscpMaps : List (Nat × List Nat) := []
  expMaps : List (Nat × List Nat) := []
  trafficClassToQueueId : List (Int × Int) := []
  deriving DecidableEq, Repr

/-- `isPortQueueOptionalAttributeSame` (PortQueue.cpp). -/
def isPortQueueOptionalAttributeSame {α : Type} [DecidableEq α]
    (swValue : Option α) (isConfSet : Bool) (confValue : α) : Bool :=
  match swValue with
  | none => !isConfSet
  | some v => isConfSet && decide (v = confValue)

/-- Insert into a list sorted by behavior, after the elements that are not greater
(`std::sort` by `lhs.behavior < rhs.behavior`). -/
def insertAqm (x : ActiveQueueManagement) : List ActiveQueueManagement → List ActiveQueueManagement
  | [] => [x]
  | y :: ys => if KeyOrder.lt x.behavior y.behavior then x :: y :: ys else y :: insertAqm x ys

def sortAqms : List ActiveQueueManagement → List ActiveQueueManagement
  | [] => []
  | x :: xs => insertAqm x (sortAqms xs)

/-- `comparePortQueueAQMs` (PortQueue.cpp): the four-iterator `std::equal` of the
map's values with the config list sorted by behavior. -/
def comparePortQueueAQMs (aqmMap : List (QueueCongestionBehavior × ActiveQueueManagement))
    (aqms : List ActiveQueueManagement) : Bool :=
  decide (aqmMap.map (·.2) = sortAqms aqms)

/-- `checkSwConfPortQueueMatch` (PortQueue.cpp). The queue's optional name is
compared with the config's unchecked name string. -/
def checkSwConfPortQueueMatch (swQueue : PortQueue) (cfgQueue : PortQueueCfg) : Bool :=
  decide ((swQueue.id : Int) = cfgQueue.id) &&
  decide (swQueue.streamType = cfgQueue.streamType) &&
  decide (swQueue.scheduling = cfgQueue.scheduling) &&
  (decide (cfgQueue.scheduling = .strictPriority) ||
    decide (swQueue.weight = cfgQueue.weight.value)) &&
  isPortQueueOptionalAttributeSame swQueue.reservedBytes cfgQueue.reservedBytes.isset
    cfgQueue.reservedBytes.value &&
  isPortQueueOptionalAttributeSame swQueue.scalingFactor cfgQueue.scalingFactor.isset
    cfgQueue.scalingFactor.value &&
  isPortQueueOptionalAttributeSame swQueue.sharedBytes cfgQueue.sharedBytes.isset
    cfgQueue.sharedBytes.value &&
  comparePortQueueAQMs swQueue.aqms cfgQueue.aqms.value &&
  decide (swQueue.name = some cfgQueue.name.value) &&
  isPortQueueOptionalAttributeSame swQueue.portQueueRate cfgQueue.portQueueRate.isset
    cfgQueue.portQueueRate.value &&
  isPortQueueOptionalAttributeSame swQueue.bandwidthBurstMinKbits
    cfgQueue.bandwidthBurstMinKbits.isset cfgQueue.bandwidthBurstMinKbits.value &&
  isPortQueueOptionalAttributeSame swQueue.bandwidthBurstMaxKbits
    cfgQueue.bandwidthBurstMaxKbits.isset cfgQueue.bandwidthBurstMaxKbits.value

/-- The loop of `checkPortQueueAQMValid`, with the set of behaviors seen so far. -/
def checkPortQueueAQMValidLoop :
    List ActiveQueueManagement → List QueueCongestionBehavior → Result Unit
  | [], _ => pure ()
  | aqm :: rest, behaviors => do
      throwIf (decide (aqm.detection = .empty))
        "Active Queue Management must specify a congestion detection method"
      throwIf (decide (aqm.behavior ∈ behaviors))
        "Same Active Queue Management behavior already exists"
      checkPortQueueAQMValidLoop rest (aqm.behavior :: behaviors)

/-- `ThriftConfigApplier::checkPortQueueAQMValid`. -/
def checkPortQueueAQMValid (aqms : List ActiveQueueManagement) : Result Unit :=
  if aqms.isEmpty then pure () else checkPortQueueAQMValidLoop aqms []

/-- `PortQueue::resetAqms`: the map keyed by each entry's behavior. -/
def resetAqms (aqms : List ActiveQueueManagement) :
    List (QueueCongestionBehavior × ActiveQueueManagement) :=
  aqms.foldl (fun m aqm => (FlatMap.emplace m aqm.behavior aqm).1) []

/-- `ThriftConfigApplier::createPortQueue`. The queue id is a `uint8_t`. -/
def createPortQueue (cfg : PortQueueCfg) (trafficClass : Option Nat) : Result PortQueue := do
  let queue : PortQueue :=
    { id := (cfg.id % 256).toNat, streamType := cfg.streamType, scheduling := cfg.scheduling }
  let queue := if cfg.weight.isset then { queue with weight := cfg.weight.value } else queue
  let queue := if cfg.reservedBytes.isset then
    { queue with reservedBytes := some cfg.reservedBytes.value } else queue
  let queue := if cfg.scalingFactor.isset then
    { queue with scalingFactor := some cfg.scalingFactor.value } else queue
  let queue ← (if cfg.aqms.isset then do
      checkPortQueueAQMValid cfg.aqms.value
      pure { queue with aqms := resetAqms cfg.aqms.value }
    else pure queue)
  let queue := if cfg.sharedBytes.isset then
    { queue with sharedBytes := some cfg.sharedBytes.value } else queue
  let queue := if cfg.name.isset then { queue with name := some cfg.name.value } else queue
  let queue := if cfg.portQueueRate.isset then
    { queue with portQueueRate := some cfg.portQueueRate.value } else queue
  let queue := if cfg.bandwidthBurstMinKbits.isset then
    { queue with bandwidthBurstMinKbits := some cfg.bandwidthBurstMinKbits.value } else queue
  let queue := if cfg.bandwidthBurstMaxKbits.isset then
    { queue with bandwidthBurstMaxKbits := some cfg.bandwidthBurstMaxKbits.value } else queue
  let queue := match trafficClass with
    | some tc => { queue with trafficClass := some tc }
    | none => queue
  pure queue

/-- The traffic class `updatePortQueue` derives from the QoS map: the key of the
first entry of `trafficClassToQueueId` whose value is the queue id
(`TrafficClass` is a `uint16_t`). -/
def findTrafficClass (qosMap : Option QosMapCfg) (queueId : Int) : Option Nat :=
  match qosMap with
  | none => none
  | some m => (m.trafficClassToQueueId.find? (fun e => decide (e.2 = queueId))).map
      (fun e => (e.1 % 2 ^ 16).toNat)

/-- `ThriftConfigApplier::updatePortQueue`. -/
def updatePortQueue (orig : PortQueue) (cfg : PortQueueCfg) (qosMap : Option QosMapCfg) :
    Result PortQueue := do
  check (decide ((orig.id : Int) = cfg.id)) "CHECK_EQ(orig->getID(), cfg->id)"
  let trafficClass := findTrafficClass qosMap cfg.id
  if checkSwConfPortQueueMatch orig cfg && decide (trafficClass = orig.trafficClass) then
    pure orig
  else createPortQueue cfg trafficClass

/-- The first part of `updatePortQueues`: the map from queue id to config, from
the per-port list or, when that gives no entry, from `defaultPortQueues`. -/
def effectiveQueueCfgs (cfgPortQueues defaultPortQueues : List PortQueueCfg) :
    List (Int × PortQueueCfg) :=
  let newQueues := cfgPortQueues.foldl (fun m q => (FlatMap.emplace m q.id q).1) []
  if newQueues.isEmpty then
    defaultPortQueues.foldl (fun m q => (FlatMap.emplace m q.id q).1) []
  else newQueues

/-- The loop of `updatePortQueues` over the original queues, from index `i`. -/
def updatePortQueuesLoop (qosMap : Option QosMapCfg) :
    Nat → List PortQueue → List (Int × PortQueueCfg) → Result (List PortQueue × List (Int × PortQueueCfg))
  | _, [], newQueues => pure ([], newQueues)
  | i, origQueue :: rest, newQueues => do
      let newQueue ← (match FlatMap.find? newQueues (i : Int) with
        | some cfg => updatePortQueue origQueue cfg qosMap
        | none => pure ({ id := i % 256, streamType := origQueue.streamType } : PortQueue))
      let (queues, left) ← updatePortQueuesLoop qosMap (i + 1) rest (FlatMap.erase newQueues (i : Int))
      pure (newQueue :: queues, left)

/-- `ThriftConfigApplier::updatePortQueues`. -/
def updatePortQueues (defaultPortQueues : List PortQueueCfg) (origPortQueues : List PortQueue)
    (cfgPortQueues : List PortQueueCfg) (qosMap : Option QosMapCfg) : Result (List PortQueue) := do
  let newQueues := effectiveQueueCfgs cfgPortQueues defaultPortQueues
  let (newPortQueues, left) ← updatePortQueuesLoop qosMap 0 origPortQueues newQueues
  throwIf (decide (left.length > 0))
    "Port queue config listed for invalid queues."
  pure newPortQueues

/-! ## Port queue serialization (`fboss/agent/state/PortQueue.cpp`) -/

/-- The two name tables thrift generates for an enum, `_X_VALUES_TO_NAMES` and
`_X_NAMES_TO_VALUES`. The generated tables are not among the sources, so the
functions that read them take them as a parameter. -/
structure EnumNames (α : Type) where
  valuesToNames : α → Option String
  namesToValues : String → Option α

/-- The name tables `PortQueueFields::toThrift` and `fromThrift` read: those of
`cfg::StreamType`, `cfg::QueueScheduling` and `cfg::MMUScalingFactor`. -/
structure PortQueueEnumNames where
  streamType : EnumNames StreamType
  scheduling : EnumNames QueueScheduling
  scalingFactor : EnumNames Nat

/-- Modelled from the spec: the thrift struct `state::PortQueueFields`
(switch_state.thrift), with the fields `toThrift` writes and `fromThrift`
reads: `id` and `trafficClass` are `i16`, the enums are carried by name, and
the fields tested with `if (queueThrift.x)` are optional. -/
structure StatePortQueueFields where
  id : Int
  weight : Int
  reserved : Option Int := none
  scalingFactor : Option String := none
  scheduling : String
  streamType : String
  name : Option String := none
  sharedBytes : Option Int := none
  aqms : Option (List ActiveQueueManagement) := none
  portQueueRate : Option PortQueueRate := none
  bandwidthBurstMinKbits : Option Int := none
  bandwidthBurstMaxKbits : Option Int := none
  trafficClass : Option Int := none
  deriving DecidableEq, Repr

/-- `std::map::at`: the name of an enum value; a value without a name raises
`std::out_of_range`. -/
def EnumNames.nameAt {α : Type} (t : EnumNames α) (v : α) : Result String :=
  match t.valuesToNames v with
  | some n => pure n
  | none => .error (.stdException "std::out_of_range")

/-- The lookup `_X_NAMES_TO_VALUES.find(name)` followed by
`CHECK(itr != _X_NAMES_TO_VALUES.end())`. -/
def EnumNames.valueOf {α : Type} (t : EnumNames α) (name : String) : Result α :=
  match t.namesToValues name with
  | some v => pure v
  | none => .error (.checkFailed "CHECK(itr != _NAMES_TO_VALUES.end())")

/-- `static_cast<int16_t>` of a `TrafficClass` (`uint16_t`). -/
def toInt16 (n : Nat) : Int :=
  if n % 2 ^ 16 < 2 ^ 15 then ((n % 2 ^ 16 : Nat) : Int) else ((n % 2 ^ 16 : Nat) : Int) - 2 ^ 16

/-- `PortQueueFields::toThrift` (PortQueue.cpp). -/
def PortQueueFields.toThrift (t : PortQueueEnumNames) (q : PortQueue) :
    Result StatePortQueueFields := do
  let scalingFactor ← (match q.scalingFactor with
    | some v => do
        let n ← t.scalingFactor.nameAt v
        pure (some n)
    | none => pure none)
  let scheduling ← t.scheduling.nameAt q.scheduling
  let streamType ← t.streamType.nameAt q.streamType
  pure { id := q.id
         weight := q.weight
         reserved := q.reservedBytes
         scalingFactor := scalingFactor
         scheduling := scheduling
         streamType := streamType
         name := q.name
         sharedBytes := q.sharedBytes
         aqms := if q.aqms.isEmpty then none else some (q.aqms.map (·.2))
         portQueueRate := q.portQueueRate
         bandwidthBurstMinKbits := q.bandwidthBurstMinKbits
         bandwidthBurstMaxKbits := q.bandwidthBurstMaxKbits
         trafficClass := q.trafficClass.map toInt16 }

/-- `PortQueueFields::fromThrift` (PortQueue.cpp). The id is cast to `uint8_t`,
the traffic class to `TrafficClass` (`uint16_t`). -/
def PortQueueFields.fromThrift (t : PortQueueEnumNames) (queueThrift : StatePortQueueFields) :
    Result PortQueue := do
  let streamType ← t.streamType.valueOf queueThrift.streamType
  let scheduling ← t.scheduling.valueOf queueThrift.scheduling
  let scalingFactor ← (match queueThrift.scalingFactor with
    | some n => do
        let v ← t.scalingFactor.valueOf n
        pure (some v)
    | none => pure none)
  pure { id := (queueThrift.id % 256).toNat
         streamType := streamType
         scheduling := scheduling
         weight := queueThrift.weight
         reservedBytes := queueThrift.reserved
         scalingFactor := scalingFactor
         name := queueThrift.name
         sharedBytes := queueThrift.sharedBytes
         aqms := match queueThrift.aqms with
           | some l => l.foldl (fun m aqm => (FlatMap.emplace m aqm.behavior aqm).1) []
           | none => []
         portQueueRate := queueThrift.portQueueRate
         bandwidthBurstMinKbits := queueThrift.bandwidthBurstMinKbits
         bandwidthBurstMaxKbits := queueThrift.bandwidthBurstMaxKbits
         trafficClass := queueThrift.trafficClass.map fun x => (x % 2 ^ 16).toNat }

/-! ## IP addresses -/

/-- `folly::IPAddress`: an IPv4 address (32 bits) or an IPv6 address (128 bits),
as the number its bytes spell in network order. The config carries parsed
addresses: a string that does not parse is outside the embedding. -/
inductive IPAddress where
  | v4 (a : Nat)
  | v6 (a : Nat)
  deriving DecidableEq, Repr

def IPAddress.isV4 : IPAddress → Bool
  | .v4 _ => true
  | .v6 _ => false

def IPAddress.isV6 (ip : IPAddress) : Bool := !ip.isV4

def IPAddress.bitCount : IPAddress → Nat
  | .v4 _ => 32
  | .v6 _ => 128

def IPAddress.toNat : IPAddress → Nat
  | .v4 a => a
  | .v6 a => a

/-- Key order of address-keyed containers: IPv4 before IPv6, then by value. -/
instance : KeyOrder IPAddress :=
  ⟨fun a b => (a.isV4 && !b.isV4) || (decide (a.isV4 = b.isV4) && decide (a.toNat < b.toNat))⟩

/-- `IPAddress::mask(len)`: the address with its host bits cleared. -/
def IPAddress.mask (ip : IPAddress) (len : Nat) : IPAddress :=
  let w := ip.bitCount
  let host := 2 ^ (w - len)
  match ip with
  | .v4 a => .v4 (a / host * host)
  | .v6 a => .v6 (a / host * host)

/-- `IPAddressV6::isLinkLocal`: inside `fe80::/10`. -/
def IPAddress.isLinkLocal : IPAddress → Bool
  | .v4 a => a / 2 ^ 16 = 0xa9fe
  | .v6 a => a / 2 ^ 118 = 0x3fa

/-- `folly::CIDRNetwork`: an address and a mask length. -/
abbrev CIDRNetwork := IPAddress × Nat

/-- `IPAddress::createNetwork(str, -1, applyMask)` on a parsed `address/len`. -/
def createNetwork (net : CIDRNetwork) (applyMask : Bool := true) : CIDRNetwork :=
  if applyMask then (net.1.mask net.2, net.2) else net

/-- `IPAddressV6(IPAddressV6::LINK_LOCAL, mac)`: `fe80::/64` followed by the
modified EUI-64 of the MAC address (universal/local bit flipped, `ff:fe`
inserted in the middle). -/
def linkLocalAddr (mac : MacAddress) : IPAddress :=
  let hi := mac / 2 ^ 24 % 2 ^ 24
  let lo := mac % 2 ^ 24
  let eui := (Nat.xor hi 0x020000) * 2 ^ 40 + 0xfffe * 2 ^ 24 + lo
  .v6 (0xfe80 * 2 ^ 112 + eui)

/-! ## The configuration (`cfg::SwitchConfig`) -/

inductive PortState where
  | disabled | enabled
  deriving DecidableEq, Repr

inductive PortFEC where
  | on | off
  deriving DecidableEq, Repr

inductive PortLoopbackMode where
  | none | mac | phy
  deriving DecidableEq, Repr

inductive SampleDestination where
  | cpu | mirror
  deriving DecidableEq, Repr

/-- `cfg::PortPause` -/
structure PortPause where
  tx : Bool := false
  rx : Bool := false
  deriving DecidableEq, Repr

/-- `cfg::Port`. `name` and `description` are read with `value_unchecked()`;
`speed`, `profileID`, the LLDP tags and the lookup classes are the numeric
values of their enums. -/
structure PortCfg where
  logicalID : Nat
  state : PortState := .disabled
  ingressVlan : Nat := 0
  speed : Nat := 0
  profileID : Nat := 0
  name : String := ""
  description : String := ""
  pause : PortPause := {}
  sFlowIngressRate : Int := 0
  sFlowEgressRate : Int := 0
  fec : PortFEC := .off
  loopbackMode : PortLoopbackMode := .none
  ingressMirror : Option String := none
  egressMirror : Option String := none
  expectedLLDPValues : List (Nat × String) := []
  sampleDest : Option SampleDestination := none
  portQueueConfigName : Option String := none
  lookupClasses : List Nat := []
  deriving DecidableEq, Repr

/-- `cfg::VlanPort` -/
structure VlanPortCfg where
  vlanID : VlanID
  logicalPort : PortID
  spanningTreeState : Nat := 0
  emitTags : Bool := false
  deriving DecidableEq, Repr

/-- `cfg::Vlan` -/
structure VlanCfg where
  name : String := ""
  id : VlanID
  intfID : Option InterfaceID := none
  dhcpRelayAddressV4 : Option IPAddress := none
  dhcpRelayAddressV6 : Option IPAddress := none
  dhcpRelayOverridesV4 : List (MacAddress × IPAddress) := []
  dhcpRelayOverridesV6 : List (MacAddress × IPAddress) := []
  deriving DecidableEq, Repr

/-- `cfg::NdpConfig` -/
structure NdpConfig where
  routerAdvertisementSeconds : Int := 0
  curHopLimit : Int := 255
  routerLifetime : Int := 1800
  prefixValidLifetimeSeconds : Int := 2592000
  prefixPreferredLifetimeSeconds : Int := 604800
  routerAdvertisementManagedBit : Bool := false
  routerAdvertisementOtherBit : Bool := false
  deriving DecidableEq, Repr

/-- `cfg::Interface`; `ipAddresses` holds the parsed `address/len` strings. -/
structure InterfaceCfg where
  intfID : InterfaceID
  routerID : RouterID := 0
  vlanID : VlanID
  name : Option String := none
  mac : Option MacAddress := none
  ipAddresses : List CIDRNetwork := []
  ndp : Option NdpConfig := none
  mtu : Option Int := none
  isVirtual : Bool := false
  isStateSyncDisabled : Bool := false
  deriving DecidableEq, Repr

inductive AclActionType where
  | deny | permit
  deriving DecidableEq, Repr

/-- `cfg::AclEntry`; each optional field is read only when it is set. -/
structure AclEntryCfg where
  name : String
  actionType : AclActionType := .permit
  srcIp : Option CIDRNetwork := none
  dstIp : Option CIDRNetwork := none
  proto : Option Int := none
  tcpFlagsBitMap : Option Int := none
  srcPort : Option Int := none
  dstPort : Option Int := none
  srcL4PortRange : Option (Int × Int) := none
  dstL4PortRange : Option (Int × Int) := none
  l4SrcPort : Option Int := none
  l4DstPort : Option Int := none
  ipFrag : Option Nat := none
  icmpType : Option Int := none
  icmpCode : Option Int := none
  dscp : Option Int := none
  dstMac : Option MacAddress := none
  ipType : Option Nat := none
  ttl : Option (Int × Int) := none
  lookupClass : Option Nat := none
  lookupClassL2 : Option Nat := none
  deriving DecidableEq, Repr

/-- `cfg::TrafficCounter` -/
structure TrafficCounterCfg where
  name : String
  types : List Nat := []
  deriving DecidableEq, Repr

/-- `cfg::MatchAction` -/
structure MatchActionCfg where
  sendToQueue : Option Int := none
  counter : Option String := none
  setDscp : Option Int := none
  ingressMirror : Option String := none
  egressMirror : Option String := none
  deriving DecidableEq, Repr

/-- `cfg::MatchToAction` -/
structure MatchToAction where
  matcher : String
  action : MatchActionCfg := {}
  deriving DecidableEq, Repr

/-- `cfg::TrafficPolicyConfig` -/
structure TrafficPolicyConfig where
  matchToAction : List MatchToAction := []
  defaultQosPolicy : Option String := none
  portIdToQosPolicy : Option (List (Nat × String)) := none
  deriving DecidableEq, Repr

/-- `cfg::CPUTrafficPolicyConfig` -/
structure CPUTrafficPolicyConfig where
  trafficPolicy : Option TrafficPolicyConfig := none
  rxReasonToCPUQueue : Option (List (Nat × Int)) := none
  deriving DecidableEq, Repr

/-- `cfg::QosRule` -/
structure QosRule where
  queueId : Int
  dscp : List Int
  deriving DecidableEq, Repr

/-- `cfg::QosPolicy` -/
structure QosPolicyCfg where
  name : String
  rules : List QosRule := []
  qosMap : Option QosMapCfg := none
  deriving DecidableEq, Repr

/-- The thrift union `cfg::MirrorEgressPort`. -/
inductive MirrorEgressPort where
  | name (n : String)
  | logicalID (id : Nat)
  | empty
  deriving DecidableEq, Repr

/-- `cfg::SflowTunnel` -/
structure SflowTunnelCfg where
  ip : IPAddress
  udpSrcPort : Option Nat := none
  udpDstPort : Option Nat := none
  deriving DecidableEq, Repr

/-- `cfg::MirrorTunnel` -/
structure MirrorTunnelCfg where
  greTunnel : Option IPAddress := none
  sflowTunnel : Option SflowTunnelCfg := none
  srcIp : Option IPAddress := none
  deriving DecidableEq, Repr

/-- `cfg::Mirror`, with the fields of its `destination` inlined. -/
structure MirrorCfg where
  name : String
  egressPort : Option MirrorEgressPort := none
  tunnel : Option MirrorTunnelCfg := none
  dscp : Nat := 0
  truncate : Bool := false
  deriving DecidableEq, Repr

/-- `cfg::SflowCollector`, the address parsed. -/
structure SflowCollectorCfg where
  ip : IPAddress
  port : Nat
  deriving DecidableEq, Repr

/-- `cfg::StaticRouteNoNextHops`; `network` is the parsed route `prefix` string. -/
structure StaticRouteNoNextHops where
  routerID : RouterID := 0
  network : CIDRNetwork
  deriving DecidableEq, Repr

/-- `cfg::StaticRouteWithNextHops` -/
structure StaticRouteWithNextHops where
  routerID : RouterID := 0
  network : CIDRNetwork
  nexthops : List IPAddress := []
  deriving DecidableEq, Repr

inductive L2LearningMode where
  | hardware | software
  deriving DecidableEq, Repr

/-- `cfg::LoadBalancer`; the hashing parameters are kept as one number each. -/
structure LoadBalancerCfg where
  id : Nat
  fieldSelection : List Nat := []
  algorithm : Nat := 0
  seed : Option Nat := none
  deriving DecidableEq, Repr

/-- `cfg::SwitchConfig`, the fields `ThriftConfigApplier` reads. -/
structure SwitchConfig where
  ports : List PortCfg := []
  vlans : List VlanCfg := []
  vlanPorts : List VlanPortCfg := []
  defaultVlan : VlanID := 0
  interfaces : List InterfaceCfg := []
  arpTimeoutSeconds : Int := 60
  arpAgerInterval : Int := 5
  maxNeighborProbes : Nat := 300
  staleEntryInterval : Int := 10
  aggregatePorts : List AggregatePortCfg := []
  lacp : Option LacpCfg := none
  dhcpRelaySrcOverrideV4 : Option IPAddress := none
  dhcpRelaySrcOverrideV6 : Option IPAddress := none
  dhcpReplySrcOverrideV4 : Option IPAddress := none
  dhcpReplySrcOverrideV6 : Option IPAddress := none
  staticRoutesWithNhops : Unchecked (List StaticRouteWithNextHops) := { value := [] }
  staticRoutesToNull : Unchecked (List StaticRouteNoNextHops) := { value := [] }
  staticRoutesToCPU : Unchecked (List StaticRouteNoNextHops) := { value := [] }
  acls : List AclEntryCfg := []
  trafficCounters : List TrafficCounterCfg := []
  cpuTrafficPolicy : Option CPUTrafficPolicyConfig := none
  dataPlaneTrafficPolicy : Option TrafficPolicyConfig := none
  qosPolicies : List QosPolicyCfg := []
  mirrors : List MirrorCfg := []
  sFlowCollectors : List SflowCollectorCfg := []
  portQueueConfigs : List (String × List PortQueueCfg) := []
  defaultPortQueues : List PortQueueCfg := []
  cpuQueues : List PortQueueCfg := []
  l2LearningMode : L2LearningMode := .hardware
  loadBalancers : List LoadBalancerCfg := []

/-! ## State nodes -/

/-- `Port::VlanMembership`: VLAN id to `VlanInfo` (the tagged flag), in key order. -/
abbrev VlanMembership := List (VlanID × Bool)

/-- The state node `Port` (`PortFields`). A port made by
`make_shared<Port>(id, name)` is disabled, has no VLAN, no queue, no mirror and
every other field at the default of the corresponding config field.
`operState` stands for what the reconciler never writes. -/
structure Port extends NodeBase where
  id : PortID
  name : String
  description : String := ""
  adminState : PortState := .disabled
  operState : Bool := false
  ingressVlan : VlanID := 0
  speed : Nat := 0
  profileID : Nat := 0
  pause : PortPause := {}
  vlans : VlanMembership := []
  sFlowIngressRate : Int := 0
  sFlowEgressRate : Int := 0
  queues : List PortQueue := []
  fec : PortFEC := .off
  loopbackMode : PortLoopbackMode := .none
  ingressMirror : Option String := none
  egressMirror : Option String := none
  qosPolicy : Option String := none
  sampleDest : Option SampleDestination := none
  expectedLLDPValues : List (Nat × String) := []
  lookupClasses : List Nat := []
  deriving DecidableEq, Repr

instance : HasID Port PortID := ⟨fun n => n.id⟩

/-- The state's `MatchAction` (the action of an ACL entry): the queue to send
to with its CoPP flag, the resolved traffic counter, the DSCP to set and the
mirror names. -/
structure MatchAction where
  sendToQueue : Option (Int × Bool) := none
  trafficCounter : Option TrafficCounterCfg := none
  setDscp : Option Int := none
  ingressMirror : Option String := none
  egressMirror : Option String := none
  deriving DecidableEq, Repr

/-- The state node `AclEntry`; `operator==` compares every field below the node
base. The L4 ports are 16-bit values (see `toL4Port`). -/
structure AclEntry extends NodeBase where
  priority : Int
  name : String
  actionType : AclActionType := .permit
  aclAction : Option MatchAction := none
  srcIp : Option CIDRNetwork := none
  dstIp : Option CIDRNetwork := none
  proto : Option Int := none
  tcpFlagsBitMap : Option Int := none
  srcPort : Option Int := none
  dstPort : Option Int := none
  l4SrcPort : Option Nat := none
  l4DstPort : Option Nat := none
  ipFrag : Option Nat := none
  icmpType : Option Int := none
  icmpCode : Option Int := none
  dscp : Option Int := none
  dstMac : Option MacAddress := none
  ipType : Option Nat := none
  ttl : Option (Int × Int) := none
  lookupClass : Option Nat := none
  lookupClassL2 : Option Nat := none
  deriving DecidableEq, Repr

instance : HasID AclEntry String := ⟨fun n => n.name⟩

/-- `AclEntry::operator==`: equality of the fields, whatever the node base. -/
def AclEntry.sameFields (a b : AclEntry) : Bool :=
  decide ({ a with toNodeBase := {} } = { b with toNodeBase := {} })

/-- The state node `QosPolicy`: its name and the three maps. -/
structure QosPolicy extends NodeBase where
  name : String
  dscpMap : List (Nat × Nat) := []
  expMap : List (Nat × Nat) := []
  trafficClassToQueueId : List (Int × Int) := []
  deriving DecidableEq, Repr

instance : HasID QosPolicy String := ⟨fun n => n.name⟩

/-- `QosPolicy::operator==`. -/
def QosPolicy.sameFields (a b : QosPolicy) : Bool :=
  decide ({ a with toNodeBase := {} } = { b with toNodeBase := {} })

/-- `MirrorTunnel` of a resolved mirror, written by the mirror resolver. -/
structure MirrorTunnel where
  srcIp : IPAddress
  dstIp : IPAddress
  srcMac : MacAddress
  dstMac : MacAddress
  deriving DecidableEq, Repr

/-- The state node `Mirror`: the configured fields (`configHasEgressPort` is
whether the constructor was given an egress port) and the resolved tunnel. -/
structure Mirror extends NodeBase where
  name : String
  configHasEgressPort : Bool
  egressPort : Option PortID
  destinationIp : Option IPAddress
  srcIp : Option IPAddress
  udpPorts : Option (Nat × Nat)
  dscp : Nat
  truncate : Bool
  resolvedTunnel : Option MirrorTunnel := none
  deriving DecidableEq, Repr

instance : HasID Mirror String := ⟨fun n => n.name⟩

/-- `Mirror::operator==`. -/
def Mirror.sameFields (a b : Mirror) : Bool :=
  decide ({ a with toNodeBase := {} } = { b with toNodeBase := {} })

/-- `Mirror::isResolved`: the tunnel is resolved, or there is no tunnel to resolve. -/
def Mirror.isResolved (m : Mirror) : Bool :=
  m.resolvedTunnel.isSome || m.destinationIp.isNone

/-- `NeighborResponseEntry` -/
structure NeighborResponseEntry where
  mac : MacAddress
  interfaceID : InterfaceID
  deriving DecidableEq, Repr

/-- The state node `Vlan`. The ARP/NDP response tables are kept as their
tables; the neighbor and MAC tables, which the reconciler never touches, are
left out. -/
structure Vlan extends NodeBase where
  id : VlanID
  name : String
  interfaceID : InterfaceID := 0
  dhcpV4Relay : IPAddress := .v4 0
  dhcpV6Relay : IPAddress := .v6 0
  dhcpRelayOverridesV4 : List (MacAddress × IPAddress) := []
  dhcpRelayOverridesV6 : List (MacAddress × IPAddress) := []
  ports : List (PortID × Bool) := []
  arpResponseTable : List (IPAddress × NeighborResponseEntry) := []
  ndpResponseTable : List (IPAddress × NeighborResponseEntry) := []
  deriving DecidableEq, Repr

instance : HasID Vlan VlanID := ⟨fun n => n.id⟩

/-- The state node `Interface`. -/
structure Interface extends NodeBase where
  id : InterfaceID
  routerID : RouterID
  vlanID : VlanID
  name : String
  mac : MacAddress
  mtu : Int
  isVirtual : Bool
  isStateSyncDisabled : Bool
  addresses : List (IPAddress × Nat) := []
  ndpConfig : NdpConfig := {}
  deriving DecidableEq, Repr

instance : HasID Interface InterfaceID := ⟨fun n => n.id⟩

/-- `Interface::kDefaultMtu` -/
def kDefaultMtu : Int := 1500

inductive ClientID where
  | bgpd | staticRoute | interfaceRoute | linkLocalRoute | other (n : Nat)
  deriving DecidableEq, Repr

inductive RouteForwardAction where
  | drop | toCpu | nexthops
  deriving DecidableEq, Repr

/-- A next hop: resolved (address, interface) or unresolved (address only),
with its weight. -/
structure NextHop where
  addr : IPAddress
  intf : Option InterfaceID
  weight : Nat
  deriving DecidableEq, Repr

/-- `RouteNextHopEntry`: the forwarding action, the next-hop set and the admin distance. -/
structure RouteNextHopEntry where
  action : RouteForwardAction
  nhopSet : List NextHop := []
  adminDistance : Nat
  deriving DecidableEq, Repr

/-- The numeric value of the client id, the key order of a route's entries. -/
def ClientID.toNat : ClientID → Nat
  | .bgpd => 0
  | .staticRoute => 1
  | .interfaceRoute => 2
  | .linkLocalRoute => 3
  | .other n => n + 4

instance : KeyOrder ClientID := ⟨fun a b => decide (a.toNat < b.toNat)⟩

/-- What a route owns: per client, the next-hop entry that client installed. -/
abbrev RouteEntries := List (ClientID × RouteNextHopEntry)

/-- The state node `RouteTable` of one router: its routes, keyed by network. -/
structure RouteTable extends NodeBase where
  id : RouterID
  routes : List (CIDRNetwork × RouteEntries) := []
  deriving DecidableEq, Repr

instance : HasID RouteTable RouterID := ⟨fun n => n.id⟩

/-- The state node `ForwardingInformationBaseContainer` of one router; the FIB
contents are written by the routing-information base only. -/
structure FibContainer extends NodeBase where
  vrf : RouterID
  deriving DecidableEq, Repr

instance : HasID FibContainer RouterID := ⟨fun n => n.vrf⟩

/-- The state node `SflowCollector`, identified by address and port. -/
structure SflowCollector extends NodeBase where
  ip : IPAddress
  port : Nat
  deriving DecidableEq, Repr

instance : HasID SflowCollector (IPAddress × Nat) := ⟨fun n => (n.ip, n.port)⟩

/-- The state node `ControlPlane`. -/
structure ControlPlane extends NodeBase where
  queues : List PortQueue := []
  qosPolicy : Option String := none
  rxReasonToQueue : List (Nat × Int) := []
  deriving DecidableEq, Repr

/-- The state node `SwitchSettings`. -/
structure SwitchSettings extends NodeBase where
  l2LearningMode : L2LearningMode := .hardware
  deriving DecidableEq, Repr

/-- The state node `LoadBalancer`. -/
structure LoadBalancer extends NodeBase where
  id : Nat
  fieldSelection : List Nat := []
  algorithm : Nat := 0
  seed : Nat := 0
  deriving DecidableEq, Repr

instance : HasID LoadBalancer Nat := ⟨fun n => n.id⟩

/-- The state root `SwitchState`. -/
structure SwitchState extends NodeBase where
  switchSettings : SwitchSettings := {}
  controlPlane : ControlPlane := {}
  ports : NodeMap Port := {}
  aggregatePorts : NodeMap AggregatePort := {}
  mirrors : NodeMap Mirror := {}
  acls : NodeMap AclEntry := {}
  qosPolicies : NodeMap QosPolicy := {}
  defaultDataPlaneQosPolicy : Option QosPolicy := none
  interfaces : NodeMap Interface := {}
  vlans : NodeMap Vlan := {}
  fibs : NodeMap FibContainer := {}
  routeTables : NodeMap RouteTable := {}
  defaultVlan : VlanID := 0
  arpAgerInterval : Int := 0
  arpTimeout : Int := 0
  ndpTimeout : Int := 0
  maxNeighborProbes : Nat := 0
  dhcpV4RelaySrc : IPAddress := .v4 0
  dhcpV6RelaySrc : IPAddress := .v6 0
  dhcpV4ReplySrc : IPAddress := .v4 0
  dhcpV6ReplySrc : IPAddress := .v6 0
  staleEntryInterval : Int := 0
  sflowCollectors : NodeMap SflowCollector := {}
  loadBalancers : NodeMap LoadBalancer := {}
  deriving DecidableEq, Repr

/-- `SwitchState::clone()`: a new root that shares every child with the old one. -/
def SwitchState.clone (s : SwitchState) : SwitchState :=
  { s with toNodeBase := s.toNodeBase.clone }

/-! ## The reconciliation context (`portVlans_`, `vlanPorts_`, `vlanInterfaces_`, `intfRouteTables_`) -/

/-- `ThriftConfigApplier::VlanIpInfo` -/
structure VlanIpInfo where
  mask : Nat
  mac : MacAddress
  interfaceID : InterfaceID
  deriving DecidableEq, Repr

/-- `ThriftConfigApplier::VlanInterfaceInfo` -/
structure VlanInterfaceInfo where
  routerID : RouterID := 0
  interfaces : List InterfaceID := []
  addresses : List (IPAddress × VlanIpInfo) := []
  deriving DecidableEq, Repr

/-- `IntfRoute`: network to (interface, address). -/
abbrev IntfRoute := List (CIDRNetwork × (InterfaceID × IPAddress))

/-- The scratch maps the applier keeps as members during one pass. -/
structure Ctx where
  portVlans : List (PortID × VlanMembership) := []
  vlanPorts : List (VlanID × List (PortID × Bool)) := []
  vlanInterfaces : List (VlanID × VlanInterfaceInfo) := []
  intfRouteTables : List (RouterID × IntfRoute) := []
  deriving DecidableEq, Repr

/-- The VLAN `v` has an entry in `vlanInterfaces_` whose interface set holds `i`. -/
def recordsInterface (vlanInterfaces : List (VlanID × VlanInterfaceInfo)) (v : VlanID)
    (i : InterfaceID) : Prop :=
  ∃ e, FlatMap.find? vlanInterfaces v = some e ∧ i ∈ e.interfaces

/-- `map[k]` read: the stored value, or a default-constructed one. Where the
source only reads single keys of the map afterwards, the entry `operator[]`
creates is not recorded. -/
def FlatMap.getD {K V : Type} [DecidableEq K] (m : List (K × V)) (k : K) (d : V) : V :=
  (FlatMap.find? m k).getD d

/-- `ThriftConfigApplier::processVlanPorts`, the loop over `cfg_->vlanPorts`. -/
def processVlanPortsLoop : List VlanPortCfg → Ctx → Result Ctx
  | [], ctx => pure ctx
  | vp :: rest, ctx => do
      let r1 := FlatMap.emplace (FlatMap.getD ctx.portVlans vp.logicalPort []) vp.vlanID vp.emitTags
      throwIf (!r1.2) "duplicate VlanPort for port"
      let r2 := FlatMap.emplace (FlatMap.getD ctx.vlanPorts vp.vlanID []) vp.logicalPort vp.emitTags
      throwIf (!r2.2) "duplicate VlanPort for vlan"
      processVlanPortsLoop rest
        { ctx with portVlans := FlatMap.assign ctx.portVlans vp.logicalPort r1.1
                   vlanPorts := FlatMap.assign ctx.vlanPorts vp.vlanID r2.1 }

/-- `ThriftConfigApplier::processVlanPorts`. -/
def processVlanPorts (cfg : SwitchConfig) (ctx : Ctx) : Result Ctx :=
  processVlanPortsLoop cfg.vlanPorts ctx

/-! ## Ports -/

/-- The QoS policy name `updatePort` gives a port: the data-plane traffic
policy's default, overridden by its `portIdToQosPolicy` entry for the port. -/
def portQosPolicyName (cfg : SwitchConfig) (logicalID : Nat) : Option String :=
  match cfg.dataPlaneTrafficPolicy with
  | none => none
  | some policy =>
      let dflt := policy.defaultQosPolicy
      match policy.portIdToQosPolicy with
      | none => dflt
      | some m =>
          match FlatMap.find? m logicalID with
          | some name => some name
          | none => dflt

/-- The QoS map `updatePort` looks up: that of the last policy of
`cfg_->qosPolicies` with the given name that has a `qosMap` (the loop has no `break`). -/
def portQosMap (qosPolicies : List QosPolicyCfg) (newQosPolicy : Option String) :
    Option QosMapCfg :=
  match newQosPolicy with
  | none => none
  | some name =>
      qosPolicies.foldl (fun acc qp =>
        if qp.name = name ∧ qp.qosMap.isSome then qp.qosMap else acc) none

/-- The new LLDP map of `updatePort`: the port's own map with every config
entry assigned into it. -/
def mergeLLDP (own : List (Nat × String)) (expected : List (Nat × String)) : List (Nat × String) :=
  expected.foldl (fun m tag => FlatMap.assign m tag.1 tag.2) own

/-- The comparison of `updatePort` ("Ensure portConf has actually changed,
before applying"). -/
def portUnchanged (orig : Port) (portConf : PortCfg) (vlans : VlanMembership)
    (queuesUnchanged mirrorsUnChanged : Bool) (newSampleDest : Option SampleDestination)
    (newQosPolicy : Option String) : Bool :=
  decide (portConf.state = orig.adminState) &&
  decide (portConf.ingressVlan = orig.ingressVlan) &&
  decide (portConf.speed = orig.speed) &&
  decide (portConf.profileID = orig.profileID) &&
  decide (portConf.pause = orig.pause) &&
  decide (portConf.sFlowIngressRate = orig.sFlowIngressRate) &&
  decide (portConf.sFlowEgressRate = orig.sFlowEgressRate) &&
  decide (newSampleDest = orig.sampleDest) &&
  decide (portConf.name = orig.name) &&
  decide (portConf.description = orig.description) &&
  decide (vlans = orig.vlans) &&
  decide (portConf.fec = orig.fec) &&
  queuesUnchanged &&
  decide (portConf.loopbackMode = orig.loopbackMode) &&
  mirrorsUnChanged &&
  decide (newQosPolicy = orig.qosPolicy) &&
  decide (portConf.expectedLLDPValues = orig.expectedLLDPValues)

/-- `ThriftConfigApplier::updatePort`: `none` is the null pointer (no change). -/
def updatePort (cfg : SwitchConfig) (ctx : Ctx) (orig : Port) (portConf : PortCfg) :
    Result (Option Port) := do
  check (decide (orig.id = portConf.logicalID)) "CHECK_EQ(orig->getID(), portConf->logicalID)"
  let vlans := FlatMap.getD ctx.portVlans orig.id []
  let cfgPortQueues ← (match portConf.portQueueConfigName with
    | some name =>
        match FlatMap.find? cfg.portQueueConfigs name with
        | some qs => pure qs
        | none => .error (.fbossError "Port queue config name does not exist in PortQueueConfig map")
    | none => pure [])
  let newIngressMirror := portConf.ingressMirror
  let newEgressMirror := portConf.egressMirror
  let mirrorsUnChanged :=
    decide (orig.ingressMirror = newIngressMirror) && decide (orig.egressMirror = newEgressMirror)
  let newQosPolicy := portQosPolicyName cfg portConf.logicalID
  let qosMap := portQosMap cfg.qosPolicies newQosPolicy
  let portQueues ← updatePortQueues cfg.defaultPortQueues orig.queues cfgPortQueues qosMap
  let queuesUnchanged := decide (portQueues = orig.queues)
  let newSampleDest := portConf.sampleDest
  throwIf (decide (newSampleDest = some .mirror) && decide (portConf.sFlowEgressRate > 0))
    "Egress sampling to mirror destination is unsupported"
  if portUnchanged orig portConf vlans queuesUnchanged mirrorsUnChanged newSampleDest newQosPolicy
  then pure none
  else
    pure (some { orig with
      toNodeBase := orig.toNodeBase.clone
      adminState := portConf.state
      ingressVlan := portConf.ingressVlan
      vlans := vlans
      speed := portConf.speed
      profileID := portConf.profileID
      pause := portConf.pause
      sFlowIngressRate := portConf.sFlowIngressRate
      sFlowEgressRate := portConf.sFlowEgressRate
      sampleDest := newSampleDest
      name := portConf.name
      description := portConf.description
      fec := portConf.fec
      loopbackMode := portConf.loopbackMode
      queues := portQueues
      ingressMirror := newIngressMirror
      egressMirror := newEgressMirror
      qosPolicy := newQosPolicy
      expectedLLDPValues := mergeLLDP orig.expectedLLDPValues portConf.expectedLLDPValues
      lookupClasses := portConf.lookupClasses })

/-- The port holds what the config entry `portConf` gives for the fields that
`updatePort` compares: admin state, ingress VLAN, speed, profile, pause, sFlow
rates, sample destination, name, description, FEC, loopback mode, mirrors, QoS
policy, and the VLAN membership recorded for the port in `portVlans_`. -/
def Port.matchesConfig (port : Port) (cfg : SwitchConfig) (ctx : Ctx) (portConf : PortCfg) :
    Prop :=
  port.adminState = portConf.state ∧
  port.ingressVlan = portConf.ingressVlan ∧
  port.speed = portConf.speed ∧
  port.profileID = portConf.profileID ∧
  port.pause = portConf.pause ∧
  port.sFlowIngressRate = portConf.sFlowIngressRate ∧
  port.sFlowEgressRate = portConf.sFlowEgressRate ∧
  port.sampleDest = portConf.sampleDest ∧
  port.name = portConf.name ∧
  port.description = portConf.description ∧
  port.fec = portConf.fec ∧
  port.loopbackMode = portConf.loopbackMode ∧
  port.ingressMirror = portConf.ingressMirror ∧
  port.egressMirror = portConf.egressMirror ∧
  port.qosPolicy = portQosPolicyName cfg portConf.logicalID ∧
  port.vlans = FlatMap.getD ctx.portVlans portConf.logicalID []

/-- Modelled from the spec: `Port::initDefaultConfigState` (Port.cpp), which
fills a default-constructed `cfg::Port` with the port's "platform default
(disabled) configuration": its own id and name, admin state DISABLED. -/
def initDefaultConfigState (port : Port) : PortCfg :=
  { logicalID := port.id, name := port.name, state := .disabled }

/-- The config entry a port of the old state is reconciled against: the entry
of `cfg_->ports` with the port's id, or the port's own default configuration
when the list has none. -/
def portConfigFor (cfg : SwitchConfig) (port : Port) : PortCfg :=
  match cfg.ports.find? (fun c => decide (c.logicalID = port.id)) with
  | some c => c
  | none => initDefaultConfigState port

/-- The port `updatePorts` hands to `updatePort` for a config entry: the old
port of that id, or a port newly made from the entry's id and name. -/
def portToUpdate (origPorts : List Port) (portCfg : PortCfg) : Port :=
  match findNode origPorts portCfg.logicalID with
  | some o => o
  | none => { id := portCfg.logicalID, name := portCfg.name }

/-- The node `updateMap` stores: the new node, or the original one when there
is no new node. -/
def storedNode {Node : Type} (origNode newNode : Option Node) : Option Node :=
  match newNode with
  | some n => some n
  | none => origNode

/-- First loop of `updatePorts`: "Process all supplied port configs". -/
def updatePortsCfgLoop (cfg : SwitchConfig) (ctx : Ctx) (origPorts : List Port) :
    List PortCfg → List Port × Bool → Result (List Port × Bool)
  | [], acc => pure acc
  | portCfg :: rest, (newPorts, changed) => do
      let origPort := findNode origPorts portCfg.logicalID
      let newPort ← (match origPort with
        | none => updatePort cfg ctx { id := portCfg.logicalID, name := portCfg.name } portCfg
        | some o => updatePort cfg ctx o portCfg)
      let (m, c) ← updateMap newPorts origPort newPort
      updatePortsCfgLoop cfg ctx origPorts rest (m, changed || c)

/-- Second loop of `updatePorts`: "Find all ports that didn't have a config
listed and reset them to their default (disabled) state". -/
def updatePortsResetLoop (cfg : SwitchConfig) (ctx : Ctx) :
    List Port → List Port × Bool → Result (List Port × Bool)
  | [], acc => pure acc
  | origPort :: rest, (newPorts, changed) =>
      if (findNode newPorts origPort.id).isSome then
        updatePortsResetLoop cfg ctx rest (newPorts, changed)
      else do
        let newPort ← updatePort cfg ctx origPort (initDefaultConfigState origPort)
        let (m, c) ← updateMap newPorts (some origPort) newPort
        updatePortsResetLoop cfg ctx rest (m, changed || c)

/-- `ThriftConfigApplier::updatePorts`: `none` when no port changed. -/
def updatePorts (cfg : SwitchConfig) (ctx : Ctx) (origPorts : NodeMap Port) :
    Result (Option (NodeMap Port)) := do
  let acc ← updatePortsCfgLoop cfg ctx origPorts.nodes cfg.ports ([], false)
  let (newPorts, changed) ← updatePortsResetLoop cfg ctx origPorts.nodes acc
  if !changed then pure none
  else pure (some (origPorts.cloneWith newPorts))

/-! ## ACLs -/

/-- `kAclStartPriority` -/
def kAclStartPriority : Int := 100000

/-- Modelled from the spec: `AclEntryFields::kMaxL4Port` (AclEntry.h), "L4 port
values in [0,65535]". -/
def kMaxL4Port : Int := 65535

/-- Modelled from the spec: `AclEntryFields::kMaxIcmpType` (AclEntry.h), the
bound of the 8-bit ICMP type. -/
def kMaxIcmpType : Int := 255

/-- Modelled from the spec: `AclEntryFields::kMaxIcmpCode` (AclEntry.h), the
bound of the 8-bit ICMP code. -/
def kMaxIcmpCode : Int := 255

/-- Modelled from the spec: `AclEntryFields::kProtoIcmp` (AclEntry.h), the IP
protocol number of ICMP. -/
def kProtoIcmp : Int := 1

/-- Modelled from the spec: `AclEntryFields::kProtoIcmpv6` (AclEntry.h), the IP
protocol number of ICMPv6. -/
def kProtoIcmpv6 : Int := 58

/-- True when the optional field is set and its value satisfies `p`. -/
def setAnd {α : Type} (x : Option α) (p : α → Bool) : Bool :=
  match x with
  | some v => p v
  | none => false

/-- `ThriftConfigApplier::checkAcl`: the checks in source order. -/
def checkAcl (config : AclEntryCfg) : Result Unit := do
  throwIf (setAnd config.srcL4PortRange fun r => decide (r.1 > kMaxL4Port))
    "src's L4 port range has a min value larger than 65535"
  throwIf (setAnd config.srcL4PortRange fun r => decide (r.2 > kMaxL4Port))
    "src's L4 port range has a max value larger than 65535"
  throwIf (setAnd config.srcL4PortRange fun r => decide (r.1 ≠ r.2))
    "Only support src L4 port range min value == max value"
  throwIf (setAnd config.dstL4PortRange fun r => decide (r.1 > kMaxL4Port))
    "dst's L4 port range has a min value larger than 65535"
  throwIf (setAnd config.dstL4PortRange fun r => decide (r.2 > kMaxL4Port))
    "dst's L4 port range has a max value larger than 65535"
  throwIf (setAnd config.dstL4PortRange fun r => decide (r.1 ≠ r.2))
    "Only support dst L4 port range min value == max value"
  throwIf (setAnd config.l4SrcPort fun v => decide (v < 0) || decide (v > kMaxL4Port))
    "L4 source port must be between 0 and 65535"
  throwIf (setAnd config.l4DstPort fun v => decide (v < 0) || decide (v > kMaxL4Port))
    "L4 destination port must be between 0 and 65535"
  throwIf (config.icmpCode.isSome && !config.icmpType.isSome)
    "icmp type must be set when icmp code is set"
  throwIf (setAnd config.icmpType fun v => decide (v < 0) || decide (v > kMaxIcmpType))
    "icmp type value must be between 0 and 255"
  throwIf (setAnd config.icmpCode fun v => decide (v < 0) || decide (v > kMaxIcmpCode))
    "icmp type value must be between 0 and 255"
  throwIf (config.icmpType.isSome &&
      (!config.proto.isSome ||
        !(decide (config.proto = some kProtoIcmp) || decide (config.proto = some kProtoIcmpv6))))
    "proto must be either icmp or icmpv6 if icmp type is set"
  throwIf (setAnd config.ttl fun t => decide (t.1 > 255)) "ttl value is larger than 255"
  throwIf (setAnd config.ttl fun t => decide (t.1 < 0)) "ttl value is less than 0"
  throwIf (setAnd config.ttl fun t => decide (t.2 > 255)) "ttl mask is larger than 255"
  throwIf (setAnd config.ttl fun t => decide (t.2 < 0)) "ttl mask is less than 0"

/-- Modelled from the spec: the parameter conversion of `AclEntry::setL4SrcPort`
and `AclEntry::setL4DstPort` (AclEntry.h). An L4 port is a 16-bit value ("L4
port values in [0,65535]"), so the `int` that `createAcl` hands over is narrowed
to `uint16_t`. -/
def toL4Port (v : Int) : Nat := (v % 2 ^ 16).toNat

/-- `ThriftConfigApplier::createAcl`. The L4 ports come from the legacy range's
`min` and are then overwritten by `l4SrcPort`/`l4DstPort` when those are set;
the setters store them as 16-bit values (`toL4Port`). Each other field of the
entry holds the value that `createAcl` hands to the setter of `AclEntry`
(AclEntry.h). -/
def createAcl (config : AclEntryCfg) (priority : Int) (action : Option MatchAction) :
    Result AclEntry := do
  checkAcl config
  pure {
    priority := priority
    name := config.name
    actionType := config.actionType
    aclAction := action
    srcIp := config.srcIp.map (createNetwork ·)
    dstIp := config.dstIp.map (createNetwork ·)
    proto := config.proto
    tcpFlagsBitMap := config.tcpFlagsBitMap
    srcPort := config.srcPort
    dstPort := config.dstPort
    l4SrcPort := match config.l4SrcPort with
      | some v => some (toL4Port v)
      | none => config.srcL4PortRange.map fun r => toL4Port r.1
    l4DstPort := match config.l4DstPort with
      | some v => some (toL4Port v)
      | none => config.dstL4PortRange.map fun r => toL4Port r.1
    ipFrag := config.ipFrag
    icmpType := config.icmpType
    icmpCode := config.icmpCode
    dscp := config.dscp
    dstMac := config.dstMac
    ipType := config.ipType
    ttl := config.ttl
    lookupClass := config.lookupClass
    lookupClassL2 := config.lookupClassL2 }

/-- The counters `updateAcls` threads through its three passes. -/
structure AclAcc where
  changed : Bool := false
  numExistingProcessed : Nat := 0
  priority : Int := kAclStartPriority
  cpuPriority : Int := 1
  deriving DecidableEq, Repr

/-- `ThriftConfigApplier::updateAcl`: the entry to store, with the updated
`numExistingProcessed` and `changed`. -/
def updateAcl (origAcls : List AclEntry) (acl : AclEntryCfg) (priority : Int)
    (numExistingProcessed : Nat) (changed : Bool) (action : Option MatchAction) :
    Result (AclEntry × Nat × Bool) := do
  let origAcl := findNode origAcls acl.name
  let newAcl ← createAcl acl priority action
  match origAcl with
  | some o =>
      if o.sameFields newAcl then pure (o, numExistingProcessed + 1, changed)
      else pure (newAcl, numExistingProcessed + 1, true)
  | none => pure (newAcl, numExistingProcessed, true)

/-- `folly::gen::appendTo(newAcls)` for one entry: insert under the entry's
name; an entry whose name is already in the container is dropped. -/
def appendAcl (newAcls : List AclEntry) (acl : AclEntry) : List AclEntry :=
  (emplaceNode newAcls acl).getD newAcls

/-- First pass of `updateAcls`: "Start with the DROP acls, these should have
highest priority". Returns the entries the pipeline hands to `appendTo`, in
order, and the updated counters. -/
def updateAclsDeny (origAcls : List AclEntry) :
    List AclEntryCfg → AclAcc → Result (List AclEntry × AclAcc)
  | [], acc => pure ([], acc)
  | entry :: rest, acc =>
      if entry.actionType = .deny then do
        let (acl, n, c) ← updateAcl origAcls entry acc.priority acc.numExistingProcessed
          acc.changed none
        let (entries, acc2) ← updateAclsDeny origAcls rest
          { acc with changed := c, numExistingProcessed := n, priority := acc.priority + 1 }
        pure (acl :: entries, acc2)
      else updateAclsDeny origAcls rest acc

/-- `aclByName`: the first ACL of the config list with the given name. -/
def aclByName (acls : List AclEntryCfg) (name : String) : Option AclEntryCfg :=
  acls.find? (fun a => decide (a.name = name))

/-- `counterByName`: the first traffic counter with the given name. -/
def counterByName (counters : List TrafficCounterCfg) (name : String) : Option TrafficCounterCfg :=
  counters.find? (fun c => decide (c.name = name))

/-- The `MatchAction` compiled by `addToAcls` from a policy's action. -/
def compileAction (counters : List TrafficCounterCfg) (action : MatchActionCfg)
    (isCoppAcl : Bool) : Result MatchAction := do
  let counter ← (match action.counter with
    | some name =>
        match counterByName counters name with
        | some c => pure (some c)
        | none => .error (.fbossError "Invalid config: No counter named found.")
    | none => pure none)
  pure { sendToQueue := action.sendToQueue.map (fun q => (q, isCoppAcl))
         trafficCounter := counter
         setDscp := action.setDscp
         ingressMirror := action.ingressMirror
         egressMirror := action.egressMirror }

/-- The mirror check of `addToAcls`; both `inMirror` and `egMirror` are read
with `getIngressMirror()`. -/
def checkAclMirrors (mirrors : List Mirror) (acl : AclEntry) : Result Unit :=
  match acl.aclAction with
  | some a => do
      let inMirror := a.ingressMirror
      let egMirror := a.ingressMirror
      throwIf (setAnd inMirror fun m => (findNode mirrors m).isNone) "Mirror is undefined"
      throwIf (setAnd egMirror fun m => (findNode mirrors m).isNone) "Mirror is undefined"
  | none => pure ()

/-- The lambda `addToAcls` of `updateAcls`: compiles the policy's matchers in
order; returns the entries to append and the updated counters. -/
def addToAcls (cfg : SwitchConfig) (origAcls : List AclEntry) (mirrors : List Mirror)
    (isCoppAcl : Bool) : List MatchToAction → AclAcc → Result (List AclEntry × AclAcc)
  | [], acc => pure ([], acc)
  | mta :: rest, acc => do
      let aclCfg ← (match aclByName cfg.acls mta.matcher with
        | some a => pure a
        | none => .error (.fbossError "Invalid config: No acl named found."))
      if aclCfg.actionType = .deny then addToAcls cfg origAcls mirrors isCoppAcl rest acc
      else do
        let matchAction ← compileAction cfg.trafficCounters mta.action isCoppAcl
        let prio := if isCoppAcl then acc.cpuPriority else acc.priority
        let acc1 := if isCoppAcl then { acc with cpuPriority := acc.cpuPriority + 1 }
          else { acc with priority := acc.priority + 1 }
        let (acl, n, c) ← updateAcl origAcls aclCfg prio acc1.numExistingProcessed acc1.changed
          (some matchAction)
        checkAclMirrors mirrors acl
        let (entries, acc2) ← addToAcls cfg origAcls mirrors isCoppAcl rest
          { acc1 with numExistingProcessed := n, changed := c }
        pure (acl :: entries, acc2)

/-- What the three passes of `updateAcls` hand to `appendTo(newAcls)`, pass by
pass and in order, with the final counters. -/
structure AclPasses where
  denyEntries : List AclEntry
  cpuEntries : List AclEntry
  dataEntries : List AclEntry
  acc : AclAcc
  deriving DecidableEq, Repr

/-- The three passes of `updateAcls`: DENY entries, CPU traffic policy (when
`cpuTrafficPolicy` and its `trafficPolicy` are set), data-plane traffic policy
(when set). -/
def aclPasses (cfg : SwitchConfig) (origAcls : List AclEntry) (mirrors : List Mirror) :
    Result AclPasses := do
  let (denyEntries, acc) ← updateAclsDeny origAcls cfg.acls {}
  let (cpuEntries, acc) ← (match cfg.cpuTrafficPolicy with
    | some cpu =>
        match cpu.trafficPolicy with
        | some policy => addToAcls cfg origAcls mirrors true policy.matchToAction acc
        | none => pure ([], acc)
    | none => pure ([], acc))
  let (dataEntries, acc) ← (match cfg.dataPlaneTrafficPolicy with
    | some policy => addToAcls cfg origAcls mirrors false policy.matchToAction acc
    | none => pure ([], acc))
  pure { denyEntries := denyEntries, cpuEntries := cpuEntries, dataEntries := dataEntries,
         acc := acc }

/-- The container `newAcls` after the three passes. -/
def AclPasses.newAcls (p : AclPasses) : List AclEntry :=
  (p.denyEntries ++ p.cpuEntries ++ p.dataEntries).foldl appendAcl []

/-- `ThriftConfigApplier::updateAcls`; `mirrors` is `new_->getMirrors()`. -/
def updateAcls (cfg : SwitchConfig) (origAcls : NodeMap AclEntry) (mirrors : List Mirror) :
    Result (Option (NodeMap AclEntry)) := do
  let p ← aclPasses cfg origAcls.nodes mirrors
  let changed := p.acc.changed || decide (p.acc.numExistingProcessed ≠ origAcls.nodes.length)
  if !changed then pure none
  else pure (some (origAcls.cloneWith p.newAcls))

/-- An aggregate-port config with `n` member ports (ids `1 .. n`, priority 0)
and the given minimum capacity. -/
def aggCfgWithMembers (n : Nat) (minCapacity : MinimumCapacity) : AggregatePortCfg :=
  { key := 1, name := "po1", description := "",
    memberPorts := (List.range n).map fun i => { memberPortID := i + 1, priority := 0 },
    minimumCapacity := minCapacity }

/-! ## QoS policies -/

/-- `TrafficClassToQosAttributeMap::addFromEntry`: the entries form a sorted set. -/
def addFromEntry (m : List (Nat × Nat)) (trafficClass attr : Nat) : List (Nat × Nat) :=
  (FlatMap.emplace (m.map fun e => (e, ())) (trafficClass, attr) ()).1.map (·.1)

/-- The inner loop of `createQosPolicy` over one rule's DSCP values. -/
def addDscpValues (queueId : Int) : List Int → List (Nat × Nat) → Result (List (Nat × Nat))
  | [], m => pure m
  | dscpValue :: rest, m => do
      throwIf (decide (dscpValue < 0) || decide (dscpValue > 63))
        "dscp value is invalid (must be [0, 63])"
      addDscpValues queueId rest (addFromEntry m (queueId % 2 ^ 16).toNat dscpValue.toNat)

/-- The loop of `createQosPolicy` over `qosPolicy.rules`. -/
def addQosRules : List QosRule → List (Nat × Nat) → Result (List (Nat × Nat))
  | [], m => pure m
  | rule :: rest, m => do
      throwIf rule.dscp.isEmpty "Invalid config: qosPolicy: empty dscp list"
      let m ← addDscpValues rule.queueId rule.dscp m
      addQosRules rest m

/-- `DscpMap(qosMap->dscpMaps)` / `ExpMap(qosMap->expMaps)`: the entries
(traffic class, attribute) of the config's maps. -/
def qosAttributeMap (maps : List (Nat × List Nat)) : List (Nat × Nat) :=
  maps.foldl (fun m e => e.2.foldl (fun m attr => addFromEntry m e.1 attr) m) []

/-- `ThriftConfigApplier::createQosPolicy`. -/
def createQosPolicy (qosPolicy : QosPolicyCfg) : Result QosPolicy := do
  throwIf (decide (qosPolicy.rules.isEmpty = !qosPolicy.qosMap.isSome))
    "either the qos rules or qos maps must be provided but not both!"
  let ingressDscpMap ← addQosRules qosPolicy.rules []
  match qosPolicy.qosMap with
  | some qosMap =>
      pure { name := qosPolicy.name
             dscpMap := qosAttributeMap qosMap.dscpMaps
             expMap := qosAttributeMap qosMap.expMaps
             trafficClassToQueueId :=
               qosMap.trafficClassToQueueId.foldl (fun m e => (FlatMap.emplace m e.1 e.2).1) [] }
  | none =>
      pure { name := qosPolicy.name, dscpMap := ingressDscpMap, expMap := []
             trafficClassToQueueId := [] }

/-- `ThriftConfigApplier::getDefaultDataPlaneQosPolicyName`. -/
def getDefaultDataPlaneQosPolicyName (cfg : SwitchConfig) : Option String :=
  match cfg.dataPlaneTrafficPolicy with
  | some policy => policy.defaultQosPolicy
  | none => none

/-- `ThriftConfigApplier::updateQosPolicy`: the node to store, with the updated
`numExistingProcessed` and `changed`. -/
def updateQosPolicy (origQosPolicies : List QosPolicy) (qosPolicy : QosPolicyCfg)
    (numExistingProcessed : Nat) (changed : Bool) : Result (QosPolicy × Nat × Bool) := do
  let origQosPolicy := findNode origQosPolicies qosPolicy.name
  let newQosPolicy ← createQosPolicy qosPolicy
  match origQosPolicy with
  | some o =>
      if o.sameFields newQosPolicy then pure (o, numExistingProcessed + 1, changed)
      else pure (newQosPolicy, numExistingProcessed + 1, true)
  | none => pure (newQosPolicy, numExistingProcessed, true)

/-- The loop of `updateQosPolicies`; the default data-plane policy is skipped. -/
def updateQosPoliciesLoop (origQosPolicies : List QosPolicy) (defaultName : Option String) :
    List QosPolicyCfg → List QosPolicy × Bool × Nat → Result (List QosPolicy × Bool × Nat)
  | [], acc => pure acc
  | qosPolicy :: rest, (newQosPolicies, changed, numExistingProcessed) =>
      if defaultName = some qosPolicy.name then
        updateQosPoliciesLoop origQosPolicies defaultName rest
          (newQosPolicies, changed, numExistingProcessed)
      else do
        let (node, n, c) ← updateQosPolicy origQosPolicies qosPolicy numExistingProcessed changed
        match emplaceNode newQosPolicies node with
        | some m => updateQosPoliciesLoop origQosPolicies defaultName rest (m, c, n)
        | none => .error (.fbossError "Invalid config: Qos Policy already exists")

/-- `ThriftConfigApplier::updateQosPolicies`. -/
def updateQosPolicies (cfg : SwitchConfig) (origQosPolicies : NodeMap QosPolicy) :
    Result (Option (NodeMap QosPolicy)) := do
  let (newQosPolicies, changed, numExistingProcessed) ←
    updateQosPoliciesLoop origQosPolicies.nodes (getDefaultDataPlaneQosPolicyName cfg)
      cfg.qosPolicies ([], false, 0)
  let changed := changed || decide (numExistingProcessed ≠ origQosPolicies.nodes.length)
  if !changed then pure none
  else pure (some (origQosPolicies.cloneWith newQosPolicies))

/-- `ThriftConfigApplier::updateDataplaneDefaultQosPolicy`: the policy the state
root is to hold as default data-plane QoS policy (null when the config names
none, or names one that `qosPolicies` does not define). -/
def updateDataplaneDefaultQosPolicy (cfg : SwitchConfig) (oldQosPolicy : Option QosPolicy) :
    Result (Option QosPolicy) :=
  match getDefaultDataPlaneQosPolicyName cfg with
  | none => pure none
  | some name => do
      let newQosPolicy ← (match cfg.qosPolicies.find? (fun qp => decide (qp.name = name)) with
        | some qp => do
            let n ← createQosPolicy qp
            pure (some n)
        | none => pure none)
      match oldQosPolicy, newQosPolicy with
      | some o, some n => if o.sameFields n then pure (some o) else pure (some n)
      | _, n => pure n

/-! ## Switch settings and control plane -/

/-- `ThriftConfigApplier::updateSwitchSettings`. -/
def updateSwitchSettings (cfg : SwitchConfig) (origSwitchSettings : SwitchSettings) :
    Option SwitchSettings :=
  if origSwitchSettings.l2LearningMode = cfg.l2LearningMode then none
  else some { origSwitchSettings with
    toNodeBase := origSwitchSettings.toNodeBase.clone
    l2LearningMode := cfg.l2LearningMode }

/-- The QoS map `updateControlPlane` looks up: that of the first policy with the
given name that has a `qosMap` (the loop ends with `break`). -/
def cpuQosMap (qosPolicies : List QosPolicyCfg) (qosPolicy : Option String) : Option QosMapCfg :=
  match qosPolicy with
  | none => none
  | some name =>
      match qosPolicies.find? (fun p => decide (p.name = name) && p.qosMap.isSome) with
      | some p => p.qosMap
      | none => none

/-- `ThriftConfigApplier::updateControlPlane`. The rx-reason map is compared
with the old one only inside `if (auto rxReasonToQueue = ...)`. -/
def updateControlPlane (cfg : SwitchConfig) (origCPU : ControlPlane) :
    Result (Option ControlPlane) := do
  let qosPolicy : Option String :=
    match cfg.cpuTrafficPolicy with
    | some cpu =>
        match cpu.trafficPolicy with
        | some tp => tp.defaultQosPolicy
        | none => none
    | none => getDefaultDataPlaneQosPolicyName cfg
  let newRxReasonToQueue : List (Nat × Int) :=
    match cfg.cpuTrafficPolicy with
    | some cpu =>
        match cpu.rxReasonToCPUQueue with
        | some l => l.foldl (fun m e => (FlatMap.emplace m e.1 e.2).1) []
        | none => []
    | none => []
  let rxReasonToQueueUnchanged : Bool :=
    match cfg.cpuTrafficPolicy with
    | some cpu =>
        match cpu.rxReasonToCPUQueue with
        | some _ => decide (newRxReasonToQueue = origCPU.rxReasonToQueue)
        | none => true
    | none => true
  let qosPolicyUnchanged := decide (qosPolicy = origCPU.qosPolicy)
  let qosMap := cpuQosMap cfg.qosPolicies qosPolicy
  let newQueues ← updatePortQueues cfg.defaultPortQueues origCPU.queues cfg.cpuQueues qosMap
  let queuesUnchanged := decide (newQueues = origCPU.queues)
  if queuesUnchanged && qosPolicyUnchanged && rxReasonToQueueUnchanged then pure none
  else
    pure (some { origCPU with
      toNodeBase := origCPU.toNodeBase.clone
      queues := newQueues
      qosPolicy := qosPolicy
      rxReasonToQueue := newRxReasonToQueue })

/-! ## Mirrors -/

/-- The port a mirror's `egressPort` names, looked up in `new_->getPorts()`:
by name the first port of that name, by id the port of that id. -/
def findMirrorPort (ports : List Port) : MirrorEgressPort → Result (Option Port)
  | .name n => pure (ports.find? (fun p => decide (p.name = n)))
  | .logicalID id => pure (findNode ports id)
  | .empty => .error (.fbossError "Must set either name or logicalID for MirrorEgressPort")

/-- `ThriftConfigApplier::createMirror`; `ports` is `new_->getPorts()`. -/
def createMirror (ports : List Port) (mirrorConfig : MirrorCfg) : Result Mirror := do
  throwIf (mirrorConfig.egressPort.isNone && mirrorConfig.tunnel.isNone)
    "Must provide either egressPort or tunnel with endpoint ip for mirror"
  let mirrorEgressPort ← (match mirrorConfig.egressPort with
    | some egressPort => do
        let mirrorToPort ← findMirrorPort ports egressPort
        match mirrorToPort with
        | some port =>
            if port.ingressMirror ≠ some mirrorConfig.name ∧
                port.egressMirror ≠ some mirrorConfig.name then
              pure (some port.id)
            else .error (.fbossError "Invalid port name or ID")
        | none => .error (.fbossError "Invalid port name or ID")
    | none => pure none)
  let (destinationIp, udpPorts, srcIp) ← (match mirrorConfig.tunnel with
    | some tunnel => do
        let (dst, udp) ← (match tunnel.sflowTunnel with
          | some sflowTunnel =>
              match sflowTunnel.udpSrcPort, sflowTunnel.udpDstPort with
              | some sp, some dp => pure (some sflowTunnel.ip, some (sp, dp))
              | _, _ => .error (.fbossError
                  "Both UDP source and UDP destination ports must be provided for sFlow tunneling.")
          | none =>
              match tunnel.greTunnel with
              | some ip => pure (some ip, none)
              | none => pure (none, none))
        pure (dst, udp, tunnel.srcIp)
    | none => pure (none, none, none))
  pure { name := mirrorConfig.name
         configHasEgressPort := mirrorEgressPort.isSome
         egressPort := mirrorEgressPort
         destinationIp := destinationIp
         srcIp := srcIp
         udpPorts := udpPorts
         dscp := mirrorConfig.dscp % 256
         truncate := mirrorConfig.truncate }

/-- `ThriftConfigApplier::updateMirror`: `none` is the null pointer (no change).
A resolved mirror whose configuration is unchanged keeps its resolved tunnel
and egress port. -/
def updateMirror (ports : List Port) (orig : Mirror) (mirrorConfig : MirrorCfg) :
    Result (Option Mirror) := do
  let newMirror ← createMirror ports mirrorConfig
  if newMirror.sameFields orig then pure none
  else if !orig.isResolved || newMirror.destinationIp.isNone then pure (some newMirror)
  else if newMirror.destinationIp = orig.destinationIp ∧ newMirror.srcIp = orig.srcIp ∧
      newMirror.dscp = orig.dscp ∧ newMirror.truncate = orig.truncate ∧
      (!newMirror.configHasEgressPort ∨ newMirror.egressPort = orig.egressPort) then
    match orig.resolvedTunnel, orig.egressPort with
    | some tunnel, some port =>
        pure (some { newMirror with resolvedTunnel := some tunnel, egressPort := some port })
    | _, _ => .error (.stdException "std::bad_optional_access")
  else pure (some newMirror)

/-- The loop of `updateMirrors` over `cfg_->mirrors`. -/
def updateMirrorsLoop (ports : List Port) (origMirrors : List Mirror) :
    List MirrorCfg → List Mirror × Bool × Nat → Result (List Mirror × Bool × Nat)
  | [], acc => pure acc
  | mirrorCfg :: rest, (newMirrors, changed, numExistingProcessed) => do
      let origMirror := findNode origMirrors mirrorCfg.name
      let (newMirror, n) ← (match origMirror with
        | some o => do
            let r ← updateMirror ports o mirrorCfg
            pure (r, numExistingProcessed + 1)
        | none => do
            let r ← createMirror ports mirrorCfg
            pure (some r, numExistingProcessed))
      let (m, c) ← updateMap newMirrors origMirror newMirror
      updateMirrorsLoop ports origMirrors rest (m, changed || c, n)

/-- The check of `updateMirrors` that every mirror a port of `new_` names is in
the new container. -/
def checkPortMirrors (newMirrors : List Mirror) : List Port → Result Unit
  | [] => pure ()
  | port :: rest => do
      throwIf (setAnd port.ingressMirror fun m => (findNode newMirrors m).isNone)
        "Mirror for port is not found"
      throwIf (setAnd port.egressMirror fun m => (findNode newMirrors m).isNone)
        "Mirror for port is not found"
      checkPortMirrors newMirrors rest

/-- `ThriftConfigApplier::updateMirrors`; `ports` is `new_->getPorts()`. -/
def updateMirrors (cfg : SwitchConfig) (origMirrors : NodeMap Mirror) (ports : List Port) :
    Result (Option (NodeMap Mirror)) := do
  let (newMirrors, changed, numExistingProcessed) ←
    updateMirrorsLoop ports origMirrors.nodes cfg.mirrors ([], false, 0)
  let changed ← (if numExistingProcessed ≠ origMirrors.nodes.length then do
      check (decide (numExistingProcessed < origMirrors.nodes.length))
        "CHECK_LT(numExistingProcessed, origMirrors->size())"
      pure true
    else pure changed)
  checkPortMirrors newMirrors ports
  if !changed then pure none
  else pure (some (origMirrors.cloneWith newMirrors))

/-! ## sFlow collectors, load balancers, FIB containers -/

/-- `ThriftConfigApplier::createSflowCollector`. -/
def createSflowCollector (config : SflowCollectorCfg) : SflowCollector :=
  { ip := config.ip, port := config.port % 2 ^ 16 }

/-- `ThriftConfigApplier::updateSflowCollector`. -/
def updateSflowCollector (orig : SflowCollector) (config : SflowCollectorCfg) :
    Option SflowCollector :=
  let newCollector := createSflowCollector config
  if (orig.ip, orig.port) = (newCollector.ip, newCollector.port) then none else some newCollector

/-- The loop of `updateSflowCollectors`. -/
def updateSflowCollectorsLoop (origCollectors : List SflowCollector) :
    List SflowCollectorCfg → List SflowCollector × Bool × Nat →
      Result (List SflowCollector × Bool × Nat)
  | [], acc => pure acc
  | collector :: rest, (newCollectors, changed, numExistingProcessed) => do
      let origCollector := findNode origCollectors (collector.ip, collector.port)
      let (newCollector, n) := (match origCollector with
        | some o => (updateSflowCollector o collector, numExistingProcessed + 1)
        | none => (some (createSflowCollector collector), numExistingProcessed))
      let (m, c) ← updateMap newCollectors origCollector newCollector
      updateSflowCollectorsLoop origCollectors rest (m, changed || c, n)

/-- `ThriftConfigApplier::updateSflowCollectors`. -/
def updateSflowCollectors (cfg : SwitchConfig) (origCollectors : NodeMap SflowCollector) :
    Result (Option (NodeMap SflowCollector)) := do
  let (newCollectors, changed, numExistingProcessed) ←
    updateSflowCollectorsLoop origCollectors.nodes cfg.sFlowCollectors ([], false, 0)
  let changed ← (if numExistingProcessed ≠ origCollectors.nodes.length then do
      check (decide (numExistingProcessed < origCollectors.nodes.length))
        "CHECK_LT(numExistingProcessed, origCollectors->size())"
      pure true
    else pure changed)
  if !changed then pure none
  else pure (some (origCollectors.cloneWith newCollectors))

/-- Modelled from the spec: one load balancer of `LoadBalancerConfigApplier`
(LoadBalancerConfigApplier.cpp): "produce an updated node (which may be
no-op, meaning unchanged, detected via full-field comparison before doing any
cloning)". An unset seed is taken as 0. -/
def updateLoadBalancer (orig : Option LoadBalancer) (config : LoadBalancerCfg) :
    Option LoadBalancer :=
  let fresh : LoadBalancer :=
    { id := config.id, fieldSelection := config.fieldSelection, algorithm := config.algorithm,
      seed := config.seed.getD 0 }
  match orig with
  | some o =>
      if { o with toNodeBase := {} } = fresh then none
      else some { fresh with toNodeBase := o.toNodeBase.clone }
  | none => some fresh

/-- Modelled from the spec: the loop of
`LoadBalancerConfigApplier::updateLoadBalancers`, the per-domain diff of the
specification's section 4.3 over the configured load balancers. -/
def updateLoadBalancersLoop (origLoadBalancers : List LoadBalancer) :
    List LoadBalancerCfg → List LoadBalancer × Bool × Nat →
      Result (List LoadBalancer × Bool × Nat)
  | [], acc => pure acc
  | config :: rest, (newLoadBalancers, changed, numExistingProcessed) => do
      let orig := findNode origLoadBalancers config.id
      let n := if orig.isSome then numExistingProcessed + 1 else numExistingProcessed
      let (m, c) ← updateMap newLoadBalancers orig (updateLoadBalancer orig config)
      updateLoadBalancersLoop origLoadBalancers rest (m, changed || c, n)

/-- Modelled from the spec: `LoadBalancerConfigApplier::updateLoadBalancers`
(LoadBalancerConfigApplier.cpp): "If any entity in the domain differs
(new/updated/removed) from the old collection, rebuild the collection and mark
the domain changed; otherwise return no change for the domain." -/
def updateLoadBalancers (cfg : SwitchConfig) (origLoadBalancers : NodeMap LoadBalancer) :
    Result (Option (NodeMap LoadBalancer)) := do
  let (newLoadBalancers, changed, numExistingProcessed) ←
    updateLoadBalancersLoop origLoadBalancers.nodes cfg.loadBalancers ([], false, 0)
  let changed := changed || decide (numExistingProcessed ≠ origLoadBalancers.nodes.length)
  if !changed then pure none
  else pure (some (origLoadBalancers.cloneWith newLoadBalancers))

/-- The loop of `updateForwardingInformationBaseContainers` over `cfg_->interfaces`. -/
def updateFibContainersLoop (origFibs : List FibContainer) :
    List InterfaceCfg → List FibContainer × Bool × Nat →
      Result (List FibContainer × Bool × Nat)
  | [], acc => pure acc
  | interfaceCfg :: rest, (newFibContainers, changed, numExistingProcessed) =>
      let vrf := interfaceCfg.routerID
      if (findNode newFibContainers vrf).isSome then
        updateFibContainersLoop origFibs rest (newFibContainers, changed, numExistingProcessed)
      else do
        let origFibContainer := findNode origFibs vrf
        let (newFibContainer, n) : FibContainer × Nat := (match origFibContainer with
          | some o => (o, numExistingProcessed + 1)
          | none => ({ vrf := vrf }, numExistingProcessed))
        let (m, c) ← updateMap newFibContainers origFibContainer (some newFibContainer)
        updateFibContainersLoop origFibs rest (m, changed || c, n)

/-- `ThriftConfigApplier::updateForwardingInformationBaseContainers`. -/
def updateForwardingInformationBaseContainers (cfg : SwitchConfig)
    (origFibs : NodeMap FibContainer) : Result (Option (NodeMap FibContainer)) := do
  let (newFibContainers, changed, numExistingProcessed) ←
    updateFibContainersLoop origFibs.nodes cfg.interfaces ([], false, 0)
  let changed ← (if numExistingProcessed ≠ origFibs.nodes.length then do
      check (decide (numExistingProcessed ≤ origFibs.nodes.length))
        "CHECK_LE(numExistingProcessed, orig_->getFibs()->size())"
      pure true
    else pure changed)
  if !changed then pure none
  else pure (some (origFibs.cloneWith newFibContainers))

/-! ## Interfaces and the VLAN/interface bindings -/

/-- What the applier asks of the platform: the local MAC address, and the
default LACP system priority (`kDefaultSystemPriority`, LacpTypes.h). -/
structure Platform where
  localMac : MacAddress
  kDefaultSystemPriority : Nat := 65535
  deriving DecidableEq, Repr

/-- `kV6LinkLocalAddrMask` -/
def kV6LinkLocalAddrMask : Nat := 64

/-- `flat_set::insert`: the sorted set with `x`, and whether `x` was new. -/
def insertSet (l : List Nat) (x : Nat) : List Nat × Bool :=
  let r := FlatMap.emplace (l.map fun e => (e, ())) x ()
  (r.1.map (·.1), r.2)

/-- The loop of `updateVlanInterfaces` over the interface's addresses. -/
def addVlanAddresses (intf : Interface) :
    List (IPAddress × Nat) → List (IPAddress × VlanIpInfo) → Result (List (IPAddress × VlanIpInfo))
  | [], addresses => pure addresses
  | ipMask :: rest, addresses => do
      let info : VlanIpInfo := { mask := ipMask.2, mac := intf.mac, interfaceID := intf.id }
      match FlatMap.find? addresses ipMask.1 with
      | none => addVlanAddresses intf rest (FlatMap.emplace addresses ipMask.1 info).1
      | some oldInfo => do
          throwIf (decide (oldInfo.mask ≠ info.mask))
            "VLAN has IP configured multiple times with different masks"
          throwIf (decide (oldInfo.mac ≠ info.mac))
            "VLAN has IP configured multiple times with different MACs"
          addVlanAddresses intf rest addresses

/-- `ThriftConfigApplier::updateVlanInterfaces`, on the entry
`vlanInterfaces_[intf->getVlanID()]`. -/
def updateVlanInterfacesEntry (intf : Interface) (entry : VlanInterfaceInfo) :
    Result VlanInterfaceInfo := do
  let entry ← (if entry.interfaces.isEmpty then pure { entry with routerID := intf.routerID }
    else do
      throwIf (decide (intf.routerID ≠ entry.routerID))
        "VLAN configured in multiple different virtual routers"
      pure entry)
  let intfRet := insertSet entry.interfaces intf.id
  throwIf (!intfRet.2) "interface processed twice for VLAN"
  let addresses ← addVlanAddresses intf intf.addresses entry.addresses
  let linkLocalInfo : VlanIpInfo := { mask := 64, mac := intf.mac, interfaceID := intf.id }
  pure { entry with
    interfaces := intfRet.1
    addresses := (FlatMap.emplace addresses (linkLocalAddr intf.mac) linkLocalInfo).1 }

/-- `ThriftConfigApplier::updateVlanInterfaces`. -/
def updateVlanInterfaces (intf : Interface) (ctx : Ctx) : Result Ctx := do
  let entry ← updateVlanInterfacesEntry intf (FlatMap.getD ctx.vlanInterfaces intf.vlanID {})
  pure { ctx with vlanInterfaces := FlatMap.assign ctx.vlanInterfaces intf.vlanID entry }

/-- `ThriftConfigApplier::getInterfaceName`. -/
def getInterfaceName (config : InterfaceCfg) : String :=
  match config.name with
  | some n => n
  | none => "Interface " ++ toString config.intfID

/-- `ThriftConfigApplier::getInterfaceMac`. -/
def getInterfaceMac (platform : Platform) (config : InterfaceCfg) : MacAddress :=
  match config.mac with
  | some m => m
  | none => platform.localMac

/-- The loop of `getInterfaceAddresses` over `config->ipAddresses`: the
interface's address map and the router's interface-route table. -/
def addInterfaceAddresses (config : InterfaceCfg) :
    List CIDRNetwork → List (IPAddress × Nat) × IntfRoute → Result (List (IPAddress × Nat) × IntfRoute)
  | [], acc => pure acc
  | addr :: rest, (addrs, intfRoute) => do
      let intfAddr := createNetwork addr false
      let ret := FlatMap.emplace addrs intfAddr.1 intfAddr.2
      throwIf (!ret.2) "Duplicate network IP address in interface"
      if intfAddr.1.isV6 && intfAddr.1.isLinkLocal then
        addInterfaceAddresses config rest (ret.1, intfRoute)
      else
        match FlatMap.find? intfRoute (createNetwork addr) with
        | none =>
            addInterfaceAddresses config rest
              (ret.1, (FlatMap.emplace intfRoute (createNetwork addr) (config.intfID, intfAddr.1)).1)
        | some other => do
            throwIf (decide (other.1 ≠ config.intfID))
              "Duplicate network address of interface as another interface in VRF"
            addInterfaceAddresses config rest
              (ret.1, FlatMap.assign intfRoute (createNetwork addr) (config.intfID, intfAddr.1))

/-- `ThriftConfigApplier::getInterfaceAddresses`: the addresses of the interface
(the link-local address derived from the MAC first), with `intfRouteTables_` updated. -/
def getInterfaceAddresses (platform : Platform) (config : InterfaceCfg) (ctx : Ctx) :
    Result (List (IPAddress × Nat) × Ctx) := do
  let macAddr := getInterfaceMac platform config
  let addrs : List (IPAddress × Nat) := [(linkLocalAddr macAddr, kV6LinkLocalAddrMask)]
  let (addrs, intfRoute) ← addInterfaceAddresses config config.ipAddresses
    (addrs, FlatMap.getD ctx.intfRouteTables config.routerID [])
  let tables := if (FlatMap.find? ctx.intfRouteTables config.routerID).isNone ∧ intfRoute.isEmpty
    then ctx.intfRouteTables
    else FlatMap.assign ctx.intfRouteTables config.routerID intfRoute
  pure (addrs, { ctx with intfRouteTables := tables })

/-- `ThriftConfigApplier::createInterface`. -/
def createInterface (platform : Platform) (config : InterfaceCfg) (addrs : List (IPAddress × Nat)) :
    Interface :=
  { id := config.intfID, routerID := config.routerID, vlanID := config.vlanID
    name := getInterfaceName config, mac := getInterfaceMac platform config
    mtu := config.mtu.getD kDefaultMtu, isVirtual := config.isVirtual
    isStateSyncDisabled := config.isStateSyncDisabled
    addresses := addrs, ndpConfig := config.ndp.getD {} }

/-- `ThriftConfigApplier::updateInterface`: `none` is the null pointer (no change). -/
def updateInterface (platform : Platform) (orig : Interface) (config : InterfaceCfg)
    (addrs : List (IPAddress × Nat)) : Result (Option Interface) := do
  check (decide (orig.id = config.intfID)) "CHECK_EQ(orig->getID(), config->intfID)"
  let ndp := config.ndp.getD {}
  let name := getInterfaceName config
  let mac := getInterfaceMac platform config
  let mtu := config.mtu.getD kDefaultMtu
  if orig.routerID = config.routerID ∧ orig.vlanID = config.vlanID ∧ orig.name = name ∧
      orig.mac = mac ∧ orig.addresses = addrs ∧ orig.ndpConfig = ndp ∧ orig.mtu = mtu ∧
      orig.isVirtual = config.isVirtual ∧
      orig.isStateSyncDisabled = config.isStateSyncDisabled then
    pure none
  else
    pure (some { orig with
      toNodeBase := orig.toNodeBase.clone
      routerID := config.routerID
      vlanID := config.vlanID
      name := name
      mac := mac
      addresses := addrs
      ndpConfig := ndp
      mtu := mtu
      isVirtual := config.isVirtual
      isStateSyncDisabled := config.isStateSyncDisabled })

/-- The loop of `updateInterfaces` over `cfg_->interfaces`. -/
def updateInterfacesLoop (platform : Platform) (origIntfs : List Interface) :
    List InterfaceCfg → List Interface × Bool × Nat × Ctx →
      Result (List Interface × Bool × Nat × Ctx)
  | [], acc => pure acc
  | interfaceCfg :: rest, (newIntfs, changed, numExistingProcessed, ctx) => do
      let origIntf := findNode origIntfs interfaceCfg.intfID
      let (newAddrs, ctx) ← getInterfaceAddresses platform interfaceCfg ctx
      let (newIntf, n) ← (match origIntf with
        | some o => do
            let r ← updateInterface platform o interfaceCfg newAddrs
            pure (r, numExistingProcessed + 1)
        | none => pure (some (createInterface platform interfaceCfg newAddrs), numExistingProcessed))
      let ctx ← (match newIntf, origIntf with
        | some i, _ => updateVlanInterfaces i ctx
        | none, some o => updateVlanInterfaces o ctx
        | none, none => .error (.undefinedBehaviour "null interface"))
      let (m, c) ← updateMap newIntfs origIntf newIntf
      updateInterfacesLoop platform origIntfs rest (m, changed || c, n, ctx)

/-- `ThriftConfigApplier::updateInterfaces`: the new map (or null) and the
context with `vlanInterfaces_` and `intfRouteTables_` filled. -/
def updateInterfaces (platform : Platform) (cfg : SwitchConfig) (origIntfs : NodeMap Interface)
    (ctx : Ctx) : Result (Option (NodeMap Interface) × Ctx) := do
  let (newIntfs, changed, numExistingProcessed, ctx) ←
    updateInterfacesLoop platform origIntfs.nodes cfg.interfaces ([], false, 0, ctx)
  let changed ← (if numExistingProcessed ≠ origIntfs.nodes.length then do
      check (decide (numExistingProcessed < origIntfs.nodes.length))
        "CHECK_LT(numExistingProcessed, origIntfs->size())"
      pure true
    else pure changed)
  if !changed then pure (none, ctx)
  else pure (some (origIntfs.cloneWith newIntfs), ctx)

/-! ## VLANs -/

/-- `ThriftConfigApplier::updateNeighborResponseTables`: the VLAN with its ARP
and NDP response tables rebuilt from `vlanInterfaces_`, and whether either changed. -/
def updateNeighborResponseTables (ctx : Ctx) (vlan : Vlan) (config : VlanCfg) : Vlan × Bool :=
  let addresses := match FlatMap.find? ctx.vlanInterfaces config.id with
    | some info => info.addresses
    | none => []
  let entries := addresses.map fun a =>
    (a.1, ({ mac := a.2.mac, interfaceID := a.2.interfaceID } : NeighborResponseEntry))
  let arpTable := entries.filter fun e => e.1.isV4
  let ndpTable := entries.filter fun e => !e.1.isV4
  let changedArp := decide (vlan.arpResponseTable ≠ arpTable)
  let changedNdp := decide (vlan.ndpResponseTable ≠ ndpTable)
  ({ vlan with
      arpResponseTable := if changedArp then arpTable else vlan.arpResponseTable
      ndpResponseTable := if changedNdp then ndpTable else vlan.ndpResponseTable },
   changedArp || changedNdp)

/-- `ThriftConfigApplier::updateDhcpOverrides`. -/
def updateDhcpOverrides (vlan : Vlan) (config : VlanCfg) : Vlan × Bool :=
  let newV4 := config.dhcpRelayOverridesV4.foldl (fun m e => FlatMap.assign m e.1 e.2) []
  let newV6 := config.dhcpRelayOverridesV6.foldl (fun m e => FlatMap.assign m e.1 e.2) []
  let changedV4 := decide (vlan.dhcpRelayOverridesV4 ≠ newV4)
  let changedV6 := decide (vlan.dhcpRelayOverridesV6 ≠ newV6)
  ({ vlan with
      dhcpRelayOverridesV4 := if changedV4 then newV4 else vlan.dhcpRelayOverridesV4
      dhcpRelayOverridesV6 := if changedV6 then newV6 else vlan.dhcpRelayOverridesV6 },
   changedV4 || changedV6)

/-- The interface id a VLAN gets when its config sets no `intfID`: the first
interface recorded for the VLAN. Reading `vlanInterfaces_[id]` creates the
entry when there is none. -/
def vlanInterfaceFromCtx (ctx : Ctx) (id : VlanID) : Option InterfaceID × Ctx :=
  match FlatMap.find? ctx.vlanInterfaces id with
  | some entry => (entry.interfaces.head?, ctx)
  | none => (none, { ctx with vlanInterfaces := FlatMap.assign ctx.vlanInterfaces id {} })

/-- Modelled from the spec: the constructor `Vlan(const cfg::Vlan*, MemberPorts)`
(Vlan.cpp): a VLAN with the config's id, name, explicit interface id and DHCP
relay addresses (zero when unset) and the given member ports. -/
def Vlan.ofConfig (config : VlanCfg) (ports : List (PortID × Bool)) : Vlan :=
  { id := config.id, name := config.name, interfaceID := config.intfID.getD 0
    dhcpV4Relay := config.dhcpRelayAddressV4.getD (.v4 0)
    dhcpV6Relay := config.dhcpRelayAddressV6.getD (.v6 0)
    ports := ports }

/-- `ThriftConfigApplier::createVlan`. -/
def createVlan (ctx : Ctx) (config : VlanCfg) : Vlan × Ctx :=
  let ports := FlatMap.getD ctx.vlanPorts config.id []
  let vlan := Vlan.ofConfig config ports
  let vlan := (updateNeighborResponseTables ctx vlan config).1
  let vlan := (updateDhcpOverrides vlan config).1
  match config.intfID with
  | some i => ({ vlan with interfaceID := i }, ctx)
  | none =>
      let r := vlanInterfaceFromCtx ctx config.id
      match r.1 with
      | some i => ({ vlan with interfaceID := i }, r.2)
      | none => (vlan, r.2)

/-- `ThriftConfigApplier::updateVlan`: `none` is the null pointer (no change). -/
def updateVlan (ctx : Ctx) (orig : Vlan) (config : VlanCfg) : Result (Option Vlan × Ctx) := do
  check (decide (orig.id = config.id)) "CHECK_EQ(orig->getID(), config->id)"
  let ports := FlatMap.getD ctx.vlanPorts orig.id []
  let newVlan : Vlan := { orig with toNodeBase := orig.toNodeBase.clone }
  let (newVlan, changed_neighbor_table) := updateNeighborResponseTables ctx newVlan config
  let (newVlan, changed_dhcp_overrides) := updateDhcpOverrides newVlan config
  let newDhcpV4Relay := config.dhcpRelayAddressV4.getD (.v4 0)
  let newDhcpV6Relay := config.dhcpRelayAddressV6.getD (.v6 0)
  let (newIntfID, ctx) : InterfaceID × Ctx := (match config.intfID with
    | some i => (i, ctx)
    | none =>
        let r := vlanInterfaceFromCtx ctx config.id
        (r.1.getD 0, r.2))
  if orig.name = config.name ∧ orig.interfaceID = newIntfID ∧ orig.ports = ports ∧
      orig.dhcpV4Relay = newDhcpV4Relay ∧ orig.dhcpV6Relay = newDhcpV6Relay ∧
      !changed_neighbor_table ∧ !changed_dhcp_overrides then
    pure (none, ctx)
  else
    pure (some { newVlan with
      name := config.name
      interfaceID := newIntfID
      ports := ports
      dhcpV4Relay := newDhcpV4Relay
      dhcpV6Relay := newDhcpV6Relay }, ctx)

/-- The loop of `updateVlans` over `cfg_->vlans`. -/
def updateVlansLoop (origVlans : List Vlan) :
    List VlanCfg → List Vlan × Bool × Nat × Ctx → Result (List Vlan × Bool × Nat × Ctx)
  | [], acc => pure acc
  | vlanCfg :: rest, (newVlans, changed, numExistingProcessed, ctx) => do
      let origVlan := findNode origVlans vlanCfg.id
      let (newVlan, n, ctx) ← (match origVlan with
        | some o => do
            let r ← updateVlan ctx o vlanCfg
            pure (r.1, numExistingProcessed + 1, r.2)
        | none =>
            let r := createVlan ctx vlanCfg
            pure (some r.1, numExistingProcessed, r.2))
      let (m, c) ← updateMap newVlans origVlan newVlan
      updateVlansLoop origVlans rest (m, changed || c, n, ctx)

/-- `ThriftConfigApplier::updateVlans`. -/
def updateVlans (cfg : SwitchConfig) (origVlans : NodeMap Vlan) (ctx : Ctx) :
    Result (Option (NodeMap Vlan) × Ctx) := do
  let (newVlans, changed, numExistingProcessed, ctx) ←
    updateVlansLoop origVlans.nodes cfg.vlans ([], false, 0, ctx)
  let changed ← (if numExistingProcessed ≠ origVlans.nodes.length then do
      check (decide (numExistingProcessed < origVlans.nodes.length))
        "CHECK_LT(numExistingProcessed, origVlans->size())"
      pure true
    else pure changed)
  if !changed then pure (none, ctx)
  else pure (some (origVlans.cloneWith newVlans), ctx)

/-! ## Routes -/

/-- `AdminDistance::DIRECTLY_CONNECTED` -/
def adminDistanceDirectlyConnected : Nat := 0

/-- `AdminDistance::STATIC_ROUTE` -/
def adminDistanceStaticRoute : Nat := 1

/-- `UCMP_DEFAULT_WEIGHT` -/
def ucmpDefaultWeight : Nat := 0

instance instDecidableEqRoutes : DecidableEq (List (CIDRNetwork × RouteEntries)) :=
  inferInstance

/-- Modelled from the spec: `RouteUpdater` (RouteUpdater.cpp), a working copy
of the route tables, "keyed by (router, prefix)", each route owning "a
client→next-hop-set map". -/
structure RouteUpdater where
  orig : NodeMap RouteTable
  tables : List (RouterID × List (CIDRNetwork × RouteEntries))
  deriving DecidableEq, Repr

/-- Modelled from the spec: `RouteUpdater(routeTables)`. -/
def RouteUpdater.init (orig : NodeMap RouteTable) : RouteUpdater :=
  { orig := orig, tables := orig.nodes.map fun t => (t.id, t.routes) }

/-- Modelled from the spec: `RouteUpdater::addRoute`: "upsert" the client's
next-hop entry on the route of the masked network in the router's table. -/
def RouteUpdater.addRoute (u : RouteUpdater) (router : RouterID) (network : IPAddress)
    (mask : Nat) (client : ClientID) (entry : RouteNextHopEntry) : RouteUpdater :=
  let table := FlatMap.getD u.tables router []
  let key : CIDRNetwork := (network.mask mask, mask)
  let entries := FlatMap.assign (FlatMap.getD table key []) client entry
  { u with tables := FlatMap.assign u.tables router (FlatMap.assign table key entries) }

/-- Remove the client's entry from every route the predicate selects; a route
left without an entry is removed. -/
def removeClientEntries (client : ClientID) (sel : CIDRNetwork → Bool)
    (table : List (CIDRNetwork × RouteEntries)) : List (CIDRNetwork × RouteEntries) :=
  (table.map fun r => if sel r.1 then (r.1, FlatMap.erase r.2 client) else r).filter
    fun r => !r.2.isEmpty

/-- Modelled from the spec: `RouteUpdater::delRoute`: delete the client's
entry on the route of the masked network in the router's table. -/
def RouteUpdater.delRoute (u : RouteUpdater) (router : RouterID) (network : IPAddress)
    (mask : Nat) (client : ClientID) : RouteUpdater :=
  match FlatMap.find? u.tables router with
  | none => u
  | some table =>
      { u with
        tables := FlatMap.assign u.tables router
          (removeClientEntries client (fun n => decide (n = (network.mask mask, mask))) table) }

/-- Modelled from the spec: `RouteUpdater::removeAllRoutesForClient`: "remove
all existing routes owned by the static-route client identifier for the"
given router. -/
def RouteUpdater.removeAllRoutesForClient (u : RouteUpdater) (router : RouterID)
    (client : ClientID) : RouteUpdater :=
  match FlatMap.find? u.tables router with
  | none => u
  | some table =>
      { u with
        tables := FlatMap.assign u.tables router (removeClientEntries client (fun _ => true) table) }

/-- The IPv6 link-local subnet `fe80::/64`. -/
def linkLocalNetwork : CIDRNetwork := (.v6 (0xfe80 * 2 ^ 112), 64)

/-- Modelled from the spec: `RouteUpdater::addLinkLocalRoutes`: the router's
"implicit IPv6 link-local subnet route". -/
def RouteUpdater.addLinkLocalRoutes (u : RouteUpdater) (router : RouterID) : RouteUpdater :=
  u.addRoute router linkLocalNetwork.1 linkLocalNetwork.2 .linkLocalRoute
    { action := .toCpu, adminDistance := adminDistanceDirectlyConnected }

/-- Modelled from the spec: `RouteUpdater::delLinkLocalRoutes`. -/
def RouteUpdater.delLinkLocalRoutes (u : RouteUpdater) (router : RouterID) : RouteUpdater :=
  u.delRoute router linkLocalNetwork.1 linkLocalNetwork.2 .linkLocalRoute

/-- Modelled from the spec: `RouteUpdater::updateDone`: null when the tables
hold what the original map holds; else a new map, in which a table whose
routes changed is a new node and a table without routes is left out. -/
def RouteUpdater.updateDone (u : RouteUpdater) : Option (NodeMap RouteTable) :=
  let kept := u.tables.filter fun t => !t.2.isEmpty
  if kept = u.orig.nodes.map (fun t => (t.id, t.routes)) then none
  else
    some (u.orig.cloneWith (kept.map fun t =>
      match findNode u.orig.nodes t.1 with
      | some o => if o.routes = t.2 then o
          else { o with toNodeBase := o.toNodeBase.clone, routes := t.2 }
      | none => { id := t.1, routes := t.2 }))

/-- First loop of `updateInterfaceRoutes`: "add or update the interface
routes" of one router's table. -/
def addInterfaceRoutes (router : RouterID) (entries : IntfRoute) (u : RouteUpdater) :
    RouteUpdater :=
  entries.foldl (fun u entry =>
    u.addRoute router entry.2.2 entry.1.2 .interfaceRoute
      { action := .nexthops
        nhopSet := [{ addr := entry.2.2, intf := some entry.2.1, weight := ucmpDefaultWeight }]
        adminDistance := adminDistanceDirectlyConnected }) u

/-- Second loop of `updateInterfaceRoutes`, for one interface of the old
state: its connected routes that the new tables no longer hold are deleted. -/
def delStaleInterfaceRoutes (intfRouteTables : List (RouterID × IntfRoute)) (intf : Interface)
    (u : RouteUpdater) : RouteUpdater :=
  let newAddrs := FlatMap.find? intfRouteTables intf.routerID
  intf.addresses.foldl (fun u addr =>
    let pfx : CIDRNetwork := (addr.1.mask addr.2, addr.2)
    let found := match newAddrs with
      | some t => (FlatMap.find? t pfx).isSome
      | none => false
    if found then u else u.delRoute intf.routerID addr.1 addr.2 .interfaceRoute) u

/-- `ThriftConfigApplier::updateInterfaceRoutes`. -/
def updateInterfaceRoutes (orig : SwitchState) (ctx : Ctx) : Option (NodeMap RouteTable) :=
  let updater := RouteUpdater.init orig.routeTables
  let updater := ctx.intfRouteTables.foldl (fun u table => addInterfaceRoutes table.1 table.2 u)
    updater
  let newToAddTables := ctx.intfRouteTables.map (·.1)
  let oldToDeleteTables := orig.interfaces.nodes.foldl (fun acc intf =>
    if (FlatMap.find? ctx.intfRouteTables intf.routerID).isNone then (insertSet acc intf.routerID).1
    else acc) []
  let updater := orig.interfaces.nodes.foldl
    (fun u intf => delStaleInterfaceRoutes ctx.intfRouteTables intf u) updater
  let updater := oldToDeleteTables.foldl (fun u id => u.delLinkLocalRoutes id) updater
  let updater := newToAddTables.foldl (fun u id => u.addLinkLocalRoutes id) updater
  updater.updateDone

/-- `ThriftConfigApplier::syncStaticRoutes`: every route of the static client
is removed from router 0, then the configured static routes are added to the
routers they name. -/
def syncStaticRoutes (cfg : SwitchConfig) (routes : NodeMap RouteTable) :
    Option (NodeMap RouteTable) :=
  let updater := RouteUpdater.init routes
  let updater := updater.removeAllRoutesForClient 0 .staticRoute
  let updater := if cfg.staticRoutesToNull.isset then
      cfg.staticRoutesToNull.value.foldl (fun u route =>
        let pfx := createNetwork route.network
        u.addRoute route.routerID pfx.1 pfx.2 .staticRoute
          { action := .drop, adminDistance := adminDistanceStaticRoute }) updater
    else updater
  let updater := if cfg.staticRoutesToCPU.isset then
      cfg.staticRoutesToCPU.value.foldl (fun u route =>
        let pfx := createNetwork route.network
        u.addRoute route.routerID pfx.1 pfx.2 .staticRoute
          { action := .toCpu, adminDistance := adminDistanceStaticRoute }) updater
    else updater
  let updater := if cfg.staticRoutesWithNhops.isset then
      cfg.staticRoutesWithNhops.value.foldl (fun u route =>
        let pfx := createNetwork route.network
        let nhops := route.nexthops.foldl (fun s nhop =>
          (FlatMap.emplace s nhop ()).1) ([] : List (IPAddress × Unit))
        u.addRoute route.routerID pfx.1 pfx.2 .staticRoute
          { action := .nexthops
            nhopSet := nhops.map fun n => { addr := n.1, intf := none, weight := ucmpDefaultWeight }
            adminDistance := adminDistanceStaticRoute }) updater
    else updater
  updater.updateDone

/-! ## The orchestrator (`ThriftConfigApplier::run`) -/

/-- The external routing-information base, when one is supplied:
`rib_->reconfigure(...)` computes the forwarding tables from the interface
routes and the configured static routes, and the callback `updateFibFromConfig`
folds them into the FIB containers of `new_`. -/
structure RoutingInformationBase where
  reconfigure : List (RouterID × IntfRoute) → SwitchConfig → NodeMap FibContainer →
    Result (NodeMap FibContainer)

/-- The variables of `run`: the state being built, the changed flag and the
scratch maps. -/
structure Pass where
  new_ : SwitchState
  changed : Bool := false
  ctx : Ctx := {}
  deriving DecidableEq, Repr

/-- The pattern `if (newNode) { new_->resetX(newNode); changed = true; }` of `run`. -/
def Pass.reset {α : Type} (p : Pass) (newNode : Option α) (set : SwitchState → α → SwitchState) :
    Pass :=
  match newNode with
  | some n => { p with new_ := set p.new_ n, changed := true }
  | none => p

/-- The pattern `if (old != new) { new_->setX(new); changed = true; }` of `run`. -/
def Pass.setIf (p : Pass) (differs : Bool) (set : SwitchState → SwitchState) : Pass :=
  if differs then { p with new_ := set p.new_, changed := true } else p

/-- `run`, from its start to `updateAggregatePorts`. -/
def runPorts (platform : Platform) (orig : SwitchState) (cfg : SwitchConfig) : Result Pass := do
  let p : Pass := { new_ := orig.clone }
  let p := p.reset (updateSwitchSettings cfg orig.switchSettings)
    fun s n => { s with switchSettings := n }
  let newControlPlane ← updateControlPlane cfg orig.controlPlane
  let p := p.reset newControlPlane fun s n => { s with controlPlane := n }
  let ctx ← processVlanPorts cfg p.ctx
  let p := { p with ctx := ctx }
  let newPorts ← updatePorts cfg p.ctx orig.ports
  let p := p.reset newPorts fun s n => { s with ports := n }
  let newAggPorts ← updateAggregatePorts cfg.lacp platform.localMac
    platform.kDefaultSystemPriority orig.aggregatePorts cfg.aggregatePorts
  pure (p.reset newAggPorts fun s n => { s with aggregatePorts := n })

/-- `run`, from `updateMirrors` to the default data-plane QoS policy. The
root's default policy is set to the one `updateDataplaneDefaultQosPolicy`
returns; `changed` is not touched there. -/
def runPolicies (orig : SwitchState) (cfg : SwitchConfig) (p : Pass) : Result Pass := do
  let newMirrors ← updateMirrors cfg orig.mirrors p.new_.ports.nodes
  let p := p.reset newMirrors fun s n => { s with mirrors := n }
  let newAcls ← updateAcls cfg orig.acls p.new_.mirrors.nodes
  let p := p.reset newAcls fun s n => { s with acls := n }
  let newQosPolicies ← updateQosPolicies cfg orig.qosPolicies
  let p := p.reset newQosPolicies fun s n => { s with qosPolicies := n }
  let newDefaultQosPolicy ← updateDataplaneDefaultQosPolicy cfg orig.defaultDataPlaneQosPolicy
  pure { p with new_ := { p.new_ with defaultDataPlaneQosPolicy := newDefaultQosPolicy } }

/-- `run`, `updateInterfaces` and `updateVlans`. -/
def runInterfaces (platform : Platform) (orig : SwitchState) (cfg : SwitchConfig) (p : Pass) :
    Result Pass := do
  let (newIntfs, ctx) ← updateInterfaces platform cfg orig.interfaces p.ctx
  let p := { p with ctx := ctx }
  let p := p.reset newIntfs fun s n => { s with interfaces := n }
  let (newVlans, ctx) ← updateVlans cfg orig.vlans p.ctx
  let p := { p with ctx := ctx }
  pure (p.reset newVlans fun s n => { s with vlans := n })

/-- `run`, the route part: with an external RIB the FIB containers and
`rib_->reconfigure`, else `updateInterfaceRoutes` and `syncStaticRoutes`. -/
def runRoutes (rib : Option RoutingInformationBase) (orig : SwitchState) (cfg : SwitchConfig)
    (p : Pass) : Result Pass :=
  match rib with
  | some r => do
      let newFibs ← updateForwardingInformationBaseContainers cfg orig.fibs
      let p := p.reset newFibs fun s n => { s with fibs := n }
      let fibs ← r.reconfigure p.ctx.intfRouteTables cfg p.new_.fibs
      pure { p with new_ := { p.new_ with fibs := fibs } }
  | none =>
      let p := p.reset (updateInterfaceRoutes orig p.ctx) fun s n => { s with routeTables := n }
      let p := p.reset (syncStaticRoutes cfg p.new_.routeTables)
        fun s n => { s with routeTables := n }
      pure p

/-- The loop of `run` over `vlanInterfaces_`: "Make sure all interfaces refer to
valid VLANs" and "Make sure there is a one-to-one map between vlan and interface". -/
def checkVlanInterfaces (newVlans : List Vlan) (cpuVlan : VlanID) :
    List (VlanID × VlanInterfaceInfo) → Result Unit
  | [] => pure ()
  | vlanInfo :: rest => do
      throwIf (findNode newVlans vlanInfo.1).isNone "Interface refers to non-existent VLAN"
      throwIf (decide (vlanInfo.2.interfaces.length ≠ 1) && decide (vlanInfo.1 ≠ cpuVlan))
        "Vlan refers to a number of interfaces other than one"
      checkVlanInterfaces newVlans cpuVlan rest

/-- `run`, the default VLAN and the checks over `vlanInterfaces_`. -/
def runValidate (orig : SwitchState) (cfg : SwitchConfig) (p : Pass) : Result Pass := do
  let newVlans := p.new_.vlans
  let dfltVlan := cfg.defaultVlan
  throwIf (decide (orig.defaultVlan ≠ dfltVlan) && (findNode newVlans.nodes dfltVlan).isNone)
    "Default VLAN does not exist"
  let p := p.setIf (decide (orig.defaultVlan ≠ dfltVlan)) fun s => { s with defaultVlan := dfltVlan }
  checkVlanInterfaces newVlans.nodes p.new_.defaultVlan p.ctx.vlanInterfaces
  pure p

/-- `run`, the scalar fields: ARP ager interval, ARP/NDP timeout, maximum
neighbor probes, DHCP relay/reply source overrides, stale-entry interval. -/
def runScalars (orig : SwitchState) (cfg : SwitchConfig) (p : Pass) : Pass :=
  let p := p.setIf (decide (orig.arpAgerInterval ≠ cfg.arpAgerInterval))
    fun s => { s with arpAgerInterval := cfg.arpAgerInterval }
  let p := p.setIf (decide (orig.arpTimeout ≠ cfg.arpTimeoutSeconds))
    fun s => { s with arpTimeout := cfg.arpTimeoutSeconds, ndpTimeout := cfg.arpTimeoutSeconds }
  let p := p.setIf (decide (orig.maxNeighborProbes ≠ cfg.maxNeighborProbes))
    fun s => { s with maxNeighborProbes := cfg.maxNeighborProbes }
  let p := p.setIf (decide (orig.dhcpV4RelaySrc ≠ cfg.dhcpRelaySrcOverrideV4.getD (.v4 0)))
    fun s => { s with dhcpV4RelaySrc := cfg.dhcpRelaySrcOverrideV4.getD (.v4 0) }
  let p := p.setIf (decide (orig.dhcpV6RelaySrc ≠ cfg.dhcpRelaySrcOverrideV6.getD (.v6 0)))
    fun s => { s with dhcpV6RelaySrc := cfg.dhcpRelaySrcOverrideV6.getD (.v6 0) }
  let p := p.setIf (decide (orig.dhcpV4ReplySrc ≠ cfg.dhcpReplySrcOverrideV4.getD (.v4 0)))
    fun s => { s with dhcpV4ReplySrc := cfg.dhcpReplySrcOverrideV4.getD (.v4 0) }
  let p := p.setIf (decide (orig.dhcpV6ReplySrc ≠ cfg.dhcpReplySrcOverrideV6.getD (.v6 0)))
    fun s => { s with dhcpV6ReplySrc := cfg.dhcpReplySrcOverrideV6.getD (.v6 0) }
  p.setIf (decide (orig.staleEntryInterval ≠ cfg.staleEntryInterval))
    fun s => { s with staleEntryInterval := cfg.staleEntryInterval }

/-- `run`, sFlow collectors and load balancers. -/
def runCollectors (orig : SwitchState) (cfg : SwitchConfig) (p : Pass) : Result Pass := do
  let newCollectors ← updateSflowCollectors cfg orig.sflowCollectors
  let p := p.reset newCollectors fun s n => { s with sflowCollectors := n }
  let newLoadBalancers ← updateLoadBalancers cfg orig.loadBalancers
  pure (p.reset newLoadBalancers fun s n => { s with loadBalancers := n })

/-- `ThriftConfigApplier::run`, up to the final `if (!changed)`. -/
def runPass (platform : Platform) (rib : Option RoutingInformationBase) (orig : SwitchState)
    (cfg : SwitchConfig) : Result Pass := do
  let p ← runPorts platform orig cfg
  let p ← runPolicies orig cfg p
  let p ← runInterfaces platform orig cfg p
  let p ← runRoutes rib orig cfg p
  let p ← runValidate orig cfg p
  let p := runScalars orig cfg p
  runCollectors orig cfg p

/-- `ThriftConfigApplier::run`: `none` is the null pointer, the "unchanged" sentinel. -/
def run (platform : Platform) (rib : Option RoutingInformationBase) (orig : SwitchState)
    (cfg : SwitchConfig) : Result (Option SwitchState) := do
  let p ← runPass platform rib orig cfg
  if !p.changed then pure none else pure (some p.new_)

/-- `applyThriftConfig`. -/
def applyThriftConfig (state : SwitchState) (cfg : SwitchConfig) (platform : Platform)
    (rib : Option RoutingInformationBase := none) : Result (Option SwitchState) :=
  run platform rib state cfg

/-! ## Invariants and derived notions the theorems are stated with -/

/-- The keys of a `flat_map` are in strictly increasing order. -/
def FlatMap.SortedKeys {K V : Type} [KeyOrder K] (l : List (K × V)) : Prop :=
  l.Pairwise fun a b => KeyOrder.lt a.1 b.1 = true

/-- The tag mode `portVlans_` binds for port `p` and VLAN `v`, if any. -/
def Ctx.portVlan (ctx : Ctx) (p : PortID) (v : VlanID) : Option Bool :=
  FlatMap.find? (FlatMap.getD ctx.portVlans p []) v

/-- The tag mode `vlanPorts_` binds for VLAN `v` and port `p`, if any. -/
def Ctx.vlanPort (ctx : Ctx) (v : VlanID) (p : PortID) : Option Bool :=
  FlatMap.find? (FlatMap.getD ctx.vlanPorts v []) p

/-- The two binding maps are made of sorted inner maps and are transposes of
each other. -/
structure Ctx.BindingsConsistent (ctx : Ctx) : Prop where
  sortedPort : ∀ p, FlatMap.SortedKeys (FlatMap.getD ctx.portVlans p [])
  sortedVlan : ∀ v, FlatMap.SortedKeys (FlatMap.getD ctx.vlanPorts v [])
  transpose : ∀ p v, ctx.portVlan p v = ctx.vlanPort v p

/-- The context after `processVlanPorts` has gone through one entry that is
not bound yet. -/
def Ctx.bind (ctx : Ctx) (vp : VlanPortCfg) : Ctx :=
  { ctx with
    portVlans := FlatMap.assign ctx.portVlans vp.logicalPort
      (FlatMap.emplace (FlatMap.getD ctx.portVlans vp.logicalPort []) vp.vlanID vp.emitTags).1
    vlanPorts := FlatMap.assign ctx.vlanPorts vp.vlanID
      (FlatMap.emplace (FlatMap.getD ctx.vlanPorts vp.vlanID []) vp.logicalPort vp.emitTags).1 }

/-- The containers a loop of `updateMap` calls passes through: for each config
entry `c`, in order, a node whose id is `key c` is put into the container by
`emplace`, which succeeds. -/
inductive EmplaceChain {Cfg Node K : Type} [HasID Node K] [DecidableEq K] [KeyOrder K]
    (key : Cfg → K) : List Cfg → List Node → List Node → Prop
  | nil (m : List Node) : EmplaceChain key [] m m
  | cons {c : Cfg} {cs : List Cfg} {m m1 m' : List Node} {x : Node} :
      HasID.getID x = key c → emplaceNode m x = some m1 → EmplaceChain key cs m1 m' →
      EmplaceChain key (c :: cs) m m'

/-- The queue `createPortQueue` builds, field by field, once the AQM list has
passed `checkPortQueueAQMValid`. -/
def createdPortQueue (cfg : PortQueueCfg) (trafficClass : Option Nat) : PortQueue :=
  { id := (cfg.id % 256).toNat
    streamType := cfg.streamType
    scheduling := cfg.scheduling
    weight := if cfg.weight.isset then cfg.weight.value else 1
    reservedBytes := if cfg.reservedBytes.isset then some cfg.reservedBytes.value else none
    scalingFactor := if cfg.scalingFactor.isset then some cfg.scalingFactor.value else none
    name := if cfg.name.isset then some cfg.name.value else none
    sharedBytes := if cfg.sharedBytes.isset then some cfg.sharedBytes.value else none
    aqms := if cfg.aqms.isset then resetAqms cfg.aqms.value else []
    portQueueRate := if cfg.portQueueRate.isset then some cfg.portQueueRate.value else none
    bandwidthBurstMinKbits :=
      if cfg.bandwidthBurstMinKbits.isset then some cfg.bandwidthBurstMinKbits.value else none
    bandwidthBurstMaxKbits :=
      if cfg.bandwidthBurstMaxKbits.isset then some cfg.bandwidthBurstMaxKbits.value else none
    trafficClass := trafficClass }

/-- The tables name every value at most once and `namesToValues` inverts
`valuesToNames`, as tables generated from one enum declaration do. -/
def EnumNames.Lawful {α : Type} (t : EnumNames α) : Prop :=
  ∀ v n, t.valuesToNames v = some n → t.namesToValues n = some v

/-- The queue is a value of the C++ type `PortQueueFields`: its id is a
`uint8_t`, its traffic class a `uint16_t`, its enum fields hold enumerators
(values the tables name), and its AQM map is sorted by key. -/
structure PortQueue.WellFormed (t : PortQueueEnumNames) (q : PortQueue) : Prop where
  id_lt : q.id < 256
  trafficClass_lt : ∀ tc, q.trafficClass = some tc → tc < 2 ^ 16
  streamType_named : (t.streamType.valuesToNames q.streamType).isSome = true
  scheduling_named : (t.scheduling.valuesToNames q.scheduling).isSome = true
  scalingFactor_named : ∀ v, q.scalingFactor = some v →
    (t.scalingFactor.valuesToNames v).isSome = true
  aqms_sorted : FlatMap.SortedKeys q.aqms

/-- The DENY entries of the config's `acls` list, in config order. -/
def denyAcls (cfg : SwitchConfig) : List AclEntryCfg :=
  cfg.acls.filter fun a => decide (a.actionType = .deny)

/-- The matcher list of the CPU traffic policy (empty when the config has none). -/
def cpuMatchToAction (cfg : SwitchConfig) : List MatchToAction :=
  match cfg.cpuTrafficPolicy with
  | some cpu =>
      match cpu.trafficPolicy with
      | some policy => policy.matchToAction
      | none => []
  | none => []

/-- The matcher list of the data-plane traffic policy (empty when the config has none). -/
def dataMatchToAction (cfg : SwitchConfig) : List MatchToAction :=
  match cfg.dataPlaneTrafficPolicy with
  | some policy => policy.matchToAction
  | none => []

/-- The matchers of a policy that name an ACL of the config which is not a DENY
entry, in policy order. -/
def nonDenyMatchers (cfg : SwitchConfig) (mtas : List MatchToAction) : List MatchToAction :=
  mtas.filter fun mta =>
    match aclByName cfg.acls mta.matcher with
    | some a => decide (a.actionType ≠ .deny)
    | none => false

/-! ## Example states and configs -/

/-- A platform whose local MAC address is 02:00:00:00:00:01. -/
def examplePlatform : Platform := { localMac := 0x020000000001 }

/-- A state without any node whose scalar fields hold the defaults of
`cfg::SwitchConfig`. -/
def settledState : SwitchState :=
  { arpAgerInterval := 5, arpTimeout := 60, ndpTimeout := 60, maxNeighborProbes := 300,
    staleEntryInterval := 10 }

/-- A published map of four published ports with the fields of newly made
ports, as `portsV0` of `TEST(PortMap, applyConfig)`. -/
def portsV0 : NodeMap Port :=
  { published := true
    nodes := [{ id := 1, name := "port1", published := true },
              { id := 2, name := "port2", published := true },
              { id := 3, name := "port3", published := true },
              { id := 4, name := "port4", published := true }] }

/-- A config that lists the four ports and enables port 2 only. -/
def cfgEnablePort2 : SwitchConfig :=
  { ports := [{ logicalID := 1, name := "port1" },
              { logicalID := 2, name := "port2", state := .enabled },
              { logicalID := 3, name := "port3" },
              { logicalID := 4, name := "port4" }] }

/-- A published map of four published, enabled ports. -/
def portsEnabled : NodeMap Port :=
  { published := true
    nodes := [{ id := 1, name := "port1", adminState := .enabled, published := true },
              { id := 2, name := "port2", adminState := .enabled, published := true },
              { id := 3, name := "port3", adminState := .enabled, published := true },
              { id := 4, name := "port4", adminState := .enabled, published := true }] }

/-- The settled state with the four enabled ports. -/
def stateFourPorts : SwitchState := { settledState with ports := portsEnabled }

/-- A config that enables ports 1, 2 and 4 and leaves port 3 out, as the last
config of `TEST(PortMap, applyConfig)`. -/
def cfgWithoutPort3 : SwitchConfig :=
  { ports := [{ logicalID := 1, name := "port1", state := .enabled },
              { logicalID := 2, name := "port2", state := .enabled },
              { logicalID := 4, name := "port4", state := .enabled }] }

/-- A state whose port 1 expects the LLDP value "sysA" for tag 1. -/
def lldpState : SwitchState :=
  { settledState with
    ports := { nodes := [{ id := 1, name := "port1", expectedLLDPValues := [(1, "sysA")],
                           published := true }] } }

/-- A config whose port 1 expects the LLDP value "portB" for tag 2, and
nothing for tag 1. -/
def lldpCfg : SwitchConfig :=
  { ports := [{ logicalID := 1, name := "port1", expectedLLDPValues := [(2, "portB")] }] }

/-- A config whose port 1 expects the LLDP value "sysA" for tag 1. -/
def lldpCfgFirst : SwitchConfig :=
  { ports := [{ logicalID := 1, name := "port1", expectedLLDPValues := [(1, "sysA")] }] }

/-- A state whose port 1 has no lookup class. -/
def lookupState : SwitchState :=
  { settledState with ports := { nodes := [{ id := 1, name := "port1", published := true }] } }

/-- A config whose port 1 differs from the port of `lookupState` in its lookup
classes only. -/
def lookupCfg : SwitchConfig :=
  { ports := [{ logicalID := 1, name := "port1", lookupClasses := [10] }] }

/-- A state reconciled with the default QoS policy "qp" that maps DSCP 1 to
queue 0: its port and its control plane use the policy, its root holds it. -/
def qosState : SwitchState :=
  { settledState with
    controlPlane := { qosPolicy := some "qp", published := true }
    ports := { nodes := [{ id := 1, name := "port1", qosPolicy := some "qp", published := true }] }
    defaultDataPlaneQosPolicy := some { name := "qp", dscpMap := [(0, 1)], published := true } }

/-- A config whose default data-plane QoS policy "qp" maps DSCP 2, not DSCP 1,
to queue 0. -/
def qosCfg : SwitchConfig :=
  { ports := [{ logicalID := 1, name := "port1" }]
    qosPolicies := [{ name := "qp", rules := [{ queueId := 0, dscp := [2] }] }]
    dataPlaneTrafficPolicy := some { defaultQosPolicy := some "qp" } }

/-- A config with VLANs 1 and 5, default VLAN 1, and two interfaces, 5 and 6,
on VLAN 5. -/
def cfgTwoInterfaces : SwitchConfig :=
  { vlans := [{ id := 1, name := "default" }, { id := 5, name := "vlan5" }]
    defaultVlan := 1
    interfaces := [{ intfID := 5, vlanID := 5 }, { intfID := 6, vlanID := 5 }] }

/-- A config with one static route to null, 10.0.0.0/8, in router 1. -/
def cfgStaticRouter1 : SwitchConfig :=
  { staticRoutesToNull := { isset := true, value := [{ routerID := 1, network := (.v4 0x0a000000, 8) }] } }

/-- A config with one static route to null, 10.0.0.0/8, in router 0. -/
def cfgStaticRouter0 : SwitchConfig :=
  { staticRoutesToNull := { isset := true, value := [{ routerID := 0, network := (.v4 0x0a000000, 8) }] } }

/-- The config without any entry. -/
def cfgEmpty : SwitchConfig := {}

/-- The config of the example: VLAN 5 and interface 5 on it, in router 0 with
address 10.0.0.1/24; no static route. -/
def cfgOneInterface : SwitchConfig :=
  { vlans := [{ id := 5, name := "vlan5" }]
    interfaces := [{ intfID := 5, vlanID := 5, routerID := 0,
                     ipAddresses := [(.v4 0x0a000001, 24)] }] }

/-- The state without any node, every scalar field zero. -/
def emptyState : SwitchState := {}

/-- The route table of the example: the connected route 10.0.0.0/24 through
10.0.0.1 on interface 5, and the link-local route fe80::/64 to the CPU. -/
def routesOneInterface : List (CIDRNetwork × RouteEntries) :=
  [((.v4 0x0a000000, 24),
      [(.interfaceRoute,
        { action := .nexthops
          nhopSet := [{ addr := .v4 0x0a000001, intf := some 5, weight := ucmpDefaultWeight }]
          adminDistance := adminDistanceDirectlyConnected })]),
   (linkLocalNetwork,
      [(.linkLocalRoute, { action := .toCpu, adminDistance := adminDistanceDirectlyConnected })])]

/-- A config with two DENY entries named `d`: the first matches protocol 6, the
second protocol 17. -/
def cfgTwoDenySameName : SwitchConfig :=
  { acls := [{ name := "d", actionType := .deny, proto := some 6 },
             { name := "d", actionType := .deny, proto := some 17 }] }

/-- A config whose data-plane traffic policy gives the PERMIT entry `p` an
action with egress mirror `m`; the config defines no mirror. -/
def cfgEgressMirrorUndefined : SwitchConfig :=
  { acls := [{ name := "p", actionType := .permit }]
    dataPlaneTrafficPolicy :=
      some { matchToAction := [{ matcher := "p", action := { egressMirror := some "m" } }] } }

/-- The same config with `m` as ingress mirror. -/
def cfgIngressMirrorUndefined : SwitchConfig :=
  { acls := [{ name := "p", actionType := .permit }]
    dataPlaneTrafficPolicy :=
      some { matchToAction := [{ matcher := "p", action := { ingressMirror := some "m" } }] } }

/-- A config with the default VLAN 1 and a VLAN 5 that names interface 5
explicitly; the config has no interface. -/
def cfgVlanNoInterfaceExplicit : SwitchConfig :=
  { vlans := [{ id := 1, name := "default" }, { id := 5, name := "vlan5", intfID := some 5 }]
    defaultVlan := 1 }

/-- The same config with no interface id on VLAN 5. -/
def cfgVlanNoInterface : SwitchConfig :=
  { vlans := [{ id := 1, name := "default" }, { id := 5, name := "vlan5" }]
    defaultVlan := 1 }

/-- A context whose `vlanInterfaces_` records interface 5 of router 0 on VLAN 5,
with the address 10.0.0.1/24. -/
def ctxVlanFive : Ctx :=
  { vlanInterfaces :=
      [(5, { routerID := 0, interfaces := [5],
             addresses := [(.v4 0x0a000001, { mask := 24, mac := 0x020000000001, interfaceID := 5 })] })] }

/-- Interface 6 of router 0 on VLAN 5, with the addresses 10.0.0.1/24 and
10.0.1.1/24. -/
def interfaceSix : Interface :=
  { id := 6, routerID := 0, vlanID := 5, name := "Interface 6", mac := 0x020000000001,
    mtu := 1500, isVirtual := false, isStateSyncDisabled := false,
    addresses := [(.v4 0x0a000001, 24), (.v4 0x0a000101, 24)] }

/-- A config with two VLAN entries of id 5. -/
def cfgDuplicateVlan : SwitchConfig :=
  { vlans := [{ id := 5, name := "a", intfID := some 5 }, { id := 5, name := "b", intfID := some 5 }] }

/-- A config with interface 5 on VLAN 5 and no VLAN. -/
def cfgInterfaceNoVlan : SwitchConfig :=
  { interfaces := [{ intfID := 5, vlanID := 5 }] }

/-- The config entry of queue 0 named `queue0`, of weight 9. -/
def queueCfgZero : PortQueueCfg :=
  { id := 0, name := { isset := true, value := "queue0" }, weight := { isset := true, value := 9 } }

/-- A config entry of queue 0 whose AQM list is set and holds an ECN entry
without a congestion-detection method. -/
def queueCfgBadAqm : PortQueueCfg :=
  { id := 0, aqms := { isset := true, value := [{ detection := .empty, behavior := .ecn }] } }

/-- Four old queues with ids 0 to 3, weight 1, as `applyInitConfig` of
PortQueueTests.cpp. -/
def fourQueues : List PortQueue := [{ id := 0 }, { id := 1 }, { id := 2 }, { id := 3 }]

/-- The config entry of queue 0 with weight 1 and no other optional field set. -/
def queueCfgNoName : PortQueueCfg := { id := 0, weight := { isset := true, value := 1 } }

/-- The config entry of queue 0 with the name `q` and no other optional field
set; its unset weight reads 0. -/
def queueCfgNoWeight : PortQueueCfg := { id := 0, name := { isset := true, value := "q" } }

/-- The old aggregate port `po1` with the single subport 1, minimum link count
1, and the LACP system id and priority of `examplePlatform`. -/
def aggPortOneMember : AggregatePort :=
  { id := 1, name := "po1", description := "", systemPriority := 65535,
    systemID := 0x020000000001, minimumLinkCount := 1,
    subports := [{ portID := 1, priority := 0, rate := .fast, activity := .active }] }

/-- The same aggregate port with subports 1 and 2. -/
def aggPortTwoMembers : AggregatePort :=
  { aggPortOneMember with
    subports := [{ portID := 1, priority := 0, rate := .fast, activity := .active },
                 { portID := 2, priority := 0, rate := .fast, activity := .active }] }

/-- A routing-information base whose `reconfigure` leaves the FIB containers
of the state as they are. -/
def ribKeep : RoutingInformationBase := { reconfigure := fun _ _ fibs => pure fibs }

/-- A settled state whose control plane maps rx reason 1 to CPU queue 2. -/
def rxReasonState : SwitchState :=
  { settledState with controlPlane := { rxReasonToQueue := [(1, 2)] } }

/-- The same state with the QoS policy `qp` on the control plane. -/
def rxReasonQosState : SwitchState :=
  { settledState with controlPlane := { rxReasonToQueue := [(1, 2)], qosPolicy := some "qp" } }

/-- A config whose CPU traffic policy gives an empty rx-reason map. -/
def cfgRxReasonEmpty : SwitchConfig :=
  { cpuTrafficPolicy := some { rxReasonToCPUQueue := some [] } }

/-- Name tables for the enumerators the queues of PortQueueTests.cpp use. -/
def testEnumNames : PortQueueEnumNames where
  streamType :=
    { valuesToNames := fun v => some (match v with
        | .unicast => "UNICAST" | .multicast => "MULTICAST" | .all => "ALL")
      namesToValues := fun n =>
        if n = "UNICAST" then some .unicast else if n = "MULTICAST" then some .multicast
        else if n = "ALL" then some .all else none }
  scheduling :=
    { valuesToNames := fun v => some (match v with
        | .weightedRoundRobin => "WEIGHTED_ROUND_ROBIN" | .strictPriority => "STRICT_PRIORITY")
      namesToValues := fun n =>
        if n = "WEIGHTED_ROUND_ROBIN" then some .weightedRoundRobin
        else if n = "STRICT_PRIORITY" then some .strictPriority else none }
  scalingFactor :=
    { valuesToNames := fun v => if v = 0 then some "ONE" else if v = 1 then some "EIGHT" else none
      namesToValues := fun n =>
        if n = "ONE" then some 0 else if n = "EIGHT" then some 1 else none }

/-- The queue `generatePortQueue` of PortQueueTests.cpp builds: queue 5 with
every attribute set and both AQM entries. -/
def testPortQueue : PortQueue :=
  { id := 5, scheduling := .weightedRoundRobin, streamType := .unicast, weight := 5,
    reservedBytes := some 1000, scalingFactor := some 0, name := some "queue0",
    portQueueRate := some (.pktsPerSec 0 200), sharedBytes := some 10000,
    aqms := [(.earlyDrop, { detection := .linear 208 416, behavior := .earlyDrop }),
             (.ecn, { detection := .linear 624 624, behavior := .ecn })] }

/-- A config with the DENY entries `d0` and `d1`, the PERMIT entries `p`, `q`
and `c` between them; the CPU traffic policy names `c`, the data-plane traffic
policy names `d0`, `p` and `q`. -/
def cfgAclBands : SwitchConfig :=
  { acls := [{ name := "d0", actionType := .deny }, { name := "p", actionType := .permit },
             { name := "d1", actionType := .deny }, { name := "q", actionType := .permit },
             { name := "c", actionType := .permit }]
    cpuTrafficPolicy := some { trafficPolicy := some { matchToAction := [{ matcher := "c" }] } }
    dataPlaneTrafficPolicy :=
      some { matchToAction := [{ matcher := "d0" }, { matcher := "p" }, { matcher := "q" }] } }

/-- A config with DENY entries `d1`, `d2`, a PERMIT entry `p` between them, and
a data-plane traffic policy matching `p`. -/
def aclCfgDataPlane : SwitchConfig :=
  { acls := [{ name := "d1", actionType := .deny }, { name := "p", actionType := .permit },
             { name := "d2", actionType := .deny }],
    dataPlaneTrafficPolicy := some { matchToAction := [{ matcher := "p" }] } }

/-- A config with a DENY entry `d`, a PERMIT entry `p`, and a CPU traffic policy
matching `p`. -/
def aclCfgCpu : SwitchConfig :=
  { acls := [{ name := "d", actionType := .deny }, { name := "p", actionType := .permit }],
    cpuTrafficPolicy := some { trafficPolicy := some { matchToAction := [{ matcher := "p" }] } } }

/-! # Theorems -/

/-! ## The failure monad -/

theorem bind_eq_ok {α β : Type} (x : Result α) (f : α → Result β) (b : β) :
    (x >>= f) = .ok b ↔ ∃ a, x = .ok a ∧ f a = .ok b := by
  cases x <;> simp [bind, Except.bind]

theorem pure_eq_ok {α : Type} (a b : α) : (pure a : Result α) = .ok b ↔ a = b := by
  simp [pure, Except.pure]

theorem check_eq_ok (c : Bool) (msg : String) (u : Unit) : check c msg = .ok u ↔ c = true := by
  cases c <;> simp [check]

theorem throwIf_eq_ok (c : Bool) (msg : String) (u : Unit) :
    throwIf c msg = .ok u ↔ c = false := by
  cases c <;> simp [throwIf]

/-! ## Minimum link count -/

theorem round53_of_lt {a : Nat} (h : a < 2 ^ 53) : round53 a = a := by
  unfold round53
  rw [if_pos h]

theorem round53_pos {a : Nat} (h : 0 < a) : 0 < round53 a := by
  unfold round53
  split
  · exact h
  · rename_i hge
    have hs : 2 ^ (Nat.log2 a - 52) ≤ a := by
      have h1 : 2 ^ (Nat.log2 a - 52) ≤ 2 ^ Nat.log2 a :=
        Nat.pow_le_pow_right (by decide) (Nat.sub_le _ _)
      have h2 : 2 ^ Nat.log2 a ≤ a := by
        rw [Nat.log2_eq_log_two]
        exact Nat.pow_log_le_self 2 (Nat.pos_iff_ne_zero.mp h)
      exact le_trans h1 h2
    have hpos : 0 < 2 ^ (Nat.log2 a - 52) := Nat.two_pow_pos _
    have hq : 0 < a / 2 ^ (Nat.log2 a - 52) := Nat.div_pos hs hpos
    simp only []
    split
    · exact Nat.mul_pos (Nat.succ_pos _) hpos
    · exact Nat.mul_pos hq hpos

/-- Ceiling division: `(a + b - 1) / b` is the least `r` with `a ≤ r * b`. -/
theorem ceilDiv_le_iff {a b r : Nat} (hb : 0 < b) : (a + b - 1) / b ≤ r ↔ a ≤ r * b := by
  rw [Nat.div_le_iff_le_mul_add_pred hb, Nat.mul_comm b r]
  generalize r * b = x
  omega

theorem ceilMul_pos {m k n : Nat} (hm : 0 < m) (hn : n ≠ 0) :
    1 ≤ ceilMul (.finite false m k) n := by
  have hpos : 0 < round53 (m * round53 n) :=
    round53_pos (Nat.mul_pos hm (round53_pos (Nat.pos_of_ne_zero hn)))
  have hb : 0 < 2 ^ k := Nat.two_pow_pos _
  by_contra hlt
  have h0 : (round53 (m * round53 n) + 2 ^ k - 1) / 2 ^ k ≤ 0 := by
    simp only [ceilMul] at hlt
    omega
  rw [ceilDiv_le_iff hb] at h0
  omega

/-- When the product `m * n` needs at most 53 bits the double product is exact
and `ceilMul` is the mathematical ceiling of `(m / 2 ^ k) * n`. -/
theorem ceilMul_exact {m k n : Nat} (hm : 0 < m) (hexact : m * n < 2 ^ 53) :
    ceilMul (.finite false m k) n = ⌈(m : ℚ) / 2 ^ k * n⌉₊ := by
  have hn : n < 2 ^ 53 := lt_of_le_of_lt (Nat.le_mul_of_pos_left n hm) hexact
  have hb : 0 < 2 ^ k := Nat.two_pow_pos _
  have hbq : (0 : ℚ) < 2 ^ k := by positivity
  have hval : (m : ℚ) / 2 ^ k * n = ((m * n : ℕ) : ℚ) / ((2 ^ k : ℕ) : ℚ) := by
    push_cast
    ring
  have hbc : (0 : ℚ) < ((2 ^ k : ℕ) : ℚ) := by exact_mod_cast hb
  simp only [ceilMul, round53_of_lt hn, round53_of_lt hexact]
  rw [hval]
  apply le_antisymm
  · rw [ceilDiv_le_iff hb]
    have h1 : ((m * n : ℕ) : ℚ) / ((2 ^ k : ℕ) : ℚ)
        ≤ (⌈((m * n : ℕ) : ℚ) / ((2 ^ k : ℕ) : ℚ)⌉₊ : ℚ) := Nat.le_ceil _
    rw [div_le_iff₀ hbc] at h1
    exact_mod_cast h1
  · rw [Nat.ceil_le, div_le_iff₀ hbc]
    have h2 : m * n ≤ (m * n + 2 ^ k - 1) / 2 ^ k * 2 ^ k :=
      (ceilDiv_le_iff hb).mp (le_refl _)
    exact_mod_cast h2

theorem aggCfgWithMembers_length (n : Nat) (mc : MinimumCapacity) :
    (aggCfgWithMembers n mc).memberPorts.length = n := by
  simp [aggCfgWithMembers]

theorem computeMinimumLinkCountOf_percentage {m k n : Nat} (hm : 0 < m) (hle : m ≤ 2 ^ k)
    (hfit : ceilMul (.finite false m k) n ≤ 255) :
    computeMinimumLinkCountOf (.linkPercentage (.finite false m k)) n
      = .ok (ceilMul (.finite false m k) n) := by
  have hmod : ceilMul (.finite false m k) n % 256 = ceilMul (.finite false m k) n :=
    Nat.mod_eq_of_lt (by omega)
  by_cases hn : n = 0
  · subst hn
    simp [computeMinimumLinkCountOf, check, Double.isPos, Double.leOne, hm, hle, hmod,
      bind, Except.bind, pure, Except.pure]
  · have hpos := ceilMul_pos (k := k) hm hn
    simp [computeMinimumLinkCountOf, check, Double.isPos, Double.leOne, hm, hle, hmod, hn, hpos,
      bind, Except.bind, pure, Except.pure]

/-- C7 (amended). For an aggregate-port config with `n` member ports:
with a link percentage `p = m / 2 ^ k`, `0 < p ≤ 1`, `computeMinimumLinkCount`
returns `std::ceil(p * n)` whenever that value fits the `uint8_t` result
(is at most 255), and this is the mathematical ceiling of `p · n` whenever the
double product is exact (`m * n < 2 ^ 53`, as for `p = 0.5`); with an explicit
link count `c ≥ 1` it returns `c`. -/
theorem computeMinimumLinkCount_rounding (cfg : AggregatePortCfg) :
    (∀ m k : Nat, cfg.minimumCapacity = .linkPercentage (.finite false m k) →
        0 < m → m ≤ 2 ^ k → ceilMul (.finite false m k) cfg.memberPorts.length ≤ 255 →
        computeMinimumLinkCount cfg = .ok (ceilMul (.finite false m k) cfg.memberPorts.length) ∧
        (m * cfg.memberPorts.length < 2 ^ 53 →
          ceilMul (.finite false m k) cfg.memberPorts.length
            = ⌈(m : ℚ) / 2 ^ k * cfg.memberPorts.length⌉₊)) ∧
    (∀ (c : Int) (lo : -128 ≤ c) (hi : c ≤ 127), cfg.minimumCapacity = .linkCount c lo hi →
        1 ≤ c → computeMinimumLinkCount cfg = .ok c.toNat) := by
  refine ⟨?_, ?_⟩
  · intro m k hcap hm hle hfit
    refine ⟨?_, fun hexact => ceilMul_exact hm hexact⟩
    simp only [computeMinimumLinkCount, hcap]
    exact computeMinimumLinkCountOf_percentage hm hle hfit
  · intro c lo hi hcap hc
    have hmod : c % 256 = c := Int.emod_eq_of_lt (by omega) (by omega)
    simp [computeMinimumLinkCount, hcap, computeMinimumLinkCountOf, check, hc, hmod,
      bind, Except.bind, pure, Except.pure]

/-- C7, at the inputs the specification names: 4 members at 50 % give 2, and
3 members at 50 % give 2 (the ceiling of 1.5). -/
theorem computeMinimumLinkCount_rounding_witness :
    computeMinimumLinkCount (aggCfgWithMembers 4 (.linkPercentage (.finite false 1 1))) = .ok 2 ∧
    computeMinimumLinkCount (aggCfgWithMembers 3 (.linkPercentage (.finite false 1 1))) = .ok 2 ∧
    ⌈((1 : ℕ) : ℚ) / 2 ^ 1 * (3 : ℕ)⌉₊ = 2 ∧
    computeMinimumLinkCount (aggCfgWithMembers 3 (.linkCount 5 (by decide) (by decide))) = .ok 5 := by
  have h4 := (computeMinimumLinkCount_rounding
    (aggCfgWithMembers 4 (.linkPercentage (.finite false 1 1)))).1 1 1 rfl (by decide) (by decide)
    (by decide)
  have h3 := (computeMinimumLinkCount_rounding
    (aggCfgWithMembers 3 (.linkPercentage (.finite false 1 1)))).1 1 1 rfl (by decide) (by decide)
    (by decide)
  have h5 := (computeMinimumLinkCount_rounding
    (aggCfgWithMembers 3 (.linkCount 5 (by decide) (by decide)))).2 5 (by decide) (by decide) rfl
    (by decide)
  exact ⟨h4.1, h3.1, (h3.2 (by decide)).symm.trans (by decide), h5⟩

/-- C7 as stated fails: with 257 member ports and a link percentage of 1.0 the
ceiling of `p * n` is 257, which the `uint8_t` result cannot hold; the function
returns 1. -/
theorem computeMinimumLinkCount_rounding_counterexample :
    (aggCfgWithMembers 257 (.linkPercentage (.finite false 1 0))).memberPorts.length = 257 ∧
    computeMinimumLinkCount (aggCfgWithMembers 257 (.linkPercentage (.finite false 1 0))) = .ok 1 ∧
    ⌈((1 : ℕ) : ℚ) / 2 ^ 0 * (257 : ℕ)⌉₊ = 257 := by
  have hlen := aggCfgWithMembers_length 257 (.linkPercentage (.finite false 1 0))
  refine ⟨hlen, ?_, ?_⟩
  · simp only [computeMinimumLinkCount, hlen]
    decide
  · norm_num

theorem computeMinimumLinkCountOf_ge_one {mc : MinimumCapacity} {n c : Nat}
    (h : computeMinimumLinkCountOf mc n = .ok c)
    (hmem : n ≠ 0 ∨ ∃ k lo hi, mc = .linkCount k lo hi) : 1 ≤ c := by
  cases mc with
  | linkCount k lo hi =>
      simp only [computeMinimumLinkCountOf, bind_eq_ok, check_eq_ok, pure_eq_ok,
        decide_eq_true_eq] at h
      obtain ⟨_, hk, hc⟩ := h
      have hmod : k % 256 = k := Int.emod_eq_of_lt (by omega) (by omega)
      rw [hmod] at hc
      omega
  | linkPercentage p =>
      have hn : n ≠ 0 := by
        rcases hmem with hn | ⟨k, lo, hi, hk⟩
        · exact hn
        · cases hk
      simp only [computeMinimumLinkCountOf, bind_eq_ok, check_eq_ok, pure_eq_ok, hn,
        ne_eq, not_false_eq_true, if_true, decide_eq_true_eq] at h
      obtain ⟨_, _, _, _, _, hge, hc⟩ := h
      omega
  | empty => cases h

/-- C8 (amended). For every aggregate-port config that `computeMinimumLinkCount`
accepts and that has at least one member port or gives an explicit link count,
the accepted count is at least 1, and it is the minimum link count stored on
the reconciled aggregate port: on the node `createAggPort` builds (which exists
as soon as the member list is accepted too), on the node `updateAggPort`
returns, and on the old node when `updateAggPort` reports no change. -/
theorem minimumLinkCount_lower_bound (lacp : Option LacpCfg) (localMac : MacAddress)
    (prio : Nat) (cfg : AggregatePortCfg) (c : Nat)
    (haccept : computeMinimumLinkCount cfg = .ok c)
    (hmem : cfg.memberPorts ≠ [] ∨ ∃ k lo hi, cfg.minimumCapacity = .linkCount k lo hi) :
    1 ≤ c ∧
    (∀ subs, getSubportsSorted cfg = .ok subs →
      ∃ node, createAggPort lacp localMac prio cfg = .ok node ∧ node.minimumLinkCount = c) ∧
    (∀ orig node, updateAggPort lacp localMac prio orig cfg = .ok (some node) →
      node.minimumLinkCount = c) ∧
    (∀ orig, updateAggPort lacp localMac prio orig cfg = .ok none →
      orig.minimumLinkCount = c) := by
  refine ⟨?_, ?_, ?_, ?_⟩
  · refine computeMinimumLinkCountOf_ge_one haccept ?_
    rcases hmem with h | h
    · left
      intro h0
      exact h (List.length_eq_zero.mp h0)
    · exact Or.inr h
  · intro subs hs
    simp [createAggPort, hs, haccept, bind, Except.bind, pure, Except.pure]
  · intro orig node h
    simp only [updateAggPort, haccept, bind_eq_ok, check_eq_ok, Except.ok.injEq,
      exists_eq_left'] at h
    obtain ⟨_, _, subs, _, same, _, h⟩ := h
    split at h
    · simp [pure_eq_ok] at h
    · simp only [pure_eq_ok, Option.some.injEq] at h
      rw [← h]
  · intro orig h
    simp only [updateAggPort, haccept, bind_eq_ok, check_eq_ok, Except.ok.injEq,
      exists_eq_left'] at h
    obtain ⟨_, _, subs, _, same, hsame, h⟩ := h
    split at h
    · rename_i hs
      unfold aggPortUnchanged at hsame
      split at hsame
      · rename_i hall
        exact hall.2.2.2.2
      · simp only [pure_eq_ok] at hsame
        rw [← hsame] at hs
        cases hs
    · simp [pure_eq_ok] at h

/-- C8 at a concrete input: three members at 50 % store a minimum link count of 2. -/
theorem minimumLinkCount_lower_bound_witness :
    (1 : Nat) ≤ 2 ∧
    ∃ node, createAggPort none 0 65535
        (aggCfgWithMembers 3 (.linkPercentage (.finite false 1 1))) = .ok node ∧
      node.minimumLinkCount = 2 := by
  have h := minimumLinkCount_lower_bound none 0 65535
    (aggCfgWithMembers 3 (.linkPercentage (.finite false 1 1))) 2 (by decide)
    (Or.inl (by decide))
  exact ⟨h.1, h.2.1 _ rfl⟩

/-- C8 as stated fails: a config with no member port and a link percentage is
accepted, and the aggregate port it creates stores a minimum link count of 0. -/
theorem minimumLinkCount_lower_bound_counterexample :
    computeMinimumLinkCount (aggCfgWithMembers 0 (.linkPercentage (.finite false 1 1))) = .ok 0 ∧
    (createAggPort none 0 65535
      (aggCfgWithMembers 0 (.linkPercentage (.finite false 1 1)))).map
        (fun node => node.minimumLinkCount) = .ok 0 := by
  decide

/-! ## ACL priorities -/

theorem AclEntry.sameFields_fields {a b : AclEntry} (h : a.sameFields b = true) :
    a.priority = b.priority ∧ a.actionType = b.actionType ∧ a.name = b.name := by
  simp only [AclEntry.sameFields, decide_eq_true_eq] at h
  have h1 := congrArg AclEntry.priority h
  have h2 := congrArg AclEntry.actionType h
  have h3 := congrArg AclEntry.name h
  exact ⟨h1, h2, h3⟩

theorem createAcl_fields {config : AclEntryCfg} {priority : Int} {action : Option MatchAction}
    {e : AclEntry} (h : createAcl config priority action = .ok e) :
    e.priority = priority ∧ e.actionType = config.actionType ∧ e.name = config.name := by
  simp only [createAcl, bind_eq_ok, pure_eq_ok] at h
  obtain ⟨_, _, h⟩ := h
  subst h
  exact ⟨rfl, rfl, rfl⟩

theorem updateAcl_fields {origAcls : List AclEntry} {acl : AclEntryCfg} {priority : Int}
    {n : Nat} {c : Bool} {action : Option MatchAction} {r : AclEntry × Nat × Bool}
    (h : updateAcl origAcls acl priority n c action = .ok r) :
    r.1.priority = priority ∧ r.1.actionType = acl.actionType ∧ r.1.name = acl.name := by
  simp only [updateAcl, bind_eq_ok] at h
  obtain ⟨newAcl, hnew, h⟩ := h
  have hf := createAcl_fields hnew
  split at h
  · rename_i o _
    split at h
    · rename_i hs
      have hs := AclEntry.sameFields_fields hs
      simp only [pure_eq_ok] at h
      subst h
      exact ⟨hs.1.trans hf.1, hs.2.1.trans hf.2.1, hs.2.2.trans hf.2.2⟩
    · simp only [pure_eq_ok] at h
      subst h
      exact hf
  · simp only [pure_eq_ok] at h
    subst h
    exact hf

/-- The DENY pass: every entry is a DENY entry with a priority in
`[acc.priority, acc'.priority)`, the priorities increase along the list, the
names are those of the config's DENY entries in order, and the CPU counter is
untouched. -/
theorem updateAclsDeny_spec (origAcls : List AclEntry) :
    ∀ (acls : List AclEntryCfg) (acc : AclAcc) (entries : List AclEntry) (acc' : AclAcc),
      updateAclsDeny origAcls acls acc = .ok (entries, acc') →
      acc'.priority = acc.priority + entries.length ∧
      acc'.cpuPriority = acc.cpuPriority ∧
      (∀ e ∈ entries, e.actionType = .deny ∧ acc.priority ≤ e.priority ∧
        e.priority < acc'.priority) ∧
      entries.Pairwise (fun a b => a.priority < b.priority) ∧
      entries.map (·.name) = (acls.filter (fun a => decide (a.actionType = .deny))).map (·.name) := by
  intro acls
  induction acls with
  | nil =>
      intro acc entries acc' h
      simp only [updateAclsDeny, pure_eq_ok, Prod.mk.injEq] at h
      obtain ⟨h1, h2⟩ := h
      subst h1 h2
      simp
  | cons entry rest ih =>
      intro acc entries acc' h
      unfold updateAclsDeny at h
      split at h
      · rename_i hdeny
        simp only [bind_eq_ok, pure_eq_ok] at h
        obtain ⟨⟨acl, n, c⟩, hupd, ⟨entries2, acc2⟩, hrec, h⟩ := h
        simp only [Prod.mk.injEq] at h
        obtain ⟨h1, h2⟩ := h
        subst h1 h2
        have hf := updateAcl_fields hupd
        simp only at hf
        obtain ⟨ih1, ih2, ih3, ih4, ih5⟩ := ih _ _ _ hrec
        simp only at ih1 ih2 ih3
        refine ⟨?_, ih2, ?_, ?_, ?_⟩
        · simp only [List.length_cons, Nat.cast_add, Nat.cast_one]
          omega
        · intro e he
          rcases List.mem_cons.mp he with rfl | he
          · refine ⟨hf.2.1.trans hdeny, by omega, ?_⟩
            have : (0 : Int) ≤ entries2.length := Int.natCast_nonneg _
            omega
          · obtain ⟨a, b, c⟩ := ih3 e he
            exact ⟨a, by omega, c⟩
        · refine List.pairwise_cons.mpr ⟨?_, ih4⟩
          intro e he
          obtain ⟨_, b, _⟩ := ih3 e he
          omega
        · simp [List.filter_cons, hdeny, hf.2.2, ih5]
      · rename_i hdeny
        obtain ⟨ih1, ih2, ih3, ih4, ih5⟩ := ih _ _ _ h
        refine ⟨ih1, ih2, ih3, ih4, ?_⟩
        simp [List.filter_cons, hdeny, ih5]

/-- A policy pass: every entry is a non-DENY entry; in the data-plane pass its
priority is at least the running priority, in the CPU pass the running
priority is untouched. -/
theorem addToAcls_spec (cfg : SwitchConfig) (origAcls : List AclEntry) (mirrors : List Mirror)
    (isCoppAcl : Bool) :
    ∀ (mtas : List MatchToAction) (acc : AclAcc) (entries : List AclEntry) (acc' : AclAcc),
      addToAcls cfg origAcls mirrors isCoppAcl mtas acc = .ok (entries, acc') →
      (∀ e ∈ entries, e.actionType ≠ .deny) ∧
      (isCoppAcl = false → ∀ e ∈ entries, acc.priority ≤ e.priority) ∧
      (isCoppAcl = true → acc'.priority = acc.priority) ∧
      acc.priority ≤ acc'.priority := by
  intro mtas
  induction mtas with
  | nil =>
      intro acc entries acc' h
      simp only [addToAcls, pure_eq_ok, Prod.mk.injEq] at h
      obtain ⟨h1, h2⟩ := h
      subst h1 h2
      simp
  | cons mta rest ih =>
      intro acc entries acc' h
      unfold addToAcls at h
      simp only [bind_eq_ok] at h
      obtain ⟨aclCfg, _, h⟩ := h
      split at h
      · exact ih _ _ _ h
      · rename_i hnd
        simp only [bind_eq_ok, pure_eq_ok] at h
        obtain ⟨matchAction, _, ⟨acl, n, c⟩, hupd, _, _, ⟨entries2, acc2⟩, hrec, h⟩ := h
        simp only [Prod.mk.injEq] at h
        obtain ⟨h1, h2⟩ := h
        subst h1 h2
        have hf := updateAcl_fields hupd
        simp only at hf
        obtain ⟨ih1, ih2, ih3, ih4⟩ := ih _ _ _ hrec
        cases isCoppAcl with
        | true =>
            simp only [if_true] at hf ih3 ih4 ih1
            refine ⟨?_, by simp, fun _ => ?_, ?_⟩
            · intro e he
              rcases List.mem_cons.mp he with rfl | he
              · rw [hf.2.1]; exact hnd
              · exact ih1 e he
            · exact ih3 trivial
            · exact ih4
        | false =>
            simp only [Bool.false_eq_true, if_false] at hf ih2 ih4 ih1
            refine ⟨?_, fun _ => ?_, by simp, ?_⟩
            · intro e he
              rcases List.mem_cons.mp he with rfl | he
              · rw [hf.2.1]; exact hnd
              · exact ih1 e he
            · intro e he
              rcases List.mem_cons.mp he with rfl | he
              · omega
              · have := ih2 trivial e he
                omega
            · omega

theorem mem_of_emplaceNode {Node K : Type} [HasID Node K] [DecidableEq K] [KeyOrder K]
    {n x : Node} : ∀ {l l' : List Node}, emplaceNode l n = some l' → x ∈ l' → x = n ∨ x ∈ l := by
  intro l
  induction l with
  | nil =>
      intro l' h hx
      simp only [emplaceNode, Option.some.injEq] at h
      subst h
      simpa using hx
  | cons m rest ih =>
      intro l' h hx
      unfold emplaceNode at h
      split at h
      · cases h
      · split at h
        · simp only [Option.some.injEq] at h
          subst h
          rcases List.mem_cons.mp hx with rfl | hx
          · exact Or.inl rfl
          · exact Or.inr hx
        · simp only [Option.map_eq_some'] at h
          obtain ⟨r, hr, h⟩ := h
          subst h
          rcases List.mem_cons.mp hx with rfl | hx
          · exact Or.inr (List.mem_cons_self _ _)
          · rcases ih hr hx with h1 | h1
            · exact Or.inl h1
            · exact Or.inr (List.mem_cons_of_mem _ h1)

theorem mem_appendAcl {newAcls : List AclEntry} {acl x : AclEntry}
    (hx : x ∈ appendAcl newAcls acl) : x = acl ∨ x ∈ newAcls := by
  unfold appendAcl at hx
  cases h : emplaceNode newAcls acl with
  | none =>
      rw [h] at hx
      exact Or.inr hx
  | some l' =>
      rw [h] at hx
      exact mem_of_emplaceNode h hx

theorem mem_foldl_appendAcl {x : AclEntry} :
    ∀ (l init : List AclEntry), x ∈ l.foldl appendAcl init → x ∈ init ∨ x ∈ l := by
  intro l
  induction l with
  | nil =>
      intro init hx
      exact Or.inl hx
  | cons a rest ih =>
      intro init hx
      rcases ih _ hx with h | h
      · rcases mem_appendAcl h with h1 | h1
        · exact Or.inr (h1 ▸ List.mem_cons_self _ _)
        · exact Or.inl h1
      · exact Or.inr (List.mem_cons_of_mem _ h)

/-! ## Containers -/

theorem findNode_emplaceNode {Node K : Type} [HasID Node K] [DecidableEq K] [KeyOrder K]
    {n : Node} :
    ∀ {l l' : List Node}, emplaceNode l n = some l' →
      ∀ k, findNode l' k = if HasID.getID n = k then some n else findNode l k := by
  intro l
  induction l with
  | nil =>
      intro l' h k
      simp only [emplaceNode, Option.some.injEq] at h
      subst h
      simp [findNode]
  | cons m rest ih =>
      intro l' h k
      unfold emplaceNode at h
      split at h
      · cases h
      · rename_i hne
        split at h
        · simp only [Option.some.injEq] at h
          subst h
          simp [findNode]
        · simp only [Option.map_eq_some'] at h
          obtain ⟨r, hr, h⟩ := h
          subst h
          have := ih hr k
          simp only [findNode]
          by_cases hmk : HasID.getID m = k
          · have hnk : HasID.getID n ≠ k := fun e => hne (e.trans hmk.symm)
            simp [hmk, hnk]
          · simp [hmk, this]

theorem findNode_some_id {Node K : Type} [HasID Node K] [DecidableEq K]
    {l : List Node} {k : K} {x : Node} (h : findNode l k = some x) :
    HasID.getID x = k ∧ x ∈ l := by
  induction l with
  | nil => cases h
  | cons m rest ih =>
      unfold findNode at h
      split at h
      · rename_i hm
        simp only [Option.some.injEq] at h
        subst h
        exact ⟨hm, List.mem_cons_self _ _⟩
      · obtain ⟨a, b⟩ := ih h
        exact ⟨a, List.mem_cons_of_mem _ b⟩

theorem findNode_isSome_of_mem {Node K : Type} [HasID Node K] [DecidableEq K]
    {l : List Node} {x : Node} (h : x ∈ l) :
    (findNode l (HasID.getID x)).isSome = true := by
  induction l with
  | nil => cases h
  | cons m rest ih =>
      unfold findNode
      split
      · rfl
      · rcases List.mem_cons.mp h with rfl | h
        · rename_i hne
          exact absurd rfl hne
        · exact ih h

theorem findNode_eq_none_of_sorted {Node K : Type} [HasID Node K] [DecidableEq K] [KeyOrder K]
    [LawfulKeyOrder K] {k : K} {m : Node} {rest : List Node}
    (hs : SortedNodes (m :: rest)) (hlt : KeyOrder.lt k (HasID.getID m) = true) :
    findNode (m :: rest) k = none := by
  have hall : ∀ x ∈ m :: rest, HasID.getID x ≠ k := by
    intro x hx e
    rcases List.mem_cons.mp hx with rfl | hx
    · rw [e, LawfulKeyOrder.irrefl] at hlt
      cases hlt
    · have h1 := (List.pairwise_cons.mp hs).1 x hx
      have h2 := LawfulKeyOrder.trans _ _ _ hlt h1
      rw [e, LawfulKeyOrder.irrefl] at h2
      cases h2
  cases h : findNode (m :: rest) k with
  | none => rfl
  | some x =>
      obtain ⟨a, b⟩ := findNode_some_id h
      exact absurd a (hall x b)

/-- On a sorted container `emplace` refuses exactly the keys that are present. -/
theorem emplaceNode_eq_none_iff {Node K : Type} [HasID Node K] [DecidableEq K] [KeyOrder K]
    [LawfulKeyOrder K] {n : Node} :
    ∀ {l : List Node}, SortedNodes l →
      (emplaceNode l n = none ↔ (findNode l (HasID.getID n)).isSome = true) := by
  intro l
  induction l with
  | nil => intro _; simp [emplaceNode, findNode]
  | cons m rest ih =>
      intro hs
      unfold emplaceNode
      split
      · rename_i heq
        simp [findNode, heq]
      · rename_i hne
        split
        · rename_i hlt
          rw [findNode_eq_none_of_sorted hs hlt]
          simp
        · have hs' : SortedNodes rest := (List.pairwise_cons.mp hs).2
          have hne' : ¬ HasID.getID m = HasID.getID n := fun e => hne e.symm
          simp only [Option.map_eq_none', findNode, hne', if_false]
          exact ih hs'

theorem emplaceNode_sorted {Node K : Type} [HasID Node K] [DecidableEq K] [KeyOrder K]
    [LawfulKeyOrder K] {n : Node} :
    ∀ {l l' : List Node}, SortedNodes l → emplaceNode l n = some l' →
      SortedNodes l' ∧ ∀ x ∈ l', x = n ∨ x ∈ l := by
  intro l
  induction l with
  | nil =>
      intro l' _ h
      simp only [emplaceNode, Option.some.injEq] at h
      subst h
      exact ⟨List.pairwise_singleton _ _, by simp⟩
  | cons m rest ih =>
      intro l' hs h
      unfold emplaceNode at h
      split at h
      · cases h
      · rename_i hne
        split at h
        · rename_i hlt
          simp only [Option.some.injEq] at h
          subst h
          refine ⟨List.pairwise_cons.mpr ⟨?_, hs⟩, ?_⟩
          · intro x hx
            rcases List.mem_cons.mp hx with rfl | hx
            · exact hlt
            · exact LawfulKeyOrder.trans _ _ _ hlt ((List.pairwise_cons.mp hs).1 x hx)
          · intro x hx
            rcases List.mem_cons.mp hx with rfl | hx
            · exact Or.inl rfl
            · exact Or.inr hx
        · rename_i hnlt
          simp only [Option.map_eq_some'] at h
          obtain ⟨r, hr, h⟩ := h
          subst h
          obtain ⟨hs1, hs2⟩ := List.pairwise_cons.mp hs
          obtain ⟨ihs, ihm⟩ := ih hs2 hr
          refine ⟨List.pairwise_cons.mpr ⟨?_, ihs⟩, ?_⟩
          · intro x hx
            rcases ihm x hx with rfl | hx
            · exact LawfulKeyOrder.total _ _ (by simpa using hnlt) hne
            · exact hs1 x hx
          · intro x hx
            rcases List.mem_cons.mp hx with rfl | hx
            · exact Or.inr (List.mem_cons_self _ _)
            · rcases ihm x hx with h1 | h1
              · exact Or.inl h1
              · exact Or.inr (List.mem_cons_of_mem _ h1)

theorem updateMap_spec {Node K : Type} [HasID Node K] [DecidableEq K] [KeyOrder K]
    {map : List Node} {origNode newNode : Option Node} {r : List Node × Bool}
    (h : updateMap map origNode newNode = .ok r) :
    ∃ stored, (newNode = some stored ∨ (newNode = none ∧ origNode = some stored)) ∧
      emplaceNode map stored = some r.1 ∧ r.2 = newNode.isSome := by
  unfold updateMap at h
  split at h
  · rename_i n
    split at h
    · rename_i m hm
      simp only [pure_eq_ok] at h
      subst h
      exact ⟨n, Or.inl rfl, hm, rfl⟩
    · cases h
  · split at h
    · rename_i o
      split at h
      · rename_i m hm
        simp only [pure_eq_ok] at h
        subst h
        exact ⟨o, Or.inr ⟨rfl, rfl⟩, hm, rfl⟩
      · cases h
    · cases h

theorem updatePort_some {cfg : SwitchConfig} {ctx : Ctx} {orig : Port} {c : PortCfg} {p' : Port}
    (h : updatePort cfg ctx orig c = .ok (some p')) :
    orig.id = c.logicalID ∧ p'.id = orig.id ∧ p'.toNodeBase = orig.toNodeBase.clone ∧
    p'.operState = orig.operState ∧
    p'.matchesConfig cfg ctx c ∧
    p'.expectedLLDPValues = mergeLLDP orig.expectedLLDPValues c.expectedLLDPValues ∧
    p'.lookupClasses = c.lookupClasses := by
  simp only [updatePort, bind_eq_ok, check_eq_ok, throwIf_eq_ok, decide_eq_true_eq] at h
  obtain ⟨_, hid, _, _, qs, _, _, _, h⟩ := h
  split at h
  · simp [pure_eq_ok] at h
  · simp only [pure_eq_ok, Option.some.injEq] at h
    subst h
    refine ⟨hid, rfl, rfl, rfl, ?_, rfl, rfl⟩
    simp only [Port.matchesConfig, hid, and_self]

theorem updatePort_none {cfg : SwitchConfig} {ctx : Ctx} {orig : Port} {c : PortCfg}
    (h : updatePort cfg ctx orig c = .ok none) :
    orig.id = c.logicalID ∧ orig.matchesConfig cfg ctx c ∧
    orig.expectedLLDPValues = c.expectedLLDPValues := by
  simp only [updatePort, bind_eq_ok, check_eq_ok, throwIf_eq_ok, decide_eq_true_eq] at h
  obtain ⟨_, hid, _, _, qs, _, _, _, h⟩ := h
  split at h
  · rename_i hun
    simp only [portUnchanged, Bool.and_eq_true, decide_eq_true_eq] at hun
    obtain ⟨⟨⟨⟨⟨⟨⟨⟨⟨⟨⟨⟨⟨⟨⟨⟨h1, h2⟩, h3⟩, h4⟩, h5⟩, h6⟩, h7⟩, h8⟩, h9⟩, h10⟩, h11⟩, h12⟩, _⟩, h14⟩,
      ⟨h15, h16⟩⟩, h17⟩, h18⟩ := hun
    refine ⟨hid, ?_, h18.symm⟩
    simp only [Port.matchesConfig]
    exact ⟨h1.symm, h2.symm, h3.symm, h4.symm, h5.symm, h6.symm, h7.symm, h8.symm, h9.symm,
      h10.symm, h12.symm, h14.symm, h15, h16, h17.symm, by rw [← hid]; exact h11.symm⟩
  · simp [pure_eq_ok] at h

theorem updatePort_ok_id {cfg : SwitchConfig} {ctx : Ctx} {orig : Port} {c : PortCfg}
    {r : Option Port} (h : updatePort cfg ctx orig c = .ok r) :
    orig.id = c.logicalID ∧ ∀ p', r = some p' → p'.id = c.logicalID := by
  cases r with
  | none => exact ⟨(updatePort_none h).1, fun _ hp => by cases hp⟩
  | some p =>
      have := updatePort_some h
      refine ⟨this.1, fun p' hp => ?_⟩
      simp only [Option.some.injEq] at hp
      subst hp
      exact this.2.1.trans this.1

/-- The first loop of `updatePorts`. -/
theorem updatePortsCfgLoop_spec (cfg : SwitchConfig) (ctx : Ctx) (origPorts : List Port) :
    ∀ (cfgs : List PortCfg) (acc res : List Port × Bool), SortedNodes acc.1 →
      updatePortsCfgLoop cfg ctx origPorts cfgs acc = .ok res →
      SortedNodes res.1 ∧
      (∀ k, (∀ c ∈ cfgs, c.logicalID ≠ k) → findNode res.1 k = findNode acc.1 k) ∧
      (∀ c ∈ cfgs, findNode acc.1 c.logicalID = none ∧
        ∃ r, updatePort cfg ctx (portToUpdate origPorts c) c = .ok r ∧
          (storedNode (findNode origPorts c.logicalID) r).isSome = true ∧
          findNode res.1 c.logicalID = storedNode (findNode origPorts c.logicalID) r) ∧
      (res.2 = true ↔ acc.2 = true ∨
        ∃ c ∈ cfgs, ∃ p', updatePort cfg ctx (portToUpdate origPorts c) c = .ok (some p')) := by
  intro cfgs
  induction cfgs with
  | nil =>
      intro acc res _ h
      simp only [updatePortsCfgLoop, pure_eq_ok] at h
      subst h
      simp_all
  | cons c rest ih =>
      intro acc res hs h
      obtain ⟨newPorts, changed⟩ := acc
      simp only [updatePortsCfgLoop, bind_eq_ok] at h
      obtain ⟨newPort, hup, ⟨m, ch⟩, hmap, hrec⟩ := h
      have hup' : updatePort cfg ctx (portToUpdate origPorts c) c = .ok newPort := by
        unfold portToUpdate
        cases ho : findNode origPorts c.logicalID with
        | none => rw [ho] at hup; exact hup
        | some o => rw [ho] at hup; exact hup
      obtain ⟨stored, hstored, hemp, hch⟩ := updateMap_spec hmap
      simp only at hemp hch hs
      have hsid : HasID.getID stored = c.logicalID := by
        rcases hstored with h1 | ⟨h1, h2⟩
        · exact (updatePort_ok_id hup').2 stored h1
        · exact (findNode_some_id h2).1
      have hst : storedNode (findNode origPorts c.logicalID) newPort = some stored := by
        rcases hstored with h1 | ⟨h1, h2⟩
        · simp [storedNode, h1]
        · simp [storedNode, h1, h2]
      obtain ⟨hsm, _⟩ := emplaceNode_sorted hs hemp
      have hfind := findNode_emplaceNode hemp
      have hnone : findNode newPorts c.logicalID = none := by
        have h1 : ¬ emplaceNode newPorts stored = none := by rw [hemp]; simp
        rw [emplaceNode_eq_none_iff hs, hsid] at h1
        simpa using h1
      obtain ⟨i1, i2, i3, i4⟩ := ih (m, changed || ch) res hsm hrec
      simp only at i1 i2 i3 i4
      have hrestne : ∀ c' ∈ rest, c'.logicalID ≠ c.logicalID := by
        intro c' hc' e
        have h1 := (i3 c' hc').1
        rw [hfind, e, if_pos hsid] at h1
        cases h1
      refine ⟨i1, ?_, ?_, ?_⟩
      · intro k hk
        have hkc : c.logicalID ≠ k := hk c (List.mem_cons_self _ _)
        rw [i2 k (fun c' hc' => hk c' (List.mem_cons_of_mem _ hc')), hfind,
          if_neg (fun e => hkc (hsid.symm.trans e))]
      · intro c' hc'
        rcases List.mem_cons.mp hc' with rfl | hc'
        · refine ⟨hnone, newPort, hup', by simp [hst], ?_⟩
          rw [i2 _ (fun c'' hc'' => hrestne c'' hc''), hfind, if_pos hsid, hst]
        · obtain ⟨j1, j2⟩ := i3 c' hc'
          refine ⟨?_, j2⟩
          rw [hfind] at j1
          split at j1
          · cases j1
          · exact j1
      · rw [i4]
        constructor
        · rintro (h1 | ⟨c', hc', p', hp'⟩)
          · simp only [Bool.or_eq_true] at h1
            rcases h1 with h1 | h1
            · exact Or.inl h1
            · right
              rw [hch, Option.isSome_iff_exists] at h1
              obtain ⟨p', hp'⟩ := h1
              exact ⟨c, List.mem_cons_self _ _, p', hp' ▸ hup'⟩
          · exact Or.inr ⟨c', List.mem_cons_of_mem _ hc', p', hp'⟩
        · rintro (h1 | ⟨c', hc', p', hp'⟩)
          · left
            simp only at h1
            simp [h1]
          · rcases List.mem_cons.mp hc' with rfl | hc'
            · left
              rw [hup'] at hp'
              simp only [Except.ok.injEq] at hp'
              simp [hch, hp']
            · exact Or.inr ⟨c', hc', p', hp'⟩

/-- The second loop of `updatePorts`. -/
theorem updatePortsResetLoop_spec (cfg : SwitchConfig) (ctx : Ctx) :
    ∀ (os : List Port) (acc res : List Port × Bool), SortedNodes acc.1 →
      updatePortsResetLoop cfg ctx os acc = .ok res →
      SortedNodes res.1 ∧
      (∀ k, (findNode acc.1 k).isSome = true → findNode res.1 k = findNode acc.1 k) ∧
      (∀ k, findNode os k = none → findNode res.1 k = findNode acc.1 k) ∧
      (∀ k o, findNode os k = some o → findNode acc.1 k = none →
        ∃ r, updatePort cfg ctx o (initDefaultConfigState o) = .ok r ∧
          findNode res.1 k = storedNode (some o) r) ∧
      (res.2 = true ↔ acc.2 = true ∨
        ∃ k o, findNode os k = some o ∧ findNode acc.1 k = none ∧
          ∃ p', updatePort cfg ctx o (initDefaultConfigState o) = .ok (some p')) := by
  intro os
  induction os with
  | nil =>
      intro acc res _ h
      simp only [updatePortsResetLoop, pure_eq_ok] at h
      subst h
      simp_all [findNode]
  | cons o rest ih =>
      intro acc res hs h
      obtain ⟨newPorts, changed⟩ := acc
      unfold updatePortsResetLoop at h
      split at h
      · rename_i hsome
        obtain ⟨i1, i2, i3, i4, i5⟩ := ih _ _ hs h
        simp only at i1 i2 i3 i4 i5
        refine ⟨i1, i2, ?_, ?_, ?_⟩
        · intro k hk
          unfold findNode at hk
          split at hk
          · cases hk
          · exact i3 k hk
        · intro k o' hk hnone
          unfold findNode at hk
          split at hk
          · rename_i hid
            have hid : o.id = k := hid
            rw [hid, hnone] at hsome
            cases hsome
          · exact i4 k o' hk hnone
        · rw [i5]
          constructor
          · rintro (h1 | ⟨k, o', hk, hn, hp⟩)
            · exact Or.inl h1
            · right
              refine ⟨k, o', ?_, hn, hp⟩
              unfold findNode
              split
              · rename_i hid
                have hid : o.id = k := hid
                rw [hid, hn] at hsome
                cases hsome
              · exact hk
          · rintro (h1 | ⟨k, o', hk, hn, hp⟩)
            · exact Or.inl h1
            · right
              refine ⟨k, o', ?_, hn, hp⟩
              unfold findNode at hk
              split at hk
              · rename_i hid
                have hid : o.id = k := hid
                rw [hid, hn] at hsome
                cases hsome
              · exact hk
      · rename_i hnot
        have hnone : findNode newPorts o.id = none := by
          cases hf : findNode newPorts o.id with
          | none => rfl
          | some x => rw [hf] at hnot; simp at hnot
        simp only [bind_eq_ok] at h
        obtain ⟨newPort, hup, ⟨m, ch⟩, hmap, hrec⟩ := h
        obtain ⟨stored, hstored, hemp, hch⟩ := updateMap_spec hmap
        simp only at hemp hch hs
        have hsid : HasID.getID stored = o.id := by
          rcases hstored with h1 | ⟨h1, h2⟩
          · have := (updatePort_ok_id hup)
            exact (this.2 stored h1).trans this.1.symm
          · simp only [Option.some.injEq] at h2
            rw [← h2]
            rfl
        have hst : storedNode (some o) newPort = some stored := by
          rcases hstored with h1 | ⟨h1, h2⟩
          · simp [storedNode, h1]
          · simp [storedNode, h1, h2]
        obtain ⟨hsm, _⟩ := emplaceNode_sorted hs hemp
        have hfind := findNode_emplaceNode hemp
        obtain ⟨i1, i2, i3, i4, i5⟩ := ih (m, changed || ch) res hsm hrec
        simp only at i1 i2 i3 i4 i5
        have hmo : findNode m o.id = some stored := by rw [hfind, if_pos hsid]
        refine ⟨i1, ?_, ?_, ?_, ?_⟩
        · intro k hk
          have hne : ¬ HasID.getID stored = k := by
            intro e
            rw [← e, hsid, hnone] at hk
            cases hk
          rw [i2 k (by rw [hfind, if_neg hne]; exact hk), hfind, if_neg hne]
        · intro k hk
          unfold findNode at hk
          split at hk
          · cases hk
          · rename_i hne
            have hne : ¬ HasID.getID stored = k := fun e => hne (hsid.symm.trans e)
            rw [i3 k hk, hfind, if_neg hne]
        · intro k o' hk hn
          unfold findNode at hk
          split at hk
          · rename_i hid
            have hid : o.id = k := hid
            simp only [Option.some.injEq] at hk
            subst hk
            subst hid
            refine ⟨newPort, hup, ?_⟩
            rw [i2 _ (by rw [hmo]; rfl), hmo, hst]
          · rename_i hne
            have hne' : ¬ HasID.getID stored = k := fun e => hne (hsid.symm.trans e)
            exact i4 k o' hk (by rw [hfind, if_neg hne']; exact hn)
        · rw [i5]
          constructor
          · rintro (h1 | ⟨k, o', hk, hn, hp⟩)
            · simp only [Bool.or_eq_true] at h1
              rcases h1 with h1 | h1
              · exact Or.inl h1
              · right
                rw [hch, Option.isSome_iff_exists] at h1
                obtain ⟨p', hp'⟩ := h1
                refine ⟨o.id, o, ?_, hnone, p', hp' ▸ hup⟩
                simp [findNode, HasID.getID]
            · right
              have hne : ¬ HasID.getID stored = k := by
                intro e
                rw [hfind, if_pos e] at hn
                cases hn
              refine ⟨k, o', ?_, ?_, hp⟩
              · unfold findNode
                rw [if_neg (fun e : HasID.getID o = k => hne (hsid.trans e))]
                exact hk
              · rw [hfind, if_neg hne] at hn
                exact hn
          · rintro (h1 | ⟨k, o', hk, hn, p', hp⟩)
            · left
              simp only at h1
              simp [h1]
            · unfold findNode at hk
              split at hk
              · simp only [Option.some.injEq] at hk
                subst hk
                left
                rw [hup] at hp
                simp only [Except.ok.injEq] at hp
                simp [hch, hp]
              · rename_i hne
                have hne' : ¬ HasID.getID stored = k := fun e => hne (hsid.symm.trans e)
                exact Or.inr ⟨k, o', hk, by rw [hfind, if_neg hne']; exact hn, p', hp⟩

theorem sortedNodes_nil {Node K : Type} [HasID Node K] [KeyOrder K] :
    SortedNodes ([] : List Node) := List.Pairwise.nil

/-- What `updatePorts` builds: for every config entry the node it stores under
the entry's id, for every old port without a config entry the node it stores
after the reset to the default configuration, and when it reports no change. -/
theorem updatePorts_built {cfg : SwitchConfig} {ctx : Ctx} {origPorts : NodeMap Port}
    {r : Option (NodeMap Port)} (h : updatePorts cfg ctx origPorts = .ok r) :
    ∃ built : List Port,
      (r = none ∨ r = some (origPorts.cloneWith built)) ∧
      (∀ c ∈ cfg.ports,
        ∃ u, updatePort cfg ctx (portToUpdate origPorts.nodes c) c = .ok u ∧
          (storedNode (findNode origPorts.nodes c.logicalID) u).isSome = true ∧
          findNode built c.logicalID = storedNode (findNode origPorts.nodes c.logicalID) u) ∧
      (∀ k o, findNode origPorts.nodes k = some o → (∀ c ∈ cfg.ports, c.logicalID ≠ k) →
        ∃ u, updatePort cfg ctx o (initDefaultConfigState o) = .ok u ∧
          findNode built k = storedNode (some o) u) ∧
      (r = none ↔
        (∀ c ∈ cfg.ports, updatePort cfg ctx (portToUpdate origPorts.nodes c) c = .ok none) ∧
        (∀ k o, findNode origPorts.nodes k = some o → (∀ c ∈ cfg.ports, c.logicalID ≠ k) →
          updatePort cfg ctx o (initDefaultConfigState o) = .ok none)) := by
  simp only [updatePorts, bind_eq_ok] at h
  obtain ⟨acc, h1, ⟨built, changed⟩, h2, h3⟩ := h
  obtain ⟨a1, a2, a3, a4⟩ := updatePortsCfgLoop_spec cfg ctx origPorts.nodes _ _ _
    sortedNodes_nil h1
  obtain ⟨b1, b2, b3, b4, b5⟩ := updatePortsResetLoop_spec cfg ctx _ _ _ a1 h2
  simp only [findNode] at a2 a3 a4 b2 b3 b4 b5
  have hcfgkey : ∀ k, (∀ c ∈ cfg.ports, c.logicalID ≠ k) → findNode acc.1 k = none := a2
  refine ⟨built, ?_, ?_, ?_, ?_⟩
  · split at h3
    · simp only [pure_eq_ok] at h3
      exact Or.inl h3.symm
    · simp only [pure_eq_ok] at h3
      exact Or.inr h3.symm
  · intro c hc
    obtain ⟨_, u, hu, hs, hf⟩ := a3 c hc
    refine ⟨u, hu, hs, ?_⟩
    rw [b2 _ (by rw [hf]; exact hs), hf]
  · intro k o hk hun
    exact b4 k o hk (hcfgkey k hun)
  · have hch : changed = true ↔
        (∃ c ∈ cfg.ports, ∃ p', updatePort cfg ctx (portToUpdate origPorts.nodes c) c
          = .ok (some p')) ∨
        ∃ k o, findNode origPorts.nodes k = some o ∧ findNode acc.1 k = none ∧
          ∃ p', updatePort cfg ctx o (initDefaultConfigState o) = .ok (some p') := by
      rw [b5, a4]
      simp
    have hrnone : r = none ↔ changed = false := by
      split at h3
      · rename_i hc
        simp only [pure_eq_ok] at h3
        simp only [Bool.not_eq_true', ] at hc
        simp [← h3, hc]
      · rename_i hc
        simp only [pure_eq_ok] at h3
        simp only [Bool.not_eq_true', Bool.not_eq_false] at hc
        simp [← h3, hc]
    rw [hrnone]
    constructor
    · intro hfalse
      have hno : ¬ changed = true := by simp [hfalse]
      rw [hch] at hno
      push_neg at hno
      obtain ⟨n1, n2⟩ := hno
      refine ⟨?_, ?_⟩
      · intro c hc
        obtain ⟨_, u, hu, _, _⟩ := a3 c hc
        cases u with
        | none => exact hu
        | some p' => exact absurd hu (n1 c hc p')
      · intro k o hk hun
        obtain ⟨u, hu, _⟩ := b4 k o hk (hcfgkey k hun)
        cases u with
        | none => exact hu
        | some p' => exact absurd hu (n2 k o hk (hcfgkey k hun) p')
    · rintro ⟨n1, n2⟩
      by_contra hne
      have hc : changed = true := by simpa using hne
      rw [hch] at hc
      rcases hc with ⟨c, hc, p', hp⟩ | ⟨k, o, hk, hn, p', hp⟩
      · rw [n1 c hc] at hp
        cases hp
      · have hun : ∀ c ∈ cfg.ports, c.logicalID ≠ k := by
          intro c hc e
          have := (a3 c hc)
          obtain ⟨_, u, _, hs, hf⟩ := this
          have hf2 : findNode acc.1 k = storedNode (findNode origPorts.nodes c.logicalID) u := by
            rw [← e]; exact hf
          rw [hn] at hf2
          rw [← hf2] at hs
          cases hs
        rw [n2 k o hk hun] at hp
        cases hp

/-- The node `updatePorts` stores for a port of the old state, in terms of the
config entry the port is reconciled against. -/
theorem updatePorts_old_port {cfg : SwitchConfig} {ctx : Ctx} {origPorts : NodeMap Port}
    {r : Option (NodeMap Port)} (h : updatePorts cfg ctx origPorts = .ok r) :
    ∃ built : List Port,
      (r = none ∨ r = some (origPorts.cloneWith built)) ∧
      (∀ k o, findNode origPorts.nodes k = some o →
        ∃ u, updatePort cfg ctx o (portConfigFor cfg o) = .ok u ∧
          findNode built k = storedNode (some o) u) ∧
      (r = none → ∀ k o, findNode origPorts.nodes k = some o →
        updatePort cfg ctx o (portConfigFor cfg o) = .ok none) := by
  obtain ⟨built, hr, hcfg, hun, hnone⟩ := updatePorts_built h
  have key : ∀ k o, findNode origPorts.nodes k = some o →
      (∃ c ∈ cfg.ports, c.logicalID = k ∧ portConfigFor cfg o = c ∧
        portToUpdate origPorts.nodes c = o) ∨
      ((∀ c ∈ cfg.ports, c.logicalID ≠ k) ∧ portConfigFor cfg o = initDefaultConfigState o) := by
    intro k o hk
    have hid : o.id = k := (findNode_some_id hk).1
    unfold portConfigFor
    cases hf : cfg.ports.find? (fun c => decide (c.logicalID = o.id)) with
    | some c =>
        left
        have hmem := List.mem_of_find?_eq_some hf
        have hcid : c.logicalID = o.id := by simpa using List.find?_some hf
        refine ⟨c, hmem, hcid.trans hid, rfl, ?_⟩
        unfold portToUpdate
        rw [hcid, hid, hk]
    | none =>
        right
        refine ⟨?_, rfl⟩
        intro c hc e
        have := List.find?_eq_none.mp hf c hc
        simp [e, hid] at this
  refine ⟨built, hr, ?_, ?_⟩
  · intro k o hk
    rcases key k o hk with ⟨c, hc, hck, hpc, hto⟩ | ⟨hno, hpc⟩
    · obtain ⟨u, hu, _, hf⟩ := hcfg c hc
      rw [hpc]
      rw [hto] at hu
      refine ⟨u, hu, ?_⟩
      rw [← hck, hf, hck, hk]
    · rw [hpc]
      exact hun k o hk hno
  · intro hrn k o hk
    obtain ⟨n1, n2⟩ := hnone.mp hrn
    rcases key k o hk with ⟨c, hc, hck, hpc, hto⟩ | ⟨hno, hpc⟩
    · rw [hpc, ← hto]
      exact n1 c hc
    · rw [hpc]
      exact n2 k o hk hno

/-- C4. Whenever `updatePorts` rebuilds the port map, a port of the old map for
which `updatePort` reports no change is held in the new map as the very node
of the old map (equal in every field, generation and published flag
included), and a port that differs is a new node (a clone: generation one
higher, unpublished); the new map is itself a clone of the old map. When
`updatePort` reports no change for every port, `updatePorts` returns no map. -/
theorem updatePorts_structural_sharing (cfg : SwitchConfig) (ctx : Ctx)
    (origPorts : NodeMap Port) (r : Option (NodeMap Port))
    (h : updatePorts cfg ctx origPorts = .ok r) :
    (∀ newMap, r = some newMap →
      newMap.toNodeBase = origPorts.toNodeBase.clone ∧
      ∀ k o, findNode origPorts.nodes k = some o →
        ∃ u, updatePort cfg ctx o (portConfigFor cfg o) = .ok u ∧
          (u = none → findNode newMap.nodes k = some o) ∧
          (∀ p', u = some p' → findNode newMap.nodes k = some p' ∧ p' ≠ o ∧
            p'.generation = o.generation + 1 ∧ p'.published = false)) ∧
    (r = none ↔
      (∀ c ∈ cfg.ports, updatePort cfg ctx (portToUpdate origPorts.nodes c) c = .ok none) ∧
      (∀ k o, findNode origPorts.nodes k = some o → (∀ c ∈ cfg.ports, c.logicalID ≠ k) →
        updatePort cfg ctx o (initDefaultConfigState o) = .ok none)) := by
  refine ⟨?_, (updatePorts_built h).choose_spec.2.2.2⟩
  intro newMap hr
  obtain ⟨built, hb, hold, _⟩ := updatePorts_old_port h
  have hnm : newMap = origPorts.cloneWith built := by
    rcases hb with hb | hb
    · rw [hb] at hr; cases hr
    · rw [hb] at hr
      simp only [Option.some.injEq] at hr
      exact hr.symm
  subst hnm
  refine ⟨rfl, ?_⟩
  intro k o hk
  obtain ⟨u, hu, hf⟩ := hold k o hk
  refine ⟨u, hu, ?_, ?_⟩
  · intro hnone
    subst hnone
    exact hf
  · intro p' hp
    subst hp
    have hs := updatePort_some hu
    have hbase : p'.toNodeBase = o.toNodeBase.clone := hs.2.2.1
    have hgen : p'.generation = o.generation + 1 := by
      have := congrArg NodeBase.generation hbase
      simpa [NodeBase.clone] using this
    have hpub : p'.published = false := by
      have := congrArg NodeBase.published hbase
      simpa [NodeBase.clone] using this
    refine ⟨hf, ?_, hgen, hpub⟩
    intro e
    rw [e] at hgen
    omega

/-! ## The orchestrator -/

theorem Pass.reset_ctx {α : Type} (p : Pass) (r : Option α) (set : SwitchState → α → SwitchState) :
    (p.reset r set).ctx = p.ctx := by
  cases r <;> rfl

theorem Pass.reset_changed {α : Type} (p : Pass) (r : Option α)
    (set : SwitchState → α → SwitchState) :
    (p.reset r set).changed = (p.changed || r.isSome) := by
  cases r <;> simp [Pass.reset]

theorem Pass.reset_none {α : Type} (p : Pass) (set : SwitchState → α → SwitchState) :
    p.reset none set = p := rfl

theorem Pass.reset_some {α : Type} (p : Pass) (n : α) (set : SwitchState → α → SwitchState) :
    (p.reset (some n) set).new_ = set p.new_ n := rfl

theorem Pass.reset_ports {α : Type} (p : Pass) (r : Option α)
    (set : SwitchState → α → SwitchState) (hset : ∀ s n, (set s n).ports = s.ports) :
    (p.reset r set).new_.ports = p.new_.ports := by
  cases r with
  | none => rfl
  | some n => exact hset _ _

theorem Pass.setIf_ctx (p : Pass) (c : Bool) (set : SwitchState → SwitchState) :
    (p.setIf c set).ctx = p.ctx := by
  cases c <;> rfl

theorem Pass.setIf_changed (p : Pass) (c : Bool) (set : SwitchState → SwitchState) :
    (p.setIf c set).changed = (p.changed || c) := by
  cases c <;> simp [Pass.setIf]

theorem Pass.setIf_ports (p : Pass) (c : Bool) (set : SwitchState → SwitchState)
    (hset : ∀ s, (set s).ports = s.ports) :
    (p.setIf c set).new_.ports = p.new_.ports := by
  cases c with
  | false => rfl
  | true => exact hset _

/-- `run` up to the aggregate ports: the port map of `new_` is the one
`updatePorts` returns, or the old one when it returns none. -/
theorem runPorts_spec {platform : Platform} {orig : SwitchState} {cfg : SwitchConfig} {p : Pass}
    (h : runPorts platform orig cfg = .ok p) :
    ∃ ctx r, processVlanPorts cfg {} = .ok ctx ∧ p.ctx = ctx ∧
      updatePorts cfg ctx orig.ports = .ok r ∧
      p.new_.ports = r.getD orig.ports ∧
      (r.isSome = true → p.changed = true) := by
  simp only [runPorts, bind_eq_ok, pure_eq_ok, Pass.reset_ctx] at h
  obtain ⟨newCP, _, ctx, hctx, newPorts, hports, newAgg, _, h⟩ := h
  subst h
  refine ⟨ctx, newPorts, hctx, ?_, hports, ?_, ?_⟩
  · rw [Pass.reset_ctx, Pass.reset_ctx]
  · cases newPorts <;> simp only [Pass.reset_ports, Pass.reset_none, Pass.reset_some, implies_true] <;> rfl
  · intro hsome
    rw [Pass.reset_changed, Pass.reset_changed, hsome]
    simp

theorem runPolicies_ports {orig : SwitchState} {cfg : SwitchConfig} {p p' : Pass}
    (h : runPolicies orig cfg p = .ok p') :
    p'.new_.ports = p.new_.ports ∧ (p.changed = true → p'.changed = true) := by
  simp only [runPolicies, bind_eq_ok, pure_eq_ok] at h
  obtain ⟨newMirrors, _, newAcls, _, newQos, _, newDflt, _, h⟩ := h
  subst h
  refine ⟨?_, ?_⟩
  · simp only [Pass.reset_ports, implies_true]
  · intro hc
    simp only [Pass.reset_changed, hc, Bool.true_or]

theorem runInterfaces_ports {platform : Platform} {orig : SwitchState} {cfg : SwitchConfig}
    {p p' : Pass} (h : runInterfaces platform orig cfg p = .ok p') :
    p'.new_.ports = p.new_.ports ∧ (p.changed = true → p'.changed = true) := by
  simp only [runInterfaces, bind_eq_ok, pure_eq_ok] at h
  obtain ⟨⟨newIntfs, ctx1⟩, _, ⟨newVlans, ctx2⟩, _, h⟩ := h
  subst h
  refine ⟨?_, ?_⟩
  · simp only [Pass.reset_ports, implies_true]
  · intro hc
    simp only [Pass.reset_changed, hc, Bool.true_or]

theorem runRoutes_ports {rib : Option RoutingInformationBase} {orig : SwitchState}
    {cfg : SwitchConfig} {p p' : Pass} (h : runRoutes rib orig cfg p = .ok p') :
    p'.new_.ports = p.new_.ports ∧ (p.changed = true → p'.changed = true) := by
  unfold runRoutes at h
  cases rib with
  | some r =>
      simp only [bind_eq_ok, pure_eq_ok] at h
      obtain ⟨newFibs, _, fibs, _, h⟩ := h
      subst h
      refine ⟨?_, ?_⟩
      · simp only [Pass.reset_ports, implies_true]
      · intro hc
        simp only [Pass.reset_changed, hc, Bool.true_or]
  | none =>
      simp only [pure_eq_ok] at h
      subst h
      refine ⟨?_, ?_⟩
      · simp only [Pass.reset_ports, implies_true]
      · intro hc
        simp only [Pass.reset_changed, hc, Bool.true_or]

theorem runValidate_ports {orig : SwitchState} {cfg : SwitchConfig} {p p' : Pass}
    (h : runValidate orig cfg p = .ok p') :
    p'.new_.ports = p.new_.ports ∧ (p.changed = true → p'.changed = true) := by
  simp only [runValidate, bind_eq_ok, pure_eq_ok] at h
  obtain ⟨_, _, _, _, h⟩ := h
  subst h
  refine ⟨by simp only [Pass.setIf_ports, implies_true], ?_⟩
  intro hc
  simp only [Pass.setIf_changed, hc, Bool.true_or]

theorem runScalars_ports (orig : SwitchState) (cfg : SwitchConfig) (p : Pass) :
    (runScalars orig cfg p).new_.ports = p.new_.ports ∧
    (p.changed = true → (runScalars orig cfg p).changed = true) := by
  unfold runScalars
  refine ⟨?_, ?_⟩
  · simp only [Pass.setIf_ports, implies_true]
  · intro hc
    simp only [Pass.setIf_changed, hc, Bool.true_or]

theorem runCollectors_ports {orig : SwitchState} {cfg : SwitchConfig} {p p' : Pass}
    (h : runCollectors orig cfg p = .ok p') :
    p'.new_.ports = p.new_.ports ∧ (p.changed = true → p'.changed = true) := by
  simp only [runCollectors, bind_eq_ok, pure_eq_ok] at h
  obtain ⟨newCollectors, _, newLb, _, h⟩ := h
  subst h
  refine ⟨?_, ?_⟩
  · simp only [Pass.reset_ports, implies_true]
  · intro hc
    simp only [Pass.reset_changed, hc, Bool.true_or]

/-- The port map of the state `run` leaves: the map `updatePorts` returns, or
the old map when `updatePorts` returns none; when `run` returns the unchanged
sentinel, `updatePorts` returned none. -/
theorem run_ports {platform : Platform} {rib : Option RoutingInformationBase}
    {orig : SwitchState} {cfg : SwitchConfig} {res : Option SwitchState}
    (h : run platform rib orig cfg = .ok res) :
    ∃ ctx r, processVlanPorts cfg {} = .ok ctx ∧ updatePorts cfg ctx orig.ports = .ok r ∧
      (∀ s, res = some s → s.ports = r.getD orig.ports) ∧
      (res = none → r = none) := by
  simp only [run, runPass, bind_eq_ok] at h
  obtain ⟨p, ⟨p1, h1, p2, h2, p3, h3, p4, h4, p5, h5, h6⟩, h⟩ := h
  obtain ⟨ctx, r, hctx, _, hup, hports, hch⟩ := runPorts_spec h1
  have e2 := runPolicies_ports h2
  have e3 := runInterfaces_ports h3
  have e4 := runRoutes_ports h4
  have e5 := runValidate_ports h5
  have e6 := runScalars_ports orig cfg p5
  have e7 := runCollectors_ports h6
  have hpp : p.new_.ports = r.getD orig.ports := by
    rw [e7.1, e6.1, e5.1, e4.1, e3.1, e2.1, hports]
  have hcc : r.isSome = true → p.changed = true := fun hs =>
    e7.2 (e6.2 (e5.2 (e4.2 (e3.2 (e2.2 (hch hs))))))
  refine ⟨ctx, r, hctx, hup, ?_, ?_⟩
  · intro s hs
    subst hs
    split at h
    · simp [pure_eq_ok] at h
    · simp only [pure_eq_ok, Option.some.injEq] at h
      rw [← h]
      exact hpp
  · intro hs
    subst hs
    split at h
    · rename_i hc
      cases r with
      | none => rfl
      | some n =>
          have := hcc rfl
          simp [this] at hc
    · simp [pure_eq_ok] at h

theorem portConfigFor_omitted {cfg : SwitchConfig} {o : Port}
    (h : ∀ c ∈ cfg.ports, c.logicalID ≠ o.id) :
    portConfigFor cfg o = initDefaultConfigState o := by
  unfold portConfigFor
  cases hf : cfg.ports.find? (fun c => decide (c.logicalID = o.id)) with
  | none => rfl
  | some c =>
      have hmem := List.mem_of_find?_eq_some hf
      have hcid : c.logicalID = o.id := by simpa using List.find?_some hf
      exact absurd hcid (h c hmem)

/-- The ports of the state a successful `run` leaves (the new state, or the
old one when `run` returns the unchanged sentinel): every port of the old map
is still held under its id, as the node `updatePort` built for it or, when
`updatePort` built none, as the old node. -/
theorem run_old_port {platform : Platform} {rib : Option RoutingInformationBase}
    {orig : SwitchState} {cfg : SwitchConfig} {res : Option SwitchState}
    (h : run platform rib orig cfg = .ok res) :
    ∃ ctx, processVlanPorts cfg {} = .ok ctx ∧
      ∀ k o, findNode orig.ports.nodes k = some o →
        ∃ u, updatePort cfg ctx o (portConfigFor cfg o) = .ok u ∧
          findNode (res.getD orig).ports.nodes k = some (u.getD o) := by
  obtain ⟨ctx, r, hctx, hup, hs, hnone⟩ := run_ports h
  have hP : (res.getD orig).ports = r.getD orig.ports := by
    cases res with
    | none => rw [hnone rfl]; rfl
    | some s => exact hs s rfl
  obtain ⟨built, hb, hold, hrn⟩ := updatePorts_old_port hup
  refine ⟨ctx, hctx, ?_⟩
  intro k o hk
  obtain ⟨u, hu, hf⟩ := hold k o hk
  refine ⟨u, hu, ?_⟩
  rw [hP]
  rcases hb with hb | hb
  · have hun := hrn hb k o hk
    rw [hun] at hu
    cases hu
    rw [hb]
    exact hk
  · rw [hb]
    simp only [Option.getD_some, NodeMap.cloneWith]
    rw [hf]
    cases u <;> rfl


/-- What `run` does guarantee for a port the config lists: the port of that id
in the resulting state matches the config entry in admin state, ingress VLAN,
speed, profile, pause, sFlow rates, sample destination, name, description,
FEC, loopback mode, mirrors, QoS policy and VLAN membership. -/
theorem run_cfg_port {platform : Platform} {rib : Option RoutingInformationBase}
    {orig : SwitchState} {cfg : SwitchConfig} {res : Option SwitchState}
    (h : run platform rib orig cfg = .ok res) :
    ∃ ctx, processVlanPorts cfg {} = .ok ctx ∧
      ∀ c ∈ cfg.ports, ∃ p, findNode (res.getD orig).ports.nodes c.logicalID = some p ∧
        p.matchesConfig cfg ctx c := by
  obtain ⟨ctx, r, hctx, hup, hs, hnone⟩ := run_ports h
  have hP : (res.getD orig).ports = r.getD orig.ports := by
    cases res with
    | none => rw [hnone rfl]; rfl
    | some s => exact hs s rfl
  obtain ⟨built, hb, hcfg, _, hrn⟩ := updatePorts_built hup
  refine ⟨ctx, hctx, ?_⟩
  intro c hc
  obtain ⟨u, hu, hsome, hf⟩ := hcfg c hc
  rw [hP]
  cases u with
  | some p' =>
      have hm := (updatePort_some hu).2.2.2.2.1
      rcases hb with hb | hb
      · rw [(hrn.mp hb).1 c hc] at hu
        cases hu
      · rw [hb]
        exact ⟨p', by simpa [NodeMap.cloneWith, storedNode] using hf, hm⟩
  | none =>
      simp only [storedNode] at hsome hf
      obtain ⟨o, ho⟩ := Option.isSome_iff_exists.mp hsome
      have hto : portToUpdate orig.ports.nodes c = o := by
        unfold portToUpdate
        rw [ho]
      rw [hto] at hu
      have hm := (updatePort_none hu).2.1
      rcases hb with hb | hb
      · rw [hb]
        exact ⟨o, ho, hm⟩
      · rw [hb]
        refine ⟨o, ?_, hm⟩
        simp only [Option.getD_some, NodeMap.cloneWith]
        rw [hf, ho]

/-- C5. On every old state and config on which `run` succeeds, every port id
of the old port map is still a key of the port map of the resulting state
(the new state, or the old one when `run` reports no change); and a port
that the config's ports list omits is reconciled by `updatePort` against the
config its own `initDefaultConfigState` makes, and ends with admin state
DISABLED. -/
theorem port_default_reset (platform : Platform) (rib : Option RoutingInformationBase)
    (orig : SwitchState) (cfg : SwitchConfig) (res : Option SwitchState)
    (h : run platform rib orig cfg = .ok res) :
    ∀ k o, findNode orig.ports.nodes k = some o →
      ∃ p, findNode (res.getD orig).ports.nodes k = some p ∧
        ((∀ c ∈ cfg.ports, c.logicalID ≠ k) →
          (∃ ctx u, processVlanPorts cfg {} = .ok ctx ∧
            updatePort cfg ctx o (initDefaultConfigState o) = .ok u ∧ p = u.getD o) ∧
          p.adminState = .disabled) := by
  obtain ⟨ctx, hctx, hall⟩ := run_old_port h
  intro k o hk
  obtain ⟨u, hu, hf⟩ := hall k o hk
  refine ⟨u.getD o, hf, ?_⟩
  intro hom
  have hid : o.id = k := (findNode_some_id hk).1
  have hpc : portConfigFor cfg o = initDefaultConfigState o :=
    portConfigFor_omitted (fun c hc => by rw [hid]; exact hom c hc)
  rw [hpc] at hu
  refine ⟨⟨ctx, u, hctx, hu, rfl⟩, ?_⟩
  cases u with
  | none => exact (updatePort_none hu).2.1.1
  | some p' => exact (updatePort_some hu).2.2.2.2.1.1

/-- C5, at a concrete input: the four enabled ports of `TEST(PortMap, applyConfig)`
and a config that leaves port 3 out; port 3 is still there and is disabled. -/
theorem port_default_reset_witness :
    ∃ res, run examplePlatform none stateFourPorts cfgWithoutPort3 = .ok res ∧
      ∃ p, findNode (res.getD stateFourPorts).ports.nodes 3 = some p ∧
        p.adminState = .disabled :=
  ⟨_, rfl,
    (port_default_reset examplePlatform none stateFourPorts cfgWithoutPort3 _ rfl 3
      _ rfl).imp fun _ hp => ⟨hp.1, (hp.2 (by decide)).2⟩⟩

/-- C4, at a concrete input: four published ports and a config that enables
port 2; the map is rebuilt as a clone, port 1 is the node of the old map and
port 2 is a new, unpublished node. -/
theorem updatePorts_structural_sharing_witness :
    ∃ newMap, updatePorts cfgEnablePort2 {} portsV0 = .ok (some newMap) ∧
      newMap.toNodeBase = portsV0.toNodeBase.clone ∧
      findNode newMap.nodes 1 = findNode portsV0.nodes 1 ∧
      (findNode newMap.nodes 2).map (fun p => (p.generation, p.published)) = some (1, false) :=
  ⟨_, rfl, ((updatePorts_structural_sharing cfgEnablePort2 {} portsV0 _ rfl).1 _ rfl).1, rfl,
    rfl⟩

/-- C1 at a failing input. A state with one newly made port is given a config
whose port expects LLDP value "sysA" for tag 1; the state `s` this yields is
given a config whose port expects "portB" for tag 2 only. `updatePort` writes
the new map on top of the port's old one, so the port of the new state `s1`
expects both values; applying the same config to `s1` compares the config's
map with the merged one and returns a new state again, not the unchanged
sentinel. -/
theorem applyThriftConfig_not_idempotent :
    ∃ s s1 s2, applyThriftConfig lookupState lldpCfgFirst examplePlatform = .ok (some s) ∧
      applyThriftConfig s lldpCfg examplePlatform = .ok (some s1) ∧
      (findNode s1.ports.nodes 1).map (fun p => p.expectedLLDPValues)
        = some [(1, "sysA"), (2, "portB")] ∧
      applyThriftConfig s1 lldpCfg examplePlatform = .ok (some s2) :=
  ⟨_, _, _, rfl, rfl, rfl, rfl⟩

/-- C9 at a failing input. The state holds the default data-plane QoS policy
"qp" with DSCP 1 on queue 0; the config defines "qp" with DSCP 2 on queue 0.
`updateDataplaneDefaultQosPolicy` compiles a policy that differs from the
state's, and `applyThriftConfig` returns the unchanged sentinel. -/
theorem default_qos_policy_change_unreported :
    (qosState.defaultDataPlaneQosPolicy.map fun p => p.dscpMap) = some [(0, 1)] ∧
    ((updateDataplaneDefaultQosPolicy qosCfg qosState.defaultDataPlaneQosPolicy).map
      fun r => r.map fun p => p.dscpMap) = .ok (some [(0, 2)]) ∧
    applyThriftConfig qosState qosCfg examplePlatform = .ok none := by
  decide

/-- C10 at two failing inputs. A config that differs from the state's port in
the lookup classes only: `applyThriftConfig` returns the unchanged sentinel
and the port keeps no lookup class where the config gives class 10. A config
whose LLDP map lacks a tag of the port's map: the port of the new state holds
both the old value and the config's. -/
theorem reconciled_port_keeps_old_lookup_classes :
    applyThriftConfig lookupState lookupCfg examplePlatform = .ok none ∧
    (findNode lookupState.ports.nodes 1).map (fun p => p.lookupClasses) = some [] ∧
    lookupCfg.ports.map (fun c => (c.logicalID, c.lookupClasses)) = [(1, [10])] ∧
    ∃ s, applyThriftConfig lldpState lldpCfg examplePlatform = .ok (some s) ∧
      (findNode s.ports.nodes 1).map (fun p => p.expectedLLDPValues)
        = some [(1, "sysA"), (2, "portB")] :=
  ⟨by decide, by decide, by decide, _, rfl, rfl⟩

/-! ## VLAN/interface bindings -/

theorem FlatMap.find?_assign_self {K V : Type} [DecidableEq K] [KeyOrder K]
    (l : List (K × V)) (k : K) (v : V) : FlatMap.find? (FlatMap.assign l k v) k = some v := by
  induction l with
  | nil => simp [FlatMap.assign, FlatMap.find?]
  | cons a rest ih =>
      obtain ⟨k', v'⟩ := a
      unfold FlatMap.assign
      split
      · rename_i h
        simp [FlatMap.find?, h]
      · rename_i h
        split
        · simp [FlatMap.find?]
        · have h' : ¬ k' = k := fun e => h e.symm
          simp only [FlatMap.find?, if_neg h']
          exact ih

theorem FlatMap.find?_assign_ne {K V : Type} [DecidableEq K] [KeyOrder K]
    (l : List (K × V)) (k j : K) (v : V) (hne : j ≠ k) :
    FlatMap.find? (FlatMap.assign l k v) j = FlatMap.find? l j := by
  induction l with
  | nil => simp [FlatMap.assign, FlatMap.find?, Ne.symm hne]
  | cons a rest ih =>
      obtain ⟨k', v'⟩ := a
      unfold FlatMap.assign
      split
      · rename_i h
        subst h
        simp [FlatMap.find?, Ne.symm hne]
      · split
        · simp [FlatMap.find?, Ne.symm hne]
        · simp only [FlatMap.find?]
          rw [ih]

theorem FlatMap.mem_of_find? {K V : Type} [DecidableEq K] {l : List (K × V)} {k : K} {v : V}
    (h : FlatMap.find? l k = some v) : (k, v) ∈ l := by
  induction l with
  | nil => simp [FlatMap.find?] at h
  | cons a rest ih =>
      obtain ⟨k', v'⟩ := a
      simp only [FlatMap.find?] at h
      split at h
      · rename_i e
        simp only [Option.some.injEq] at h
        subst e
        subst h
        exact List.mem_cons_self _ _
      · exact List.mem_cons_of_mem _ (ih h)

theorem FlatMap.mem_keys_emplace {K V : Type} [DecidableEq K] [KeyOrder K]
    (l : List (K × V)) (k y : K) (v : V) :
    y ∈ (FlatMap.emplace l k v).1.map Prod.fst ↔ y = k ∨ y ∈ l.map Prod.fst := by
  induction l with
  | nil => simp [FlatMap.emplace]
  | cons a rest ih =>
      obtain ⟨k', v'⟩ := a
      unfold FlatMap.emplace
      split
      · rename_i h
        subst h
        simp
      · split
        · simp
        · simp only [List.map_cons, List.mem_cons, ih]
          tauto

theorem mem_insertSet (l : List Nat) (x y : Nat) :
    y ∈ (insertSet l x).1 ↔ y = x ∨ y ∈ l := by
  unfold insertSet
  have := FlatMap.mem_keys_emplace (l.map fun e => (e, ())) x y ()
  simp only [List.map_map] at this
  rw [this]
  simp

theorem updateVlanInterfacesEntry_interfaces {intf : Interface} {e e' : VlanInterfaceInfo}
    (h : updateVlanInterfacesEntry intf e = .ok e') :
    ∀ y, y ∈ e'.interfaces ↔ y = intf.id ∨ y ∈ e.interfaces := by
  simp only [updateVlanInterfacesEntry, bind_eq_ok, throwIf_eq_ok, pure_eq_ok] at h
  obtain ⟨e1, he1, _, _, addrs, _, h⟩ := h
  have h1 : e1.interfaces = e.interfaces := by
    split at he1
    · simp only [pure_eq_ok] at he1
      rw [← he1]
    · simp only [bind_eq_ok, throwIf_eq_ok, pure_eq_ok] at he1
      obtain ⟨_, _, he1⟩ := he1
      rw [← he1]
  intro y
  rw [← h]
  simp only []
  rw [mem_insertSet, h1]

theorem updateVlanInterfaces_records {intf : Interface} {ctx ctx' : Ctx}
    (h : updateVlanInterfaces intf ctx = .ok ctx') :
    recordsInterface ctx'.vlanInterfaces intf.vlanID intf.id ∧
    ∀ v i, recordsInterface ctx.vlanInterfaces v i → recordsInterface ctx'.vlanInterfaces v i := by
  simp only [updateVlanInterfaces, bind_eq_ok, pure_eq_ok] at h
  obtain ⟨e', he, h⟩ := h
  have hi := updateVlanInterfacesEntry_interfaces he
  subst h
  refine ⟨⟨e', FlatMap.find?_assign_self _ _ _, (hi _).mpr (Or.inl rfl)⟩, ?_⟩
  rintro v i ⟨e, hf, hm⟩
  by_cases hv : v = intf.vlanID
  · subst hv
    refine ⟨e', FlatMap.find?_assign_self _ _ _, (hi _).mpr (Or.inr ?_)⟩
    simp only [FlatMap.getD, hf, Option.getD_some]
    exact hm
  · exact ⟨e, by simp only []; rw [FlatMap.find?_assign_ne _ _ _ _ hv]; exact hf, hm⟩

theorem getInterfaceAddresses_vlanInterfaces {platform : Platform} {config : InterfaceCfg}
    {ctx ctx' : Ctx} {addrs : List (IPAddress × Nat)}
    (h : getInterfaceAddresses platform config ctx = .ok (addrs, ctx')) :
    ctx'.vlanInterfaces = ctx.vlanInterfaces := by
  simp only [getInterfaceAddresses, bind_eq_ok, pure_eq_ok, Prod.mk.injEq] at h
  obtain ⟨⟨a, r⟩, _, _, h⟩ := h
  rw [← h]

theorem updateInterface_some {platform : Platform} {orig : Interface} {config : InterfaceCfg}
    {addrs : List (IPAddress × Nat)} {i : Interface}
    (h : updateInterface platform orig config addrs = .ok (some i)) :
    i.id = config.intfID ∧ i.vlanID = config.vlanID := by
  simp only [updateInterface, bind_eq_ok, check_eq_ok, decide_eq_true_eq] at h
  obtain ⟨_, hid, h⟩ := h
  split at h
  · simp [pure_eq_ok] at h
  · simp only [pure_eq_ok, Option.some.injEq] at h
    subst h
    exact ⟨hid, rfl⟩

theorem updateInterface_none {platform : Platform} {orig : Interface} {config : InterfaceCfg}
    {addrs : List (IPAddress × Nat)}
    (h : updateInterface platform orig config addrs = .ok none) :
    orig.id = config.intfID ∧ orig.vlanID = config.vlanID := by
  simp only [updateInterface, bind_eq_ok, check_eq_ok, decide_eq_true_eq] at h
  obtain ⟨_, hid, h⟩ := h
  split at h
  · rename_i hc
    exact ⟨hid, hc.2.1⟩
  · simp [pure_eq_ok] at h

/-- The loop of `updateInterfaces` records every interface of the config it
has gone through under the interface's VLAN, and keeps what was recorded. -/
theorem updateInterfacesLoop_records (platform : Platform) (origIntfs : List Interface)
    (l : List InterfaceCfg) :
    ∀ (acc res : List Interface × Bool × Nat × Ctx),
      updateInterfacesLoop platform origIntfs l acc = .ok res →
      (∀ v i, recordsInterface acc.2.2.2.vlanInterfaces v i →
        recordsInterface res.2.2.2.vlanInterfaces v i) ∧
      ∀ c ∈ l, recordsInterface res.2.2.2.vlanInterfaces c.vlanID c.intfID := by
  induction l with
  | nil =>
      intro acc res h
      simp only [updateInterfacesLoop, pure_eq_ok] at h
      subst h
      exact ⟨fun _ _ hr => hr, fun c hc => absurd hc (List.not_mem_nil _)⟩
  | cons c rest ih =>
      rintro ⟨newIntfs, changed, n0, ctx⟩ res h
      simp only [updateInterfacesLoop, bind_eq_ok] at h
      obtain ⟨⟨newAddrs, ctx1⟩, hga, ⟨newIntf, n⟩, hni, ctx2, hvi, ⟨m, cflag⟩, _, h⟩ := h
      have hctx1 := getInterfaceAddresses_vlanInterfaces hga
      obtain ⟨ih1, ih2⟩ := ih _ _ h
      have hrec : recordsInterface ctx2.vlanInterfaces c.vlanID c.intfID ∧
          ∀ v i, recordsInterface ctx1.vlanInterfaces v i →
            recordsInterface ctx2.vlanInterfaces v i := by
        cases ho : findNode origIntfs c.intfID with
        | none =>
            rw [ho] at hni hvi
            simp only [pure_eq_ok, Prod.mk.injEq] at hni
            obtain ⟨hni, _⟩ := hni
            subst hni
            simp only at hvi
            exact updateVlanInterfaces_records hvi
        | some o =>
            rw [ho] at hni hvi
            simp only [bind_eq_ok, pure_eq_ok, Prod.mk.injEq] at hni
            obtain ⟨r, hr, hni, _⟩ := hni
            subst hni
            cases r with
            | none =>
                simp only at hvi
                have := updateVlanInterfaces_records hvi
                obtain ⟨e1, e2⟩ := updateInterface_none hr
                rw [e1, e2] at this
                exact this
            | some i' =>
                simp only at hvi
                have := updateVlanInterfaces_records hvi
                obtain ⟨e1, e2⟩ := updateInterface_some hr
                rw [e1, e2] at this
                exact this
      refine ⟨?_, ?_⟩
      · intro v i hr
        apply ih1
        apply hrec.2
        rw [hctx1]
        exact hr
      · intro c' hc'
        rcases List.mem_cons.mp hc' with e | hm
        · subst e
          exact ih1 _ _ hrec.1
        · exact ih2 c' hm

theorem updateInterfaces_records {platform : Platform} {cfg : SwitchConfig}
    {origIntfs : NodeMap Interface} {ctx ctx' : Ctx} {r : Option (NodeMap Interface)}
    (h : updateInterfaces platform cfg origIntfs ctx = .ok (r, ctx')) :
    ∀ c ∈ cfg.interfaces, recordsInterface ctx'.vlanInterfaces c.vlanID c.intfID := by
  simp only [updateInterfaces, bind_eq_ok] at h
  obtain ⟨⟨newIntfs, changed, n, ctx1⟩, hloop, changed', _, h⟩ := h
  have := (updateInterfacesLoop_records platform _ _ _ _ hloop).2
  split at h <;> simp only [pure_eq_ok, Prod.mk.injEq] at h <;> rw [← h.2] <;> exact this

theorem vlanInterfaceFromCtx_records (ctx : Ctx) (id : VlanID) (v : VlanID) (i : InterfaceID)
    (h : recordsInterface ctx.vlanInterfaces v i) :
    recordsInterface (vlanInterfaceFromCtx ctx id).2.vlanInterfaces v i := by
  unfold vlanInterfaceFromCtx
  cases hf : FlatMap.find? ctx.vlanInterfaces id with
  | some e => exact h
  | none =>
      obtain ⟨e, he, hm⟩ := h
      have hv : v ≠ id := by
        intro e'
        rw [e', hf] at he
        cases he
      exact ⟨e, by simp only []; rw [FlatMap.find?_assign_ne _ _ _ _ hv]; exact he, hm⟩

theorem createVlan_records (ctx : Ctx) (config : VlanCfg) (v : VlanID) (i : InterfaceID)
    (h : recordsInterface ctx.vlanInterfaces v i) :
    recordsInterface (createVlan ctx config).2.vlanInterfaces v i := by
  unfold createVlan
  cases config.intfID with
  | some j => exact h
  | none =>
      simp only []
      split <;> exact vlanInterfaceFromCtx_records ctx config.id v i h

theorem updateVlan_records {ctx : Ctx} {orig : Vlan} {config : VlanCfg}
    {r : Option Vlan × Ctx} (hr : updateVlan ctx orig config = .ok r) (v : VlanID)
    (i : InterfaceID) (h : recordsInterface ctx.vlanInterfaces v i) :
    recordsInterface r.2.vlanInterfaces v i := by
  simp only [updateVlan, bind_eq_ok, check_eq_ok] at hr
  obtain ⟨_, _, hr⟩ := hr
  cases hc : config.intfID with
  | some j =>
      rw [hc] at hr
      simp only [] at hr
      split at hr <;> simp only [pure_eq_ok] at hr <;> rw [← hr] <;> exact h
  | none =>
      rw [hc] at hr
      simp only [] at hr
      split at hr <;> simp only [pure_eq_ok] at hr <;> rw [← hr] <;>
        exact vlanInterfaceFromCtx_records ctx config.id v i h

theorem updateVlansLoop_records (origVlans : List Vlan) (l : List VlanCfg) :
    ∀ (acc res : List Vlan × Bool × Nat × Ctx),
      updateVlansLoop origVlans l acc = .ok res →
      ∀ v i, recordsInterface acc.2.2.2.vlanInterfaces v i →
        recordsInterface res.2.2.2.vlanInterfaces v i := by
  induction l with
  | nil =>
      intro acc res h
      simp only [updateVlansLoop, pure_eq_ok] at h
      subst h
      exact fun _ _ hr => hr
  | cons c rest ih =>
      rintro ⟨newVlans, changed, n0, ctx⟩ res h
      simp only [updateVlansLoop, bind_eq_ok] at h
      obtain ⟨⟨newVlan, n, ctx1⟩, hnv, ⟨m, cflag⟩, _, h⟩ := h
      intro v i hr
      apply ih _ _ h
      cases ho : findNode origVlans c.id with
      | none =>
          rw [ho] at hnv
          simp only [pure_eq_ok, Prod.mk.injEq] at hnv
          obtain ⟨_, _, hnv⟩ := hnv
          simp only []
          rw [← hnv]
          exact createVlan_records ctx c v i hr
      | some o =>
          rw [ho] at hnv
          simp only [bind_eq_ok, pure_eq_ok, Prod.mk.injEq] at hnv
          obtain ⟨r, hr', _, _, hnv⟩ := hnv
          simp only []
          rw [← hnv]
          exact updateVlan_records hr' v i hr

theorem updateVlans_records {cfg : SwitchConfig} {origVlans : NodeMap Vlan} {ctx ctx' : Ctx}
    {r : Option (NodeMap Vlan)} (h : updateVlans cfg origVlans ctx = .ok (r, ctx'))
    (v : VlanID) (i : InterfaceID) (hr : recordsInterface ctx.vlanInterfaces v i) :
    recordsInterface ctx'.vlanInterfaces v i := by
  simp only [updateVlans, bind_eq_ok] at h
  obtain ⟨⟨newVlans, changed, n, ctx1⟩, hloop, changed', _, h⟩ := h
  have := updateVlansLoop_records _ _ _ _ hloop v i hr
  split at h <;> simp only [pure_eq_ok, Prod.mk.injEq] at h <;> rw [← h.2] <;> exact this

theorem checkVlanInterfaces_ok (newVlans : List Vlan) (cpuVlan : VlanID)
    (l : List (VlanID × VlanInterfaceInfo)) (u : Unit)
    (h : checkVlanInterfaces newVlans cpuVlan l = .ok u) :
    ∀ x ∈ l, x.2.interfaces.length = 1 ∨ x.1 = cpuVlan := by
  induction l with
  | nil => exact fun x hx => absurd hx (List.not_mem_nil _)
  | cons a rest ih =>
      simp only [checkVlanInterfaces, bind_eq_ok, throwIf_eq_ok] at h
      obtain ⟨_, _, _, hc, h⟩ := h
      intro x hx
      rcases List.mem_cons.mp hx with e | hm
      · subst e
        simp only [Bool.and_eq_false_iff, decide_eq_false_iff_not, Decidable.not_not] at hc
        exact hc
      · exact ih h x hm

theorem Pass.reset_defaultVlan {α : Type} (p : Pass) (r : Option α)
    (set : SwitchState → α → SwitchState)
    (hset : ∀ s n, (set s n).defaultVlan = s.defaultVlan) :
    (p.reset r set).new_.defaultVlan = p.new_.defaultVlan := by
  cases r with
  | none => rfl
  | some n => exact hset _ _

theorem runPorts_defaultVlan {platform : Platform} {orig : SwitchState} {cfg : SwitchConfig}
    {p : Pass} (h : runPorts platform orig cfg = .ok p) :
    p.new_.defaultVlan = orig.defaultVlan := by
  simp only [runPorts, bind_eq_ok, pure_eq_ok] at h
  obtain ⟨newCP, _, ctx, _, newPorts, _, newAgg, _, h⟩ := h
  subst h
  simp only [Pass.reset_defaultVlan, implies_true]
  rfl

theorem runPolicies_defaultVlan {orig : SwitchState} {cfg : SwitchConfig} {p p' : Pass}
    (h : runPolicies orig cfg p = .ok p') : p'.new_.defaultVlan = p.new_.defaultVlan := by
  simp only [runPolicies, bind_eq_ok, pure_eq_ok] at h
  obtain ⟨newMirrors, _, newAcls, _, newQos, _, newDflt, _, h⟩ := h
  subst h
  simp only [Pass.reset_defaultVlan, implies_true]

theorem runInterfaces_records {platform : Platform} {orig : SwitchState} {cfg : SwitchConfig}
    {p p' : Pass} (h : runInterfaces platform orig cfg p = .ok p') :
    p'.new_.defaultVlan = p.new_.defaultVlan ∧
    ∀ c ∈ cfg.interfaces, recordsInterface p'.ctx.vlanInterfaces c.vlanID c.intfID := by
  simp only [runInterfaces, bind_eq_ok, pure_eq_ok] at h
  obtain ⟨⟨newIntfs, ctx1⟩, hi, ⟨newVlans, ctx2⟩, hv, h⟩ := h
  subst h
  refine ⟨?_, ?_⟩
  · simp only [Pass.reset_defaultVlan, implies_true]
  · intro c hc
    simp only [Pass.reset_ctx] at hv ⊢
    exact updateVlans_records hv _ _ (updateInterfaces_records hi c hc)

theorem runRoutes_defaultVlan {rib : Option RoutingInformationBase} {orig : SwitchState}
    {cfg : SwitchConfig} {p p' : Pass} (h : runRoutes rib orig cfg p = .ok p') :
    p'.new_.defaultVlan = p.new_.defaultVlan ∧ p'.ctx = p.ctx := by
  unfold runRoutes at h
  cases rib with
  | some r =>
      simp only [bind_eq_ok, pure_eq_ok] at h
      obtain ⟨newFibs, _, fibs, _, h⟩ := h
      subst h
      refine ⟨?_, ?_⟩
      · simp only [Pass.reset_defaultVlan, implies_true]
      · simp only [Pass.reset_ctx]
  | none =>
      simp only [pure_eq_ok] at h
      subst h
      refine ⟨?_, ?_⟩
      · simp only [Pass.reset_defaultVlan, implies_true]
      · simp only [Pass.reset_ctx]

/-- C6. For every config that holds two interfaces with distinct ids on the same
VLAN `v`, where `v` is not the config's default VLAN (the default VLAN of the
state being built when the VLAN/interface check runs), `applyThriftConfig`
returns an error, whatever the old state, the platform and the routing mode. -/
theorem vlan_interface_cardinality (platform : Platform) (rib : Option RoutingInformationBase)
    (orig : SwitchState) (cfg : SwitchConfig) (i1 i2 : InterfaceCfg)
    (h1 : i1 ∈ cfg.interfaces) (h2 : i2 ∈ cfg.interfaces) (hne : i1.intfID ≠ i2.intfID)
    (hv : i1.vlanID = i2.vlanID) (hd : i1.vlanID ≠ cfg.defaultVlan) :
    ∃ e, applyThriftConfig orig cfg platform rib = .error e := by
  unfold applyThriftConfig
  cases hrun : run platform rib orig cfg with
  | error e => exact ⟨e, rfl⟩
  | ok res =>
      exfalso
      simp only [run, runPass, bind_eq_ok] at hrun
      obtain ⟨p, ⟨p1, e1, p2, e2, p3, e3, p4, e4, p5, e5, _⟩, _⟩ := hrun
      have d1 := runPorts_defaultVlan e1
      have d2 := runPolicies_defaultVlan e2
      obtain ⟨d3, hrec⟩ := runInterfaces_records e3
      obtain ⟨d4, c4⟩ := runRoutes_defaultVlan e4
      have hdv : p4.new_.defaultVlan = orig.defaultVlan := by rw [d4, d3, d2, d1]
      simp only [runValidate, bind_eq_ok, throwIf_eq_ok, pure_eq_ok, Pass.setIf_ctx] at e5
      obtain ⟨_, _, _, hcheck, _⟩ := e5
      have hall := checkVlanInterfaces_ok _ _ _ _ hcheck
      obtain ⟨ea, hfa, hma⟩ := hrec i1 h1
      obtain ⟨eb, hfb, hmb⟩ := hrec i2 h2
      rw [← hv, hfa] at hfb
      simp only [Option.some.injEq] at hfb
      subst hfb
      rw [← c4] at hfa
      rcases hall _ (FlatMap.mem_of_find? hfa) with hlen | hcpu
      · simp only at hlen
        obtain ⟨a, ha⟩ := List.length_eq_one.mp hlen
        rw [ha] at hma hmb
        simp only [List.mem_singleton] at hma hmb
        exact hne (hma.trans hmb.symm)
      · simp only at hcpu
        apply hd
        rw [hcpu]
        unfold Pass.setIf
        split
        · rfl
        · rename_i hc
          simp only [decide_eq_true_eq, ne_eq, Decidable.not_not] at hc
          rw [hdv, hc]

/-- C6, at a concrete input: interfaces 5 and 6 on VLAN 5, default VLAN 1; the
error raised is the one of the VLAN/interface check. -/
theorem vlan_interface_cardinality_witness :
    (∃ e, applyThriftConfig settledState cfgTwoInterfaces examplePlatform none = .error e) ∧
    applyThriftConfig settledState cfgTwoInterfaces examplePlatform none
      = .error (.fbossError "Vlan refers to a number of interfaces other than one") :=
  ⟨vlan_interface_cardinality examplePlatform none settledState cfgTwoInterfaces
      { intfID := 5, vlanID := 5 } { intfID := 6, vlanID := 5 }
      (by decide) (by decide) (by decide) (by decide) (by decide),
    by decide⟩

/-! ## Static routes -/

/-- C2 at a failing input. A config lists a static route to null, 10.0.0.0/8, in
router 1; the state `s` it yields holds the route under the static client.
The empty config, which lists no static route, is then applied to `s`:
`syncStaticRoutes` removes the static client's routes of router 0 only, so
`applyThriftConfig` reports no change and the route of router 1 stays. The
same route in router 0 is removed by the empty config. -/
theorem static_routes_outside_router_zero_stay :
    ∃ s, applyThriftConfig settledState cfgStaticRouter1 examplePlatform = .ok (some s) ∧
      s.routeTables.nodes.map (fun t => (t.id, t.routes))
        = [(1, [((.v4 0x0a000000, 8),
                [(.staticRoute, { action := .drop, adminDistance := adminDistanceStaticRoute })])])] ∧
      applyThriftConfig s cfgEmpty examplePlatform = .ok none ∧
      ∃ s0, applyThriftConfig settledState cfgStaticRouter0 examplePlatform = .ok (some s0) ∧
        ∃ s1, applyThriftConfig s0 cfgEmpty examplePlatform = .ok (some s1) ∧
          s1.routeTables.nodes = [] :=
  ⟨_, rfl, rfl, rfl, _, rfl, _, rfl, rfl⟩

/-! ## The example route set -/

theorem updateInterfaceRoutes_congr (orig : SwitchState) {ctx ctx' : Ctx}
    (h : ctx.intfRouteTables = ctx'.intfRouteTables) :
    updateInterfaceRoutes orig ctx = updateInterfaceRoutes orig ctx' := by
  unfold updateInterfaceRoutes
  rw [h]

theorem runInterfaces_oneInterface (platform : Platform) :
    ∃ p v e, (runPorts platform emptyState cfgOneInterface >>= runPolicies emptyState cfgOneInterface
          >>= runInterfaces platform emptyState cfgOneInterface) = .ok p ∧
      p.changed = true ∧
      p.ctx.intfRouteTables = [(0, [((.v4 0x0a000000, 24), (5, .v4 0x0a000001))])] ∧
      p.new_.vlans.nodes = [v] ∧ v.id = 5 ∧
      p.ctx.vlanInterfaces = [(5, e)] ∧ e.interfaces = [5] ∧
      p.new_.routeTables = {} ∧ p.new_.defaultVlan = 0 :=
  ⟨_, _, _, rfl, rfl, rfl, rfl, rfl, rfl, rfl, rfl, rfl⟩

theorem routes_oneInterface :
    updateInterfaceRoutes emptyState
        { intfRouteTables := [(0, [((.v4 0x0a000000, 24), (5, .v4 0x0a000001))])] }
      = some { generation := 1, nodes := [{ id := 0, routes := routesOneInterface }] } ∧
    syncStaticRoutes cfgOneInterface
      { generation := 1, nodes := [{ id := 0, routes := routesOneInterface }] } = none ∧
    updateSflowCollectors cfgOneInterface emptyState.sflowCollectors = .ok none ∧
    updateLoadBalancers cfgOneInterface emptyState.loadBalancers = .ok none := by
  decide

theorem runRoutes_none_eq (orig : SwitchState) (cfg : SwitchConfig) (p : Pass) :
    runRoutes none orig cfg p =
      .ok ((p.reset (updateInterfaceRoutes orig p.ctx) fun s n => { s with routeTables := n }).reset
        (syncStaticRoutes cfg
          (p.reset (updateInterfaceRoutes orig p.ctx)
            fun s n => { s with routeTables := n }).new_.routeTables)
        fun s n => { s with routeTables := n }) := rfl

theorem Pass.setIf_routeTables (p : Pass) (c : Bool) (set : SwitchState → SwitchState)
    (hset : ∀ s, (set s).routeTables = s.routeTables) :
    (p.setIf c set).new_.routeTables = p.new_.routeTables := by
  cases c with
  | false => rfl
  | true => exact hset _

theorem runScalars_routeTables (orig : SwitchState) (cfg : SwitchConfig) (p : Pass) :
    (runScalars orig cfg p).new_.routeTables = p.new_.routeTables := by
  unfold runScalars
  simp only [Pass.setIf_routeTables, implies_true]

theorem runPass_oneInterface (platform : Platform) :
    ∃ p, runPass platform none emptyState cfgOneInterface = .ok p ∧ p.changed = true ∧
      p.new_.routeTables = { generation := 1, nodes := [{ id := 0, routes := routesOneInterface }] } := by
  obtain ⟨p3, v, e, h3, hch, hrt, hv, hvid, hvi, hei, hroute, hdv⟩ :=
    runInterfaces_oneInterface platform
  obtain ⟨r1, r2, r3, r4⟩ := routes_oneInterface
  simp only [bind_eq_ok] at h3
  obtain ⟨p2, ⟨p1, e1, e2⟩, e3⟩ := h3
  have hir := (@updateInterfaceRoutes_congr emptyState p3.ctx
    { intfRouteTables := [(0, [((.v4 0x0a000000, 24), (5, .v4 0x0a000001))])] }
    hrt).trans r1
  obtain ⟨p4, e4, c4, t4, v4, x4, d4⟩ : ∃ p4, runRoutes none emptyState cfgOneInterface p3 = .ok p4 ∧
      p4.changed = true ∧
      p4.new_.routeTables
        = { generation := 1, nodes := [{ id := 0, routes := routesOneInterface }] } ∧
      p4.new_.vlans = p3.new_.vlans ∧ p4.ctx = p3.ctx ∧
      p4.new_.defaultVlan = p3.new_.defaultVlan := by
    refine ⟨_, runRoutes_none_eq _ _ _, ?_⟩
    rw [hir]
    simp only [Pass.reset]
    rw [r2]
    exact ⟨rfl, rfl, rfl, rfl, rfl⟩
  have e5 : runValidate emptyState cfgOneInterface p4 = .ok p4 := by
    have hdec : decide (emptyState.defaultVlan ≠ cfgOneInterface.defaultVlan) = false := by
      decide
    have hcpu : cfgOneInterface.defaultVlan = 0 := rfl
    simp only [runValidate, hdec, Bool.false_and, Pass.setIf, Bool.false_eq_true, if_false, v4,
      x4, d4, hv, hvi, hdv, checkVlanInterfaces, findNode, HasID.getID, hvid, hei, throwIf, bind,
      Except.bind, pure, Except.pure]
    simp
  have e6 : runCollectors emptyState cfgOneInterface (runScalars emptyState cfgOneInterface p4)
      = .ok (runScalars emptyState cfgOneInterface p4) := by
    simp only [runCollectors, r3, r4, Pass.reset, bind, Except.bind, pure, Except.pure]
  refine ⟨runScalars emptyState cfgOneInterface p4, ?_, (runScalars_ports _ _ _).2 c4, ?_⟩
  · simp only [runPass, bind_eq_ok]
    exact ⟨p1, e1, p2, e2, p3, e3, p4, e4, p4, e5, e6⟩
  · rw [runScalars_routeTables, t4]

/-- C11. For every platform, the empty old state and the config with VLAN 5 and
interface 5 (VLAN 5, router 0, address 10.0.0.1/24) and no static route:
`getInterfaceAddresses` leaves exactly one entry in the interface-route table of
router 0, network 10.0.0.0/24 with interface 5 and address 10.0.0.1; and
`applyThriftConfig` returns a state whose only route table is the one of
router 0, holding exactly the connected route 10.0.0.0/24 (next hop 10.0.0.1
on interface 5) and the link-local route fe80::/64. -/
theorem example_route_set (platform : Platform) :
    ((getInterfaceAddresses platform
        { intfID := 5, vlanID := 5, routerID := 0, ipAddresses := [(.v4 0x0a000001, 24)] } {}).map
      fun r => r.2.intfRouteTables)
      = .ok [(0, [((.v4 0x0a000000, 24), (5, .v4 0x0a000001))])] ∧
    ∃ s, applyThriftConfig emptyState cfgOneInterface platform = .ok (some s) ∧
      s.routeTables.nodes.map (fun t => (t.id, t.routes)) = [(0, routesOneInterface)] := by
  refine ⟨rfl, ?_⟩
  obtain ⟨p, hp, hc, hr⟩ := runPass_oneInterface platform
  refine ⟨p.new_, ?_, by rw [hr]; rfl⟩
  simp only [applyThriftConfig, run, hp, hc, bind, Except.bind]
  rfl

/-! ## ACLs and VLANs at concrete inputs -/

/-- C13 at a failing input. Two DENY entries named `d` are both handed to
`appendTo(newAcls)`; `updateAcls` returns a map that holds the first (protocol
6, priority 100000) and drops the second (protocol 17, which used up priority
100001), without an error. -/
theorem duplicate_acl_name_kept_silently :
    (updateAcls cfgTwoDenySameName {} []).map
        (fun r => r.map fun m => m.nodes.map fun a => (a.name, a.priority, a.proto))
      = .ok (some [("d", 100000, some 6)]) ∧
    ((updateAclsDeny [] cfgTwoDenySameName.acls {}).map
        fun r => r.1.map fun a => (a.name, a.priority, a.proto))
      = .ok [("d", 100000, some 6), ("d", 100001, some 17)] := by
  decide

/-- C14 at a failing input. The action of ACL entry `p` names the egress mirror
`m`, which the config does not define: `applyThriftConfig` returns a state whose
ACL entry carries egress mirror `m` and whose mirror collection is empty. With
`m` as ingress mirror the same config is rejected. -/
theorem acl_egress_mirror_unchecked :
    (∃ s, applyThriftConfig settledState cfgEgressMirrorUndefined examplePlatform = .ok (some s) ∧
      s.acls.nodes.map (fun a => (a.name, a.aclAction.map fun m => m.egressMirror))
        = [("p", some (some "m"))] ∧
      s.mirrors.nodes = []) ∧
    applyThriftConfig settledState cfgIngressMirrorUndefined examplePlatform
      = .error (.fbossError "Mirror is undefined") :=
  ⟨⟨_, rfl, rfl, rfl⟩, by decide⟩

/-- C20 at a failing input. VLAN 5 is not the default VLAN and no interface
references it. With an explicit interface id on the VLAN, `vlanInterfaces_` gets
no entry for it and `applyThriftConfig` returns a state with VLANs 1 and 5 and no
interface; without the interface id, `createVlan` reads `vlanInterfaces_[5]`,
which creates the entry, and the config is rejected. -/
theorem vlan_without_interface_accepted :
    (∃ s, applyThriftConfig settledState cfgVlanNoInterfaceExplicit examplePlatform
        = .ok (some s) ∧
      s.vlans.nodes.map (fun v => v.id) = [1, 5] ∧ s.interfaces.nodes = [] ∧
      s.defaultVlan = 1) ∧
    applyThriftConfig settledState cfgVlanNoInterface examplePlatform
      = .error (.fbossError "Vlan refers to a number of interfaces other than one") :=
  ⟨⟨_, rfl, rfl, rfl, rfl⟩, by decide⟩

/-! ## ACL field validation -/

theorem setAnd_eq_true {α : Type} (x : Option α) (p : α → Bool) :
    setAnd x p = true ↔ ∃ v, x = some v ∧ p v = true := by
  cases x <;> simp [setAnd]

theorem throwIf_error (c : Bool) (msg : String) :
    (∃ e, throwIf c msg = .error e) ↔ c = true := by
  cases c <;> simp [throwIf]

theorem throwIf_bind_error {β : Type} (c : Bool) (msg : String) (rest : Result β) :
    (∃ e, (throwIf c msg >>= fun _ => rest) = .error e) ↔ c = true ∨ ∃ e, rest = .error e := by
  cases c <;> simp [throwIf, bind, Except.bind]

/-- C15. `checkAcl` raises an error exactly when one of these holds: a legacy
source or destination L4 port range is set with min above 65535, max above
65535 or min different from max; `l4SrcPort` or `l4DstPort` is set below 0 or
above 65535; `icmpCode` is set and `icmpType` is not; `icmpType` is set outside
`[0, kMaxIcmpType]`; `icmpCode` is set outside `[0, kMaxIcmpCode]`; `icmpType`
is set while `proto` is unset or neither ICMP nor ICMPv6; `ttl` is set with its
value or its mask above 255 or below 0. -/
theorem checkAcl_error_iff (config : AclEntryCfg) :
    (∃ e, checkAcl config = .error e) ↔
      (∃ r, config.srcL4PortRange = some r ∧ (r.1 > 65535 ∨ r.2 > 65535 ∨ r.1 ≠ r.2)) ∨
      (∃ r, config.dstL4PortRange = some r ∧ (r.1 > 65535 ∨ r.2 > 65535 ∨ r.1 ≠ r.2)) ∨
      (∃ v, config.l4SrcPort = some v ∧ (v < 0 ∨ v > 65535)) ∨
      (∃ v, config.l4DstPort = some v ∧ (v < 0 ∨ v > 65535)) ∨
      (config.icmpCode.isSome = true ∧ config.icmpType = none) ∨
      (∃ v, config.icmpType = some v ∧ (v < 0 ∨ v > kMaxIcmpType)) ∨
      (∃ v, config.icmpCode = some v ∧ (v < 0 ∨ v > kMaxIcmpCode)) ∨
      (config.icmpType.isSome = true ∧
        (config.proto = none ∨
          (config.proto ≠ some kProtoIcmp ∧ config.proto ≠ some kProtoIcmpv6))) ∨
      (∃ t, config.ttl = some t ∧ (t.1 > 255 ∨ t.1 < 0 ∨ t.2 > 255 ∨ t.2 < 0)) := by
  simp only [checkAcl, throwIf_bind_error, throwIf_error, setAnd_eq_true, Bool.or_eq_true,
    Bool.and_eq_true, decide_eq_true_eq, Bool.not_eq_true', kMaxL4Port]
  simp only [and_or_left, exists_or, Bool.or_eq_false_iff, decide_eq_false_iff_not,
    ← Option.not_isSome_iff_eq_none, Bool.not_eq_true, ne_eq, or_assoc]

/-! ## L4 ports of accepted ACL entries -/

theorem FlatMap.sortedKeys_nil {K V : Type} [KeyOrder K] :
    FlatMap.SortedKeys ([] : List (K × V)) := List.Pairwise.nil

theorem FlatMap.find?_eq_none_of_lt {K V : Type} [DecidableEq K] [KeyOrder K] [LawfulKeyOrder K]
    {l : List (K × V)} {k : K} (hs : FlatMap.SortedKeys l)
    (hlt : ∀ a ∈ l, KeyOrder.lt k a.1 = true) : FlatMap.find? l k = none := by
  induction l with
  | nil => rfl
  | cons a rest ih =>
      obtain ⟨k', v'⟩ := a
      have h1 := hlt (k', v') (List.mem_cons_self _ _)
      have hne : ¬ k' = k := by
        intro e
        subst e
        rw [LawfulKeyOrder.irrefl] at h1
        cases h1
      simp only [FlatMap.find?, if_neg hne]
      exact ih (List.Pairwise.of_cons hs) fun a ha => hlt a (List.mem_cons_of_mem _ ha)

theorem FlatMap.emplace_snd_eq_false_iff {K V : Type} [DecidableEq K] [KeyOrder K]
    [LawfulKeyOrder K] (k : K) (v : V) :
    ∀ {l : List (K × V)}, FlatMap.SortedKeys l →
      ((FlatMap.emplace l k v).2 = false ↔ (FlatMap.find? l k).isSome = true) := by
  intro l
  induction l with
  | nil => intro _; simp [FlatMap.emplace, FlatMap.find?]
  | cons a rest ih =>
      intro hs
      obtain ⟨k', v'⟩ := a
      unfold FlatMap.emplace
      split
      · rename_i h
        simp [FlatMap.find?, h]
      · rename_i h
        have h' : ¬ k' = k := fun e => h e.symm
        split
        · rename_i hlt
          have hn : FlatMap.find? ((k', v') :: rest) k = none := by
            apply FlatMap.find?_eq_none_of_lt hs
            intro a ha
            rcases List.mem_cons.mp ha with e | hm
            · rw [e]; exact hlt
            · exact LawfulKeyOrder.trans _ _ _ hlt ((List.pairwise_cons.mp hs).1 a hm)
          simp [hn]
        · simp only [FlatMap.find?, if_neg h']
          exact ih (List.Pairwise.of_cons hs)

theorem FlatMap.mem_emplace {K V : Type} [DecidableEq K] [KeyOrder K] (k : K) (v : V) :
    ∀ (l : List (K × V)) (x : K × V), x ∈ (FlatMap.emplace l k v).1 → x = (k, v) ∨ x ∈ l := by
  intro l
  induction l with
  | nil => intro x hx; simpa [FlatMap.emplace] using hx
  | cons a rest ih =>
      intro x hx
      obtain ⟨k', v'⟩ := a
      unfold FlatMap.emplace at hx
      split at hx
      · exact Or.inr hx
      · split at hx
        · rcases List.mem_cons.mp hx with e | hm
          · exact Or.inl e
          · exact Or.inr hm
        · rcases List.mem_cons.mp hx with e | hm
          · exact Or.inr (e ▸ List.mem_cons_self _ _)
          · rcases ih x hm with e | hm'
            · exact Or.inl e
            · exact Or.inr (List.mem_cons_of_mem _ hm')

theorem FlatMap.emplace_sorted {K V : Type} [DecidableEq K] [KeyOrder K] [LawfulKeyOrder K]
    (k : K) (v : V) :
    ∀ {l : List (K × V)}, FlatMap.SortedKeys l → FlatMap.SortedKeys (FlatMap.emplace l k v).1 := by
  intro l
  induction l with
  | nil => intro _; simp [FlatMap.emplace, FlatMap.SortedKeys]
  | cons a rest ih =>
      intro hs
      obtain ⟨k', v'⟩ := a
      unfold FlatMap.emplace
      split
      · exact hs
      · rename_i hne
        split
        · rename_i hlt
          refine List.pairwise_cons.mpr ⟨?_, hs⟩
          intro a ha
          rcases List.mem_cons.mp ha with e | hm
          · rw [e]; exact hlt
          · exact LawfulKeyOrder.trans _ _ _ hlt ((List.pairwise_cons.mp hs).1 a hm)
        · rename_i hnlt
          have hlt' : KeyOrder.lt k' k = true :=
            LawfulKeyOrder.total k k' (by simpa using hnlt) hne
          refine List.pairwise_cons.mpr ⟨?_, ih (List.Pairwise.of_cons hs)⟩
          intro a ha
          rcases FlatMap.mem_emplace k v rest a ha with e | hm
          · rw [e]; exact hlt'
          · exact (List.pairwise_cons.mp hs).1 a hm

theorem FlatMap.find?_emplace {K V : Type} [DecidableEq K] [KeyOrder K] (k : K) (v : V) :
    ∀ {l : List (K × V)}, (FlatMap.emplace l k v).2 = true →
      ∀ j, FlatMap.find? (FlatMap.emplace l k v).1 j
        = if j = k then some v else FlatMap.find? l j := by
  intro l
  induction l with
  | nil =>
      intro _ j
      by_cases h : j = k
      · simp [FlatMap.emplace, FlatMap.find?, h]
      · simp [FlatMap.emplace, FlatMap.find?, h, Ne.symm h]
  | cons a rest ih =>
      intro h j
      obtain ⟨k', v'⟩ := a
      unfold FlatMap.emplace at h ⊢
      split at h
      · cases h
      · rename_i hne
        rw [if_neg hne]
        split at h
        · rename_i hlt
          rw [if_pos hlt]
          by_cases hj : j = k
          · simp [FlatMap.find?, hj]
          · simp [FlatMap.find?, hj, Ne.symm hj]
        · rename_i hlt
          rw [if_neg hlt]
          simp only [FlatMap.find?]
          by_cases hj : k' = j
          · have : ¬ j = k := fun e => hne (hj.trans e).symm
            simp [hj, this]
          · simp only [if_neg hj]
            exact ih h j

theorem FlatMap.emplace_fst_of_snd_false {K V : Type} [DecidableEq K] [KeyOrder K] (k : K) (v : V) :
    ∀ {l : List (K × V)}, (FlatMap.emplace l k v).2 = false → (FlatMap.emplace l k v).1 = l := by
  intro l
  induction l with
  | nil => intro h; simp [FlatMap.emplace] at h
  | cons a rest ih =>
      intro h
      obtain ⟨k', v'⟩ := a
      unfold FlatMap.emplace at h ⊢
      split
      · rfl
      · rename_i hne
        rw [if_neg hne] at h
        split
        · rename_i hlt
          rw [if_pos hlt] at h
          cases h
        · rename_i hlt
          rw [if_neg hlt] at h
          simp only
          rw [ih h]

theorem FlatMap.getD_assign {K V : Type} [DecidableEq K] [KeyOrder K] (m : List (K × V)) (k j : K)
    (x d : V) : FlatMap.getD (FlatMap.assign m k x) j d = if j = k then x else FlatMap.getD m j d := by
  unfold FlatMap.getD
  by_cases h : j = k
  · subst h
    simp [FlatMap.find?_assign_self]
  · simp [FlatMap.find?_assign_ne _ _ _ _ h, h]

/-! ## Port/VLAN bindings -/

theorem Ctx.bindingsConsistent_empty : Ctx.BindingsConsistent {} :=
  ⟨fun _ => FlatMap.sortedKeys_nil, fun _ => FlatMap.sortedKeys_nil, fun _ _ => rfl⟩

theorem processVlanPortsLoop_bound {ctx : Ctx} (hc : ctx.BindingsConsistent) (vp : VlanPortCfg)
    (rest : List VlanPortCfg) (hb : (ctx.portVlan vp.logicalPort vp.vlanID).isSome = true) :
    ∃ e, processVlanPortsLoop (vp :: rest) ctx = .error e := by
  have h1 : (FlatMap.emplace (FlatMap.getD ctx.portVlans vp.logicalPort []) vp.vlanID
      vp.emitTags).2 = false :=
    (FlatMap.emplace_snd_eq_false_iff _ _ (hc.sortedPort _)).mpr hb
  simp [processVlanPortsLoop, h1, throwIf, bind, Except.bind]

theorem processVlanPortsLoop_free {ctx : Ctx} (hc : ctx.BindingsConsistent) (vp : VlanPortCfg)
    (rest : List VlanPortCfg) (hb : ctx.portVlan vp.logicalPort vp.vlanID = none) :
    processVlanPortsLoop (vp :: rest) ctx = processVlanPortsLoop rest (ctx.bind vp) ∧
    (ctx.bind vp).BindingsConsistent ∧
    ∀ p v, (ctx.bind vp).portVlan p v
      = if p = vp.logicalPort ∧ v = vp.vlanID then some vp.emitTags else ctx.portVlan p v := by
  have h1 : (FlatMap.emplace (FlatMap.getD ctx.portVlans vp.logicalPort []) vp.vlanID
      vp.emitTags).2 = true := by
    have := (FlatMap.emplace_snd_eq_false_iff vp.vlanID vp.emitTags (hc.sortedPort
      vp.logicalPort)).not
    simp only [Ctx.portVlan] at hb
    simpa [hb] using this
  have h2 : (FlatMap.emplace (FlatMap.getD ctx.vlanPorts vp.vlanID []) vp.logicalPort
      vp.emitTags).2 = true := by
    have := (FlatMap.emplace_snd_eq_false_iff vp.logicalPort vp.emitTags (hc.sortedVlan
      vp.vlanID)).not
    have hb' : ctx.vlanPort vp.vlanID vp.logicalPort = none := by
      rw [← hc.transpose]; exact hb
    simp only [Ctx.vlanPort] at hb'
    simpa [hb'] using this
  have hP : ∀ p v, (ctx.bind vp).portVlan p v
      = if p = vp.logicalPort ∧ v = vp.vlanID then some vp.emitTags else ctx.portVlan p v := by
    intro p v
    simp only [Ctx.portVlan, Ctx.bind, FlatMap.getD_assign]
    by_cases hp : p = vp.logicalPort
    · subst hp
      rw [if_pos rfl, FlatMap.find?_emplace _ _ h1]
      by_cases hv : v = vp.vlanID <;> simp [hv]
    · simp [hp]
  have hV : ∀ v p, (ctx.bind vp).vlanPort v p
      = if p = vp.logicalPort ∧ v = vp.vlanID then some vp.emitTags else ctx.vlanPort v p := by
    intro v p
    simp only [Ctx.vlanPort, Ctx.bind, FlatMap.getD_assign]
    by_cases hv : v = vp.vlanID
    · subst hv
      rw [if_pos rfl, FlatMap.find?_emplace _ _ h2]
      by_cases hp : p = vp.logicalPort <;> simp [hp]
    · simp [hv]
  refine ⟨?_, ⟨?_, ?_, ?_⟩, hP⟩
  · simp [processVlanPortsLoop, h1, h2, throwIf, bind, Except.bind, Ctx.bind]
  · intro p
    simp only [Ctx.bind, FlatMap.getD_assign]
    split
    · exact FlatMap.emplace_sorted _ _ (hc.sortedPort _)
    · exact hc.sortedPort p
  · intro v
    simp only [Ctx.bind, FlatMap.getD_assign]
    split
    · exact FlatMap.emplace_sorted _ _ (hc.sortedVlan _)
    · exact hc.sortedVlan v
  · intro p v
    rw [hP, hV, hc.transpose]

theorem result_error_iff_not_ok {α : Type} (r : Result α) :
    (∃ e, r = .error e) ↔ ¬ ∃ a, r = .ok a := by
  cases r <;> simp

theorem processVlanPortsLoop_spec (l : List VlanPortCfg) :
    ∀ ctx : Ctx, ctx.BindingsConsistent →
      ((∃ e, processVlanPortsLoop l ctx = .error e) ↔
        ¬ ((l.map fun vp => (vp.logicalPort, vp.vlanID)).Nodup ∧
          ∀ vp ∈ l, ctx.portVlan vp.logicalPort vp.vlanID = none)) ∧
      ∀ ctx', processVlanPortsLoop l ctx = .ok ctx' →
        ctx'.BindingsConsistent ∧
        ∀ p v t, ctx'.portVlan p v = some t ↔
          (ctx.portVlan p v = some t ∨
            ∃ vp ∈ l, vp.logicalPort = p ∧ vp.vlanID = v ∧ vp.emitTags = t) := by
  induction l with
  | nil =>
      intro ctx hc
      refine ⟨?_, ?_⟩
      · simp [processVlanPortsLoop, pure, Except.pure]
      · intro ctx' h
        simp only [processVlanPortsLoop, pure_eq_ok] at h
        subst h
        exact ⟨hc, fun p v t => by simp⟩
  | cons vp rest ih =>
      intro ctx hc
      cases hb : ctx.portVlan vp.logicalPort vp.vlanID with
      | some t0 =>
          obtain ⟨e, he⟩ := processVlanPortsLoop_bound hc vp rest (by rw [hb]; rfl)
          refine ⟨?_, ?_⟩
          · constructor
            · intro _ hall
              have := hall.2 vp (List.mem_cons_self _ _)
              rw [hb] at this
              cases this
            · intro _
              exact ⟨e, he⟩
          · intro ctx' h
            rw [he] at h
            cases h
      | none =>
          obtain ⟨hstep, hc1, hP⟩ := processVlanPortsLoop_free hc vp rest hb
          obtain ⟨ih1, ih2⟩ := ih (ctx.bind vp) hc1
          rw [hstep]
          have hnone : ∀ vp' : VlanPortCfg,
              (ctx.bind vp).portVlan vp'.logicalPort vp'.vlanID = none ↔
                (vp'.logicalPort, vp'.vlanID) ≠ (vp.logicalPort, vp.vlanID) ∧
                ctx.portVlan vp'.logicalPort vp'.vlanID = none := by
            intro vp'
            rw [hP]
            by_cases hk : vp'.logicalPort = vp.logicalPort ∧ vp'.vlanID = vp.vlanID
            · simp [hk]
            · rw [if_neg hk]
              simp only [ne_eq, Prod.mk.injEq, hk, not_false_eq_true, true_and]
          refine ⟨?_, ?_⟩
          · rw [ih1]
            apply not_congr
            simp only [List.map_cons, List.nodup_cons, List.mem_map, not_exists, not_and,
              List.mem_cons, forall_eq_or_imp, hb, true_and, hnone]
            constructor
            · rintro ⟨hnd, hall⟩
              exact ⟨⟨fun x hx e => (hall x hx).1 e, hnd⟩, fun x hx => (hall x hx).2⟩
            · rintro ⟨⟨hni, hnd⟩, hall⟩
              exact ⟨hnd, fun x hx => ⟨fun e => hni x hx e, hall x hx⟩⟩
          · intro ctx' h
            obtain ⟨hc', hiff⟩ := ih2 ctx' h
            refine ⟨hc', ?_⟩
            intro p v t
            rw [hiff, hP]
            by_cases hk : p = vp.logicalPort ∧ v = vp.vlanID
            · obtain ⟨hp, hv⟩ := hk
              subst hp hv
              simp only [and_self, if_true, Option.some.injEq, hb, List.mem_cons,
                exists_eq_or_imp, true_and, false_or]
              constructor
              · rintro (h1 | h1)
                · exact Or.inr (Or.inl h1)
                · exact Or.inr (Or.inr h1)
              · rintro (h1 | h1 | h1)
                · cases h1
                · exact Or.inl h1
                · exact Or.inr h1
            · rw [if_neg hk]
              simp only [List.mem_cons, exists_eq_or_imp]
              constructor
              · rintro (h1 | h1)
                · exact Or.inl h1
                · exact Or.inr (Or.inr h1)
              · rintro (h1 | ⟨h2, h3, _⟩ | h1)
                · exact Or.inl h1
                · exact absurd ⟨h2.symm, h3.symm⟩ hk
                · exact Or.inr h1

/-- C17. `processVlanPorts`, started with empty maps, raises an error exactly
when two entries of the `vlanPorts` list share the same (port, VLAN) pair. When
it does not, port `p` is bound to VLAN `v` with tag mode `t` in the port→VLAN
map iff VLAN `v` is bound to port `p` with `t` in the VLAN→port map iff the
list holds an entry for `(p, v)` with tag mode `t`. -/
theorem processVlanPorts_bindings (cfg : SwitchConfig) :
    ((∃ e, processVlanPorts cfg {} = .error e) ↔
      ¬ (cfg.vlanPorts.map fun vp => (vp.logicalPort, vp.vlanID)).Nodup) ∧
    ∀ ctx, processVlanPorts cfg {} = .ok ctx → ∀ p v t,
      (FlatMap.find? (FlatMap.getD ctx.portVlans p []) v = some t ↔
        ∃ vp ∈ cfg.vlanPorts, vp.logicalPort = p ∧ vp.vlanID = v ∧ vp.emitTags = t) ∧
      (FlatMap.find? (FlatMap.getD ctx.vlanPorts v []) p = some t ↔
        ∃ vp ∈ cfg.vlanPorts, vp.logicalPort = p ∧ vp.vlanID = v ∧ vp.emitTags = t) := by
  obtain ⟨h1, h2⟩ := processVlanPortsLoop_spec cfg.vlanPorts {} Ctx.bindingsConsistent_empty
  refine ⟨?_, ?_⟩
  · unfold processVlanPorts
    rw [h1]
    apply not_congr
    constructor
    · exact fun h => h.1
    · exact fun h => ⟨h, fun _ _ => rfl⟩
  · intro ctx h p v t
    obtain ⟨hc, hiff⟩ := h2 ctx h
    have hp := hiff p v t
    have he : (({} : Ctx).portVlan p v = some t) = False := by
      simp [Ctx.portVlan, FlatMap.getD, FlatMap.find?]
    rw [he, false_or] at hp
    refine ⟨hp, ?_⟩
    have := hc.transpose p v
    simp only [Ctx.portVlan, Ctx.vlanPort] at this hp
    rw [← this]
    exact hp

/-! ## Key orders of strings and addresses -/

theorem ltChars_irrefl : ∀ l : List Char, ltChars l l = false
  | [] => rfl
  | a :: as => by
      simp only [ltChars, lt_self_iff_false, if_false]
      exact ltChars_irrefl as

theorem ltChars_trans : ∀ a b c : List Char, ltChars a b = true → ltChars b c = true →
    ltChars a c = true
  | [], [], _, h, _ => by simp [ltChars] at h
  | [], _ :: _, [], _, h => by simp [ltChars] at h
  | [], _ :: _, _ :: _, _, _ => rfl
  | _ :: _, [], _, h, _ => by simp [ltChars] at h
  | _ :: _, _ :: _, [], _, h => by simp [ltChars] at h
  | x :: xs, y :: ys, z :: zs, h1, h2 => by
      simp only [ltChars] at h1 h2 ⊢
      by_cases hxy : x.toNat < y.toNat
      · by_cases hyz : y.toNat < z.toNat
        · rw [if_pos (by omega)]
        · rw [if_neg hyz] at h2
          by_cases hzy : z.toNat < y.toNat
          · rw [if_pos hzy] at h2; cases h2
          · rw [if_pos (by omega)]
      · rw [if_neg hxy] at h1
        by_cases hyx : y.toNat < x.toNat
        · rw [if_pos hyx] at h1; cases h1
        · rw [if_neg hyx] at h1
          by_cases hyz : y.toNat < z.toNat
          · rw [if_pos (by omega)]
          · rw [if_neg hyz] at h2
            by_cases hzy : z.toNat < y.toNat
            · rw [if_pos hzy] at h2; cases h2
            · rw [if_neg hzy] at h2
              rw [if_neg (by omega), if_neg (by omega)]
              exact ltChars_trans xs ys zs h1 h2

theorem char_eq_of_toNat_eq {a b : Char} (h : a.toNat = b.toNat) : a = b := by
  apply Char.ext
  apply UInt32.ext
  exact h

theorem ltChars_total : ∀ a b : List Char, ltChars a b = false → a ≠ b → ltChars b a = true
  | [], [], _, h => absurd rfl h
  | [], _ :: _, h, _ => by simp [ltChars] at h
  | _ :: _, [], _, _ => rfl
  | x :: xs, y :: ys, h1, h2 => by
      simp only [ltChars] at h1 ⊢
      by_cases hxy : x.toNat < y.toNat
      · rw [if_pos hxy] at h1; cases h1
      · rw [if_neg hxy] at h1
        by_cases hyx : y.toNat < x.toNat
        · rw [if_pos hyx]
        · rw [if_neg hyx] at h1
          rw [if_neg hyx, if_neg hxy]
          have hx : x = y := char_eq_of_toNat_eq (by omega)
          subst hx
          exact ltChars_total xs ys h1 fun e => h2 (by rw [e])

instance : LawfulKeyOrder String where
  irrefl a := ltChars_irrefl a.data
  trans a b c := ltChars_trans a.data b.data c.data
  total a b h hne := ltChars_total a.data b.data h fun e => hne (String.ext e)

instance : LawfulKeyOrder IPAddress where
  irrefl a := by cases a <;> simp [KeyOrder.lt, IPAddress.isV4, IPAddress.toNat]
  trans a b c := by
    cases a <;> cases b <;> cases c <;>
      simp only [KeyOrder.lt, IPAddress.isV4, IPAddress.toNat, Bool.not_true, Bool.not_false,
        Bool.and_true, Bool.and_false, Bool.true_and, Bool.false_and, Bool.or_false,
        Bool.false_or, Bool.true_or, decide_True, decide_False, decide_eq_true_eq,
        reduceCtorEq, implies_true, false_implies, Bool.false_eq_true] <;>
      omega
  total a b := by
    cases a <;> cases b <;>
      simp [KeyOrder.lt, IPAddress.isV4, IPAddress.toNat] <;> omega

/-! ## VLAN entries of interfaces -/

theorem FlatMap.emplace_snd_of_find?_none {K V : Type} [DecidableEq K] [KeyOrder K] (k : K)
    (v : V) : ∀ {l : List (K × V)}, FlatMap.find? l k = none → (FlatMap.emplace l k v).2 = true := by
  intro l
  induction l with
  | nil => intro _; rfl
  | cons a rest ih =>
      intro h
      obtain ⟨k', v'⟩ := a
      simp only [FlatMap.find?] at h
      unfold FlatMap.emplace
      split at h
      · cases h
      · rename_i hne
        rw [if_neg (fun e => hne e.symm)]
        split
        · rfl
        · exact ih h

/-- What `addVlanAddresses` does with the addresses of an interface, given that
the interface lists every address once: it fails exactly when an address is
already recorded with another mask or MAC, and else records each new address
and keeps the old ones. -/
theorem addVlanAddresses_spec (intf : Interface) :
    ∀ (as : List (IPAddress × Nat)) (acc : List (IPAddress × VlanIpInfo)),
      (as.map Prod.fst).Nodup → FlatMap.SortedKeys acc →
      ((∃ e, addVlanAddresses intf as acc = .error e) ↔
        ∃ a ∈ as, ∃ old, FlatMap.find? acc a.1 = some old ∧
          (old.mask ≠ a.2 ∨ old.mac ≠ intf.mac)) ∧
      ∀ r, addVlanAddresses intf as acc = .ok r →
        FlatMap.SortedKeys r ∧
        ∀ ip, FlatMap.find? r ip =
          match FlatMap.find? acc ip with
          | some old => some old
          | none => (FlatMap.find? as ip).map fun m =>
              { mask := m, mac := intf.mac, interfaceID := intf.id } := by
  intro as
  induction as with
  | nil =>
      intro acc _ hs
      refine ⟨by simp [addVlanAddresses, pure, Except.pure], ?_⟩
      intro r h
      simp only [addVlanAddresses, pure_eq_ok] at h
      subst h
      refine ⟨hs, fun ip => ?_⟩
      cases FlatMap.find? acc ip <;> simp [FlatMap.find?]
  | cons a rest ih =>
      intro acc hnd hs
      obtain ⟨ip0, m0⟩ := a
      simp only [List.map_cons, List.nodup_cons, List.mem_map, not_exists, not_and] at hnd
      obtain ⟨hni, hnd'⟩ := hnd
      have hrest : ∀ b ∈ rest, b.1 ≠ ip0 := fun b hb e => hni b hb e
      cases hf : FlatMap.find? acc ip0 with
      | none =>
          have h2 := FlatMap.emplace_snd_of_find?_none ip0
            ({ mask := m0, mac := intf.mac, interfaceID := intf.id } : VlanIpInfo) hf
          have hfe := FlatMap.find?_emplace ip0
            ({ mask := m0, mac := intf.mac, interfaceID := intf.id } : VlanIpInfo) h2
          obtain ⟨ih1, ih2⟩ := ih _ hnd' (FlatMap.emplace_sorted ip0
            ({ mask := m0, mac := intf.mac, interfaceID := intf.id } : VlanIpInfo) hs)
          have hstep : addVlanAddresses intf ((ip0, m0) :: rest) acc
              = addVlanAddresses intf rest (FlatMap.emplace acc ip0
                  { mask := m0, mac := intf.mac, interfaceID := intf.id }).1 := by
            simp [addVlanAddresses, hf]
          rw [hstep]
          refine ⟨?_, ?_⟩
          · rw [ih1]
            constructor
            · rintro ⟨b, hb, old, ho, hc⟩
              rw [hfe, if_neg (hrest b hb)] at ho
              exact ⟨b, List.mem_cons_of_mem _ hb, old, ho, hc⟩
            · rintro ⟨b, hb, old, ho, hc⟩
              rcases List.mem_cons.mp hb with e | hm
              · subst e
                rw [hf] at ho
                cases ho
              · refine ⟨b, hm, old, ?_, hc⟩
                rw [hfe, if_neg (hrest b hm)]
                exact ho
          · intro r h
            obtain ⟨hsr, hfr⟩ := ih2 r h
            refine ⟨hsr, fun ip => ?_⟩
            rw [hfr, hfe]
            by_cases hip : ip = ip0
            · subst hip
              simp [hf, FlatMap.find?]
            · rw [if_neg hip]
              cases FlatMap.find? acc ip with
              | some old => rfl
              | none => simp [FlatMap.find?, Ne.symm hip]
      | some old0 =>
          obtain ⟨ih1, ih2⟩ := ih acc hnd' hs
          by_cases hc0 : old0.mask ≠ m0 ∨ old0.mac ≠ intf.mac
          · refine ⟨?_, ?_⟩
            · constructor
              · intro _
                exact ⟨(ip0, m0), List.mem_cons_self _ _, old0, hf, hc0⟩
              · intro _
                rcases hc0 with h | h
                · simp [addVlanAddresses, hf, throwIf, h, bind, Except.bind]
                · by_cases hm : old0.mask = m0
                  · simp [addVlanAddresses, hf, throwIf, h, hm, bind, Except.bind]
                  · simp [addVlanAddresses, hf, throwIf, hm, bind, Except.bind]
            · intro r h
              exfalso
              rcases hc0 with h' | h'
              · simp [addVlanAddresses, hf, throwIf, h', bind, Except.bind] at h
              · by_cases hm : old0.mask = m0
                · simp [addVlanAddresses, hf, throwIf, h', hm, bind, Except.bind] at h
                · simp [addVlanAddresses, hf, throwIf, hm, bind, Except.bind] at h
          · simp only [not_or, not_not] at hc0
            obtain ⟨hm, hmac⟩ := hc0
            have hstep : addVlanAddresses intf ((ip0, m0) :: rest) acc
                = addVlanAddresses intf rest acc := by
              simp [addVlanAddresses, hf, throwIf, hm, hmac, bind, Except.bind]
            rw [hstep]
            refine ⟨?_, ?_⟩
            · rw [ih1]
              constructor
              · rintro ⟨b, hb, old, ho, hc⟩
                exact ⟨b, List.mem_cons_of_mem _ hb, old, ho, hc⟩
              · rintro ⟨b, hb, old, ho, hc⟩
                rcases List.mem_cons.mp hb with e | hmem
                · subst e
                  rw [hf] at ho
                  simp only [Option.some.injEq] at ho
                  subst ho
                  rcases hc with hc | hc
                  · exact absurd hm hc
                  · exact absurd hmac hc
                · exact ⟨b, hmem, old, ho, hc⟩
            · intro r h
              obtain ⟨hsr, hfr⟩ := ih2 r h
              refine ⟨hsr, fun ip => ?_⟩
              rw [hfr]
              cases hfi : FlatMap.find? acc ip with
              | some old => rfl
              | none =>
                  have hip : ¬ ip0 = ip := by
                    intro e
                    rw [e, hfi] at hf
                    cases hf
                  simp [FlatMap.find?, hip]

theorem bind_error_iff {α β : Type} (x : Result α) (f : α → Result β) :
    (∃ e, (x >>= f) = .error e) ↔
      (∃ e, x = .error e) ∨ ∃ a, x = .ok a ∧ ∃ e, f a = .error e := by
  cases x <;> simp [bind, Except.bind]

theorem insertSet_snd_eq_false_iff {l : List Nat} (hs : l.Pairwise (· < ·)) (x : Nat) :
    (insertSet l x).2 = false ↔ x ∈ l := by
  have hsk : FlatMap.SortedKeys (l.map fun e => (e, ())) := by
    unfold FlatMap.SortedKeys
    rw [List.pairwise_map]
    exact hs.imp fun h => by simpa [KeyOrder.lt] using h
  have hfind : ∀ l' : List Nat, (FlatMap.find? (l'.map fun e => (e, ())) x).isSome = true ↔ x ∈ l' := by
    intro l'
    induction l' with
    | nil => simp [FlatMap.find?]
    | cons a rest ih =>
        simp only [List.map_cons, FlatMap.find?, List.mem_cons]
        by_cases h : a = x
        · simp [h]
        · rw [if_neg h, ih]
          simp [Ne.symm h]
  unfold insertSet
  simp only []
  rw [FlatMap.emplace_snd_eq_false_iff x () hsk, hfind]

/-- `updateVlanInterfaces` on the entry of the interface's VLAN, as a chain of
its checks. -/
theorem updateVlanInterfacesEntry_eq (intf : Interface) (entry : VlanInterfaceInfo) :
    updateVlanInterfacesEntry intf entry =
      (throwIf (!entry.interfaces.isEmpty && decide (intf.routerID ≠ entry.routerID))
          "VLAN configured in multiple different virtual routers" >>= fun _ =>
        throwIf (!(insertSet entry.interfaces intf.id).2)
          "interface processed twice for VLAN" >>= fun _ =>
        addVlanAddresses intf intf.addresses entry.addresses >>= fun addresses =>
        pure { routerID := if entry.interfaces.isEmpty then intf.routerID else entry.routerID
               interfaces := (insertSet entry.interfaces intf.id).1
               addresses := (FlatMap.emplace addresses (linkLocalAddr intf.mac)
                 { mask := 64, mac := intf.mac, interfaceID := intf.id }).1 }) := by
  unfold updateVlanInterfacesEntry
  cases hE : entry.interfaces.isEmpty with
  | true => simp [throwIf, bind, Except.bind, pure, Except.pure]
  | false =>
      by_cases hr : intf.routerID = entry.routerID
      · simp [throwIf, bind, Except.bind, pure, Except.pure, hr]
      · simp [throwIf, bind, Except.bind, pure, Except.pure, hr]

/-- C18. Let `entry` be `vlanInterfaces_[intf->getVlanID()]`, a valid entry (its
interface set and its address map sorted), and let the interface list every
address once. `updateVlanInterfaces` raises an error exactly when the entry
has an interface and the interface's router differs from the entry's, or the
interface id is in the entry, or an address of the interface is recorded in the
entry with another mask or another MAC. Otherwise the entry of the VLAN holds
the interface id on top of the old ones, every recorded address unchanged,
every new address of the interface with (mask, MAC, interface), and the
link-local address of the MAC with mask 64 unless that address was there;
the entries of the other VLANs are untouched. -/
theorem updateVlanInterfaces_error_iff (intf : Interface) (ctx : Ctx) (entry : VlanInterfaceInfo)
    (he : FlatMap.getD ctx.vlanInterfaces intf.vlanID {} = entry)
    (hi : entry.interfaces.Pairwise (· < ·))
    (ha : FlatMap.SortedKeys entry.addresses)
    (hu : (intf.addresses.map Prod.fst).Nodup) :
    ((∃ e, updateVlanInterfaces intf ctx = .error e) ↔
      (entry.interfaces ≠ [] ∧ intf.routerID ≠ entry.routerID) ∨
      intf.id ∈ entry.interfaces ∨
      ∃ a ∈ intf.addresses, ∃ old, FlatMap.find? entry.addresses a.1 = some old ∧
        (old.mask ≠ a.2 ∨ old.mac ≠ intf.mac)) ∧
    ∀ ctx', updateVlanInterfaces intf ctx = .ok ctx' →
      (∀ v, v ≠ intf.vlanID →
        FlatMap.find? ctx'.vlanInterfaces v = FlatMap.find? ctx.vlanInterfaces v) ∧
      ∃ e', FlatMap.find? ctx'.vlanInterfaces intf.vlanID = some e' ∧
        e'.routerID = (if entry.interfaces = [] then intf.routerID else entry.routerID) ∧
        (∀ y, y ∈ e'.interfaces ↔ y = intf.id ∨ y ∈ entry.interfaces) ∧
        ∀ ip, FlatMap.find? e'.addresses ip =
          match FlatMap.find? entry.addresses ip with
          | some old => some old
          | none =>
              match FlatMap.find? intf.addresses ip with
              | some m => some { mask := m, mac := intf.mac, interfaceID := intf.id }
              | none =>
                  if ip = linkLocalAddr intf.mac then
                    some { mask := 64, mac := intf.mac, interfaceID := intf.id }
                  else none := by
  obtain ⟨a1, a2⟩ := addVlanAddresses_spec intf intf.addresses entry.addresses hu ha
  have hemp : entry.interfaces.isEmpty = true ↔ entry.interfaces = [] := List.isEmpty_iff
  refine ⟨?_, ?_⟩
  · simp only [updateVlanInterfaces, he, updateVlanInterfacesEntry_eq, bind_error_iff,
      throwIf_error, throwIf_eq_ok, Bool.and_eq_true, Bool.not_eq_true', decide_eq_true_eq,
      insertSet_snd_eq_false_iff hi, a1, exists_const, pure, Except.pure, reduceCtorEq,
      exists_false, and_false, or_false, ← Bool.not_eq_true, hemp, Bool.and_eq_false_imp,
      Classical.not_imp, not_not, ne_eq]
    constructor
    · rintro (h | ⟨_, h | ⟨_, h⟩⟩)
      · exact Or.inl h
      · exact Or.inr (Or.inl h)
      · exact Or.inr (Or.inr h)
    · rintro (h | h | h)
      · exact Or.inl h
      · by_cases h1 : ¬entry.interfaces = [] ∧ ¬intf.routerID = entry.routerID
        · exact Or.inl h1
        · exact Or.inr ⟨by tauto, Or.inl h⟩
      · by_cases h1 : ¬entry.interfaces = [] ∧ ¬intf.routerID = entry.routerID
        · exact Or.inl h1
        · by_cases h2 : intf.id ∈ entry.interfaces
          · exact Or.inr ⟨by tauto, Or.inl h2⟩
          · exact Or.inr ⟨by tauto, Or.inr ⟨h2, h⟩⟩
  · intro ctx' h
    simp only [updateVlanInterfaces, he, updateVlanInterfacesEntry_eq, bind_eq_ok,
      throwIf_eq_ok, pure_eq_ok] at h
    obtain ⟨e', ⟨_, _, _, _, addrs, haddr, he'⟩, hctx⟩ := h
    obtain ⟨hsa, hfa⟩ := a2 addrs haddr
    subst hctx
    refine ⟨fun v hv => FlatMap.find?_assign_ne _ _ _ _ hv, e',
      FlatMap.find?_assign_self _ _ _, ?_, ?_, ?_⟩
    · rw [← he']
      simp only [hemp]
    · intro y
      rw [← he']
      exact mem_insertSet _ _ _
    · intro ip
      rw [← he']
      simp only []
      cases h2 : (FlatMap.emplace addrs (linkLocalAddr intf.mac)
          ({ mask := 64, mac := intf.mac, interfaceID := intf.id } : VlanIpInfo)).2 with
      | true =>
          have hnone : FlatMap.find? addrs (linkLocalAddr intf.mac) = none := by
            have := (FlatMap.emplace_snd_eq_false_iff (linkLocalAddr intf.mac)
              ({ mask := 64, mac := intf.mac, interfaceID := intf.id } : VlanIpInfo) hsa).not
            rw [h2] at this
            simpa using this
          rw [FlatMap.find?_emplace _ _ h2]
          by_cases hip : ip = linkLocalAddr intf.mac
          · subst hip
            rw [hfa] at hnone
            rw [if_pos rfl]
            cases h3 : FlatMap.find? entry.addresses (linkLocalAddr intf.mac) with
            | some old => rw [h3] at hnone; cases hnone
            | none =>
                rw [h3] at hnone
                simp only [Option.map_eq_none'] at hnone
                simp [hnone]
          · rw [if_neg hip, hfa]
            cases FlatMap.find? entry.addresses ip with
            | some old => rfl
            | none =>
                cases FlatMap.find? intf.addresses ip with
                | some m => rfl
                | none => simp [hip]
      | false =>
          have hsome : (FlatMap.find? addrs (linkLocalAddr intf.mac)).isSome = true :=
            (FlatMap.emplace_snd_eq_false_iff _ _ hsa).mp h2
          rw [FlatMap.emplace_fst_of_snd_false _ _ h2, hfa]
          cases h3 : FlatMap.find? entry.addresses ip with
          | some old => rfl
          | none =>
              cases h4 : FlatMap.find? intf.addresses ip with
              | some m => rfl
              | none =>
                  have hip : ip ≠ linkLocalAddr intf.mac := by
                    intro e
                    rw [hfa, ← e, h3, h4] at hsome
                    cases hsome
                  simp [hip]

/-- C18, at a concrete input: interface 6 of router 0 joins VLAN 5, which
records interface 5 of router 0. -/
theorem updateVlanInterfaces_error_iff_witness :
    FlatMap.getD ctxVlanFive.vlanInterfaces interfaceSix.vlanID {}
      = { routerID := 0, interfaces := [5],
          addresses := [(.v4 0x0a000001, { mask := 24, mac := 0x020000000001, interfaceID := 5 })] } ∧
    ∃ ctx', updateVlanInterfaces interfaceSix ctxVlanFive = .ok ctx' ∧
      ∃ e', FlatMap.find? ctx'.vlanInterfaces 5 = some e' ∧
        (∀ y, y ∈ e'.interfaces ↔ y = 6 ∨ y ∈ [5]) :=
  ⟨rfl, _, rfl,
    (((updateVlanInterfaces_error_iff interfaceSix ctxVlanFive _ rfl
      (by decide) (List.pairwise_singleton _ _) (by decide)).2 _ rfl).2).imp
      fun _ h => ⟨h.1, h.2.2.1⟩⟩

/-! ## Duplicate identities -/

/-- A chain of successful `emplace` calls: the keys are pairwise distinct and
none was in the container at the start; the container at the end is sorted and
holds the keys of the start and those of the entries. -/
theorem EmplaceChain.spec {Cfg Node K : Type} [HasID Node K] [DecidableEq K] [KeyOrder K]
    [LawfulKeyOrder K] {key : Cfg → K} {cs : List Cfg} {m m' : List Node}
    (h : EmplaceChain key cs m m') (hs : SortedNodes m) :
    (cs.map key).Nodup ∧ (∀ c ∈ cs, findNode m (key c) = none) ∧ SortedNodes m' ∧
    ∀ k, (findNode m' k).isSome = true ↔ k ∈ cs.map key ∨ (findNode m k).isSome = true := by
  induction h with
  | nil m => exact ⟨List.nodup_nil, fun _ hc => absurd hc (List.not_mem_nil _), hs, by simp⟩
  | @cons c cs m m1 m' x hx he _ ih =>
      have hnone : findNode m (key c) = none := by
        have h1 := (emplaceNode_eq_none_iff (n := x) hs).not
        rw [he, hx] at h1
        simpa using h1
      have hfind := findNode_emplaceNode he
      obtain ⟨ih1, ih2, ih3, ih4⟩ := ih (emplaceNode_sorted hs he).1
      have hne : ∀ c' ∈ cs, key c ≠ key c' ∧ findNode m (key c') = none := by
        intro c' hc'
        have h2 := ih2 c' hc'
        rw [hfind, hx] at h2
        by_cases e : key c = key c'
        · rw [if_pos e] at h2; cases h2
        · rw [if_neg e] at h2; exact ⟨e, h2⟩
      refine ⟨?_, ?_, ih3, ?_⟩
      · rw [List.map_cons, List.nodup_cons]
        refine ⟨?_, ih1⟩
        intro hmem
        obtain ⟨c', hc', e⟩ := List.mem_map.mp hmem
        exact (hne c' hc').1 e.symm
      · intro c' hc'
        rcases List.mem_cons.mp hc' with e | hc'
        · rw [e]; exact hnone
        · exact (hne c' hc').2
      · intro k
        rw [ih4 k, hfind k, hx, List.map_cons, List.mem_cons]
        by_cases e : key c = k
        · rw [if_pos e]; simp [e]
        · rw [if_neg e]
          constructor
          · rintro (h | h)
            · exact Or.inl (Or.inr h)
            · exact Or.inr h
          · rintro ((h | h) | h)
            · exact absurd h.symm e
            · exact Or.inl h
            · exact Or.inr h

/-- The node `updateMap` stores for a config entry has the entry's key: the new
node when there is one, else the old node found under that key. -/
theorem stored_id {Node K : Type} [HasID Node K] [DecidableEq K] {l : List Node} {k : K}
    {newNode : Option Node} {stored : Node}
    (hn : ∀ x, newNode = some x → HasID.getID x = k)
    (hs : newNode = some stored ∨ (newNode = none ∧ findNode l k = some stored)) :
    HasID.getID stored = k := by
  rcases hs with h | ⟨_, h⟩
  · exact hn _ h
  · exact (findNode_some_id h).1

theorem updatePortsCfgLoop_chain (cfg : SwitchConfig) (ctx : Ctx) (origPorts : List Port) :
    ∀ (cfgs : List PortCfg) (acc res : List Port × Bool),
      updatePortsCfgLoop cfg ctx origPorts cfgs acc = .ok res →
      EmplaceChain (fun c : PortCfg => c.logicalID) cfgs acc.1 res.1 := by
  intro cfgs
  induction cfgs with
  | nil =>
      intro acc res h
      simp only [updatePortsCfgLoop, pure_eq_ok] at h
      subst h
      exact .nil _
  | cons c rest ih =>
      rintro ⟨newPorts, changed⟩ res h
      simp only [updatePortsCfgLoop, bind_eq_ok] at h
      obtain ⟨newPort, hup, ⟨m, ch⟩, hmap, hrec⟩ := h
      obtain ⟨stored, hstored, hemp, _⟩ := updateMap_spec hmap
      have hch := ih _ _ hrec
      simp only at hstored hemp hch
      refine .cons (stored_id ?_ hstored) hemp hch
      intro x hx
      cases ho : findNode origPorts c.logicalID with
      | none => rw [ho] at hup; exact (updatePort_ok_id hup).2 x hx
      | some o => rw [ho] at hup; exact (updatePort_ok_id hup).2 x hx

theorem updateAggPort_some_id {lacp : Option LacpCfg} {localMac : MacAddress} {prio : Nat}
    {orig : AggregatePort} {cfg : AggregatePortCfg} {p : AggregatePort}
    (h : updateAggPort lacp localMac prio orig cfg = .ok (some p)) : p.id = cfg.key := by
  simp only [updateAggPort, bind_eq_ok, check_eq_ok, decide_eq_true_eq] at h
  obtain ⟨_, hid, _, _, _, _, same, _, h⟩ := h
  split at h
  · simp [pure_eq_ok] at h
  · simp only [pure_eq_ok, Option.some.injEq] at h
    subst h
    exact hid

theorem createAggPort_id {lacp : Option LacpCfg} {localMac : MacAddress} {prio : Nat}
    {cfg : AggregatePortCfg} {p : AggregatePort}
    (h : createAggPort lacp localMac prio cfg = .ok p) : p.id = cfg.key := by
  simp only [createAggPort, bind_eq_ok, pure_eq_ok] at h
  obtain ⟨_, _, _, _, h⟩ := h
  subst h
  rfl

theorem updateAggregatePortsLoop_chain (lacp : Option LacpCfg) (localMac : MacAddress)
    (prio : Nat) (origAggPorts : List AggregatePort) :
    ∀ (cfgs : List AggregatePortCfg) (acc res : List AggregatePort × Bool × Nat),
      updateAggregatePortsLoop lacp localMac prio origAggPorts cfgs acc = .ok res →
      EmplaceChain (fun c : AggregatePortCfg => c.key) cfgs acc.1 res.1 := by
  intro cfgs
  induction cfgs with
  | nil =>
      intro acc res h
      simp only [updateAggregatePortsLoop, pure_eq_ok] at h
      subst h
      exact .nil _
  | cons c rest ih =>
      rintro ⟨newAggPorts, changed, n0⟩ res h
      simp only [updateAggregatePortsLoop, bind_eq_ok] at h
      obtain ⟨⟨newAggPort, n⟩, hup, ⟨m, ch⟩, hmap, hrec⟩ := h
      obtain ⟨stored, hstored, hemp, _⟩ := updateMap_spec hmap
      have hch := ih _ _ hrec
      simp only at hstored hemp hch
      refine .cons (stored_id ?_ hstored) hemp hch
      intro x hx
      cases ho : findNode origAggPorts c.key with
      | none =>
          rw [ho] at hup
          simp only [bind_eq_ok, pure_eq_ok, Prod.mk.injEq] at hup
          obtain ⟨r, hr, e, _⟩ := hup
          subst e
          simp only [Option.some.injEq] at hx
          subst hx
          exact createAggPort_id hr
      | some o =>
          rw [ho] at hup
          simp only [bind_eq_ok, pure_eq_ok, Prod.mk.injEq] at hup
          obtain ⟨r, hr, e, _⟩ := hup
          subst e
          subst hx
          exact updateAggPort_some_id hr

theorem createMirror_name {ports : List Port} {c : MirrorCfg} {m : Mirror}
    (h : createMirror ports c = .ok m) : m.name = c.name := by
  simp only [createMirror, bind_eq_ok, pure_eq_ok] at h
  obtain ⟨_, _, _, _, _, _, h⟩ := h
  subst h
  rfl

theorem updateMirror_some_name {ports : List Port} {orig : Mirror} {c : MirrorCfg} {m : Mirror}
    (h : updateMirror ports orig c = .ok (some m)) : m.name = c.name := by
  simp only [updateMirror, bind_eq_ok] at h
  obtain ⟨newMirror, hc, h⟩ := h
  have hn := createMirror_name hc
  split at h
  · simp [pure_eq_ok] at h
  · split at h
    · simp only [pure_eq_ok, Option.some.injEq] at h
      subst h
      exact hn
    · split at h
      · split at h
        · simp only [pure_eq_ok, Option.some.injEq] at h
          subst h
          exact hn
        · cases h
      · simp only [pure_eq_ok, Option.some.injEq] at h
        subst h
        exact hn

theorem updateMirrorsLoop_chain (ports : List Port) (origMirrors : List Mirror) :
    ∀ (cfgs : List MirrorCfg) (acc res : List Mirror × Bool × Nat),
      updateMirrorsLoop ports origMirrors cfgs acc = .ok res →
      EmplaceChain (fun c : MirrorCfg => c.name) cfgs acc.1 res.1 := by
  intro cfgs
  induction cfgs with
  | nil =>
      intro acc res h
      simp only [updateMirrorsLoop, pure_eq_ok] at h
      subst h
      exact .nil _
  | cons c rest ih =>
      rintro ⟨newMirrors, changed, n0⟩ res h
      simp only [updateMirrorsLoop, bind_eq_ok] at h
      obtain ⟨⟨newMirror, n⟩, hup, ⟨m, ch⟩, hmap, hrec⟩ := h
      obtain ⟨stored, hstored, hemp, _⟩ := updateMap_spec hmap
      have hch := ih _ _ hrec
      simp only at hstored hemp hch
      refine .cons (stored_id ?_ hstored) hemp hch
      intro x hx
      cases ho : findNode origMirrors c.name with
      | none =>
          rw [ho] at hup
          simp only [bind_eq_ok, pure_eq_ok, Prod.mk.injEq] at hup
          obtain ⟨r, hr, e, _⟩ := hup
          subst e
          simp only [Option.some.injEq] at hx
          subst hx
          exact createMirror_name hr
      | some o =>
          rw [ho] at hup
          simp only [bind_eq_ok, pure_eq_ok, Prod.mk.injEq] at hup
          obtain ⟨r, hr, e, _⟩ := hup
          subst e
          subst hx
          exact updateMirror_some_name hr

theorem updateInterfacesLoop_chain (platform : Platform) (origIntfs : List Interface) :
    ∀ (cfgs : List InterfaceCfg) (acc res : List Interface × Bool × Nat × Ctx),
      updateInterfacesLoop platform origIntfs cfgs acc = .ok res →
      EmplaceChain (fun c : InterfaceCfg => c.intfID) cfgs acc.1 res.1 := by
  intro cfgs
  induction cfgs with
  | nil =>
      intro acc res h
      simp only [updateInterfacesLoop, pure_eq_ok] at h
      subst h
      exact .nil _
  | cons c rest ih =>
      rintro ⟨newIntfs, changed, n0, ctx⟩ res h
      simp only [updateInterfacesLoop, bind_eq_ok] at h
      obtain ⟨⟨newAddrs, ctx1⟩, _, ⟨newIntf, n⟩, hni, ctx2, _, ⟨m, cflag⟩, hmap, hrec⟩ := h
      obtain ⟨stored, hstored, hemp, _⟩ := updateMap_spec hmap
      have hch := ih _ _ hrec
      simp only at hstored hemp hch
      refine .cons (stored_id ?_ hstored) hemp hch
      intro x hx
      cases ho : findNode origIntfs c.intfID with
      | none =>
          rw [ho] at hni
          simp only [pure_eq_ok, Prod.mk.injEq] at hni
          obtain ⟨e, _⟩ := hni
          subst e
          simp only [Option.some.injEq] at hx
          subst hx
          rfl
      | some o =>
          rw [ho] at hni
          simp only [bind_eq_ok, pure_eq_ok, Prod.mk.injEq] at hni
          obtain ⟨r, hr, e, _⟩ := hni
          subst e
          subst hx
          exact (updateInterface_some hr).1

theorem createVlan_id (ctx : Ctx) (config : VlanCfg) : (createVlan ctx config).1.id = config.id := by
  unfold createVlan
  cases config.intfID with
  | some i => rfl
  | none =>
      simp only []
      split <;> rfl

theorem updateVlan_some_id {ctx ctx' : Ctx} {orig : Vlan} {config : VlanCfg} {v : Vlan}
    (h : updateVlan ctx orig config = .ok (some v, ctx')) : v.id = config.id := by
  simp only [updateVlan, bind_eq_ok, check_eq_ok, decide_eq_true_eq] at h
  obtain ⟨_, hid, h⟩ := h
  split at h
  · simp [pure_eq_ok] at h
  · simp only [pure_eq_ok, Prod.mk.injEq, Option.some.injEq] at h
    rw [← h.1]
    exact hid

/-- The loop of `updateVlans`: a chain of `emplace` calls by VLAN id; the
counter `numExistingProcessed` grows by the number of entries found in the old map. -/
theorem updateVlansLoop_chain (origVlans : List Vlan) :
    ∀ (cfgs : List VlanCfg) (acc res : List Vlan × Bool × Nat × Ctx),
      updateVlansLoop origVlans cfgs acc = .ok res →
      EmplaceChain (fun c : VlanCfg => c.id) cfgs acc.1 res.1 ∧
      res.2.2.1 = acc.2.2.1 +
        (cfgs.filter fun c => (findNode origVlans c.id).isSome).length := by
  intro cfgs
  induction cfgs with
  | nil =>
      intro acc res h
      simp only [updateVlansLoop, pure_eq_ok] at h
      subst h
      exact ⟨.nil _, rfl⟩
  | cons c rest ih =>
      rintro ⟨newVlans, changed, n0, ctx⟩ res h
      simp only [updateVlansLoop, bind_eq_ok] at h
      obtain ⟨⟨newVlan, n, ctx1⟩, hnv, ⟨m, cflag⟩, hmap, hrec⟩ := h
      obtain ⟨stored, hstored, hemp, _⟩ := updateMap_spec hmap
      obtain ⟨ih1, ih2⟩ := ih _ _ hrec
      simp only at hstored hemp ih1 ih2
      cases ho : findNode origVlans c.id with
      | none =>
          rw [ho] at hnv
          simp only [pure_eq_ok, Prod.mk.injEq] at hnv
          obtain ⟨e, en, _⟩ := hnv
          refine ⟨.cons (stored_id ?_ hstored) hemp ih1, ?_⟩
          · intro x hx
            subst e
            simp only [Option.some.injEq] at hx
            subst hx
            exact createVlan_id ctx c
          · rw [ih2, ← en, List.filter_cons_of_neg (by simp [ho])]
      | some o =>
          rw [ho] at hnv
          simp only [bind_eq_ok, pure_eq_ok, Prod.mk.injEq] at hnv
          obtain ⟨r, hr, e, en, _⟩ := hnv
          refine ⟨.cons (stored_id ?_ hstored) hemp ih1, ?_⟩
          · intro x hx
            obtain ⟨r1, r2⟩ := r
            simp only at e
            subst e
            subst hx
            exact updateVlan_some_id hr
          · rw [ih2, ← en, List.filter_cons_of_pos (by simp [ho]), List.length_cons]
            simp only []
            omega

theorem updatePorts_nodup {cfg : SwitchConfig} {ctx : Ctx} {origPorts : NodeMap Port}
    {r : Option (NodeMap Port)} (h : updatePorts cfg ctx origPorts = .ok r) :
    (cfg.ports.map fun c => c.logicalID).Nodup := by
  simp only [updatePorts, bind_eq_ok] at h
  obtain ⟨acc, hloop, _⟩ := h
  exact ((updatePortsCfgLoop_chain cfg ctx _ _ _ _ hloop).spec sortedNodes_nil).1

theorem updateAggregatePorts_nodup {lacp : Option LacpCfg} {localMac : MacAddress} {prio : Nat}
    {origAggPorts : NodeMap AggregatePort} {cfgs : List AggregatePortCfg}
    {r : Option (NodeMap AggregatePort)}
    (h : updateAggregatePorts lacp localMac prio origAggPorts cfgs = .ok r) :
    (cfgs.map fun c => c.key).Nodup := by
  simp only [updateAggregatePorts, bind_eq_ok] at h
  obtain ⟨acc, hloop, _⟩ := h
  exact ((updateAggregatePortsLoop_chain lacp localMac prio _ _ _ _ hloop).spec sortedNodes_nil).1

theorem updateMirrors_nodup {cfg : SwitchConfig} {origMirrors : NodeMap Mirror}
    {ports : List Port} {r : Option (NodeMap Mirror)}
    (h : updateMirrors cfg origMirrors ports = .ok r) :
    (cfg.mirrors.map fun c => c.name).Nodup := by
  simp only [updateMirrors, bind_eq_ok] at h
  obtain ⟨acc, hloop, _⟩ := h
  exact ((updateMirrorsLoop_chain ports _ _ _ _ hloop).spec sortedNodes_nil).1

theorem updateInterfaces_nodup {platform : Platform} {cfg : SwitchConfig}
    {origIntfs : NodeMap Interface} {ctx : Ctx} {r : Option (NodeMap Interface) × Ctx}
    (h : updateInterfaces platform cfg origIntfs ctx = .ok r) :
    (cfg.interfaces.map fun c => c.intfID).Nodup := by
  simp only [updateInterfaces, bind_eq_ok] at h
  obtain ⟨acc, hloop, _⟩ := h
  exact ((updateInterfacesLoop_chain platform _ _ _ _ hloop).spec sortedNodes_nil).1

/-- When `updateVlans` succeeds the VLAN ids of the config are pairwise distinct,
and the VLANs of the map it leaves in the state (the new map, or the old one
when it returns null) are those of the config. -/
theorem updateVlans_ids {cfg : SwitchConfig} {origVlans : NodeMap Vlan} {ctx : Ctx}
    {r : Option (NodeMap Vlan) × Ctx} (h : updateVlans cfg origVlans ctx = .ok r) :
    (cfg.vlans.map fun c => c.id).Nodup ∧
    ∀ v, (findNode (r.1.getD origVlans).nodes v).isSome = true → v ∈ cfg.vlans.map fun c => c.id := by
  simp only [updateVlans, bind_eq_ok] at h
  obtain ⟨⟨newVlans, changed, n, ctx1⟩, hloop, changed', hch, h⟩ := h
  obtain ⟨hchain, hn⟩ := updateVlansLoop_chain _ _ _ _ hloop
  obtain ⟨hnd, _, _, hiff⟩ := hchain.spec sortedNodes_nil
  simp only [Nat.zero_add] at hn hiff
  refine ⟨hnd, ?_⟩
  intro v hv
  split at h
  · -- unchanged: every old VLAN is one of the config
    simp only [pure_eq_ok] at h
    subst h
    simp only [Option.getD_none] at hv
    rename_i hc
    have hlen : n = origVlans.nodes.length := by
      by_contra hne
      rw [if_pos hne] at hch
      simp only [bind_eq_ok, pure_eq_ok] at hch
      obtain ⟨_, _, e⟩ := hch
      subst e
      simp at hc
    -- the ids of the config entries found in the old map
    let found := (cfg.vlans.filter fun c => (findNode origVlans.nodes c.id).isSome).map
      fun c => c.id
    have hfnd : found.Nodup := by
      have hsub : List.Sublist found (cfg.vlans.map fun c => c.id) :=
        (List.filter_sublist _).map _
      exact hsub.nodup hnd
    have hfsub : found ⊆ origVlans.nodes.map HasID.getID := by
      intro k hk
      obtain ⟨c, hc1, rfl⟩ := List.mem_map.mp hk
      have hc2 := (List.mem_filter.mp hc1).2
      obtain ⟨x, hx⟩ := Option.isSome_iff_exists.mp hc2
      obtain ⟨e1, e2⟩ := findNode_some_id hx
      exact List.mem_map.mpr ⟨x, e2, e1⟩
    have hperm : found.Perm (origVlans.nodes.map HasID.getID) := by
      apply (List.subperm_of_subset hfnd hfsub).perm_of_length_le
      simp only [found, List.length_map]
      rw [← hn, hlen]
    obtain ⟨x, hx⟩ := Option.isSome_iff_exists.mp hv
    obtain ⟨e1, e2⟩ := findNode_some_id hx
    have : v ∈ found := hperm.symm.subset (List.mem_map.mpr ⟨x, e2, e1⟩)
    obtain ⟨c, hc1, hc2⟩ := List.mem_map.mp this
    exact List.mem_map.mpr ⟨c, (List.mem_filter.mp hc1).1, hc2⟩
  · simp only [pure_eq_ok] at h
    subst h
    simp only [Option.getD_some, NodeMap.cloneWith] at hv
    rcases (hiff v).mp hv with h1 | h1
    · exact h1
    · simp [findNode] at h1

theorem updateVlans_nodup {cfg : SwitchConfig} {origVlans : NodeMap Vlan} {ctx : Ctx}
    {r : Option (NodeMap Vlan) × Ctx} (h : updateVlans cfg origVlans ctx = .ok r) :
    (cfg.vlans.map fun c => c.id).Nodup := (updateVlans_ids h).1

/-- C12. For every old state, platform and routing mode, and every config in
which two entries of `ports` carry the same logical id, or two entries of
`aggregatePorts` the same key, or two entries of `vlans` the same id, or two
entries of `interfaces` the same id, or two entries of `mirrors` the same name,
`applyThriftConfig` returns an error and no state. -/
theorem duplicate_identity_rejected (platform : Platform) (rib : Option RoutingInformationBase)
    (orig : SwitchState) (cfg : SwitchConfig)
    (h : ¬ (cfg.ports.map fun c => c.logicalID).Nodup ∨
      ¬ (cfg.aggregatePorts.map fun c => c.key).Nodup ∨
      ¬ (cfg.vlans.map fun c => c.id).Nodup ∨
      ¬ (cfg.interfaces.map fun c => c.intfID).Nodup ∨
      ¬ (cfg.mirrors.map fun c => c.name).Nodup) :
    ∃ e, applyThriftConfig orig cfg platform rib = .error e := by
  unfold applyThriftConfig
  cases hrun : run platform rib orig cfg with
  | error e => exact ⟨e, rfl⟩
  | ok res =>
      exfalso
      simp only [run, runPass, bind_eq_ok] at hrun
      obtain ⟨p, ⟨p1, e1, p2, e2, p3, e3, _⟩, _⟩ := hrun
      simp only [runPorts, bind_eq_ok, pure_eq_ok] at e1
      obtain ⟨_, _, _, _, _, hports, _, hagg, _⟩ := e1
      simp only [runPolicies, bind_eq_ok, pure_eq_ok] at e2
      obtain ⟨_, hmirrors, _⟩ := e2
      simp only [runInterfaces, bind_eq_ok, pure_eq_ok] at e3
      obtain ⟨_, hintfs, _, hvlans, _⟩ := e3
      rcases h with h | h | h | h | h
      · exact h (updatePorts_nodup hports)
      · exact h (updateAggregatePorts_nodup hagg)
      · exact h (updateVlans_nodup hvlans)
      · exact h (updateInterfaces_nodup hintfs)
      · exact h (updateMirrors_nodup hmirrors)

/-- C12, at a concrete input: two VLAN entries of id 5; the error raised is the
one of `updateMap`. -/
theorem duplicate_identity_rejected_witness :
    ¬ (cfgDuplicateVlan.vlans.map fun c => c.id).Nodup ∧
    (∃ e, applyThriftConfig settledState cfgDuplicateVlan examplePlatform none = .error e) ∧
    applyThriftConfig settledState cfgDuplicateVlan examplePlatform none
      = .error (.fbossError "duplicate entry") :=
  ⟨by decide,
    duplicate_identity_rejected examplePlatform none settledState cfgDuplicateVlan
      (Or.inr (Or.inr (Or.inl (by decide)))),
    by decide⟩

/-! ## VLAN references of interfaces -/

theorem checkVlanInterfaces_found (newVlans : List Vlan) (cpuVlan : VlanID)
    (l : List (VlanID × VlanInterfaceInfo)) (u : Unit)
    (h : checkVlanInterfaces newVlans cpuVlan l = .ok u) :
    ∀ x ∈ l, (findNode newVlans x.1).isSome = true := by
  induction l with
  | nil => exact fun x hx => absurd hx (List.not_mem_nil _)
  | cons a rest ih =>
      simp only [checkVlanInterfaces, bind_eq_ok, throwIf_eq_ok] at h
      obtain ⟨_, hf, _, _, h⟩ := h
      intro x hx
      rcases List.mem_cons.mp hx with e | hm
      · subst e
        cases hfn : findNode newVlans x.1 with
        | none => rw [hfn] at hf; cases hf
        | some _ => rfl
      · exact ih h x hm

theorem Pass.reset_vlans {α : Type} (p : Pass) (r : Option α)
    (set : SwitchState → α → SwitchState) (hset : ∀ s n, (set s n).vlans = s.vlans) :
    (p.reset r set).new_.vlans = p.new_.vlans := by
  cases r with
  | none => rfl
  | some n => exact hset _ _

theorem Pass.setIf_vlans (p : Pass) (c : Bool) (set : SwitchState → SwitchState)
    (hset : ∀ s, (set s).vlans = s.vlans) :
    (p.setIf c set).new_.vlans = p.new_.vlans := by
  cases c with
  | false => rfl
  | true => exact hset _

theorem runPorts_vlans {platform : Platform} {orig : SwitchState} {cfg : SwitchConfig}
    {p : Pass} (h : runPorts platform orig cfg = .ok p) :
    p.new_.vlans = orig.vlans := by
  simp only [runPorts, bind_eq_ok, pure_eq_ok] at h
  obtain ⟨newCP, _, ctx, _, newPorts, _, newAgg, _, h⟩ := h
  subst h
  simp only [Pass.reset_vlans, implies_true]
  rfl

theorem runPolicies_vlans {orig : SwitchState} {cfg : SwitchConfig} {p p' : Pass}
    (h : runPolicies orig cfg p = .ok p') :
    p'.new_.vlans = p.new_.vlans := by
  simp only [runPolicies, bind_eq_ok, pure_eq_ok] at h
  obtain ⟨newMirrors, _, newAcls, _, newQos, _, newDflt, _, h⟩ := h
  subst h
  simp only [Pass.reset_vlans, implies_true]

/-- `run`, `updateInterfaces` and `updateVlans`: the VLAN map of `new_` is the
one `updateVlans` returns, or the one before when it returns null, in which
case a set `changed` stays set. -/
theorem runInterfaces_vlans {platform : Platform} {orig : SwitchState} {cfg : SwitchConfig}
    {p p' : Pass} (h : runInterfaces platform orig cfg p = .ok p') :
    ∃ ctx r, updateVlans cfg orig.vlans ctx = .ok r ∧
      p'.new_.vlans = r.1.getD p.new_.vlans ∧ (r.1.isSome = true → p'.changed = true) := by
  simp only [runInterfaces, bind_eq_ok, pure_eq_ok] at h
  obtain ⟨⟨newIntfs, ctx1⟩, _, ⟨newVlans, ctx2⟩, hv, h⟩ := h
  subst h
  refine ⟨_, _, hv, ?_, ?_⟩
  · cases newVlans with
    | none => simp only [Pass.reset_none, Option.getD_none, Pass.reset_vlans, implies_true]
    | some n => rfl
  · intro hs
    simp only at hs
    rw [Pass.reset_changed, hs, Bool.or_true]

theorem runRoutes_vlans {rib : Option RoutingInformationBase} {orig : SwitchState}
    {cfg : SwitchConfig} {p p' : Pass} (h : runRoutes rib orig cfg p = .ok p') :
    p'.new_.vlans = p.new_.vlans := by
  unfold runRoutes at h
  cases rib with
  | some r =>
      simp only [bind_eq_ok, pure_eq_ok] at h
      obtain ⟨newFibs, _, fibs, _, h⟩ := h
      subst h
      simp only [Pass.reset_vlans, implies_true]
  | none =>
      simp only [pure_eq_ok] at h
      subst h
      simp only [Pass.reset_vlans, implies_true]

theorem runValidate_vlans {orig : SwitchState} {cfg : SwitchConfig} {p p' : Pass}
    (h : runValidate orig cfg p = .ok p') :
    p'.new_.vlans = p.new_.vlans ∧ p'.ctx = p.ctx ∧
    ∀ x ∈ p.ctx.vlanInterfaces, (findNode p.new_.vlans.nodes x.1).isSome = true := by
  simp only [runValidate, bind_eq_ok, throwIf_eq_ok, pure_eq_ok, Pass.setIf_ctx] at h
  obtain ⟨_, _, _, hcheck, h⟩ := h
  subst h
  exact ⟨by simp only [Pass.setIf_vlans, implies_true], Pass.setIf_ctx _ _ _,
    checkVlanInterfaces_found _ _ _ _ hcheck⟩

theorem runScalars_vlans (orig : SwitchState) (cfg : SwitchConfig) (p : Pass) :
    (runScalars orig cfg p).new_.vlans = p.new_.vlans := by
  unfold runScalars
  simp only [Pass.setIf_vlans, implies_true]

theorem runCollectors_vlans {orig : SwitchState} {cfg : SwitchConfig} {p p' : Pass}
    (h : runCollectors orig cfg p = .ok p') :
    p'.new_.vlans = p.new_.vlans := by
  simp only [runCollectors, bind_eq_ok, pure_eq_ok] at h
  obtain ⟨newCollectors, _, newLb, _, h⟩ := h
  subst h
  simp only [Pass.reset_vlans, implies_true]

/-- When `run` succeeds, the VLAN of every interface of the config is in the
VLAN map of the state it leaves (the returned state, or the old state when it
returns the unchanged sentinel) and among the VLANs of the config. -/
theorem run_interface_vlans {platform : Platform} {rib : Option RoutingInformationBase}
    {orig : SwitchState} {cfg : SwitchConfig} {res : Option SwitchState}
    (h : run platform rib orig cfg = .ok res) :
    ∀ i ∈ cfg.interfaces,
      (findNode (res.getD orig).vlans.nodes i.vlanID).isSome = true ∧
      i.vlanID ∈ cfg.vlans.map fun c => c.id := by
  simp only [run, runPass, bind_eq_ok] at h
  obtain ⟨p, ⟨p1, h1, p2, h2, p3, h3, p4, h4, p5, h5, h6⟩, h⟩ := h
  have v1 := runPorts_vlans h1
  have v2 := runPolicies_vlans h2
  obtain ⟨ctx, r, hv, v3, c3⟩ := runInterfaces_vlans h3
  obtain ⟨_, hrec⟩ := runInterfaces_records h3
  have v4 := runRoutes_vlans h4
  obtain ⟨_, x4⟩ := runRoutes_defaultVlan h4
  obtain ⟨v5, _, hfound⟩ := runValidate_vlans h5
  have v6 := runScalars_vlans orig cfg p5
  have v7 := runCollectors_vlans h6
  have hp4 : p4.new_.vlans = r.1.getD orig.vlans := by rw [v4, v3, v2, v1]
  have hp : p.new_.vlans = r.1.getD orig.vlans := by rw [v7, v6, v5, hp4]
  have hcc : r.1.isSome = true → p.changed = true := fun hs =>
    (runCollectors_ports h6).2 ((runScalars_ports orig cfg p5).2
      ((runValidate_ports h5).2 ((runRoutes_ports h4).2 (c3 hs))))
  have hres : (res.getD orig).vlans = r.1.getD orig.vlans := by
    split at h
    · rename_i hc
      simp only [pure_eq_ok] at h
      subst h
      cases hr : r.1 with
      | none => rfl
      | some n =>
          have := hcc (by rw [hr]; rfl)
          rw [this] at hc
          simp at hc
    · simp only [pure_eq_ok] at h
      subst h
      exact hp
  intro i hi
  obtain ⟨e, hfe, _⟩ := hrec i hi
  rw [← x4] at hfe
  have hf := hfound _ (FlatMap.mem_of_find? hfe)
  rw [hp4] at hf
  exact ⟨by rw [hres]; exact hf, (updateVlans_ids hv).2 _ hf⟩

/-- C19. For every old state, platform, routing mode and config:
`applyThriftConfig` returns an error when some interface of the config names a
VLAN id that no entry of the config's `vlans` list carries; and when it returns
without an error, the VLAN of every interface of the config is in the VLAN map
of the state it leaves, which is the returned state, or the old state when the
unchanged sentinel is returned. -/
theorem interface_vlan_reference (platform : Platform) (rib : Option RoutingInformationBase)
    (orig : SwitchState) (cfg : SwitchConfig) :
    (∀ i ∈ cfg.interfaces, i.vlanID ∉ (cfg.vlans.map fun c => c.id) →
      ∃ e, applyThriftConfig orig cfg platform rib = .error e) ∧
    ∀ res, applyThriftConfig orig cfg platform rib = .ok res →
      ∀ i ∈ cfg.interfaces, (findNode (res.getD orig).vlans.nodes i.vlanID).isSome = true := by
  unfold applyThriftConfig
  refine ⟨?_, ?_⟩
  · intro i hi hv
    cases hrun : run platform rib orig cfg with
    | error e => exact ⟨e, rfl⟩
    | ok res => exact absurd (run_interface_vlans hrun i hi).2 hv
  · intro res hrun i hi
    exact (run_interface_vlans hrun i hi).1

/-- C19, at concrete inputs: interface 5 on VLAN 5 without any VLAN in the
config is refused by the check of `run`; with VLAN 5 in the config the state
returned holds VLAN 5. -/
theorem interface_vlan_reference_witness :
    (∃ e, applyThriftConfig settledState cfgInterfaceNoVlan examplePlatform none = .error e) ∧
    applyThriftConfig settledState cfgInterfaceNoVlan examplePlatform none
      = .error (.fbossError "Interface refers to non-existent VLAN") ∧
    ∃ s, applyThriftConfig emptyState cfgOneInterface examplePlatform none = .ok (some s) ∧
      (findNode s.vlans.nodes 5).isSome = true :=
  ⟨(interface_vlan_reference examplePlatform none settledState cfgInterfaceNoVlan).1
      { intfID := 5, vlanID := 5 } (by decide) (by decide),
    by decide,
    _, rfl,
    (interface_vlan_reference examplePlatform none emptyState cfgOneInterface).2 _ rfl
      _ (List.mem_singleton_self _)⟩

/-! ## Port queues: AQM validation, traffic class -/

/-- The loop of `checkPortQueueAQMValid`, started with the behaviors `seen`:
it raises an error exactly when an entry has the empty detection variant, or
an entry's behavior is in `seen`, or two entries have the same behavior. -/
theorem checkPortQueueAQMValidLoop_error_iff :
    ∀ (aqms : List ActiveQueueManagement) (seen : List QueueCongestionBehavior),
      (∃ e, checkPortQueueAQMValidLoop aqms seen = .error e) ↔
        (∃ a ∈ aqms, a.detection = .empty) ∨ (∃ a ∈ aqms, a.behavior ∈ seen) ∨
          ¬ (aqms.map fun a => a.behavior).Nodup := by
  intro aqms
  induction aqms with
  | nil =>
      intro seen
      simp [checkPortQueueAQMValidLoop, pure, Except.pure]
  | cons a rest ih =>
      intro seen
      simp only [checkPortQueueAQMValidLoop, throwIf_bind_error, decide_eq_true_eq, ih,
        List.mem_cons, exists_eq_or_imp, List.map_cons, List.nodup_cons, List.mem_map,
        not_and_or, not_not]
      constructor
      · rintro (h | h | h | ⟨x, hx, h | h⟩ | h)
        · exact Or.inl (Or.inl h)
        · exact Or.inr (Or.inl (Or.inl h))
        · exact Or.inl (Or.inr h)
        · exact Or.inr (Or.inr (Or.inl ⟨x, hx, h⟩))
        · exact Or.inr (Or.inl (Or.inr ⟨x, hx, h⟩))
        · exact Or.inr (Or.inr (Or.inr h))
      · rintro ((h | h) | (h | ⟨x, hx, h⟩) | ⟨x, hx, h⟩ | h)
        · exact Or.inl h
        · exact Or.inr (Or.inr (Or.inl h))
        · exact Or.inr (Or.inl h)
        · exact Or.inr (Or.inr (Or.inr (Or.inl ⟨x, hx, Or.inr h⟩)))
        · exact Or.inr (Or.inr (Or.inr (Or.inl ⟨x, hx, Or.inl h⟩)))
        · exact Or.inr (Or.inr (Or.inr (Or.inr h)))

/-- C22. For every list of active-queue-management entries,
`checkPortQueueAQMValid` raises an error exactly when some entry has the empty
(unset) congestion-detection variant or two entries, at different places of
the list, have the same congestion behavior. The empty list is accepted. -/
theorem checkPortQueueAQMValid_error_iff (aqms : List ActiveQueueManagement) :
    ((∃ e, checkPortQueueAQMValid aqms = .error e) ↔
      (∃ a ∈ aqms, a.detection = .empty) ∨ ¬ (aqms.map fun a => a.behavior).Nodup) ∧
    checkPortQueueAQMValid [] = .ok () := by
  refine ⟨?_, rfl⟩
  unfold checkPortQueueAQMValid
  cases aqms with
  | nil => simp [pure, Except.pure]
  | cons a rest =>
      simp only [List.isEmpty_cons, Bool.false_eq_true, if_false]
      rw [checkPortQueueAQMValidLoop_error_iff]
      simp

theorem createPortQueue_eq (cfg : PortQueueCfg) (trafficClass : Option Nat) :
    createPortQueue cfg trafficClass =
      (if cfg.aqms.isset then checkPortQueueAQMValid cfg.aqms.value else pure ()) >>=
        fun _ => pure (createdPortQueue cfg trafficClass) := by
  obtain ⟨id, st, ⟨b1, v1⟩, ⟨b2, v2⟩, ⟨b3, v3⟩, sch, ⟨b4, v4⟩, ⟨b5, v5⟩, ⟨b6, v6⟩, ⟨b7, v7⟩,
    ⟨b8, v8⟩, ⟨b9, v9⟩⟩ := cfg
  unfold createPortQueue createdPortQueue
  cases b6
  · cases trafficClass <;> cases b1 <;> cases b2 <;> cases b3 <;> cases b4 <;> cases b5 <;>
      cases b7 <;> cases b8 <;> cases b9 <;> rfl
  · simp only [if_true]
    cases checkPortQueueAQMValid v6 with
    | error e => rfl
    | ok u =>
        cases trafficClass <;> cases b1 <;> cases b2 <;> cases b3 <;> cases b4 <;> cases b5 <;>
          cases b7 <;> cases b8 <;> cases b9 <;> rfl

theorem createPortQueue_ok_iff (cfg : PortQueueCfg) (trafficClass : Option Nat) (q : PortQueue) :
    createPortQueue cfg trafficClass = .ok q ↔
      (cfg.aqms.isset = true → checkPortQueueAQMValid cfg.aqms.value = .ok ()) ∧
      q = createdPortQueue cfg trafficClass := by
  rw [createPortQueue_eq]
  cases hb : cfg.aqms.isset
  · simp [bind, Except.bind, pure, Except.pure, eq_comm]
  · cases hc : checkPortQueueAQMValid cfg.aqms.value <;>
      simp [bind, Except.bind, pure, Except.pure, eq_comm]

/-- What `updatePortQueue` returns: the old queue when it matches the config
entry and has the traffic class of the QoS map, else the queue
`createPortQueue` builds, provided the AQM list is valid. -/
theorem updatePortQueue_ok_iff (orig : PortQueue) (cfg : PortQueueCfg)
    (qosMap : Option QosMapCfg) (q : PortQueue) :
    updatePortQueue orig cfg qosMap = .ok q ↔
      (orig.id : Int) = cfg.id ∧
      ((checkSwConfPortQueueMatch orig cfg = true ∧
          findTrafficClass qosMap cfg.id = orig.trafficClass ∧ q = orig) ∨
        (¬ (checkSwConfPortQueueMatch orig cfg = true ∧
            findTrafficClass qosMap cfg.id = orig.trafficClass) ∧
          (cfg.aqms.isset = true → checkPortQueueAQMValid cfg.aqms.value = .ok ()) ∧
          q = createdPortQueue cfg (findTrafficClass qosMap cfg.id))) := by
  simp only [updatePortQueue, bind_eq_ok, check_eq_ok, decide_eq_true_eq, exists_and_left,
    exists_const]
  by_cases hm : checkSwConfPortQueueMatch orig cfg = true ∧
      findTrafficClass qosMap cfg.id = orig.trafficClass
  · have hc : (checkSwConfPortQueueMatch orig cfg &&
        decide (findTrafficClass qosMap cfg.id = orig.trafficClass)) = true := by
      simp [hm.1, hm.2]
    rw [if_pos hc, pure_eq_ok]
    constructor
    · rintro ⟨h1, h2⟩
      exact ⟨h1, Or.inl ⟨hm.1, hm.2, h2.symm⟩⟩
    · rintro ⟨h1, h2 | h2⟩
      · exact ⟨h1, h2.2.2.symm⟩
      · exact absurd hm h2.1
  · have hc : ¬ (checkSwConfPortQueueMatch orig cfg &&
        decide (findTrafficClass qosMap cfg.id = orig.trafficClass)) = true := by
      simpa using hm
    rw [if_neg hc, createPortQueue_ok_iff]
    constructor
    · rintro ⟨h1, h2⟩
      exact ⟨h1, Or.inr ⟨hm, h2⟩⟩
    · rintro ⟨h1, h2 | h2⟩
      · exact absurd ⟨h2.1, h2.2.1⟩ hm
      · exact ⟨h1, h2.2⟩

/-- C25. `updatePortQueue` returns a queue exactly when the old queue has the
config entry's id and either matches the entry already (with the traffic class
of the QoS map) or the entry's AQM list, when set, is valid. The queue it
returns has the traffic class the QoS map gives for the entry's queue id: none
when the map is absent or no entry of `trafficClassToQueueId` has that queue
id as value, else the key of the first such entry in map order, as a
`TrafficClass` (the key itself when it lies in `[0, 2^16)`). -/
theorem updatePortQueue_trafficClass (orig : PortQueue) (cfg : PortQueueCfg)
    (qosMap : Option QosMapCfg) :
    ((∃ q, updatePortQueue orig cfg qosMap = .ok q) ↔
      (orig.id : Int) = cfg.id ∧
        ((checkSwConfPortQueueMatch orig cfg = true ∧
            findTrafficClass qosMap cfg.id = orig.trafficClass) ∨
          cfg.aqms.isset = false ∨ checkPortQueueAQMValid cfg.aqms.value = .ok ())) ∧
    ∀ q, updatePortQueue orig cfg qosMap = .ok q →
      q.trafficClass =
        match qosMap with
        | none => none
        | some M =>
            (M.trafficClassToQueueId.find? fun e => decide (e.2 = cfg.id)).map
              fun e => (e.1 % 2 ^ 16).toNat := by
  refine ⟨?_, ?_⟩
  · simp only [updatePortQueue_ok_iff]
    constructor
    · rintro ⟨q, h1, h2 | h2⟩
      · exact ⟨h1, Or.inl ⟨h2.1, h2.2.1⟩⟩
      · refine ⟨h1, Or.inr ?_⟩
        cases hb : cfg.aqms.isset
        · exact Or.inl rfl
        · exact Or.inr (h2.2.1 hb)
    · rintro ⟨h1, h2⟩
      by_cases hm : checkSwConfPortQueueMatch orig cfg = true ∧
          findTrafficClass qosMap cfg.id = orig.trafficClass
      · exact ⟨orig, h1, Or.inl ⟨hm.1, hm.2, rfl⟩⟩
      · refine ⟨_, h1, Or.inr ⟨hm, ?_, rfl⟩⟩
        rcases h2 with h2 | h2 | h2
        · exact absurd h2 hm
        · intro hb; rw [h2] at hb; cases hb
        · exact fun _ => h2
  · intro q h
    have htc : q.trafficClass = findTrafficClass qosMap cfg.id := by
      rcases ((updatePortQueue_ok_iff orig cfg qosMap q).mp h).2 with h2 | h2
      · rw [h2.2.2, h2.2.1]
      · rw [h2.2.2]; rfl
    rw [htc]
    cases qosMap <;> rfl

/-- C25, at concrete inputs: a QoS map that sends traffic class 9 to queue 0
gives the reconciled queue traffic class 9; changing the class to 7 changes it;
a map without an entry for queue 0 removes it. -/
theorem updatePortQueue_trafficClass_witness :
    ∃ q1, updatePortQueue { id := 0 } queueCfgZero (some { trafficClassToQueueId := [(9, 0)] })
        = .ok q1 ∧ q1.trafficClass = some 9 ∧
      ∃ q2, updatePortQueue q1 queueCfgZero (some { trafficClassToQueueId := [(3, 1), (7, 0), (8, 0)] })
          = .ok q2 ∧ q2.trafficClass = some 7 ∧
        ∃ q3, updatePortQueue q2 queueCfgZero (some { trafficClassToQueueId := [(3, 1)] })
            = .ok q3 ∧ q3.trafficClass = none :=
  ⟨_, rfl,
    (updatePortQueue_trafficClass { id := 0 } queueCfgZero
      (some { trafficClassToQueueId := [(9, 0)] })).2 _ rfl,
    _, rfl, by decide, _, rfl, by decide⟩

/-! ## Port queues: reconciliation of a queue list -/

instance : LawfulKeyOrder Int where
  irrefl a := by simp [KeyOrder.lt]
  trans a b c := by
    simp only [KeyOrder.lt, decide_eq_true_eq]
    omega
  total a b := by
    simp only [KeyOrder.lt, decide_eq_false_iff_not, decide_eq_true_eq]
    omega

theorem FlatMap.SortedKeys.pairwise_ne {K V : Type} [KeyOrder K] [LawfulKeyOrder K]
    {l : List (K × V)} (h : FlatMap.SortedKeys l) : l.Pairwise fun a b => a.1 ≠ b.1 := by
  refine List.Pairwise.imp ?_ h
  intro a b hlt e
  rw [e, LawfulKeyOrder.irrefl] at hlt
  cases hlt

/-- Looking a key up after `emplace` into a sorted map: the old value when the
key was there, else the new value under the new key. -/
theorem FlatMap.find?_emplace_sorted {K V : Type} [DecidableEq K] [KeyOrder K] [LawfulKeyOrder K]
    {l : List (K × V)} (hs : FlatMap.SortedKeys l) (k j : K) (v : V) :
    FlatMap.find? (FlatMap.emplace l k v).1 j =
      match FlatMap.find? l j with
      | some x => some x
      | none => if j = k then some v else none := by
  cases hflag : (FlatMap.emplace l k v).2 with
  | true =>
      rw [FlatMap.find?_emplace k v hflag j]
      by_cases e : j = k
      · subst e
        have hn : FlatMap.find? l j = none := by
          cases hf : FlatMap.find? l j with
          | none => rfl
          | some x =>
              have := (FlatMap.emplace_snd_eq_false_iff j v hs).mpr (by rw [hf]; rfl)
              rw [this] at hflag
              cases hflag
        rw [hn]
      · rw [if_neg e]
        cases FlatMap.find? l j <;> simp [e]
  | false =>
      rw [FlatMap.emplace_fst_of_snd_false k v hflag]
      have hsome := (FlatMap.emplace_snd_eq_false_iff k v hs).mp hflag
      cases hf : FlatMap.find? l j with
      | some x => rfl
      | none =>
          by_cases e : j = k
          · subst e
            rw [hf] at hsome
            cases hsome
          · simp [e]

/-- A map filled by `emplace` from a list, entry by entry: it stays sorted, and
a key is looked up in the start map first and then among the list's entries,
of which the first with that key counts. -/
theorem FlatMap.foldl_emplace_spec {α K : Type} [DecidableEq K] [KeyOrder K] [LawfulKeyOrder K]
    (key : α → K) :
    ∀ (l : List α) (init : List (K × α)), FlatMap.SortedKeys init →
      FlatMap.SortedKeys (l.foldl (fun m q => (FlatMap.emplace m (key q) q).1) init) ∧
      ∀ j, FlatMap.find? (l.foldl (fun m q => (FlatMap.emplace m (key q) q).1) init) j =
        match FlatMap.find? init j with
        | some x => some x
        | none => l.find? fun q => decide (key q = j)
  | [], init, hs => by
      refine ⟨hs, fun j => ?_⟩
      rw [List.foldl_nil]
      cases h : FlatMap.find? init j <;> simp
  | q :: qs, init, hs => by
      obtain ⟨h1, h2⟩ := FlatMap.foldl_emplace_spec key qs _ (FlatMap.emplace_sorted (key q) q hs)
      refine ⟨h1, fun j => ?_⟩
      rw [List.foldl_cons, h2 j, FlatMap.find?_emplace_sorted hs]
      cases FlatMap.find? init j with
      | some x => rfl
      | none =>
          by_cases e : j = key q
          · subst e
            simp
          · have e' : ¬ key q = j := fun h => e h.symm
            simp [e, List.find?_cons, e']

theorem FlatMap.mem_of_find?_isSome {K V : Type} [DecidableEq K] :
    ∀ {l : List (K × V)} {e : K × V}, e ∈ l → (FlatMap.find? l e.1).isSome = true
  | [], _, h => absurd h (List.not_mem_nil _)
  | (k', v') :: rest, e, h => by
      unfold FlatMap.find?
      by_cases hk : k' = e.1
      · rw [if_pos hk]; rfl
      · rw [if_neg hk]
        rcases List.mem_cons.mp h with h1 | h1
        · subst h1; exact absurd rfl hk
        · exact FlatMap.mem_of_find?_isSome h1

theorem FlatMap.find?_erase_ne {K V : Type} [DecidableEq K] (k j : K) (hne : j ≠ k) :
    ∀ l : List (K × V), FlatMap.find? (FlatMap.erase l k) j = FlatMap.find? l j
  | [] => rfl
  | (k', v') :: rest => by
      unfold FlatMap.erase
      by_cases hk : k' = k
      · rw [if_pos hk]
        have : ¬ k' = j := fun h => hne (h.symm.trans hk)
        simp [FlatMap.find?, this]
      · rw [if_neg hk]
        simp only [FlatMap.find?]
        rw [FlatMap.find?_erase_ne k j hne rest]

/-- With pairwise distinct keys, `erase` removes every pair of the key. -/
theorem FlatMap.erase_eq_filter {K V : Type} [DecidableEq K] (k : K) :
    ∀ {l : List (K × V)}, l.Pairwise (fun a b => a.1 ≠ b.1) →
      FlatMap.erase l k = l.filter fun e => decide (e.1 ≠ k)
  | [], _ => rfl
  | (k', v') :: rest, h => by
      obtain ⟨h1, h2⟩ := List.pairwise_cons.mp h
      unfold FlatMap.erase
      by_cases hk : k' = k
      · rw [if_pos hk, List.filter_cons_of_neg (by simp [hk])]
        symm
        rw [List.filter_eq_self]
        intro e he
        have := h1 e he
        simp only at this
        simpa using fun h' => this (hk.trans h'.symm)
      · rw [if_neg hk, List.filter_cons_of_pos (by simp [hk]), FlatMap.erase_eq_filter k h2]

theorem exists_getElem?_cons {α : Type} (a : α) (l : List α) (P : Nat → α → Prop) :
    (∃ j x, (a :: l)[j]? = some x ∧ P j x) ↔ P 0 a ∨ ∃ j x, l[j]? = some x ∧ P (j + 1) x := by
  constructor
  · rintro ⟨j, x, h1, h2⟩
    cases j with
    | zero =>
        simp only [List.getElem?_cons_zero, Option.some.injEq] at h1
        subst h1
        exact Or.inl h2
    | succ j =>
        simp only [List.getElem?_cons_succ] at h1
        exact Or.inr ⟨j, x, h1, h2⟩
  · rintro (h | ⟨j, x, h1, h2⟩)
    · exact ⟨0, a, by simp, h⟩
    · exact ⟨j + 1, x, by simpa using h1, h2⟩

theorem forall_getElem?_cons {α : Type} (a : α) (l : List α) (P : Nat → α → Prop) :
    (∀ j x, (a :: l)[j]? = some x → P j x) ↔ P 0 a ∧ ∀ j x, l[j]? = some x → P (j + 1) x := by
  constructor
  · intro h
    exact ⟨h 0 a (by simp), fun j x hx => h (j + 1) x (by simpa using hx)⟩
  · rintro ⟨h0, h1⟩ j x hx
    cases j with
    | zero =>
        simp only [List.getElem?_cons_zero, Option.some.injEq] at hx
        subst hx
        exact h0
    | succ j =>
        simp only [List.getElem?_cons_succ] at hx
        exact h1 j x hx

/-- The loop of `updatePortQueues` over the old queues, from index `i`, on a
map of config entries with pairwise distinct keys: it fails exactly when
`updatePortQueue` fails for an old queue that has an entry; otherwise it
returns one queue per old queue, the reconciled one where the map has an entry
for the index and a fresh one with the old stream type where it has none, and
leaves the entries whose key is no index of the loop. -/
theorem updatePortQueuesLoop_spec (qosMap : Option QosMapCfg) :
    ∀ (origs : List PortQueue) (i : Nat) (m : List (Int × PortQueueCfg)),
      m.Pairwise (fun a b => a.1 ≠ b.1) →
      ((∃ e, updatePortQueuesLoop qosMap i origs m = .error e) ↔
        ∃ j o, origs[j]? = some o ∧ ∃ c, FlatMap.find? m ((i + j : Nat) : Int) = some c ∧
          ∃ e, updatePortQueue o c qosMap = .error e) ∧
      ∀ out left, updatePortQueuesLoop qosMap i origs m = .ok (out, left) →
        out.length = origs.length ∧
        left = m.filter (fun e =>
          decide (¬ ((i : Int) ≤ e.1 ∧ e.1 < ((i + origs.length : Nat) : Int)))) ∧
        ∀ j o, origs[j]? = some o → ∃ q, out[j]? = some q ∧
          match FlatMap.find? m ((i + j : Nat) : Int) with
          | some c => updatePortQueue o c qosMap = .ok q
          | none => q = { id := (i + j) % 256, streamType := o.streamType }
  | [], i, m, _ => by
      refine ⟨?_, ?_⟩
      · simp [updatePortQueuesLoop, pure, Except.pure]
      · intro out left h
        simp only [updatePortQueuesLoop, pure_eq_ok, Prod.mk.injEq] at h
        obtain ⟨h1, h2⟩ := h
        subst h1 h2
        refine ⟨rfl, ?_, ?_⟩
        · symm
          rw [List.filter_eq_self]
          intro e _
          simp only [List.length_nil, Nat.add_zero, decide_eq_true_eq]
          omega
        · intro j o h
          simp at h
  | o :: rest, i, m, hm => by
      have hm' : (FlatMap.erase m (i : Int)).Pairwise (fun a b => a.1 ≠ b.1) := by
        rw [FlatMap.erase_eq_filter _ hm]
        exact List.Pairwise.filter _ hm
      obtain ⟨ih1, ih2⟩ := updatePortQueuesLoop_spec qosMap rest (i + 1) _ hm'
      have hfind : ∀ j : Nat, FlatMap.find? (FlatMap.erase m (i : Int)) ((i + 1 + j : Nat) : Int)
          = FlatMap.find? m ((i + (j + 1) : Nat) : Int) := by
        intro j
        rw [FlatMap.find?_erase_ne _ _ (by omega)]
        congr 2
        omega
      have hmod : ∀ j : Nat, (i + 1 + j) % 256 = (i + (j + 1)) % 256 := by
        intro j; congr 1; omega
      simp only [hfind, hmod] at ih1 ih2
      have hleft : (FlatMap.erase m (i : Int)).filter (fun e =>
            decide (¬ (((i + 1 : Nat) : Int) ≤ e.1 ∧ e.1 < ((i + 1 + rest.length : Nat) : Int))))
          = m.filter (fun e =>
            decide (¬ ((i : Int) ≤ e.1 ∧ e.1 < ((i + (o :: rest).length : Nat) : Int)))) := by
        rw [FlatMap.erase_eq_filter _ hm, List.filter_filter]
        apply List.filter_congr
        intro e _
        rw [List.length_cons, ← Bool.decide_and, decide_eq_decide]
        push_cast
        omega
      rw [exists_getElem?_cons]
      simp only [forall_getElem?_cons, Nat.add_zero]
      cases hf : FlatMap.find? m (i : Int) with
      | none =>
          refine ⟨?_, ?_⟩
          · simp only [updatePortQueuesLoop, hf, bind_error_iff, ih1, pure, Except.pure,
              reduceCtorEq, exists_false, and_false, exists_const, or_false, false_or,
              Except.ok.injEq, exists_eq_left', false_and]
          · intro out left h
            simp only [updatePortQueuesLoop, hf, bind_eq_ok, pure_eq_ok, Prod.mk.injEq] at h
            obtain ⟨q, hq, ⟨queues, left'⟩, hrest, h1, h2⟩ := h
            subst h1 h2 hq
            obtain ⟨l1, l2, l3⟩ := ih2 _ _ hrest
            refine ⟨by simp [l1], by rw [l2, hleft], ⟨_, by simp, rfl⟩, ?_⟩
            intro j o' hj
            obtain ⟨q', hq', hmatch⟩ := l3 j o' hj
            exact ⟨q', by simpa using hq', hmatch⟩
      | some c =>
          refine ⟨?_, ?_⟩
          · simp only [updatePortQueuesLoop, hf, bind_error_iff, ih1, pure, Except.pure,
              reduceCtorEq, exists_false, and_false, exists_const, or_false,
              Option.some.injEq, exists_eq_left']
            constructor
            · rintro (h | ⟨q, _, h⟩)
              · exact Or.inl h
              · exact Or.inr h
            · rintro (h | h)
              · exact Or.inl h
              · cases hu : updatePortQueue o c qosMap with
                | error e => exact Or.inl ⟨e, rfl⟩
                | ok q => exact Or.inr ⟨q, rfl, h⟩
          · intro out left h
            simp only [updatePortQueuesLoop, hf, bind_eq_ok, pure_eq_ok, Prod.mk.injEq] at h
            obtain ⟨q, hq, ⟨queues, left'⟩, hrest, h1, h2⟩ := h
            subst h1 h2
            obtain ⟨l1, l2, l3⟩ := ih2 _ _ hrest
            refine ⟨by simp [l1], by rw [l2, hleft], ⟨q, by simp, hq⟩, ?_⟩
            intro j o' hj
            obtain ⟨q', hq', hmatch⟩ := l3 j o' hj
            exact ⟨q', by simpa using hq', hmatch⟩

/-- The map `updatePortQueues` builds from the config: it is sorted, and the
entry of a queue id is the first entry with that id of the per-port list, or of
`defaultPortQueues` when the per-port list is empty. -/
theorem effectiveQueueCfgs_spec (cfgs defaults : List PortQueueCfg) :
    FlatMap.SortedKeys (effectiveQueueCfgs cfgs defaults) ∧
    ∀ j, FlatMap.find? (effectiveQueueCfgs cfgs defaults) j =
      (if cfgs.isEmpty then defaults else cfgs).find? fun q => decide (q.id = j) := by
  obtain ⟨c1, c2⟩ := FlatMap.foldl_emplace_spec (fun q : PortQueueCfg => q.id) cfgs []
    FlatMap.sortedKeys_nil
  obtain ⟨d1, d2⟩ := FlatMap.foldl_emplace_spec (fun q : PortQueueCfg => q.id) defaults []
    FlatMap.sortedKeys_nil
  unfold effectiveQueueCfgs
  cases cfgs with
  | nil => exact ⟨d1, fun j => by simpa [FlatMap.find?] using d2 j⟩
  | cons q qs =>
      have hne : ((q :: qs).foldl (fun m q => (FlatMap.emplace m q.id q).1) []).isEmpty = false := by
        have := c2 q.id
        simp only [FlatMap.find?, List.find?_cons, decide_True] at this
        cases hl : (q :: qs).foldl (fun m q => (FlatMap.emplace m q.id q).1) [] with
        | nil => rw [hl] at this; simp [FlatMap.find?] at this
        | cons a l => rfl
      simp only [hne, Bool.false_eq_true, if_false, List.isEmpty_cons]
      exact ⟨c1, fun j => by simpa [FlatMap.find?] using c2 j⟩

/-- When the old queue has the entry's id, `updatePortQueue` fails exactly when
the entry does not match the old queue already and its AQM list is set and
rejected by `checkPortQueueAQMValid`. -/
theorem updatePortQueue_error_iff (orig : PortQueue) (cfg : PortQueueCfg)
    (qosMap : Option QosMapCfg) (hid : (orig.id : Int) = cfg.id) :
    (∃ e, updatePortQueue orig cfg qosMap = .error e) ↔
      ¬ (checkSwConfPortQueueMatch orig cfg = true ∧
          findTrafficClass qosMap cfg.id = orig.trafficClass) ∧
        cfg.aqms.isset = true ∧ ∃ e, checkPortQueueAQMValid cfg.aqms.value = .error e := by
  rw [result_error_iff_not_ok]
  constructor
  · intro hno
    have hm : ¬ (checkSwConfPortQueueMatch orig cfg = true ∧
        findTrafficClass qosMap cfg.id = orig.trafficClass) := fun hm =>
      hno ⟨orig, (updatePortQueue_ok_iff orig cfg qosMap orig).mpr
        ⟨hid, Or.inl ⟨hm.1, hm.2, rfl⟩⟩⟩
    have hb : cfg.aqms.isset = true := by
      cases hb : cfg.aqms.isset with
      | true => rfl
      | false =>
          have hv : cfg.aqms.isset = true → checkPortQueueAQMValid cfg.aqms.value = .ok () := by
            rw [hb]; intro h; cases h
          exact absurd ⟨_, (updatePortQueue_ok_iff orig cfg qosMap _).mpr
            ⟨hid, Or.inr ⟨hm, hv, rfl⟩⟩⟩ hno
    have hc : ∃ e, checkPortQueueAQMValid cfg.aqms.value = .error e := by
      cases hc : checkPortQueueAQMValid cfg.aqms.value with
      | error e => exact ⟨e, rfl⟩
      | ok u =>
          exact absurd ⟨_, (updatePortQueue_ok_iff orig cfg qosMap _).mpr
            ⟨hid, Or.inr ⟨hm, fun _ => hc, rfl⟩⟩⟩ hno
    exact ⟨hm, hb, hc⟩
  · rintro ⟨hm, hb, e, he⟩ ⟨q, hq⟩
    rcases ((updatePortQueue_ok_iff orig cfg qosMap q).mp hq).2 with h | h
    · exact hm ⟨h.1, h.2.1⟩
    · have := h.2.1 hb
      rw [he] at this
      cases this

/-- C21 (amended). Let the old queue list have `n ≤ 256` queues, queue `i`
with id `i` (ids are `uint8_t`), and let the effective config be the per-port
list, or `defaultPortQueues` when the per-port list is empty. `updatePortQueues`
raises an error exactly when the effective config names a queue id outside
`[0, n)`, or its entry for some queue `i < n` (the first with that id) does not
match the old queue already and carries an AQM list that is set and rejected by
`checkPortQueueAQMValid`. Otherwise it returns `n` queues, the `i`-th with id
`i`: the queue `updatePortQueue` returns where the config has an entry for `i`,
and where it has none a fresh default queue with the old queue's stream type. -/
theorem updatePortQueues_spec (defaults : List PortQueueCfg) (orig : List PortQueue)
    (cfgs : List PortQueueCfg) (qosMap : Option QosMapCfg)
    (hid : ∀ (j : Nat) (o : PortQueue), orig[j]? = some o → o.id = j) (hn : orig.length ≤ 256) :
    ((∃ e, updatePortQueues defaults orig cfgs qosMap = .error e) ↔
      (∃ q ∈ (if cfgs.isEmpty then defaults else cfgs), q.id < 0 ∨ (orig.length : Int) ≤ q.id) ∨
      ∃ (j : Nat) (o : PortQueue), orig[j]? = some o ∧
        ∃ c, (if cfgs.isEmpty then defaults else cfgs).find? (fun q => decide (q.id = (j : Int)))
            = some c ∧
          ¬ (checkSwConfPortQueueMatch o c = true ∧
              findTrafficClass qosMap c.id = o.trafficClass) ∧
          c.aqms.isset = true ∧ ∃ e, checkPortQueueAQMValid c.aqms.value = .error e) ∧
    ∀ out, updatePortQueues defaults orig cfgs qosMap = .ok out →
      out.length = orig.length ∧
      ∀ (j : Nat) (o : PortQueue), orig[j]? = some o → ∃ q, out[j]? = some q ∧ q.id = j ∧
        match (if cfgs.isEmpty then defaults else cfgs).find? fun q => decide (q.id = (j : Int)) with
        | some c => updatePortQueue o c qosMap = .ok q
        | none => q = { id := j, streamType := o.streamType } := by
  obtain ⟨hs, hfind⟩ := effectiveQueueCfgs_spec cfgs defaults
  obtain ⟨l1, l2⟩ := updatePortQueuesLoop_spec qosMap orig 0 _ hs.pairwise_ne
  simp only [Nat.zero_add, hfind] at l1 l2
  -- an index of the old list is below 256, and the config entry found for it has its id
  have hlt : ∀ (j : Nat) (o : PortQueue), orig[j]? = some o → j < 256 := by
    intro j o h
    have := (List.getElem?_eq_some.mp h).1
    omega
  have hcid : ∀ (j : Nat) c,
      (if cfgs.isEmpty then defaults else cfgs).find? (fun q => decide (q.id = (j : Int))) = some c →
        c.id = (j : Int) := by
    intro j c h
    simpa using List.find?_some h
  -- the entries left over are those whose id is no index of the old list
  have hleft : ∀ left : List (Int × PortQueueCfg),
      left = (effectiveQueueCfgs cfgs defaults).filter (fun e =>
        decide (¬ (((0 : Nat) : Int) ≤ e.1 ∧ e.1 < ((orig.length : Nat) : Int)))) →
      (decide (left.length > 0) = true ↔
        ∃ q ∈ (if cfgs.isEmpty then defaults else cfgs),
          q.id < 0 ∨ (orig.length : Int) ≤ q.id) := by
    intro left hl
    rw [decide_eq_true_eq, gt_iff_lt, List.length_pos_iff_exists_mem]
    constructor
    · rintro ⟨e, he⟩
      rw [hl, List.mem_filter, decide_eq_true_eq] at he
      obtain ⟨hmem, hout⟩ := he
      have hsome := FlatMap.mem_of_find?_isSome hmem
      rw [hfind] at hsome
      obtain ⟨q, hq⟩ := Option.isSome_iff_exists.mp hsome
      have hqid : q.id = e.1 := by simpa using List.find?_some hq
      refine ⟨q, List.mem_of_find?_eq_some hq, ?_⟩
      rw [hqid]
      simp only [Nat.cast_zero] at hout
      omega
    · rintro ⟨q, hq, hout⟩
      have hsome : ((if cfgs.isEmpty then defaults else cfgs).find?
          fun x => decide (x.id = q.id)).isSome = true := by
        rw [List.find?_isSome]
        exact ⟨q, hq, by simp⟩
      obtain ⟨q', hq'⟩ := Option.isSome_iff_exists.mp hsome
      rw [← hfind] at hq'
      refine ⟨(q.id, q'), ?_⟩
      rw [hl, List.mem_filter, decide_eq_true_eq]
      refine ⟨FlatMap.mem_of_find? hq', ?_⟩
      simp only [Nat.cast_zero]
      omega
  -- the error of `updatePortQueue` at an index, through the AQM list
  have hupq : ∀ (j : Nat) o, orig[j]? = some o → ∀ c,
      (if cfgs.isEmpty then defaults else cfgs).find? (fun q => decide (q.id = (j : Int))) = some c →
      ((∃ e, updatePortQueue o c qosMap = .error e) ↔
        ¬ (checkSwConfPortQueueMatch o c = true ∧
            findTrafficClass qosMap c.id = o.trafficClass) ∧
          c.aqms.isset = true ∧ ∃ e, checkPortQueueAQMValid c.aqms.value = .error e) := by
    intro j o ho c hc
    apply updatePortQueue_error_iff
    rw [hid j o ho, hcid j c hc]
  have hloopErr : (∃ e, updatePortQueuesLoop qosMap 0 orig (effectiveQueueCfgs cfgs defaults)
        = .error e) ↔
      ∃ (j : Nat) (o : PortQueue), orig[j]? = some o ∧
        ∃ c, (if cfgs.isEmpty then defaults else cfgs).find? (fun q => decide (q.id = (j : Int)))
            = some c ∧
          ¬ (checkSwConfPortQueueMatch o c = true ∧
              findTrafficClass qosMap c.id = o.trafficClass) ∧
          c.aqms.isset = true ∧ ∃ e, checkPortQueueAQMValid c.aqms.value = .error e := by
    rw [l1]
    constructor
    · rintro ⟨j, o, ho, c, hc, he⟩
      exact ⟨j, o, ho, c, hc, (hupq j o ho c hc).mp he⟩
    · rintro ⟨j, o, ho, c, hc, he⟩
      exact ⟨j, o, ho, c, hc, (hupq j o ho c hc).mpr he⟩
  refine ⟨?_, ?_⟩
  · simp only [updatePortQueues, bind_error_iff]
    rw [hloopErr]
    constructor
    · rintro (h | ⟨⟨out, left⟩, hloop, he⟩)
      · exact Or.inr h
      · simp only [throwIf_error, pure, Except.pure, reduceCtorEq, and_false, exists_false,
          or_false] at he
        exact Or.inl ((hleft left (l2 out left hloop).2.1).mp he)
    · rintro (h | h)
      · cases hloop : updatePortQueuesLoop qosMap 0 orig (effectiveQueueCfgs cfgs defaults) with
        | error e => exact Or.inl (hloopErr.mp ⟨e, hloop⟩)
        | ok r =>
            obtain ⟨out, left⟩ := r
            refine Or.inr ⟨(out, left), rfl, ?_⟩
            simp only [throwIf_error, pure, Except.pure, reduceCtorEq, and_false, exists_false,
              or_false]
            exact (hleft left (l2 out left hloop).2.1).mpr h
      · exact Or.inl h
  · intro out h
    simp only [updatePortQueues, bind_eq_ok, throwIf_eq_ok, pure_eq_ok] at h
    obtain ⟨⟨out', left⟩, hloop, _, _, h⟩ := h
    subst h
    obtain ⟨a1, _, a3⟩ := l2 _ _ hloop
    refine ⟨a1, ?_⟩
    intro j o ho
    obtain ⟨q, hq, hmatch⟩ := a3 j o ho
    have hmod : j % 256 = j := Nat.mod_eq_of_lt (hlt j o ho)
    rw [hmod] at hmatch
    refine ⟨q, hq, ?_, hmatch⟩
    cases hc : (if cfgs.isEmpty then defaults else cfgs).find?
        (fun q => decide (q.id = (j : Int))) with
    | none =>
        rw [hc] at hmatch
        rw [hmatch]
    | some c =>
        rw [hc] at hmatch
        have hcj := hcid j c hc
        rcases ((updatePortQueue_ok_iff o c qosMap q).mp hmatch).2 with h | h
        · rw [h.2.2]; exact hid j o ho
        · rw [h.2.2]
          show ((c.id % 256).toNat) = j
          rw [hcj]
          have := hlt j o ho
          omega

/-- C21, as stated, fails: with one old queue, of id 0, a config entry for
queue 0 whose AQM list has an entry without detection method makes
`updatePortQueues` raise an error although no entry names a queue id outside
`[0, 1)`. -/
theorem updatePortQueues_error_iff_counterexample :
    updatePortQueues [] [{ id := 0 }] [queueCfgBadAqm] none
      = .error (.fbossError "Active Queue Management must specify a congestion detection method") ∧
    ¬ ∃ q ∈ [queueCfgBadAqm],
        q.id < 0 ∨ ((([{ id := 0 }] : List PortQueue).length : Nat) : Int) ≤ q.id := by
  decide

/-- C21 (amended), at concrete inputs: four old queues with ids 0 to 3 and a
per-port config that names queue 11 give an error; a config with an entry for
queue 0 only gives four queues, queue 3 being a fresh default queue. -/
theorem updatePortQueues_spec_witness :
    (∀ (j : Nat) (o : PortQueue), fourQueues[j]? = some o → o.id = j) ∧
    fourQueues.length ≤ 256 ∧
    (∃ e, updatePortQueues [] fourQueues
        [{ id := 0, weight := { isset := true, value := 5 } },
         { id := 11, weight := { isset := true, value := 5 } }] none = .error e) ∧
    ∃ out, updatePortQueues [] fourQueues [{ id := 0, weight := { isset := true, value := 5 } }]
        none = .ok out ∧ out.length = 4 ∧ out[3]? = some { id := 3 } := by
  have hid : ∀ (j : Nat) (o : PortQueue), fourQueues[j]? = some o → o.id = j := by
    intro j o h
    match j with
    | 0 => simp [fourQueues] at h; rw [← h]
    | 1 => simp [fourQueues] at h; rw [← h]
    | 2 => simp [fourQueues] at h; rw [← h]
    | 3 => simp [fourQueues] at h; rw [← h]
    | n + 4 => simp [fourQueues] at h
  refine ⟨hid, by decide, ?_, _, rfl, ?_, rfl⟩
  · exact (updatePortQueues_spec [] fourQueues _ none hid (by decide)).1.mpr
      (Or.inl ⟨{ id := 11, weight := { isset := true, value := 5 } }, by simp, Or.inr (by decide)⟩)
  · exact ((updatePortQueues_spec [] fourQueues
      [{ id := 0, weight := { isset := true, value := 5 } }] none hid (by decide)).2 _ rfl).1

/-! ## Port queues and aggregate ports at concrete inputs -/

/-- C24 at a failing input. The entry sets the weight and no name:
`createPortQueue` builds a queue without a name, and `checkSwConfPortQueueMatch`
compares the queue's optional name with the entry's unchecked name string, so
the queue does not match the entry it was built from. It does once the entry
sets a name. An entry that sets a name and no weight gives a queue of weight 1,
which the comparison with the entry's unchecked weight 0 rejects, unless the
scheduling is strict priority. -/
theorem created_queue_without_name_does_not_match :
    (createPortQueue queueCfgNoName none).map
        (fun q => (q.name, q.weight, checkSwConfPortQueueMatch q queueCfgNoName))
      = .ok (none, 1, false) ∧
    (createPortQueue { queueCfgNoName with name := { isset := true, value := "q" } } none).map
        (fun q => checkSwConfPortQueueMatch q
          { queueCfgNoName with name := { isset := true, value := "q" } })
      = .ok true ∧
    (createPortQueue queueCfgNoWeight none).map
        (fun q => (q.name, q.weight, checkSwConfPortQueueMatch q queueCfgNoWeight))
      = .ok (some "q", 1, false) ∧
    (createPortQueue { queueCfgNoWeight with scheduling := .strictPriority } none).map
        (fun q => checkSwConfPortQueueMatch q
          { queueCfgNoWeight with scheduling := .strictPriority })
      = .ok true := by
  decide

/-- C27 at a failing input. The old aggregate port has the subport 1; the
config, equal in every other field, lists members 1 and 2. The three-iterator
`std::equal` compares the one old subport with the first config member only,
so `updateAggPort` returns null (no change) and member 2 is not added. When the
config replaces member 1 by member 3 the change is seen. When the old port has
subports 1 and 2 and the config lists member 1 only, `std::equal` reads past
the end of the config's list. -/
theorem updateAggPort_appended_member_unseen :
    updateAggPort none 0x020000000001 65535 aggPortOneMember
        (aggCfgWithMembers 2 (.linkCount 1 (by decide) (by decide))) = .ok none ∧
    (getSubportsSorted (aggCfgWithMembers 2 (.linkCount 1 (by decide) (by decide)))).map
        (fun l => decide (l = aggPortOneMember.subports)) = .ok false ∧
    (updateAggPort none 0x020000000001 65535 aggPortOneMember
        { aggCfgWithMembers 1 (.linkCount 1 (by decide) (by decide)) with
          memberPorts := [{ memberPortID := 3, priority := 0 }] }).map
        (fun r => r.map fun p => p.subports.map fun s => s.portID) = .ok (some [3]) ∧
    updateAggPort none 0x020000000001 65535 aggPortTwoMembers
        (aggCfgWithMembers 1 (.linkCount 1 (by decide) (by decide)))
      = .error (.undefinedBehaviour "std::equal reads past the end of the second range") := by
  decide

/-! ## Aggregate-port members -/

theorem Subport.lt_iff (a b : Subport) :
    a.lt b = true ↔ a.portID < b.portID ∨ (a.portID = b.portID ∧ a.priority < b.priority) := by
  simp [Subport.lt]

theorem lex_lt_trans {a1 a2 b1 b2 c1 c2 : Nat} (h1 : a1 < b1 ∨ (a1 = b1 ∧ a2 < b2))
    (h2 : b1 < c1 ∨ (b1 = c1 ∧ b2 < c2)) : a1 < c1 ∨ (a1 = c1 ∧ a2 < c2) := by
  omega

theorem lex_lt_asymm {a1 a2 b1 b2 : Nat} (h1 : a1 < b1 ∨ (a1 = b1 ∧ a2 < b2))
    (h2 : b1 < a1 ∨ (b1 = a1 ∧ b2 < a2)) : False := by
  omega

theorem Subport.lt_trans {a b c : Subport} (h1 : a.lt b = true) (h2 : b.lt c = true) :
    a.lt c = true := by
  rw [Subport.lt_iff] at h1 h2 ⊢
  exact lex_lt_trans h1 h2

theorem Subport.lt_asymm {a b : Subport} (h1 : a.lt b = true) : b.lt a = false := by
  cases h : b.lt a with
  | false => rfl
  | true =>
      rw [Subport.lt_iff] at h1 h
      exact (lex_lt_asymm h1 h).elim

theorem insertSubport_perm (x : Subport) : ∀ l : List Subport, (insertSubport x l).Perm (x :: l)
  | [] => List.Perm.refl _
  | y :: ys => by
      unfold insertSubport
      split
      · exact List.Perm.refl _
      · exact ((insertSubport_perm x ys).cons y).trans (List.Perm.swap x y ys)

theorem sortSubports_perm : ∀ l : List Subport, (sortSubports l).Perm l
  | [] => List.Perm.refl _
  | x :: xs => by
      unfold sortSubports
      exact (insertSubport_perm x _).trans ((sortSubports_perm xs).cons x)

theorem insertSubport_sorted (x : Subport) :
    ∀ l : List Subport, l.Pairwise (fun a b => b.lt a = false) →
      (insertSubport x l).Pairwise (fun a b => b.lt a = false)
  | [], _ => List.pairwise_singleton _ _
  | y :: ys, h => by
      unfold insertSubport
      obtain ⟨hy, hys⟩ := List.pairwise_cons.mp h
      split
      · rename_i hlt
        refine List.pairwise_cons.mpr ⟨?_, h⟩
        intro z hz
        rcases List.mem_cons.mp hz with e | hz
        · subst e
          exact Subport.lt_asymm hlt
        · cases hzx : z.lt x with
          | false => rfl
          | true =>
              have := Subport.lt_trans hzx hlt
              rw [hy z hz] at this
              cases this
      · rename_i hlt
        refine List.pairwise_cons.mpr ⟨?_, insertSubport_sorted x ys hys⟩
        intro z hz
        rcases List.mem_cons.mp ((insertSubport_perm x ys).subset hz) with e | hz
        · subst e
          simpa using hlt
        · exact hy z hz

theorem sortSubports_sorted :
    ∀ l : List Subport, (sortSubports l).Pairwise (fun a b => b.lt a = false)
  | [] => List.Pairwise.nil
  | x :: xs => by
      unfold sortSubports
      exact insertSubport_sorted x _ (sortSubports_sorted xs)

/-- The loop of `getSubportsSorted`: an error exactly when a priority is outside
`[0, 2^16)`, else the members in config order. -/
theorem convertMembers_spec :
    ∀ (ms : List AggregatePortMember) (i : Nat),
      ((∃ e, convertMembers i ms = .error e) ↔
        ∃ m ∈ ms, m.priority < 0 ∨ 2 ^ 16 ≤ m.priority) ∧
      ∀ s, convertMembers i ms = .ok s →
        s = ms.map fun m =>
          { portID := m.memberPortID, priority := m.priority.toNat, rate := m.rate,
            activity := m.activity }
  | [], i => by simp [convertMembers, pure, Except.pure]
  | m :: ms, i => by
      obtain ⟨ih1, ih2⟩ := convertMembers_spec ms (i + 1)
      refine ⟨?_, ?_⟩
      · simp only [convertMembers, throwIf_bind_error, bind_error_iff, ih1, Bool.or_eq_true,
          decide_eq_true_eq, ge_iff_le, List.mem_cons, exists_eq_or_imp, pure, Except.pure,
          reduceCtorEq, exists_false, and_false, exists_const, or_false]
      · intro s h
        simp only [convertMembers, bind_eq_ok, throwIf_eq_ok, pure_eq_ok, Bool.or_eq_false_iff,
          decide_eq_false_iff_not, not_lt, ge_iff_le, not_le] at h
        obtain ⟨_, ⟨h0, h1⟩, rest, hrest, h⟩ := h
        subst h
        rw [ih2 rest hrest, List.map_cons]
        congr 2
        have : m.priority.toNat < 2 ^ 16 := by omega
        exact Nat.mod_eq_of_lt this

/-- C28. For every aggregate-port config, `getSubportsSorted` raises an error
exactly when some member's priority lies outside `[0, 65536)`. Otherwise it
returns a permutation of the configured members, each with its port id,
priority, rate and activity, in ascending subport order: no subport is less
than one before it. -/
theorem getSubportsSorted_spec (cfg : AggregatePortCfg) :
    ((∃ e, getSubportsSorted cfg = .error e) ↔
      ∃ m ∈ cfg.memberPorts, m.priority < 0 ∨ 65536 ≤ m.priority) ∧
    ∀ s, getSubportsSorted cfg = .ok s →
      s.Perm (cfg.memberPorts.map fun m =>
        { portID := m.memberPortID, priority := m.priority.toNat, rate := m.rate,
          activity := m.activity }) ∧
      s.Pairwise (fun a b => b.lt a = false) := by
  obtain ⟨h1, h2⟩ := convertMembers_spec cfg.memberPorts 0
  refine ⟨?_, ?_⟩
  · simp only [getSubportsSorted, bind_error_iff, h1, pure, Except.pure, reduceCtorEq,
      exists_false, and_false, exists_const, or_false]
    rfl
  · intro s h
    simp only [getSubportsSorted, bind_eq_ok, pure_eq_ok] at h
    obtain ⟨l, hl, h⟩ := h
    subst h
    rw [← h2 l hl]
    exact ⟨sortSubports_perm l, sortSubports_sorted l⟩

/-! ## FIB containers and control plane at concrete inputs -/

/-- C29 at a failing input. The old FIB-container map holds the container of
router 0 and the config's only interface is in router 0, so the router ids of
the config are the keys of the old map. `updateForwardingInformationBaseContainers`
hands the old container to `updateMap` as the new node, which reports a change:
it returns a new map with the same container. In external-RIB mode a second
`applyThriftConfig` with the same config therefore returns a state again,
which differs from the first in the generation of the root and of the FIB map
only. -/
theorem fib_containers_always_change :
    updateForwardingInformationBaseContainers cfgOneInterface { nodes := [{ vrf := 0 }] }
      = .ok (some { generation := 1, nodes := [{ vrf := 0 }] }) ∧
    ∃ s, applyThriftConfig emptyState cfgOneInterface examplePlatform (some ribKeep)
        = .ok (some s) ∧
      s.fibs.nodes = [{ vrf := 0 }] ∧
      ∃ s', applyThriftConfig s cfgOneInterface examplePlatform (some ribKeep) = .ok (some s') ∧
        s'.fibs.nodes = s.fibs.nodes ∧
        { s' with toNodeBase := s.toNodeBase, fibs := s.fibs } = s :=
  ⟨rfl, _, rfl, rfl, _, rfl, rfl, rfl⟩

/-- C30 at a failing input. The old control plane maps rx reason 1 to queue 2
and the config has no CPU traffic policy, so the config gives no rx-reason
mapping: `updateControlPlane` compares the mapping with the old one only when
the config gives one, reports no change, and `applyThriftConfig` returns the
unchanged sentinel; the old state keeps the mapping. The same config applied to
a state whose control-plane QoS policy differs as well returns a state with the
mapping empty, and so does a config that gives the empty mapping. -/
theorem rx_reason_mapping_not_cleared :
    applyThriftConfig rxReasonState cfgEmpty examplePlatform = .ok none ∧
    rxReasonState.controlPlane.rxReasonToQueue = [(1, 2)] ∧
    applyThriftConfig rxReasonState { cpuTrafficPolicy := some {} } examplePlatform = .ok none ∧
    (∃ s, applyThriftConfig rxReasonQosState cfgEmpty examplePlatform = .ok (some s) ∧
      s.controlPlane.rxReasonToQueue = []) ∧
    ∃ s, applyThriftConfig rxReasonState cfgRxReasonEmpty examplePlatform = .ok (some s) ∧
      s.controlPlane.rxReasonToQueue = [] :=
  ⟨by decide, rfl, by decide, ⟨_, rfl, rfl⟩, _, rfl, rfl⟩

/-! ## Port queue serialization -/

instance : LawfulKeyOrder QueueCongestionBehavior where
  irrefl a := by simp [KeyOrder.lt]
  trans a b c := by
    simp only [KeyOrder.lt, decide_eq_true_eq]
    omega
  total a b := by
    cases a <;> cases b <;> simp [KeyOrder.lt, QueueCongestionBehavior.toNat]

/-- `emplace` of a key greater than every key of the map appends the pair. -/
theorem FlatMap.emplace_of_gt {K V : Type} [DecidableEq K] [KeyOrder K] [LawfulKeyOrder K]
    (k : K) (v : V) :
    ∀ (l : List (K × V)), (∀ a ∈ l, KeyOrder.lt a.1 k = true) →
      (FlatMap.emplace l k v).1 = l ++ [(k, v)]
  | [], _ => rfl
  | (k', v') :: rest, h => by
      have hlt := h (k', v') (List.mem_cons_self _ _)
      simp only at hlt
      have hne : ¬ k = k' := by
        intro e
        rw [e, LawfulKeyOrder.irrefl] at hlt
        cases hlt
      have hnlt : ¬ KeyOrder.lt k k' = true := by
        intro h2
        have := LawfulKeyOrder.trans _ _ _ h2 hlt
        rw [LawfulKeyOrder.irrefl] at this
        cases this
      unfold FlatMap.emplace
      rw [if_neg hne, if_neg hnlt]
      simp only [List.cons_append, List.cons.injEq, true_and]
      exact FlatMap.emplace_of_gt k v rest fun a ha => h a (List.mem_cons_of_mem _ ha)

/-- Filling a map by `emplace` from a list of pairs in strictly increasing key
order, on top of a map of smaller keys, appends the list. -/
theorem FlatMap.foldl_emplace_sorted {α K : Type} [DecidableEq K] [KeyOrder K]
    [LawfulKeyOrder K] (key : α → K) :
    ∀ (l : List α) (init : List (K × α)),
      FlatMap.SortedKeys (init ++ l.map fun a => (key a, a)) →
      l.foldl (fun m a => (FlatMap.emplace m (key a) a).1) init
        = init ++ l.map fun a => (key a, a)
  | [], init, _ => by simp
  | a :: as, init, h => by
      have hgt : ∀ x ∈ init, KeyOrder.lt x.1 (key a) = true := by
        intro x hx
        unfold FlatMap.SortedKeys at h
        rw [List.pairwise_append] at h
        exact h.2.2 x hx (key a, a) (by simp)
      rw [List.foldl_cons, FlatMap.emplace_of_gt _ _ _ hgt]
      have h' : FlatMap.SortedKeys ((init ++ [(key a, a)]) ++ as.map fun a => (key a, a)) := by
        simpa using h
      rw [FlatMap.foldl_emplace_sorted key as _ h']
      simp

theorem toInt16_mod (n : Nat) (h : n < 2 ^ 16) : ((toInt16 n) % 2 ^ 16).toNat = n := by
  unfold toInt16
  rw [Nat.mod_eq_of_lt h]
  split <;> omega

theorem EnumNames.valueOf_nameAt {α : Type} {t : EnumNames α} (ht : t.Lawful) {v : α}
    (hv : (t.valuesToNames v).isSome = true) :
    ∃ n, t.nameAt v = .ok n ∧ t.valueOf n = .ok v := by
  obtain ⟨n, hn⟩ := Option.isSome_iff_exists.mp hv
  refine ⟨n, ?_, ?_⟩
  · simp [EnumNames.nameAt, hn, pure, Except.pure]
  · simp [EnumNames.valueOf, ht v n hn, pure, Except.pure]

/-- C23. Let the thrift name tables be those of one enum declaration each
(`namesToValues` inverts `valuesToNames`), and let `q` be a value of
`PortQueueFields` (id a `uint8_t`, traffic class a `uint16_t`, enum fields
holding enumerators, AQM map sorted) whose AQM map is keyed by each entry's own
behavior. Then `toThrift` succeeds on `q` and `fromThrift` of its result
returns `q`, equal in every field. -/
theorem portQueue_serialization_round_trip (t : PortQueueEnumNames) (q : PortQueue)
    (hst : t.streamType.Lawful) (hsch : t.scheduling.Lawful) (hsf : t.scalingFactor.Lawful)
    (hw : q.WellFormed t) (hkey : ∀ e ∈ q.aqms, e.1 = e.2.behavior) :
    ∃ s, PortQueueFields.toThrift t q = .ok s ∧ PortQueueFields.fromThrift t s = .ok q := by
  obtain ⟨n1, a1, b1⟩ := EnumNames.valueOf_nameAt hst hw.streamType_named
  obtain ⟨n2, a2, b2⟩ := EnumNames.valueOf_nameAt hsch hw.scheduling_named
  have haqms : (if q.aqms.isEmpty then none else some (q.aqms.map (·.2))) =
      (none : Option (List ActiveQueueManagement)) ∧ q.aqms = [] ∨
      (if q.aqms.isEmpty then none else some (q.aqms.map (·.2))) = some (q.aqms.map (·.2)) ∧
      (q.aqms.map (·.2)).foldl (fun m aqm => (FlatMap.emplace m aqm.behavior aqm).1) []
        = q.aqms := by
    cases he : q.aqms with
    | nil => exact Or.inl ⟨rfl, rfl⟩
    | cons a l =>
        right
        refine ⟨rfl, ?_⟩
        rw [← he]
        have hmap : (q.aqms.map (·.2)).map (fun a => (a.behavior, a)) = q.aqms := by
          rw [List.map_map]
          conv_rhs => rw [← List.map_id q.aqms]
          apply List.map_congr_left
          intro e he
          have := hkey e he
          simp only [Function.comp, id]
          rw [← this]
        have := FlatMap.foldl_emplace_sorted (fun a : ActiveQueueManagement => a.behavior)
          (q.aqms.map (·.2)) [] (by rw [List.nil_append, hmap]; exact hw.aqms_sorted)
        rw [this, List.nil_append, hmap]
  have htc : (q.trafficClass.map toInt16).map (fun x => (x % 2 ^ 16).toNat) = q.trafficClass := by
    cases h : q.trafficClass with
    | none => rfl
    | some tc =>
        simp only [Option.map_some', Option.some.injEq]
        exact toInt16_mod tc (hw.trafficClass_lt tc h)
  have hidm : (((q.id : Nat) : Int) % 256).toNat = q.id := by
    have := hw.id_lt
    omega
  cases hs : q.scalingFactor with
  | none =>
      refine ⟨_, by simp only [PortQueueFields.toThrift, hs, a1, a2, bind, Except.bind, pure,
        Except.pure]; rfl, ?_⟩
      simp only [PortQueueFields.fromThrift, b1, b2, bind, Except.bind, pure, Except.pure,
        Except.ok.injEq, htc, hidm]
      obtain ⟨id, st, sch, w, rb, sf, nm, sb, aq, r, bmin, bmax, tc⟩ := q
      simp only at hs haqms ⊢
      subst hs
      rcases haqms with ⟨h1, h2⟩ | ⟨h1, h2⟩
      · rw [h1]; simp [h2]
      · rw [h1]; simp [h2]
  | some v =>
      obtain ⟨n3, a3, b3⟩ := EnumNames.valueOf_nameAt hsf (hw.scalingFactor_named v hs)
      refine ⟨_, by simp only [PortQueueFields.toThrift, hs, a1, a2, a3, bind, Except.bind, pure,
        Except.pure]; rfl, ?_⟩
      simp only [PortQueueFields.fromThrift, b1, b2, b3, bind, Except.bind, pure, Except.pure,
        Except.ok.injEq, htc, hidm]
      obtain ⟨id, st, sch, w, rb, sf, nm, sb, aq, r, bmin, bmax, tc⟩ := q
      simp only at hs haqms ⊢
      subst hs
      rcases haqms with ⟨h1, h2⟩ | ⟨h1, h2⟩
      · rw [h1]; simp [h2]
      · rw [h1]; simp [h2]

theorem testEnumNames_lawful :
    testEnumNames.streamType.Lawful ∧ testEnumNames.scheduling.Lawful ∧
    testEnumNames.scalingFactor.Lawful := by
  refine ⟨?_, ?_, ?_⟩
  · intro v n h
    cases v <;> simp only [testEnumNames, Option.some.injEq] at h <;> subst h <;> decide
  · intro v n h
    cases v <;> simp only [testEnumNames, Option.some.injEq] at h <;> subst h <;> decide
  · intro v n h
    simp only [testEnumNames] at h ⊢
    split at h
    · rename_i hv
      simp only [Option.some.injEq] at h
      subst h hv
      decide
    · split at h
      · rename_i hv
        simp only [Option.some.injEq] at h
        subst h hv
        decide
      · cases h

theorem testPortQueue_wellFormed : testPortQueue.WellFormed testEnumNames where
  id_lt := by decide
  trafficClass_lt := by intro tc h; cases h
  streamType_named := rfl
  scheduling_named := rfl
  scalingFactor_named := by
    intro v h
    simp only [testPortQueue, Option.some.injEq] at h
    subst h
    rfl
  aqms_sorted := by
    unfold FlatMap.SortedKeys testPortQueue
    decide

/-- C23, at a concrete input: the queue of `TEST(PortQueue, serialization)`
with every attribute set and both AQM entries. -/
theorem portQueue_serialization_round_trip_witness :
    testPortQueue.WellFormed testEnumNames ∧
    (∀ e ∈ testPortQueue.aqms, e.1 = e.2.behavior) ∧
    ∃ s, PortQueueFields.toThrift testEnumNames testPortQueue = .ok s ∧
      PortQueueFields.fromThrift testEnumNames s = .ok testPortQueue :=
  ⟨testPortQueue_wellFormed, by decide,
    portQueue_serialization_round_trip testEnumNames testPortQueue testEnumNames_lawful.1
      testEnumNames_lawful.2.1 testEnumNames_lawful.2.2 testPortQueue_wellFormed (by decide)⟩

/-! ## ACL priority bands -/

theorem AclEntry.sameFields_action {a b : AclEntry} (h : a.sameFields b = true) :
    a.aclAction = b.aclAction := by
  simp only [AclEntry.sameFields, decide_eq_true_eq] at h
  have h1 := congrArg AclEntry.aclAction h
  exact h1

/-- What `updateAcl` returns: an entry with the given priority and action and
the config entry's name and action type; when it leaves `changed` unset,
`changed` was unset and the entry is the old one of that name. -/
theorem updateAcl_spec {origAcls : List AclEntry} {acl : AclEntryCfg} {priority : Int}
    {n : Nat} {c : Bool} {action : Option MatchAction} {r : AclEntry × Nat × Bool}
    (h : updateAcl origAcls acl priority n c action = .ok r) :
    r.1.priority = priority ∧ r.1.actionType = acl.actionType ∧ r.1.name = acl.name ∧
    r.1.aclAction = action ∧
    (r.2.2 = false → c = false ∧ findNode origAcls acl.name = some r.1) := by
  obtain ⟨f1, f2, f3⟩ := updateAcl_fields h
  refine ⟨f1, f2, f3, ?_⟩
  simp only [updateAcl, bind_eq_ok] at h
  obtain ⟨newAcl, hnew, h⟩ := h
  have hact : newAcl.aclAction = action := by
    simp only [createAcl, bind_eq_ok, pure_eq_ok] at hnew
    obtain ⟨_, _, hnew⟩ := hnew
    subst hnew
    rfl
  cases ho : findNode origAcls acl.name with
  | none =>
      rw [ho] at h
      simp only [pure_eq_ok] at h
      subst h
      exact ⟨hact, fun hc => by cases hc⟩
  | some o =>
      rw [ho] at h
      simp only at h
      split at h
      · rename_i hs
        simp only [pure_eq_ok] at h
        subst h
        exact ⟨(AclEntry.sameFields_action hs).trans hact, fun hc => ⟨hc, rfl⟩⟩
      · simp only [pure_eq_ok] at h
        subst h
        exact ⟨hact, fun hc => by cases hc⟩

/-- The DENY pass, entry by entry: the `i`-th DENY entry of the list gets the
running priority plus `i` and no action; the running priority grows by the
number of DENY entries and the CPU counter stays. When `changed` is unset at
the end it was unset at the start and every entry is the old one of its name. -/
theorem updateAclsDeny_exact (origAcls : List AclEntry) :
    ∀ (acls : List AclEntryCfg) (acc : AclAcc) (entries : List AclEntry) (acc' : AclAcc),
      updateAclsDeny origAcls acls acc = .ok (entries, acc') →
      acc'.priority = acc.priority +
        ((acls.filter fun a => decide (a.actionType = .deny)).length : Nat) ∧
      acc'.cpuPriority = acc.cpuPriority ∧
      entries.length = (acls.filter fun a => decide (a.actionType = .deny)).length ∧
      (∀ (i : Nat) (a : AclEntryCfg),
        (acls.filter fun a => decide (a.actionType = .deny))[i]? = some a →
        ∃ e, entries[i]? = some e ∧ e.name = a.name ∧ e.priority = acc.priority + (i : Nat) ∧
          e.actionType = .deny ∧ e.aclAction = none) ∧
      (acc'.changed = false → acc.changed = false ∧
        ∀ e ∈ entries, findNode origAcls e.name = some e)
  | [], acc, entries, acc', h => by
      simp only [updateAclsDeny, pure_eq_ok, Prod.mk.injEq] at h
      obtain ⟨h1, h2⟩ := h
      subst h1 h2
      simp
  | entry :: rest, acc, entries, acc', h => by
      unfold updateAclsDeny at h
      split at h
      · rename_i hdeny
        simp only [bind_eq_ok, pure_eq_ok, Prod.mk.injEq] at h
        obtain ⟨⟨acl, n, c⟩, hup, ⟨ents, acc2⟩, hrest, h1, h2⟩ := h
        subst h1 h2
        obtain ⟨u1, u2, u3, u4, u5⟩ := updateAcl_spec hup
        obtain ⟨i1, i2, i3, i4, i5⟩ := updateAclsDeny_exact origAcls rest _ _ _ hrest
        simp only at u1 u2 u3 u4 u5 i1 i2 i4 i5
        rw [List.filter_cons_of_pos (by simpa using hdeny)]
        refine ⟨?_, i2, by simp [i3], ?_, ?_⟩
        · rw [i1, List.length_cons]; push_cast; omega
        · rw [forall_getElem?_cons]
          refine ⟨⟨acl, by simp, u3, by simpa using u1, by rw [u2, hdeny], u4⟩, ?_⟩
          intro i a hi
          obtain ⟨e, he, e1, e2, e3, e4⟩ := i4 i a hi
          refine ⟨e, by simpa using he, e1, ?_, e3, e4⟩
          rw [e2]; push_cast; omega
        · intro hc
          obtain ⟨c1, c2⟩ := i5 hc
          obtain ⟨c3, c4⟩ := u5 c1
          refine ⟨c3, ?_⟩
          intro e he
          rcases List.mem_cons.mp he with e0 | he
          · subst e0
            rw [u3]; exact c4
          · exact c2 e he
      · rename_i hdeny
        rw [List.filter_cons_of_neg (by simpa using hdeny)]
        exact updateAclsDeny_exact origAcls rest acc entries acc' h

theorem aclByName_name {acls : List AclEntryCfg} {name : String} {a : AclEntryCfg}
    (h : aclByName acls name = some a) : a.name = name ∧ a ∈ acls := by
  unfold aclByName at h
  exact ⟨by simpa using List.find?_some h, List.mem_of_find?_eq_some h⟩

/-- A policy pass, matcher by matcher: the `j`-th matcher that names a non-DENY
ACL gets the running number of its band plus `j` (the CPU counter in the CPU
pass, the running priority in the data-plane pass); matchers that name a DENY
ACL are skipped and use no number. When `changed` is unset at the end it was
unset at the start and every entry is the old one of its name. -/
theorem addToAcls_exact (cfg : SwitchConfig) (origAcls : List AclEntry) (mirrors : List Mirror)
    (isCoppAcl : Bool) :
    ∀ (mtas : List MatchToAction) (acc : AclAcc) (entries : List AclEntry) (acc' : AclAcc),
      addToAcls cfg origAcls mirrors isCoppAcl mtas acc = .ok (entries, acc') →
      acc'.priority = (if isCoppAcl then acc.priority
        else acc.priority + ((nonDenyMatchers cfg mtas).length : Nat)) ∧
      acc'.cpuPriority = (if isCoppAcl then acc.cpuPriority + ((nonDenyMatchers cfg mtas).length : Nat)
        else acc.cpuPriority) ∧
      entries.length = (nonDenyMatchers cfg mtas).length ∧
      (∀ (j : Nat) (mta : MatchToAction), (nonDenyMatchers cfg mtas)[j]? = some mta →
        ∃ e, entries[j]? = some e ∧ e.name = mta.matcher ∧
          e.priority = (if isCoppAcl then acc.cpuPriority else acc.priority) + (j : Nat) ∧
          e.actionType ≠ .deny) ∧
      (acc'.changed = false → acc.changed = false ∧
        ∀ e ∈ entries, findNode origAcls e.name = some e)
  | [], acc, entries, acc', h => by
      simp only [addToAcls, pure_eq_ok, Prod.mk.injEq] at h
      obtain ⟨h1, h2⟩ := h
      subst h1 h2
      simp [nonDenyMatchers]
  | mta :: rest, acc, entries, acc', h => by
      unfold addToAcls at h
      simp only [bind_eq_ok] at h
      obtain ⟨aclCfg, hby, h⟩ := h
      cases hf : aclByName cfg.acls mta.matcher with
      | none =>
          rw [hf] at hby
          cases hby
      | some a =>
          rw [hf] at hby
          simp only [pure_eq_ok] at hby
          subst hby
          obtain ⟨hname, _⟩ := aclByName_name hf
          split at h
          · rename_i hdeny
            have hnd : nonDenyMatchers cfg (mta :: rest) = nonDenyMatchers cfg rest := by
              unfold nonDenyMatchers
              rw [List.filter_cons_of_neg]
              rw [hf]
              simp [hdeny]
            rw [hnd]
            exact addToAcls_exact cfg origAcls mirrors isCoppAcl rest acc entries acc' h
          · rename_i hdeny
            have hnd : nonDenyMatchers cfg (mta :: rest) = mta :: nonDenyMatchers cfg rest := by
              unfold nonDenyMatchers
              rw [List.filter_cons_of_pos]
              rw [hf]
              simpa using hdeny
            rw [hnd]
            simp only [bind_eq_ok, pure_eq_ok, Prod.mk.injEq] at h
            obtain ⟨matchAction, _, ⟨acl, n, c⟩, hup, _, _, ⟨ents, acc2⟩, hrest, h1, h2⟩ := h
            subst h1 h2
            obtain ⟨u1, u2, u3, u4, u5⟩ := updateAcl_spec hup
            obtain ⟨i1, i2, i3, i4, i5⟩ := addToAcls_exact cfg origAcls mirrors isCoppAcl rest _ _ _ hrest
            simp only at u1 u2 u3 u4 u5
            cases isCoppAcl
            · simp only [Bool.false_eq_true, if_false] at u1 u5 i1 i2 i4 i5 hrest ⊢
              refine ⟨?_, i2, by simp [i3], ?_, ?_⟩
              · rw [i1, List.length_cons]; push_cast; omega
              · rw [forall_getElem?_cons]
                refine ⟨⟨acl, by simp, u3.trans hname, by simpa using u1, by rw [u2]; exact hdeny⟩, ?_⟩
                intro j m hj
                obtain ⟨e, he, e1, e2, e3⟩ := i4 j m hj
                refine ⟨e, by simpa using he, e1, ?_, e3⟩
                rw [e2]; push_cast; omega
              · intro hc
                obtain ⟨c1, c2⟩ := i5 hc
                obtain ⟨c3, c4⟩ := u5 c1
                refine ⟨c3, ?_⟩
                intro e he
                rcases List.mem_cons.mp he with e0 | he
                · subst e0
                  rw [u3]; exact c4
                · exact c2 e he
            · simp only [if_true] at u1 u5 i1 i2 i4 i5 hrest ⊢
              refine ⟨i1, ?_, by simp [i3], ?_, ?_⟩
              · rw [i2, List.length_cons]; push_cast; omega
              · rw [forall_getElem?_cons]
                refine ⟨⟨acl, by simp, u3.trans hname, by simpa using u1, by rw [u2]; exact hdeny⟩, ?_⟩
                intro j m hj
                obtain ⟨e, he, e1, e2, e3⟩ := i4 j m hj
                refine ⟨e, by simpa using he, e1, ?_, e3⟩
                rw [e2]; push_cast; omega
              · intro hc
                obtain ⟨c1, c2⟩ := i5 hc
                obtain ⟨c3, c4⟩ := u5 c1
                refine ⟨c3, ?_⟩
                intro e he
                rcases List.mem_cons.mp he with e0 | he
                · subst e0
                  rw [u3]; exact c4
                · exact c2 e he

/-- `appendTo(newAcls)` over entries with pairwise distinct names, none of them
in the container yet: every entry is stored under its name. -/
theorem foldl_appendAcl_find :
    ∀ (l init : List AclEntry), SortedNodes init → (l.map fun e => e.name).Nodup →
      (∀ e ∈ l, findNode init e.name = none) →
      SortedNodes (l.foldl appendAcl init) ∧
      (∀ e ∈ l, findNode (l.foldl appendAcl init) e.name = some e) ∧
      ∀ k, (∀ e ∈ l, e.name ≠ k) → findNode (l.foldl appendAcl init) k = findNode init k
  | [], init, hs, _, _ => ⟨hs, fun e he => absurd he (List.not_mem_nil _), fun _ _ => rfl⟩
  | a :: as, init, hs, hnd, hnone => by
      obtain ⟨ha, hnd'⟩ := List.nodup_cons.mp hnd
      have hfa : findNode init a.name = none := hnone a (List.mem_cons_self _ _)
      obtain ⟨l', hl'⟩ : ∃ l', emplaceNode init a = some l' := by
        cases he : emplaceNode init a with
        | some l' => exact ⟨l', rfl⟩
        | none =>
            have := (emplaceNode_eq_none_iff hs).mp he
            change (findNode init a.name).isSome = true at this
            rw [hfa] at this
            cases this
      have happ : appendAcl init a = l' := by
        unfold appendAcl
        rw [hl']
        rfl
      have hfind : ∀ k, findNode l' k = if a.name = k then some a else findNode init k :=
        findNode_emplaceNode hl'
      have hne : ∀ e ∈ as, a.name ≠ e.name := by
        intro e he h
        exact ha (List.mem_map.mpr ⟨e, he, h.symm⟩)
      obtain ⟨i1, i2, i3⟩ := foldl_appendAcl_find as l' (emplaceNode_sorted hs hl').1 hnd'
        (by
          intro e he
          rw [hfind, if_neg (hne e he)]
          exact hnone e (List.mem_cons_of_mem _ he))
      rw [List.foldl_cons, happ]
      refine ⟨i1, ?_, ?_⟩
      · intro e he
        rcases List.mem_cons.mp he with e0 | he
        · subst e0
          rw [i3 _ (fun x hx h => hne x hx h.symm), hfind, if_pos rfl]
        · exact i2 e he
      · intro k hk
        rw [i3 k fun e he => hk e (List.mem_cons_of_mem _ he), hfind,
          if_neg (hk a (List.mem_cons_self _ _))]

/-- Two lists that agree index by index under a naming of their elements have
the same list of names. -/
theorem map_eq_of_getElem? {α β γ : Type} (f : α → γ) (g : β → γ) (l : List α) (es : List β)
    (hlen : es.length = l.length)
    (h : ∀ (i : Nat) (a : α), l[i]? = some a → ∃ e, es[i]? = some e ∧ g e = f a) :
    es.map g = l.map f := by
  apply List.ext_getElem?
  intro i
  rw [List.getElem?_map, List.getElem?_map]
  cases hl : l[i]? with
  | none =>
      have : es[i]? = none := by
        rw [List.getElem?_eq_none_iff] at hl ⊢
        omega
      rw [this]
      rfl
  | some a =>
      obtain ⟨e, he, hg⟩ := h i a hl
      rw [he]
      simp [hg]

theorem cpuPass_eq (cfg : SwitchConfig) (origAcls : List AclEntry) (mirrors : List Mirror)
    (acc : AclAcc) :
    (match cfg.cpuTrafficPolicy with
      | some cpu =>
          match cpu.trafficPolicy with
          | some policy => addToAcls cfg origAcls mirrors true policy.matchToAction acc
          | none => pure ([], acc)
      | none => pure ([], acc))
      = addToAcls cfg origAcls mirrors true (cpuMatchToAction cfg) acc := by
  unfold cpuMatchToAction
  cases cfg.cpuTrafficPolicy with
  | none => rfl
  | some cpu =>
      obtain ⟨tp, rx⟩ := cpu
      cases tp with
      | none => rfl
      | some policy => rfl

theorem dataPass_eq (cfg : SwitchConfig) (origAcls : List AclEntry) (mirrors : List Mirror)
    (acc : AclAcc) :
    (match cfg.dataPlaneTrafficPolicy with
      | some policy => addToAcls cfg origAcls mirrors false policy.matchToAction acc
      | none => pure ([], acc))
      = addToAcls cfg origAcls mirrors false (dataMatchToAction cfg) acc := by
  unfold dataMatchToAction
  cases cfg.dataPlaneTrafficPolicy with
  | none => rfl
  | some policy => rfl

/-- The names of the entries the three passes compile are pairwise distinct
when the ACL names of the config are and no matcher is named twice. -/
theorem compiled_names_nodup (cfg : SwitchConfig)
    (hn : (cfg.acls.map fun a => a.name).Nodup)
    (hm : ((cpuMatchToAction cfg ++ dataMatchToAction cfg).map fun m => m.matcher).Nodup) :
    ((denyAcls cfg).map (fun a => a.name) ++
      ((nonDenyMatchers cfg (cpuMatchToAction cfg)).map (fun m => m.matcher) ++
        (nonDenyMatchers cfg (dataMatchToAction cfg)).map fun m => m.matcher)).Nodup := by
  rw [List.nodup_append]
  refine ⟨?_, ?_, ?_⟩
  · exact ((List.filter_sublist _).map _).nodup hn
  · refine List.Sublist.nodup ?_ hm
    rw [List.map_append]
    exact ((List.filter_sublist _).map _).append ((List.filter_sublist _).map _)
  · intro x hx1 hx2
    obtain ⟨a, ha, rfl⟩ := List.mem_map.mp hx1
    obtain ⟨hamem, hadeny⟩ := List.mem_filter.mp ha
    have hnd : ∀ mtas, a.name ∈ (nonDenyMatchers cfg mtas).map (fun m => m.matcher) → False := by
      intro mtas hx
      obtain ⟨m, hmm, hmn⟩ := List.mem_map.mp hx
      have hp := (List.mem_filter.mp hmm).2
      cases hb : aclByName cfg.acls m.matcher with
      | none => rw [hb] at hp; cases hp
      | some b =>
          rw [hb] at hp
          obtain ⟨hbn, hbmem⟩ := aclByName_name hb
          have hab : a = b :=
            List.inj_on_of_nodup_map hn hamem hbmem (by rw [hbn, ← hmn])
          subst hab
          simp only [decide_eq_true_eq] at hadeny hp
          exact hp hadeny
    rcases List.mem_append.mp hx2 with h | h
    · exact hnd _ h
    · exact hnd _ h

/-- C26. Let the ACL names of the config be pairwise distinct and let no
matcher be named twice in the CPU and data-plane traffic policies, and let
`updateAcls` succeed. In the ACL map it leaves (the new map, or the old one
when it reports no change), with `k` the number of DENY entries of the `acls`
list: the `i`-th DENY entry (from 0, in config order) is stored with priority
`100000 + i`, action type DENY and no action; the `j`-th matcher of the CPU
traffic policy that names a non-DENY ACL is stored with priority `1 + j`; the
`j`-th such matcher of the data-plane traffic policy is stored with priority
`100000 + k + j`. Matchers that name a DENY ACL are not counted. -/
theorem acl_priority_bands (cfg : SwitchConfig) (origAcls : NodeMap AclEntry)
    (mirrors : List Mirror) (r : Option (NodeMap AclEntry))
    (hn : (cfg.acls.map fun a => a.name).Nodup)
    (hm : ((cpuMatchToAction cfg ++ dataMatchToAction cfg).map fun m => m.matcher).Nodup)
    (h : updateAcls cfg origAcls mirrors = .ok r) :
    (∀ (i : Nat) (a : AclEntryCfg), (denyAcls cfg)[i]? = some a →
      ∃ e, findNode (r.getD origAcls).nodes a.name = some e ∧
        e.priority = 100000 + (i : Nat) ∧ e.actionType = .deny ∧ e.aclAction = none) ∧
    (∀ (j : Nat) (mta : MatchToAction),
      (nonDenyMatchers cfg (cpuMatchToAction cfg))[j]? = some mta →
      ∃ e, findNode (r.getD origAcls).nodes mta.matcher = some e ∧
        e.priority = 1 + (j : Nat) ∧ e.actionType ≠ .deny) ∧
    (∀ (j : Nat) (mta : MatchToAction),
      (nonDenyMatchers cfg (dataMatchToAction cfg))[j]? = some mta →
      ∃ e, findNode (r.getD origAcls).nodes mta.matcher = some e ∧
        e.priority = 100000 + ((denyAcls cfg).length : Nat) + (j : Nat) ∧
        e.actionType ≠ .deny) := by
  simp only [updateAcls, bind_eq_ok] at h
  obtain ⟨p, hp, h⟩ := h
  simp only [aclPasses, bind_eq_ok, pure_eq_ok] at hp
  obtain ⟨⟨denyEntries, acc1⟩, hdeny, ⟨cpuEntries, acc2⟩, hcpu, ⟨dataEntries, acc3⟩, hdata, hp⟩ := hp
  subst hp
  simp only at hcpu hdata
  replace hcpu := (cpuPass_eq cfg origAcls.nodes mirrors acc1).symm.trans hcpu
  replace hdata := (dataPass_eq cfg origAcls.nodes mirrors acc2).symm.trans hdata
  obtain ⟨d1, d2, d3, d4, d5⟩ := updateAclsDeny_exact _ _ _ _ _ hdeny
  obtain ⟨c1, c2, c3, c4, c5⟩ := addToAcls_exact _ _ _ _ _ _ _ _ hcpu
  obtain ⟨e1, e2, e3, e4, e5⟩ := addToAcls_exact _ _ _ _ _ _ _ _ hdata
  simp only [if_true, Bool.false_eq_true, if_false] at c1 c2 c4 e1 e2 e4
  change acc1.priority = kAclStartPriority + ((denyAcls cfg).length : Nat) at d1
  change acc1.cpuPriority = 1 at d2
  change denyEntries.length = (denyAcls cfg).length at d3
  change ∀ (i : Nat) (a : AclEntryCfg), (denyAcls cfg)[i]? = some a → _ at d4
  -- the names of the compiled entries
  have hnames : (denyEntries ++ cpuEntries ++ dataEntries).map (fun e => e.name) =
      (denyAcls cfg).map (fun a => a.name) ++
        ((nonDenyMatchers cfg (cpuMatchToAction cfg)).map (fun m => m.matcher) ++
          (nonDenyMatchers cfg (dataMatchToAction cfg)).map fun m => m.matcher) := by
    rw [List.map_append, List.map_append, List.append_assoc]
    congr 1
    · exact map_eq_of_getElem? _ _ _ _ d3 fun i a hi => by
        obtain ⟨e, he, hn', _⟩ := d4 i a hi
        exact ⟨e, he, hn'⟩
    · congr 1
      · exact map_eq_of_getElem? _ _ _ _ c3 fun i a hi => by
          obtain ⟨e, he, hn', _⟩ := c4 i a hi
          exact ⟨e, he, hn'⟩
      · exact map_eq_of_getElem? _ _ _ _ e3 fun i a hi => by
          obtain ⟨e, he, hn', _⟩ := e4 i a hi
          exact ⟨e, he, hn'⟩
  have hnodup : ((denyEntries ++ cpuEntries ++ dataEntries).map fun e => e.name).Nodup := by
    rw [hnames]
    exact compiled_names_nodup cfg hn hm
  -- every compiled entry is stored under its name in the map that is left
  have hfound : ∀ e ∈ denyEntries ++ cpuEntries ++ dataEntries,
      findNode (r.getD origAcls).nodes e.name = some e := by
    intro e he
    split at h
    · rename_i hc
      simp only [pure_eq_ok] at h
      subst h
      simp only [Bool.not_eq_true', Bool.or_eq_false_iff] at hc
      obtain ⟨x1, x2⟩ := e5 hc.1
      obtain ⟨y1, y2⟩ := c5 x1
      obtain ⟨_, z2⟩ := d5 y1
      simp only [Option.getD_none]
      rcases List.mem_append.mp he with he | he
      · rcases List.mem_append.mp he with he | he
        · exact z2 e he
        · exact y2 e he
      · exact x2 e he
    · simp only [pure_eq_ok] at h
      subst h
      simp only [Option.getD_some, NodeMap.cloneWith, AclPasses.newAcls]
      exact (foldl_appendAcl_find _ [] sortedNodes_nil hnodup (fun _ _ => rfl)).2.1 e he
  refine ⟨?_, ?_, ?_⟩
  · intro i a hi
    obtain ⟨e, he, hn', hp', ht, ha⟩ := d4 i a hi
    have hmem : e ∈ denyEntries ++ cpuEntries ++ dataEntries :=
      List.mem_append_left _ (List.mem_append_left _ (List.getElem?_mem he))
    refine ⟨e, by rw [← hn']; exact hfound e hmem, ?_, ht, ha⟩
    rw [hp']
    rfl
  · intro j mta hj
    obtain ⟨e, he, hn', hp', ht⟩ := c4 j mta hj
    have hmem : e ∈ denyEntries ++ cpuEntries ++ dataEntries :=
      List.mem_append_left _ (List.mem_append_right _ (List.getElem?_mem he))
    refine ⟨e, by rw [← hn']; exact hfound e hmem, ?_, ht⟩
    rw [hp', d2]
  · intro j mta hj
    obtain ⟨e, he, hn', hp', ht⟩ := e4 j mta hj
    have hmem : e ∈ denyEntries ++ cpuEntries ++ dataEntries :=
      List.mem_append_right _ (List.getElem?_mem he)
    refine ⟨e, by rw [← hn']; exact hfound e hmem, ?_, ht⟩
    rw [hp', c1, d1]
    rfl

/-- C26, at a concrete input: two DENY entries, one CPU matcher, and a
data-plane policy that names a DENY entry again before two PERMIT entries. -/
theorem acl_priority_bands_witness :
    (cfgAclBands.acls.map fun a => a.name).Nodup ∧
    ((cpuMatchToAction cfgAclBands ++ dataMatchToAction cfgAclBands).map fun m => m.matcher).Nodup ∧
    (updateAcls cfgAclBands {} []).map
        (fun r => r.map fun m => m.nodes.map fun a => (a.name, a.priority, a.aclAction.isSome))
      = .ok (some [("c", 1, true), ("d0", 100000, false), ("d1", 100001, false),
                   ("p", 100002, true), ("q", 100003, true)]) ∧
    ∃ r, updateAcls cfgAclBands {} [] = .ok r ∧
      ∃ e, findNode (r.getD {}).nodes "q" = some e ∧ e.priority = 100003 := by
  refine ⟨by decide, by decide, by decide, _, rfl, ?_⟩
  obtain ⟨e, he, hp, _⟩ :=
    (acl_priority_bands cfgAclBands {} [] _ (by decide) (by decide) rfl).2.2 1
      { matcher := "q" } (by decide)
  exact ⟨e, he, hp⟩

/-! ## DENY precedence and the three priority bands -/

/-- Two lists of one length, the second built from the first place by place:
what is known of the place of an element of the first list is known of the
place of an element of the second. -/
theorem exists_of_getElem?_of_length {α β : Type} {l : List α} {es : List β}
    {P : Nat → α → β → Prop} (hlen : es.length = l.length)
    (hex : ∀ (i : Nat) (a : α), l[i]? = some a → ∃ e, es[i]? = some e ∧ P i a e) :
    ∀ (i : Nat) (e : β), es[i]? = some e → ∃ a, l[i]? = some a ∧ P i a e := by
  intro i e he
  have hi : i < l.length := by
    have := (List.getElem?_eq_some.mp he).1
    omega
  obtain ⟨e', he', hp⟩ := hex i l[i] (List.getElem?_eq_getElem hi)
  rw [he] at he'
  simp only [Option.some.injEq] at he'
  subst he'
  exact ⟨l[i], List.getElem?_eq_getElem hi, hp⟩

/-- The three passes of `updateAcls`, entry by entry: the `i`-th entry of the
DENY pass is the `i`-th DENY entry of the config with priority `100000 + i`;
the `j`-th entry of the CPU pass is the `j`-th non-DENY matcher of the CPU
traffic policy with priority `1 + j`; the `j`-th entry of the data-plane pass
is the `j`-th non-DENY matcher of the data-plane traffic policy with priority
`100000 + k + j`, `k` the number of DENY entries. -/
theorem aclPasses_bands {cfg : SwitchConfig} {origAcls : List AclEntry} {mirrors : List Mirror}
    {p : AclPasses} (h : aclPasses cfg origAcls mirrors = .ok p) :
    (p.denyEntries.length = (denyAcls cfg).length ∧
      ∀ (i : Nat) (d : AclEntry), p.denyEntries[i]? = some d →
        ∃ a, (denyAcls cfg)[i]? = some a ∧ d.name = a.name ∧
          d.priority = 100000 + (i : Nat) ∧ d.actionType = .deny) ∧
    (p.cpuEntries.length = (nonDenyMatchers cfg (cpuMatchToAction cfg)).length ∧
      ∀ (j : Nat) (e : AclEntry), p.cpuEntries[j]? = some e →
        ∃ m, (nonDenyMatchers cfg (cpuMatchToAction cfg))[j]? = some m ∧ e.name = m.matcher ∧
          e.priority = 1 + (j : Nat) ∧ e.actionType ≠ .deny) ∧
    (p.dataEntries.length = (nonDenyMatchers cfg (dataMatchToAction cfg)).length ∧
      ∀ (j : Nat) (e : AclEntry), p.dataEntries[j]? = some e →
        ∃ m, (nonDenyMatchers cfg (dataMatchToAction cfg))[j]? = some m ∧ e.name = m.matcher ∧
          e.priority = 100000 + (p.denyEntries.length : Nat) + (j : Nat) ∧
          e.actionType ≠ .deny) := by
  simp only [aclPasses, bind_eq_ok, pure_eq_ok] at h
  obtain ⟨⟨denyEntries, acc1⟩, hdeny, ⟨cpuEntries, acc2⟩, hcpu, ⟨dataEntries, acc3⟩, hdata, hp⟩ := h
  subst hp
  simp only at hcpu hdata
  replace hcpu := (cpuPass_eq cfg origAcls mirrors acc1).symm.trans hcpu
  replace hdata := (dataPass_eq cfg origAcls mirrors acc2).symm.trans hdata
  obtain ⟨d1, d2, d3, d4, _⟩ := updateAclsDeny_exact _ _ _ _ _ hdeny
  obtain ⟨c1, _, c3, c4, _⟩ := addToAcls_exact _ _ _ _ _ _ _ _ hcpu
  obtain ⟨_, _, e3, e4, _⟩ := addToAcls_exact _ _ _ _ _ _ _ _ hdata
  simp only [if_true, Bool.false_eq_true, if_false] at c1 c4 e4
  change acc1.priority = kAclStartPriority + ((denyAcls cfg).length : Nat) at d1
  change acc1.cpuPriority = 1 at d2
  change denyEntries.length = (denyAcls cfg).length at d3
  change ∀ (i : Nat) (a : AclEntryCfg), (denyAcls cfg)[i]? = some a → _ at d4
  refine ⟨⟨d3, ?_⟩, ⟨c3, ?_⟩, ⟨e3, ?_⟩⟩
  · intro i d hd
    obtain ⟨a, ha, n, q, t, _⟩ := exists_of_getElem?_of_length d3 d4 i d hd
    exact ⟨a, ha, n, q, t⟩
  · intro j e he
    obtain ⟨m, hm, n, q, t⟩ := exists_of_getElem?_of_length c3 c4 j e he
    refine ⟨m, hm, n, ?_, t⟩
    rw [q, d2]
  · intro j e he
    obtain ⟨m, hm, n, q, t⟩ := exists_of_getElem?_of_length e3 e4 j e he
    refine ⟨m, hm, n, ?_, t⟩
    rw [q, c1, d1, d3]
    rfl

/-- C3 (amended). Let the three passes of `updateAcls` succeed. The map that
`updateAcls` returns is the container built from their entries. Every entry of
the container whose action type is DENY comes from the DENY pass and has a
strictly lower priority number than every entry compiled from the data-plane
traffic policy; every other entry was compiled from the CPU or the data-plane
traffic policy. The `i`-th entry of the DENY pass (from 0) is built from the
`i`-th DENY entry of the config's `acls` list and has priority `100000 + i`, so
the DENY priorities start at 100000 and increase in config order. The `j`-th
entry compiled from the CPU traffic policy has priority `1 + j`, by a counter
of its own, and the `j`-th entry compiled from the data-plane traffic policy
has priority `100000 + k + j`, `k` the number of DENY entries. When the CPU
traffic policy compiles fewer than 100000 entries, each of them has a strictly
lower priority number than every DENY entry. -/
theorem deny_precedence (cfg : SwitchConfig) (origAcls : NodeMap AclEntry)
    (mirrors : List Mirror) (p : AclPasses)
    (h : aclPasses cfg origAcls.nodes mirrors = .ok p) :
    (∀ m, updateAcls cfg origAcls mirrors = .ok (some m) → m.nodes = p.newAcls) ∧
    (∀ d ∈ p.newAcls, d.actionType = .deny →
      d ∈ p.denyEntries ∧ ∀ e ∈ p.dataEntries, d.priority < e.priority) ∧
    (∀ e ∈ p.newAcls, e.actionType ≠ .deny → e ∈ p.cpuEntries ∨ e ∈ p.dataEntries) ∧
    (∀ (i : Nat) (d : AclEntry), p.denyEntries[i]? = some d →
      d.priority = 100000 + (i : Nat) ∧ d.actionType = .deny ∧
      ∃ a, (denyAcls cfg)[i]? = some a ∧ d.name = a.name) ∧
    (∀ (j : Nat) (e : AclEntry), p.cpuEntries[j]? = some e →
      e.priority = 1 + (j : Nat) ∧ e.actionType ≠ .deny ∧
      ∃ m, (nonDenyMatchers cfg (cpuMatchToAction cfg))[j]? = some m ∧ e.name = m.matcher) ∧
    (∀ (j : Nat) (e : AclEntry), p.dataEntries[j]? = some e →
      e.priority = 100000 + (p.denyEntries.length : Nat) + (j : Nat) ∧ e.actionType ≠ .deny ∧
      ∃ m, (nonDenyMatchers cfg (dataMatchToAction cfg))[j]? = some m ∧ e.name = m.matcher) ∧
    (p.cpuEntries.length < 100000 →
      ∀ d ∈ p.denyEntries, ∀ e ∈ p.cpuEntries, e.priority < d.priority) ∧
    p.denyEntries.Pairwise (fun a b => a.priority < b.priority) ∧
    p.denyEntries.map (·.name)
      = (cfg.acls.filter (fun a => decide (a.actionType = .deny))).map (·.name) := by
  obtain ⟨⟨_, bd⟩, ⟨_, bc⟩, ⟨_, be⟩⟩ := aclPasses_bands h
  have hp := h
  simp only [aclPasses, bind_eq_ok, pure_eq_ok] at hp
  obtain ⟨⟨denyEntries, acc1⟩, hdeny, ⟨cpuEntries, acc2⟩, hcpu, ⟨dataEntries, acc3⟩, hdata, hp⟩ := hp
  subst hp
  simp only at bd bc be
  obtain ⟨_, _, _, d4, d5⟩ := updateAclsDeny_spec _ _ _ _ _ hdeny
  have hdenyAll : ∀ d ∈ denyEntries, d.actionType = .deny ∧
      100000 ≤ d.priority ∧ d.priority < 100000 + (denyEntries.length : Nat) := by
    intro d hd
    obtain ⟨i, hi⟩ := List.getElem?_of_mem hd
    obtain ⟨_, _, _, q, t⟩ := bd i d hi
    have := (List.getElem?_eq_some.mp hi).1
    exact ⟨t, by omega, by omega⟩
  have hcpuAll : ∀ e ∈ cpuEntries, e.actionType ≠ .deny ∧
      e.priority < 1 + (cpuEntries.length : Nat) := by
    intro e he
    obtain ⟨j, hj⟩ := List.getElem?_of_mem he
    obtain ⟨_, _, _, q, t⟩ := bc j e hj
    have := (List.getElem?_eq_some.mp hj).1
    exact ⟨t, by omega⟩
  have hdataAll : ∀ e ∈ dataEntries, e.actionType ≠ .deny ∧
      100000 + (denyEntries.length : Nat) ≤ e.priority := by
    intro e he
    obtain ⟨j, hj⟩ := List.getElem?_of_mem he
    obtain ⟨_, _, _, q, t⟩ := be j e hj
    exact ⟨t, by omega⟩
  have hmem : ∀ x ∈ AclPasses.newAcls
      { denyEntries := denyEntries, cpuEntries := cpuEntries, dataEntries := dataEntries,
        acc := acc3 },
      x ∈ denyEntries ∨ x ∈ cpuEntries ∨ x ∈ dataEntries := by
    intro x hx
    rcases mem_foldl_appendAcl _ _ hx with h0 | h0
    · cases h0
    · simp only [List.mem_append] at h0
      tauto
  refine ⟨?_, ?_, ?_, ?_, ?_, ?_, ?_, d4, d5⟩
  · intro m hm
    simp only [updateAcls, h, bind_eq_ok, Except.ok.injEq, exists_eq_left'] at hm
    split at hm
    · simp [pure_eq_ok] at hm
    · simp only [pure_eq_ok, Option.some.injEq] at hm
      subst hm
      rfl
  · intro d hd hdenyd
    have hin : d ∈ denyEntries := by
      rcases hmem d hd with h1 | h1 | h1
      · exact h1
      · exact absurd hdenyd (hcpuAll d h1).1
      · exact absurd hdenyd (hdataAll d h1).1
    refine ⟨hin, ?_⟩
    intro e he
    have := (hdenyAll d hin).2.2
    have := (hdataAll e he).2
    omega
  · intro e he hnd
    rcases hmem e he with h1 | h1 | h1
    · exact absurd (hdenyAll e h1).1 hnd
    · exact Or.inl h1
    · exact Or.inr h1
  · intro i d hd
    obtain ⟨a, ha, n, q, t⟩ := bd i d hd
    exact ⟨q, t, a, ha, n⟩
  · intro j e he
    obtain ⟨m, hm, n, q, t⟩ := bc j e he
    exact ⟨q, t, m, hm, n⟩
  · intro j e he
    obtain ⟨m, hm, n, q, t⟩ := be j e he
    exact ⟨q, t, m, hm, n⟩
  · intro hlen d hd e he
    have hl : cpuEntries.length < 100000 := hlen
    have := (hdenyAll d hd).2.1
    have := (hcpuAll e he).2
    omega

/-- C3 (amended) at concrete inputs: with the data-plane policy the DENY entries
`d1`, `d2` get 100000 and 100001 and the data-plane entry `p` gets 100002; with
the CPU policy the DENY entry `d` gets 100000 and the CPU entry `p` gets 1,
below it. -/
theorem deny_precedence_witness :
    (∃ p, aclPasses aclCfgDataPlane [] [] = .ok p ∧
      (∀ d ∈ p.newAcls, d.actionType = .deny → ∀ e ∈ p.dataEntries, d.priority < e.priority) ∧
      p.newAcls.map (fun a => (a.name, a.actionType, a.priority))
        = [("d1", .deny, 100000), ("d2", .deny, 100001), ("p", .permit, 100002)]) ∧
    ∃ p, aclPasses aclCfgCpu [] [] = .ok p ∧
      (∀ d ∈ p.denyEntries, ∀ e ∈ p.cpuEntries, e.priority < d.priority) ∧
      p.newAcls.map (fun a => (a.name, a.actionType, a.priority))
        = [("d", .deny, 100000), ("p", .permit, 1)] :=
  ⟨⟨_, rfl,
      fun d hd hdeny =>
        ((deny_precedence aclCfgDataPlane {} [] _ rfl).2.1 d hd hdeny).2,
      by decide⟩,
    _, rfl,
    (deny_precedence aclCfgCpu {} [] _ rfl).2.2.2.2.2.2.1 (by decide),
    by decide⟩

/-- C3 as stated fails: with a DENY entry `d` and a PERMIT entry `p` matched by
the CPU traffic policy, the ACL map holds `d` with priority 100000 and `p`
with priority 1, so the DENY entry's priority number is not the lower one. -/
theorem deny_precedence_counterexample :
    (updateAcls aclCfgCpu {} []).map
        (fun r => r.map fun m => m.nodes.map fun a => (a.name, a.actionType, a.priority))
      = .ok (some [("d", .deny, 100000), ("p", .permit, 1)]) ∧
    ¬ ((100000 : Int) < 1) := by
  decide

end Fboss
